import Mathlib

/-!
# linesideSignal: charlieplexed model-railroad signal lamps

A shallow embedding of `linesideSignal.cpp` / `linesideSignal.h` (default build:
`LSS_DEBUG_REPORTING`, `LSS_DEBUG_VERBOSE`, `LSS_DEBUG_NOLEDS` and
`LSS_USE_FAST_WRITE` undefined), followed by theorems about it.

Conventions of the embedding

* Target is the 16 MHz AVR the library is written for: `int` is 16 bit, `long` is
  32 bit, `byte` is 8 bit.  Values are `Int`/`Nat`; every conversion and every
  arithmetic result that can leave its type is wrapped explicitly (`toInt`,
  `toLong`, `toByte`).
* The packed word `signalLamp::_lampFlags` is represented by its seven used bits
  (`LSS_SL_ISLIT` .. `LSS_SL_DELAY`); no call site ever touches another bit.
* The singly linked list `_lampList` is a `List` in link order (newest lamp first,
  the permanently dark end-of-list entry last).  The pointer `_currentLED` is an
  index into that list (`none` is `NULL`); pushing a lamp at the front moves the
  index along with the node it designates.
* A traversal `lamp = _lampList; while (lamp != NULL) { ...; lamp = lamp->nextLamp; }`
  whose body only rewrites the visited lamp (and possibly raises `_killSwitch`) is
  a `List.map` over the lamps.
* `micros()` is an input: every call of `updateSignals` receives the readings it
  takes as a `Clock`.
* Three things the C source leaves to the platform are parameters (`Platform`):
  the single-precision quotient in `_setFlashRate`, and the values delivered by an
  integer division or remainder whose divisor is zero.  On the target `float` and
  `double` are IEEE 754 binary32; `cyclesPerFlash32` evaluates the quotient in that
  arithmetic, and `refPlatform` is the platform that uses it.
* `_dropDead()` never returns; a call of `updateSignals` that reaches it yields
  `none`.
-/

namespace LinesideSignal

/-! ## Machine integers -/

/-- Conversion to the 16-bit `int` of the target. -/
def toInt (x : Int) : Int := Int.bmod x (2 ^ 16)

/-- Conversion to the 32-bit `long` of the target. -/
def toLong (x : Int) : Int := Int.bmod x (2 ^ 32)

/-- Conversion to `byte`. -/
def toByte (x : Int) : Nat := (x % 256).toNat

/-! ## Single-precision arithmetic

On the target `float` and `double` are both IEEE 754 binary32.  The only
floating-point expression of the library is the quotient in `_setFlashRate`; its
operands are positive and far from overflow and underflow, so a value is a
significand of at most 24 bits times a power of two, and every operation rounds to
the nearest such value, ties to the even significand. -/

/-- A positive `float`: `mant * 2 ^ up / 2 ^ down`. -/
structure Float32 where
  mant : Nat
  up : Nat
  down : Nat
deriving DecidableEq, Repr

/-- The number of binary digits of `n`, for `n < 2 ^ fuel`. -/
def bitLength : Nat → Nat → Nat
  | 0, _ => 0
  | fuel + 1, n => if n = 0 then 0 else bitLength fuel (n / 2) + 1

/-- The integer nearest to `n / d`, ties to even. -/
def roundQuot (n d : Nat) : Nat :=
  if 2 * (n % d) > d ∨ (2 * (n % d) = d ∧ n / d % 2 = 1) then n / d + 1 else n / d

/-- The `float` nearest to `n / d`, for `0 < n, d < 2 ^ 64`: with `t` and `u` the
numbers of digits of `n` and `d`, the quotient of `n * 2 ^ u` by `d * 2 ^ t` lies
between 1/2 and 2, and is rounded to 24 significant bits. -/
def floatDiv (n d : Nat) : Float32 :=
  let t := bitLength 64 n
  let u := bitLength 64 d
  if d * 2 ^ t ≤ n * 2 ^ u then
    { mant := roundQuot (n * 2 ^ u * 2 ^ 23) (d * 2 ^ t), up := t, down := u + 23 }
  else
    { mant := roundQuot (n * 2 ^ u * 2 ^ 24) (d * 2 ^ t), up := t, down := u + 24 }

namespace Float32

/-- The quotient of two `float`s, rounded. -/
def div (a b : Float32) : Float32 :=
  let q := floatDiv a.mant b.mant
  { mant := q.mant, up := q.up + a.up + b.down, down := q.down + a.down + b.up }

/-- Conversion of a positive `float` to an integer: the fraction is dropped. -/
def trunc (a : Float32) : Nat := a.mant * 2 ^ a.up / 2 ^ a.down

end Float32

/-- The value of `int(float(60000.0 / rate) / float(_cycleTime / 1000.0))` in
single-precision arithmetic, before the narrowing to `int`: `60000.0 / rate` and
`_cycleTime / 1000.0` are rounded quotients (`_cycleTime` is converted to `float`
first), and so is their quotient; the sign is that of `_cycleTime`.  For a `rate`
below 1 the expression is never evaluated, and for a cycle time of 0 the quotient is
infinite and its conversion undefined; the value is 0 then. -/
def cyclesPerFlash32 (rate cycleTime : Int) : Int :=
  if rate < 1 ∨ cycleTime = 0 then 0
  else
    let perFlash := floatDiv 60000 rate.toNat
    let cycle := (floatDiv cycleTime.natAbs 1).div (floatDiv 1000 1)
    let quotient := (perFlash.div cycle).trunc
    if cycleTime < 0 then -(quotient : Int) else (quotient : Int)

namespace Float32

/-- The number a `float` stands for. -/
def value (a : Float32) : ℚ := (a.mant : ℚ) * 2 ^ a.up / 2 ^ a.down

end Float32

/-! ## The platform -/

/-- What the C source leaves to the platform. -/
structure Platform where
  /-- The value of `int(float(60000.0 / rate) / float(_cycleTime / 1000.0))` for
  the arguments `rate` and `_cycleTime`. -/
  cyclesPerFlash : Int → Int → Int
  /-- The value delivered for `a / 0`. -/
  divByZero : Int → Int
  /-- The value delivered for `a % 0`. -/
  modByZero : Int → Int

/-- C integer division `a / b` (truncating). -/
def cDiv (hw : Platform) (a b : Int) : Int :=
  if b = 0 then hw.divByZero a else Int.tdiv a b

/-- C integer remainder `a % b` (sign of the dividend). -/
def cMod (hw : Platform) (a b : Int) : Int :=
  if b = 0 then hw.modByZero a else Int.tmod a b

/-- The platform of the examples: the quotient in `_setFlashRate` evaluated in
single precision as on the target, a zero divisor giving quotient `-1` and
remainder `a`. -/
def refPlatform : Platform where
  cyclesPerFlash := cyclesPerFlash32
  divByZero := fun _ => -1
  modByZero := fun a => a

/-! ## Constants of `linesideSignal.h` -/

abbrev LSS_FLASH_FPM : Int := 60
abbrev LSS_MAX_FLASH_RATE : Int := 200
abbrev LSS_CYCLE_TIME : Int := 2500
abbrev LSS_LED_MIN : Int := 200

abbrev LSS_DARK : Nat := 0
abbrev LSS_RED : Nat := 1
abbrev LSS_YELLOW : Nat := 2
abbrev LSS_GREEN : Nat := 3
abbrev LSS_LUNAR : Nat := 4
abbrev LSS_WHITE : Nat := 4
abbrev LSS_BLUE : Nat := 5
abbrev LSS_PURPLE : Nat := 6
abbrev LSS_VIOLET : Nat := 6
abbrev LSS_ORANGE : Nat := 7
abbrev LSS_AMBER : Nat := 8
abbrev LSS_PINK : Nat := 9
abbrev LSS_LAST_FOR_SETCOLOR : Nat := 127
abbrev LSS_GREENYELLOW : Nat := 188
abbrev LSS_REDYELLOW : Nat := 189
abbrev LSS_GREENREDYELLOW : Nat := 198
abbrev LSS_REDGREENYELLOW : Nat := 199

abbrev LSS_NOT_PIN : Nat := 255
abbrev LSS_NULL_SIG : Nat := 0

abbrev LSS_RAMP_CYCLES_STEP : Int := 8
abbrev LSS_NUM_DIV : Nat := 10

abbrev LSS_DIV_START : Nat := 3
abbrev LSS_DIV_RSTOP : Nat := 4
abbrev LSS_DIV_RSTART : Nat := 8
abbrev LSS_DIV_STOP : Nat := 9
abbrev LSS_DIV_HSTOP : Nat := 5
abbrev LSS_DIV_RHSTOP : Nat := 0

abbrev LSS_SL_ISLIT : Nat := 0
abbrev LSS_SL_ISFLASH : Nat := 1
abbrev LSS_SL_ISALTERNATE : Nat := 2
abbrev LSS_SL_START : Nat := 3
abbrev LSS_SL_STOP : Nat := 4
abbrev LSS_SL_RAMP : Nat := 5
abbrev LSS_SL_DELAY : Nat := 6
abbrev LSS_SL_MAX : Nat := 6
abbrev LSS_SL_IGNORE : Nat := LSS_SL_MAX + 1

/-! ## `class signalLamp` -/

/-- One LED.  The seven Boolean fields are bits 0..6 of `_lampFlags`. -/
structure signalLamp where
  /-- Bit `LSS_SL_ISLIT`. -/
  lit : Bool
  /-- Bit `LSS_SL_ISFLASH`. -/
  flash : Bool
  /-- Bit `LSS_SL_ISALTERNATE`. -/
  alternate : Bool
  /-- Bit `LSS_SL_START`. -/
  start : Bool
  /-- Bit `LSS_SL_STOP`. -/
  stop : Bool
  /-- Bit `LSS_SL_RAMP`. -/
  ramp : Bool
  /-- Bit `LSS_SL_DELAY`. -/
  delay : Bool
  mastNum : Nat
  headNum : Nat
  lampNum : Nat
  color : Nat
  anode : Nat
  cathode : Nat
deriving DecidableEq, Repr

namespace signalLamp

/-- Embedding of `signalLamp::setBitFlag`, for the bits the library uses. -/
def setBitFlag (l : signalLamp) (flag : Nat) (flagVal : Bool) : signalLamp :=
  match flag with
  | 0 => { l with lit := flagVal }
  | 1 => { l with flash := flagVal }
  | 2 => { l with alternate := flagVal }
  | 3 => { l with start := flagVal }
  | 4 => { l with stop := flagVal }
  | 5 => { l with ramp := flagVal }
  | 6 => { l with delay := flagVal }
  | _ => l

/-- Embedding of `signalLamp::getBitFlag`. -/
def getBitFlag (l : signalLamp) (flag : Nat) : Bool :=
  match flag with
  | 0 => l.lit
  | 1 => l.flash
  | 2 => l.alternate
  | 3 => l.start
  | 4 => l.stop
  | 5 => l.ramp
  | 6 => l.delay
  | _ => false

/-- Embedding of `signalLamp::clearBitFlags`. -/
def clearBitFlags (l : signalLamp) : signalLamp :=
  { l with lit := false, flash := false, alternate := false, start := false,
           stop := false, ramp := false, delay := false }

def isOn (l : signalLamp) : Bool := l.getBitFlag LSS_SL_ISLIT
def isFlash (l : signalLamp) : Bool := l.getBitFlag LSS_SL_ISFLASH
def isReversed (l : signalLamp) : Bool := l.getBitFlag LSS_SL_ISALTERNATE
def isStart (l : signalLamp) : Bool := l.getBitFlag LSS_SL_START
def isStop (l : signalLamp) : Bool := l.getBitFlag LSS_SL_STOP
def usesRamp (l : signalLamp) : Bool := l.getBitFlag LSS_SL_RAMP
def onHold (l : signalLamp) : Bool := l.getBitFlag LSS_SL_DELAY

end signalLamp

/-- The record read through a `NULL` lamp pointer (only possible before
`setupSignal`): an unwired dark lamp. -/
def nullLamp : signalLamp :=
  { lit := false, flash := false, alternate := false, start := false, stop := false,
    ramp := false, delay := false, mastNum := 0, headNum := 0, lampNum := 0,
    color := LSS_DARK, anode := LSS_NOT_PIN, cathode := LSS_NOT_PIN }

/-! ## Pin driver -/

/-- Modelled from the spec: the state of one pin of the platform pin driver
(`Arduino.h`, not part of the library): its mode (`setMode(pin, input|output)`)
and its level latch (`setLevel(pin, low|high)`). -/
structure Pin where
  output : Bool
  high : Bool
deriving DecidableEq, Repr

/-- Modelled from the spec: `pinMode(pin, INPUT)` of the pin driver. -/
def pinModeInput (pins : Nat → Pin) (pin : Nat) : Nat → Pin :=
  fun q => if q = pin then { pins q with output := false } else pins q

/-- Modelled from the spec: `pinMode(pin, OUTPUT)` of the pin driver. -/
def pinModeOutput (pins : Nat → Pin) (pin : Nat) : Nat → Pin :=
  fun q => if q = pin then { pins q with output := true } else pins q

/-- Modelled from the spec: `digitalWrite(pin, level)` of the pin driver. -/
def digitalWrite (pins : Nat → Pin) (pin : Nat) (level : Bool) : Nat → Pin :=
  fun q => if q = pin then { pins q with high := level } else pins q

/-- A pin is driven HIGH: output mode, level high. -/
def drivenHigh (p : Pin) : Prop := p.output = true ∧ p.high = true

/-- A pin is driven LOW: output mode, level low. -/
def drivenLow (p : Pin) : Prop := p.output = true ∧ p.high = false

instance (p : Pin) : Decidable (drivenHigh p) := by unfold drivenHigh; infer_instance

instance (p : Pin) : Decidable (drivenLow p) := by unfold drivenLow; infer_instance

/-! ## `class linesideSignal` -/

/-- The member variables of `class linesideSignal`, and the pins. -/
structure linesideSignal where
  _lightExpirationTime : Int
  _lampList : List signalLamp
  _cycleTime : Int
  _targetCycleTime : Int
  _lastLoopStamp : Int
  _interimOverhead : Int
  _interimLoop : Int
  _cycleCount : Int
  _cyclesPerDiv : Int
  _lastLampCount : Int
  _rampDiv : Nat
  _currentLED : Option Nat
  _setupIsDone : Bool
  _suppressLEDs : Bool
  _killSwitch : Bool
  _killAnode : Bool
  _anodeOn : Bool
  _cathodeOn : Bool
  _anodeCount : Int
  _cathodeCount : Int
  _pulseTimePerLED : Int
  _lastLoopTime : Int
  _flashHalfInterval : Int
  /-- The pins of the microcontroller. -/
  pins : Nat → Pin

namespace linesideSignal

/-- The lamp `_currentLED` points to. -/
def currentLamp (s : linesideSignal) : signalLamp :=
  match s._currentLED with
  | none => nullLamp
  | some i => s._lampList.getD i nullLamp

/-! ### Timers and running averages -/

/-- Embedding of `_lightTimerStart(usec, startTime)`; `micros` is the reading
taken when `startTime` is 0. -/
def _lightTimerStart (usec startTime micros : Int) (s : linesideSignal) : linesideSignal :=
  if startTime = 0 then
    { s with _lightExpirationTime := toLong (toLong micros + usec) }
  else
    { s with _lightExpirationTime := toLong (startTime + usec) }

/-- Embedding of `_lightTimerExpired()` at clock reading `micros`. -/
def _lightTimerExpired (micros : Int) (s : linesideSignal) : Bool :=
  decide (0 ≤ toLong (toLong micros - s._lightExpirationTime))

/-- Embedding of `_averageOverhead(newVal)`. -/
def _averageOverhead (newVal : Int) (s : linesideSignal) : linesideSignal :=
  { s with _interimOverhead :=
      toLong (toLong (toInt newVal * 2) + (toLong (s._interimOverhead * 15) >>> 4)) }

/-- Embedding of `_getOverhead()`. -/
def _getOverhead (s : linesideSignal) : Int :=
  toInt (toLong (s._interimOverhead + 16) >>> 5)

/-- Embedding of `_averageLoop(newVal)`. -/
def _averageLoop (newVal : Int) (s : linesideSignal) : linesideSignal :=
  { s with _interimLoop :=
      toLong (toLong (toInt newVal * 8) + (toLong (s._interimLoop * 3) >>> 2)) }

/-- Embedding of `_getAverageLoop()`. -/
def _getAverageLoop (s : linesideSignal) : Int :=
  toInt (toLong (s._interimLoop + 16) >>> 5)

/-! ### Flash rate and cycle time -/

/-- Embedding of `_getFlashRate()`. -/
def _getFlashRate (hw : Platform) (s : linesideSignal) : Int :=
  toInt (cDiv hw 60000000 (toLong (2 * s._flashHalfInterval)))

/-- Embedding of `_setFlashRate(rate)`. -/
def _setFlashRate (hw : Platform) (rate : Int) (s : linesideSignal) : linesideSignal :=
  if rate < 1 ∨ rate > 6000 then s
  else
    let flashHalfInterval := 1000 * Int.tdiv (Int.tdiv 60000 rate) 2
    let cyclesPerFlash := toInt (hw.cyclesPerFlash rate s._cycleTime)
    let cyclesPerDiv := Int.tdiv cyclesPerFlash 10
    let low := cyclesPerDiv - Int.tmod cyclesPerDiv LSS_RAMP_CYCLES_STEP
    let high := (cyclesPerDiv + LSS_RAMP_CYCLES_STEP) - Int.tmod cyclesPerDiv LSS_RAMP_CYCLES_STEP
    { s with _flashHalfInterval := flashHalfInterval,
             _cyclesPerDiv := if cyclesPerDiv - low > high - cyclesPerDiv then high else low }

/-- Embedding of `_litLampCount()`. -/
def _litLampCount (s : linesideSignal) : Int :=
  toInt (s._lampList.countP signalLamp.isOn)

/-- Embedding of `_adjCycleTime()`. -/
def _adjCycleTime (hw : Platform) (s : linesideSignal) : linesideSignal :=
  let rate := _getFlashRate hw s
  let lastLampCount := _litLampCount s
  let numLamps := if lastLampCount = 0 then 1 else lastLampCount
  let pulseTimeMax := cDiv hw s._targetCycleTime numLamps - _getOverhead s
  let pulseTimeMax := if pulseTimeMax < LSS_LED_MIN then LSS_LED_MIN else pulseTimeMax
  let maxCycle := toLong ((pulseTimeMax + _getOverhead s) * numLamps)
  _setFlashRate hw rate
    { s with _lastLampCount := lastLampCount, _cycleTime := maxCycle,
             _pulseTimePerLED := pulseTimeMax }

/-- Embedding of `_resetCycleTime()`. -/
def _resetCycleTime (hw : Platform) (s : linesideSignal) : linesideSignal :=
  _adjCycleTime hw { s with _rampDiv := 0, _cycleCount := 0 }

/-! ### Public commands -/

/-- Embedding of `setCycleTime(cycle)`. -/
def setCycleTime (hw : Platform) (cycle : Int) (s : linesideSignal) : linesideSignal :=
  if !s._setupIsDone then s
  else if cycle < 2 * LSS_LED_MIN ∨ cycle > 20000 then s
  else
    let s := { s with _targetCycleTime := cycle }
    if s._targetCycleTime < s._cycleTime then _resetCycleTime hw s else s

/-- Embedding of `setFlashRate(rate)`. -/
def setFlashRate (hw : Platform) (rate : Int) (s : linesideSignal) : linesideSignal :=
  if !s._setupIsDone then s
  else if rate < 1 ∨ rate > LSS_MAX_FLASH_RATE then s
  else _setFlashRate hw rate s

/-- A traversal of `_lampList` whose body rewrites the visited lamp and reports
whether it raised `_killSwitch`. -/
def forEachLamp (body : signalLamp → signalLamp × Bool) (s : linesideSignal) : linesideSignal :=
  { s with _lampList := s._lampList.map (fun lamp => (body lamp).1),
           _killSwitch := s._killSwitch || s._lampList.any (fun lamp => (body lamp).2) }

/-- Body of the loop of `setRamp`. -/
def setRampLamp (mastOrd headOrd lampOrd : Nat) (ramp : Bool) (lamp : signalLamp) :
    signalLamp × Bool :=
  if lamp.mastNum = mastOrd ∧ lamp.headNum = headOrd ∧ lamp.lampNum = lampOrd then
    (lamp.setBitFlag LSS_SL_RAMP ramp, false)
  else (lamp, false)

/-- Embedding of `setRamp(mastOrd, headOrd, lampOrd, ramp)`. -/
def setRamp (mastOrd headOrd lampOrd : Nat) (ramp : Bool) (s : linesideSignal) : linesideSignal :=
  if !s._setupIsDone then s
  else forEachLamp (setRampLamp mastOrd headOrd lampOrd ramp) s

/-- Embedding of `_goodPin(pinNum)`. -/
def _goodPin (pinNum : Nat) : Bool := decide (0 ≤ pinNum ∧ pinNum < 70)

/-- Embedding of `_addLamp`: the new lamp is pushed at the front of the list, and
the pins of a wired lamp are drained and left as inputs. -/
def _addLamp (mastOrd headOrd lampOrd anode cathode colorVal : Nat) (s : linesideSignal) :
    linesideSignal :=
  let lamp : signalLamp :=
    { lit := false, flash := false, alternate := false, start := false, stop := false,
      ramp := false, delay := false, mastNum := mastOrd, headNum := headOrd,
      lampNum := lampOrd, color := colorVal, anode := anode, cathode := cathode }
  let lamp := lamp.clearBitFlags
  let lamp := lamp.setBitFlag LSS_SL_ISLIT false
  let lamp := lamp.setBitFlag LSS_SL_ISFLASH false
  let lamp := lamp.setBitFlag LSS_SL_ISALTERNATE false
  let lamp := lamp.setBitFlag LSS_SL_START false
  let lamp := lamp.setBitFlag LSS_SL_STOP false
  let lamp := lamp.setBitFlag LSS_SL_RAMP true
  let lamp := lamp.setBitFlag LSS_SL_DELAY false
  if anode = LSS_NOT_PIN ∨ cathode = LSS_NOT_PIN then
    { s with _lampList :=
               { lamp with anode := LSS_NOT_PIN, cathode := LSS_NOT_PIN, color := LSS_DARK }
                 :: s._lampList,
             _currentLED := s._currentLED.map (· + 1) }
  else
    let pins := pinModeInput s.pins cathode
    let pins := pinModeOutput pins anode
    let pins := digitalWrite pins anode false
    let pins := pinModeInput pins anode
    let pins := pinModeOutput pins cathode
    let pins := digitalWrite pins cathode false
    let pins := pinModeInput pins cathode
    { s with _lampList := lamp :: s._lampList,
             _currentLED := s._currentLED.map (· + 1),
             pins := pins }

/-- Embedding of `addLamp` (the external version). -/
def addLamp (mastOrd headOrd lampOrd anode cathode colorVal : Nat) (s : linesideSignal) :
    linesideSignal :=
  if !s._setupIsDone then s
  else if anode = cathode then s
  else if !_goodPin anode then s
  else if !_goodPin cathode then s
  else if colorVal = LSS_DARK then s
  else _addLamp mastOrd headOrd lampOrd anode cathode colorVal s

/-- Embedding of `_goDark(lamp)`: the darkened lamp, and whether `_killSwitch` is
raised (the lamp is wired like the current LED `cur`). -/
def _goDark (cur lamp : signalLamp) : signalLamp × Bool :=
  let dark := lamp.setBitFlag LSS_SL_STOP false
  let dark := dark.setBitFlag LSS_SL_START false
  let dark := dark.setBitFlag LSS_SL_ISLIT false
  let dark := dark.setBitFlag LSS_SL_ISFLASH false
  let dark := dark.setBitFlag LSS_SL_ISALTERNATE false
  let dark := dark.setBitFlag LSS_SL_DELAY false
  (dark, decide (lamp.anode = cur.anode ∧ lamp.cathode = cur.cathode))

/-- Body of the loop of `clearHead`. -/
def clearHeadLamp (cur : signalLamp) (mastOrd headOrd : Nat) (lamp : signalLamp) :
    signalLamp × Bool :=
  if lamp.mastNum = mastOrd ∧ lamp.headNum = headOrd then
    if lamp.isOn && lamp.isStart && lamp.onHold then _goDark cur lamp
    else if lamp.isOn then
      if !lamp.isStop then
        (((lamp.setBitFlag LSS_SL_STOP true).setBitFlag LSS_SL_START false).setBitFlag
          LSS_SL_DELAY true, false)
      else (lamp, false)
    else (lamp, false)
  else (lamp, false)

/-- Embedding of `clearHead(mastOrd, headOrd)`. -/
def clearHead (mastOrd headOrd : Nat) (s : linesideSignal) : linesideSignal :=
  if !s._setupIsDone then s
  else forEachLamp (clearHeadLamp s.currentLamp mastOrd headOrd) s

/-- Body of the loop of `setLamp`. -/
def setLampLamp (mastOrd headOrd lampOrd : Nat) (flashing : Bool) (lamp : signalLamp) :
    signalLamp × Bool :=
  if lamp.mastNum = mastOrd ∧ lamp.headNum = headOrd ∧ lamp.lampNum = lampOrd then
    let lamp := lamp.setBitFlag LSS_SL_ISFLASH flashing
    if !lamp.isOn then
      ((((lamp.setBitFlag LSS_SL_STOP false).setBitFlag LSS_SL_START true).setBitFlag
          LSS_SL_ISLIT true).setBitFlag LSS_SL_DELAY true, false)
    else (lamp, false)
  else (lamp, false)

/-- Embedding of `setLamp(mastOrd, headOrd, lampOrd, lit, flashing)`.  The body of
the C function never reads `lit`. -/
def setLamp (mastOrd headOrd lampOrd : Nat) (lit flashing : Bool) (s : linesideSignal) :
    linesideSignal :=
  if !s._setupIsDone then s
  else forEachLamp (setLampLamp mastOrd headOrd lampOrd flashing) s

/-- The colour test shared by `setHeadColor` and `setLampColor`: the lamp colour is
the requested one, directly or through a multi-colour LED. -/
def colorMatch (color lampColor : Nat) : Bool :=
  decide (lampColor = color) ||
  (decide (color = LSS_YELLOW) &&
    (decide (lampColor = LSS_GREENYELLOW) || decide (lampColor = LSS_REDYELLOW))) ||
  (decide (color = LSS_GREEN) && decide (lampColor = LSS_GREENYELLOW)) ||
  (decide (color = LSS_RED) && decide (lampColor = LSS_REDYELLOW)) ||
  (decide (color = LSS_YELLOW) &&
    (decide (lampColor = LSS_GREENREDYELLOW) || decide (lampColor = LSS_REDGREENYELLOW))) ||
  (decide (color = LSS_GREEN) && decide (lampColor = LSS_GREENREDYELLOW)) ||
  (decide (color = LSS_RED) && decide (lampColor = LSS_REDGREENYELLOW))

/-- The lamp is one of the multi-colour LEDs. -/
def isMultiColor (lampColor : Nat) : Bool :=
  decide (lampColor = LSS_GREENYELLOW) || decide (lampColor = LSS_REDYELLOW) ||
  decide (lampColor = LSS_GREENREDYELLOW) || decide (lampColor = LSS_REDGREENYELLOW)

/-- The branch shared by `setHeadColor` and `setLampColor` for a lit lamp of
another colour. -/
def shutDownLamp (cur lamp : signalLamp) : signalLamp × Bool :=
  if lamp.isStart || !lamp.usesRamp then _goDark cur lamp
  else if !lamp.isStop then
    (((lamp.setBitFlag LSS_SL_STOP true).setBitFlag LSS_SL_START false).setBitFlag
      LSS_SL_DELAY true, false)
  else (lamp, false)

/-- Body of the second loop of `setHeadColor`. -/
def setHeadColorLamp (cur : signalLamp) (mastOrd headOrd color : Nat) (flashing : Bool)
    (lamp : signalLamp) : signalLamp × Bool :=
  if lamp.mastNum = mastOrd ∧ lamp.headNum = headOrd then
    if colorMatch color lamp.color then
      let lamp := lamp.setBitFlag LSS_SL_ISFLASH flashing
      if lamp.isStop && isMultiColor lamp.color then
        (lamp.setBitFlag LSS_SL_START true, false)
      else if !lamp.isOn then
        ((((lamp.setBitFlag LSS_SL_STOP false).setBitFlag LSS_SL_ISLIT true).setBitFlag
            LSS_SL_START true).setBitFlag LSS_SL_DELAY true, false)
      else if lamp.isOn && decide (color = lamp.color) then
        (lamp.setBitFlag LSS_SL_START true, false)
      else (lamp, false)
    else if lamp.isOn then shutDownLamp cur lamp
    else (lamp, false)
  else (lamp, false)

/-- Embedding of `setHeadColor(mastOrd, headOrd, color, flashing)`. -/
def setHeadColor (mastOrd headOrd color : Nat) (flashing : Bool) (s : linesideSignal) :
    linesideSignal :=
  if !s._setupIsDone then s
  else
    let s := clearHead mastOrd headOrd s
    if color > LSS_LAST_FOR_SETCOLOR then s
    else forEachLamp (setHeadColorLamp s.currentLamp mastOrd headOrd color flashing) s

/-- Body of the loop of `setLampColor`. -/
def setLampColorLamp (cur : signalLamp) (mastOrd headOrd lampOrd color : Nat)
    (flashing : Bool) (lamp : signalLamp) : signalLamp × Bool :=
  if lamp.mastNum = mastOrd ∧ lamp.headNum = headOrd ∧ lamp.lampNum = lampOrd then
    if colorMatch color lamp.color then
      let lamp := lamp.setBitFlag LSS_SL_ISFLASH flashing
      if lamp.isStop && isMultiColor lamp.color then
        (lamp.setBitFlag LSS_SL_START true, false)
      else if !lamp.isOn then
        ((((lamp.setBitFlag LSS_SL_STOP false).setBitFlag LSS_SL_START true).setBitFlag
            LSS_SL_ISLIT true).setBitFlag LSS_SL_DELAY true, false)
      else if lamp.isOn && decide (color = lamp.color) then
        ((lamp.setBitFlag LSS_SL_STOP true).setBitFlag LSS_SL_START true, false)
      else (lamp, false)
    else if lamp.isOn then shutDownLamp cur lamp
    else (lamp, false)
  else (lamp, false)

/-- Embedding of `setLampColor(mastOrd, headOrd, lampOrd, color, flashing)`. -/
def setLampColor (mastOrd headOrd lampOrd color : Nat) (flashing : Bool)
    (s : linesideSignal) : linesideSignal :=
  if !s._setupIsDone then s
  else if color > LSS_LAST_FOR_SETCOLOR then s
  else forEachLamp (setLampColorLamp s.currentLamp mastOrd headOrd lampOrd color flashing) s

/-- Body of the loop of `setAlternate`. -/
def setAlternateLamp (mastOrd headOrd lampOrd : Nat) (alternate : Bool) (lamp : signalLamp) :
    signalLamp × Bool :=
  if lamp.mastNum = mastOrd ∧ lamp.headNum = headOrd ∧ lamp.lampNum = lampOrd then
    ((((((lamp.setBitFlag LSS_SL_ISLIT true).setBitFlag LSS_SL_ISFLASH true).setBitFlag
        LSS_SL_ISALTERNATE alternate).setBitFlag LSS_SL_STOP false).setBitFlag
        LSS_SL_START true).setBitFlag LSS_SL_DELAY true, false)
  else (lamp, false)

/-- Embedding of `setAlternate(mastOrd, headOrd, lampOrd, alternate)`. -/
def setAlternate (mastOrd headOrd lampOrd : Nat) (alternate : Bool) (s : linesideSignal) :
    linesideSignal :=
  if !s._setupIsDone then s
  else forEachLamp (setAlternateLamp mastOrd headOrd lampOrd alternate) s

/-- Embedding of the constructor `linesideSignal::linesideSignal()`, run on the
memory `raw` at clock reading `micros`.  Members the constructor does not assign
keep the value found in `raw`. -/
def construct (hw : Platform) (micros : Int) (raw : linesideSignal) : linesideSignal :=
  let s := { raw with _setupIsDone := false, _lastLampCount := 0,
                      _cycleTime := LSS_CYCLE_TIME, _targetCycleTime := LSS_CYCLE_TIME }
  let s := _setFlashRate hw LSS_FLASH_FPM s
  let s := { s with _anodeOn := false, _cathodeOn := false, _killSwitch := false,
                    _killAnode := false, _anodeCount := 0, _cathodeCount := 0,
                    _pulseTimePerLED := 0, _lastLoopStamp := 0, _suppressLEDs := false }
  let s := _lightTimerStart 1 0 micros s
  let s := { s with _lampList := [], _currentLED := none, _cycleCount := 0 }
  let s := _averageOverhead 100 s
  { s with _pulseTimePerLED := LSS_LED_MIN }

/-- Embedding of `setupSignal()`. -/
def setupSignal (hw : Platform) (s : linesideSignal) : linesideSignal :=
  if s._setupIsDone then s
  else
    let s := { s with _setupIsDone := true }
    let s := _addLamp LSS_NULL_SIG LSS_NULL_SIG LSS_NULL_SIG LSS_NOT_PIN LSS_NOT_PIN LSS_DARK s
    let s := { s with _currentLED := some 0 }
    let s := { s with _lampList :=
                 s._lampList.modifyHead (fun lamp => lamp.setBitFlag LSS_SL_RAMP false) }
    _adjCycleTime hw s

/-! ### Scheduler internals -/

/-- The test `_anyLampsAre` applies to one lamp. -/
def anyLampsAreLamp (bitVec vecTwo : Nat) (useReverse reversed : Bool) (lamp : signalLamp) :
    Bool :=
  let checkStart := decide (vecTwo = LSS_SL_START)
  let checkIgnore := decide (vecTwo = LSS_SL_IGNORE)
  match bitVec with
  | 3 =>
    if useReverse then lamp.isStart && (lamp.isReversed == reversed) else lamp.isStart
  | 4 =>
    if useReverse then lamp.isStop && (lamp.isReversed == reversed) else lamp.isStop
  | 6 =>
    if (useReverse && !reversed) || !useReverse then
      if checkIgnore then lamp.onHold && !lamp.isReversed
      else if checkStart then lamp.onHold && lamp.isStart && !lamp.isReversed
      else lamp.onHold && lamp.isStop && !lamp.isReversed
    else if useReverse && reversed then
      if checkIgnore then lamp.onHold && lamp.isReversed
      else if checkStart then lamp.onHold && lamp.isStart && lamp.isReversed
      else lamp.onHold && lamp.isStop && lamp.isReversed
    else false
  | _ => false

/-- Embedding of `_anyLampsAre(bitVec, vecTwo, useReverse, reversed)`. -/
def _anyLampsAre (bitVec vecTwo : Nat) (useReverse reversed : Bool) (s : linesideSignal) :
    Bool :=
  if bitVec > LSS_SL_MAX then false
  else s._lampList.any (anyLampsAreLamp bitVec vecTwo useReverse reversed)

/-- The pointer `lamp->nextLamp` of the lamp at index `i` (`none` is `NULL`). -/
def nextLamp (lamps : List signalLamp) (i : Nat) : Option Nat :=
  if i + 1 < lamps.length then some (i + 1) else none

/-- The `do ... while (scanning)` loop of `_getNextLamp`, started at pointer `lamp`
with the current value of `newCycle`; `cur` is `_currentLED`.  Returns the lit lamp
found (if any) and `newCycle`.  The first argument bounds the number of
iterations. -/
def getNextLampScan (lamps : List signalLamp) (cur : Nat) :
    Nat → Option Nat → Bool → Option Nat × Bool
  | 0, _, newCycle => (none, newCycle)
  | fuel + 1, lamp, newCycle =>
    let lamp1 := match lamp with
      | none => 0
      | some i => i
    let newCycle1 := match lamp with
      | none => true
      | some _ => newCycle
    if (lamps.getD lamp1 nullLamp).isOn then (some lamp1, newCycle1)
    else if lamp1 = cur then (none, newCycle1)
    else getNextLampScan lamps cur fuel (nextLamp lamps lamp1) newCycle1

/-- Embedding of `_getNextLamp(newCycle)`: the result, `newCycle`, and the state. -/
def _getNextLamp (s : linesideSignal) : Bool × Bool × linesideSignal :=
  match s._currentLED with
  | none => (false, false, s)
  | some cur =>
    if s._lampList = [] then (false, false, s)
    else
      match getNextLampScan s._lampList cur (s._lampList.length + 1)
              (nextLamp s._lampList cur) false with
      | (some i, newCycle) => (true, newCycle, { s with _currentLED := some i })
      | (none, newCycle) => (false, newCycle, s)

/-- Body of the loop of `_advanceLamps`. -/
def advanceLampsLamp (cur : signalLamp) (toClear : Nat) (doAlt : Bool) (lamp : signalLamp) :
    signalLamp × Bool :=
  let lamp :=
    if toClear = LSS_SL_START ∧ lamp.isStart = true then
      if !lamp.onHold then
        if (!doAlt && !lamp.isReversed) || (doAlt && lamp.isReversed) then
          lamp.setBitFlag LSS_SL_START false
        else lamp
      else lamp
    else lamp
  if toClear = LSS_SL_STOP ∧ lamp.isStop = true then
    if !lamp.onHold then
      if (!doAlt && !lamp.isReversed) || (doAlt && lamp.isReversed) then
        if lamp.isStart then (lamp.setBitFlag LSS_SL_STOP false, false)
        else _goDark cur lamp
      else (lamp, false)
    else (lamp, false)
  else (lamp, false)

/-- Embedding of `_advanceLamps(toClear, doAlt)`. -/
def _advanceLamps (toClear : Nat) (doAlt : Bool) (s : linesideSignal) : linesideSignal :=
  forEachLamp (advanceLampsLamp s.currentLamp toClear doAlt) s

/-- Body of the loop of `_releaseHold`. -/
def releaseHoldLamp (toClear : Nat) (doAlt : Bool) (lamp : signalLamp) : signalLamp × Bool :=
  let lamp :=
    if lamp.onHold = true ∧ toClear = LSS_SL_START ∧ lamp.isStart = true then
      if (doAlt && lamp.isReversed) || (!doAlt && !lamp.isReversed) then
        lamp.setBitFlag LSS_SL_DELAY false
      else lamp
    else lamp
  let lamp :=
    if lamp.onHold = true ∧ toClear = LSS_SL_STOP ∧ lamp.isStop = true then
      if (doAlt && lamp.isReversed) || (!doAlt && !lamp.isReversed) then
        lamp.setBitFlag LSS_SL_DELAY false
      else lamp
    else lamp
  (lamp, false)

/-- Embedding of `_releaseHold(toClear, doAlt)`. -/
def _releaseHold (toClear : Nat) (doAlt : Bool) (s : linesideSignal) : linesideSignal :=
  forEachLamp (releaseHoldLamp toClear doAlt) s

/-- Embedding of `_advanceDivision()`. -/
def _advanceDivision (s : linesideSignal) : linesideSignal :=
  let checkReversed := decide (s._rampDiv = LSS_DIV_RSTART) || decide (s._rampDiv = LSS_DIV_RSTOP)
  let lampsToStop := _anyLampsAre LSS_SL_STOP LSS_SL_IGNORE false false s
  let lampsToStart :=
    !lampsToStop && _anyLampsAre LSS_SL_START LSS_SL_IGNORE true checkReversed s
  let lampsToRelease :=
    (decide (s._rampDiv = LSS_DIV_STOP) || decide (s._rampDiv = LSS_DIV_RSTOP) ||
      decide (s._rampDiv = LSS_DIV_HSTOP) || decide (s._rampDiv = LSS_DIV_RHSTOP)) &&
    _anyLampsAre LSS_SL_DELAY LSS_SL_IGNORE false false s
  let lampsToReleaseAlt :=
    (decide (s._rampDiv = LSS_DIV_RSTOP) || decide (s._rampDiv = LSS_DIV_RHSTOP)) &&
    _anyLampsAre LSS_SL_DELAY LSS_SL_IGNORE true true s
  match s._rampDiv with
  | 3 => if lampsToStart then _advanceLamps LSS_SL_START false s else s
  | 9 =>
    let s := if lampsToStop then _advanceLamps LSS_SL_STOP false s else s
    if lampsToRelease then
      if !_anyLampsAre LSS_SL_DELAY LSS_SL_STOP true false s then
        _releaseHold LSS_SL_START false s
      else s
    else s
  | 8 => if lampsToStart then _advanceLamps LSS_SL_START true s else s
  | 4 =>
    let s := if lampsToStop then _advanceLamps LSS_SL_STOP true s else s
    if lampsToReleaseAlt then
      if !_anyLampsAre LSS_SL_DELAY LSS_SL_STOP true true s then
        _releaseHold LSS_SL_START true s
      else s
    else s
  | 5 => if lampsToRelease then _releaseHold LSS_SL_STOP false s else s
  | 0 => if lampsToReleaseAlt then _releaseHold LSS_SL_STOP true s else s
  | _ => s

/-- Embedding of `_newRampState()`: the result and the state. -/
def _newRampState (hw : Platform) (s : linesideSignal) : Bool × linesideSignal :=
  let rampDiv := toByte (cDiv hw s._cycleCount s._cyclesPerDiv)
  let s := if rampDiv ≥ LSS_NUM_DIV then _resetCycleTime hw s else s
  let newDiv := decide (rampDiv ≠ s._rampDiv)
  (newDiv, { s with _rampDiv := rampDiv })

/-! ### Lamp control -/

/-- Embedding of `_anodeDisable(anode)`.  In this build its safety net does not
call `_dropDead`. -/
def _anodeDisable (anode : Nat) (s : linesideSignal) : linesideSignal :=
  if !_goodPin anode then s
  else
    let s := { s with _anodeCount := toInt (s._anodeCount - 1) }
    if s._suppressLEDs then s
    else { s with pins := pinModeInput s.pins anode }

/-- Embedding of `_cathodeDisable(cathode)`; `none` is `_dropDead()`. -/
def _cathodeDisable (cathode : Nat) (s : linesideSignal) : Option linesideSignal :=
  if !_goodPin cathode then some s
  else
    let s := { s with _cathodeCount := toInt (s._cathodeCount - 1) }
    if s._cathodeCount < 0 then none
    else if s._suppressLEDs then some s
    else some { s with pins := pinModeInput s.pins cathode }

/-- Embedding of `_anodeEnable(anode)`; `none` is `_dropDead()`. -/
def _anodeEnable (anode : Nat) (s : linesideSignal) : Option linesideSignal :=
  if !_goodPin anode then some s
  else
    let s := { s with _anodeCount := toInt (s._anodeCount + 1) }
    if s._anodeCount > 1 then none
    else if s._suppressLEDs then some s
    else some { s with pins := digitalWrite (pinModeOutput s.pins anode) anode true }

/-- Embedding of `_cathodeEnable(cathode)`; `none` is `_dropDead()`. -/
def _cathodeEnable (cathode : Nat) (s : linesideSignal) : Option linesideSignal :=
  if !_goodPin cathode then some s
  else
    let s := { s with _cathodeCount := toInt (s._cathodeCount + 1) }
    if s._cathodeCount > 1 then none
    else if s._suppressLEDs then some s
    else some { s with pins := digitalWrite (pinModeOutput s.pins cathode) cathode false }

/-- The `switch (_rampDiv)` of `_enabledLED` and the hold test after it, for the
current lamp `l`. -/
def rampDecision (rampDiv : Nat) (cycleCount : Int) (l : signalLamp) : Bool :=
  let eLED :=
    match rampDiv with
    | 0 =>
      if l.onHold && l.isStop then true
      else if l.onHold || (!l.isReversed && !l.usesRamp && (l.isFlash || l.isStart)) then false
      else if !l.isReversed && l.usesRamp && (l.isStart || l.isFlash) then
        decide (Int.tmod cycleCount 6 = 0)
      else true
    | 1 =>
      if !l.isReversed && l.onHold && l.isStop then true
      else if l.onHold || (l.isReversed && !l.usesRamp && l.isFlash) then false
      else if !l.isReversed && l.usesRamp && (l.isFlash || l.isStart) then
        decide (Int.tmod cycleCount 4 = 0)
      else if l.isReversed && l.usesRamp && (l.isFlash || l.isStop) then
        decide (Int.tmod cycleCount 2 = 1)
      else true
    | 2 =>
      if !l.isReversed && l.onHold && l.isStop then true
      else if l.onHold || (l.isReversed && !l.usesRamp && l.isFlash) then false
      else if !l.isReversed && l.usesRamp && (l.isFlash || l.isStart) then
        decide (Int.tmod cycleCount 2 = 0)
      else if l.isReversed && l.usesRamp && (l.isFlash || l.isStop) then
        decide (Int.tmod cycleCount 4 = 3)
      else true
    | 3 =>
      if !l.isReversed && l.onHold && l.isStop then true
      else if l.onHold || (l.isReversed && !l.usesRamp && l.isFlash) then false
      else if l.isReversed && l.usesRamp && (l.isFlash || l.isStop) then
        decide (Int.tmod cycleCount 6 = 5)
      else true
    | 4 =>
      if l.onHold && l.isStop then true
      else if l.onHold ||
          (l.isReversed && (l.isFlash || (l.usesRamp && (l.isStart || l.isStop)))) then false
      else true
    | 5 =>
      if l.onHold && l.isStop then true
      else if l.onHold || (l.isReversed && !l.usesRamp && l.isFlash) then false
      else if l.isReversed && l.usesRamp && (l.isStart || l.isFlash) then
        decide (Int.tmod cycleCount 6 = 0)
      else true
    | 6 =>
      if l.onHold && l.isStop then true
      else if l.onHold ||
          (!l.isReversed && !l.usesRamp && (l.isFlash || l.isStart || l.isStop)) then false
      else if l.isReversed && l.usesRamp && (l.isFlash || l.isStart) then
        decide (Int.tmod cycleCount 4 = 0)
      else if !l.isReversed && l.usesRamp && (l.isFlash || l.isStop) then
        decide (Int.tmod cycleCount 2 = 1)
      else true
    | 7 =>
      if l.onHold && l.isStop then true
      else if l.onHold ||
          (!l.isReversed && !l.usesRamp && (l.isFlash || l.isStart || l.isStop)) then false
      else if l.isReversed && l.usesRamp && (l.isFlash || l.isStart) then
        decide (Int.tmod cycleCount 2 = 0)
      else if !l.isReversed && l.usesRamp && (l.isFlash || l.isStop) then
        decide (Int.tmod cycleCount 4 = 3)
      else true
    | 8 =>
      if l.onHold && l.isStop then true
      else if l.onHold ||
          (!l.isReversed && !l.usesRamp && (l.isFlash || l.isStart || l.isStop)) then false
      else if !l.isReversed && l.usesRamp && (l.isFlash || l.isStop) then
        decide (Int.tmod cycleCount 6 = 5)
      else true
    | 9 =>
      if l.onHold && l.isStop then true
      else if l.onHold ||
          (!l.isReversed && !l.usesRamp && (l.isFlash || l.isStart || l.isStop)) ||
          (!l.isReversed && (l.isFlash || (l.usesRamp && (l.isStart || l.isStop)))) then false
      else true
    | _ => true
  if l.onHold && !l.isStop then false else eLED

/-- Embedding of `_enabledLED()`: the result and the state. -/
def _enabledLED (s : linesideSignal) : Bool × linesideSignal :=
  if !s.currentLamp.isOn then (false, { s with _killSwitch := true, _killAnode := true })
  else (rampDecision s._rampDiv s._cycleCount s.currentLamp, s)

/-! ### `updateSignals` -/

/-- The readings of `micros()` taken by one call of `updateSignals` that the
default build uses. -/
structure Clock where
  /-- `startTime = long(micros())`. -/
  startTime : Int
  /-- The reading compared in `_lightTimerExpired()`. -/
  expiryCheck : Int
  /-- `beforeTime = long(micros())`. -/
  beforeTime : Int
  /-- The reading `_lightTimerStart` takes when its `startTime` argument is 0. -/
  timerStart : Int
  /-- `now = long(micros())`. -/
  now : Int
  /-- `_lastLoopStamp = long(micros())`. -/
  loopStamp : Int

/-! The part of `updateSignals` up to the ramp decision, one definition per
statement of the source. -/

/-- "if more than one new light turned on the timing will be wrong":
`if (_litLampCount() > (_lastLampCount + 1)) _resetCycleTime();`. -/
def resetOnJump (hw : Platform) (s : linesideSignal) : linesideSignal :=
  if _litLampCount s > toInt (s._lastLampCount + 1) then _resetCycleTime hw s else s

/-- The body of `if (_lightTimerExpired())`: "move to the next LED" and restart the
light timer.  Returns `newCycle` and the state. -/
def nextLED (hw : Platform) (clk : Clock) (s : linesideSignal) : Bool × linesideSignal :=
  let r := _getNextLamp s
  let s := if r.1 then { r.2.2 with _killSwitch := false } else r.2.2
  let beforeTime := toLong clk.beforeTime
  let errorTime := cMod hw s._pulseTimePerLED (_getAverageLoop s)
  (r.2.1,
    _lightTimerStart (toLong (toLong (s._pulseTimePerLED - errorTime) + _getOverhead s))
      beforeTime clk.timerStart s)

/-- `if (_newRampState()) _advanceDivision();`. -/
def rampClock (hw : Platform) (s : linesideSignal) : linesideSignal :=
  let ramp := _newRampState hw s
  if ramp.1 then _advanceDivision ramp.2 else ramp.2

/-- `if (!_killSwitch) LEDEnabled = _enabledLED();` with `LEDEnabled` false before.
Returns `LEDEnabled` and the state. -/
def decideLED (s : linesideSignal) : Bool × linesideSignal :=
  if !s._killSwitch then _enabledLED s else (false, s)

/-- The part of `updateSignals` up to the ramp decision: the statements above in
source order.  Returns `timerExp`, `newCycle`, `LEDEnabled` and the state. -/
def selectLamp (hw : Platform) (clk : Clock) (s : linesideSignal) :
    Bool × Bool × Bool × linesideSignal :=
  let s := resetOnJump hw s
  let timerExp := _lightTimerExpired clk.expiryCheck s
  let scanned := if timerExp then nextLED hw clk s else (false, s)
  let enabled := decideLED (rampClock hw scanned.2)
  (timerExp, scanned.1, enabled.1, enabled.2)

/-! The part of `updateSignals` that changes the pins ("now we actually change the
lit LEDs"), one definition per `if` statement of the source.  `lastAnode` and
`lastCathode` are the pins of the lamp that was current on entry; `none` is
`_dropDead()`. -/

/-- "if we are changing cathodes or starting a new cycle, turn the old one off
first thing". -/
def cathodeOffFirst (lastCathode : Nat) (newCycle : Bool) (s : linesideSignal) :
    Option linesideSignal :=
  if s.currentLamp.cathode ≠ lastCathode ∨ newCycle = true ∨ s._killSwitch = true then
    if s._cathodeOn then
      (_cathodeDisable lastCathode s).map (fun s => { s with _cathodeOn := false })
    else some s
  else some s

/-- "if we are changing anodes, turn the old one off and the new one on"; returns
`lastAnode` and the state. -/
def anodeSwitch (lastAnode : Nat) (s : linesideSignal) : Option (Nat × linesideSignal) :=
  if s.currentLamp.anode ≠ lastAnode ∨ s._killSwitch = true then
    if s._anodeOn then
      let s := { _anodeDisable lastAnode s with _anodeOn := false }
      if !s._killSwitch then
        (_anodeEnable s.currentLamp.anode s).map
          (fun s => (s.currentLamp.anode, { s with _anodeOn := true }))
      else some (lastAnode, s)
    else some (lastAnode, s)
  else some (lastAnode, s)

/-- `if (_killSwitch) { _killAnode = true; _killSwitch = false; }`. -/
def killSwitchDone (s : linesideSignal) : linesideSignal :=
  if s._killSwitch then { s with _killAnode := true, _killSwitch := false } else s

/-- "if LED is lit but for some reason we've turned the anode off, turn it on";
returns `lastAnode` and the state. -/
def anodeOnIfEnabled (LEDEnabled : Bool) (lastAnode : Nat) (s : linesideSignal) :
    Option (Nat × linesideSignal) :=
  if LEDEnabled && !s._anodeOn then
    (_anodeEnable s.currentLamp.anode s).map
      (fun s => (s.currentLamp.anode, { s with _anodeOn := true }))
  else some (lastAnode, s)

/-- "if the LED is lit, make sure it is on". -/
def cathodeOnIfEnabled (LEDEnabled : Bool) (s : linesideSignal) : Option linesideSignal :=
  if LEDEnabled then
    if !s._cathodeOn then
      (_cathodeEnable s.currentLamp.cathode s).map (fun s => { s with _cathodeOn := true })
    else some s
  else some s

/-- "if the LED isn't lit, turn the cathode off if it was on from the previous
lamp". -/
def cathodeOffIfDark (LEDEnabled : Bool) (s : linesideSignal) : Option linesideSignal :=
  if !LEDEnabled && s._cathodeOn then
    (_cathodeDisable s.currentLamp.cathode s).map (fun s => { s with _cathodeOn := false })
  else some s

/-- "turn off the anode if the current light is dark", then
`_killAnode = false`. -/
def anodeOffIfDark (lastAnode : Nat) (s : linesideSignal) : linesideSignal :=
  let s :=
    if !s._cathodeOn && s._killAnode then
      if s._anodeOn then { _anodeDisable lastAnode s with _anodeOn := false } else s
    else s
  { s with _killAnode := false }

/-- The pin-changing part of `updateSignals`: the statements above in source
order. -/
def switchPins (lastAnode lastCathode : Nat) (newCycle LEDEnabled : Bool)
    (s : linesideSignal) : Option linesideSignal :=
  (cathodeOffFirst lastCathode newCycle s).bind fun s =>
  (anodeSwitch lastAnode s).bind fun r =>
  (anodeOnIfEnabled LEDEnabled r.1 (killSwitchDone r.2)).bind fun r =>
  (cathodeOnIfEnabled LEDEnabled r.2).bind fun s =>
  (cathodeOffIfDark LEDEnabled s).map fun s =>
  anodeOffIfDark r.1 s

/-- The end of `updateSignals`: running averages, cycle count, loop time. -/
def recordTimes (clk : Clock) (timerExp newCycle : Bool) (s : linesideSignal) :
    linesideSignal :=
  let now := toLong clk.now
  let s := if timerExp then _averageOverhead (toLong (now - toLong clk.beforeTime)) s else s
  let s := if newCycle then { s with _cycleCount := toInt (s._cycleCount + 1) } else s
  let s := { s with _lastLoopTime := toLong (toLong clk.startTime - s._lastLoopStamp) }
  let s := { s with _lastLoopStamp := toLong clk.loopStamp }
  if s._lastLoopTime > 1000 then _averageLoop 1000 s else _averageLoop s._lastLoopTime s

/-- Embedding of `updateSignals()`; `none` is `_dropDead()`. -/
def updateSignals (hw : Platform) (clk : Clock) (s : linesideSignal) : Option linesideSignal :=
  let lastAnode := s.currentLamp.anode
  let lastCathode := s.currentLamp.cathode
  let sel := selectLamp hw clk s
  (switchPins lastAnode lastCathode sel.2.1 sel.2.2.1 sel.2.2.2).map
    (recordTimes clk sel.1 sel.2.1)

/-- Embedding of the overload `setLamp(mastOrd, headOrd, lampOrd, lit)`. -/
def setLamp4 (mastOrd headOrd lampOrd : Nat) (lit : Bool) (s : linesideSignal) :
    linesideSignal :=
  setLamp mastOrd headOrd lampOrd lit false s

/-- Embedding of the overload `setHeadColor(mastOrd, headOrd, color)`. -/
def setHeadColor3 (mastOrd headOrd color : Nat) (s : linesideSignal) : linesideSignal :=
  setHeadColor mastOrd headOrd color false s

/-- Embedding of the overload `setLampColor(mastOrd, headOrd, lampOrd, color)`. -/
def setLampColor4 (mastOrd headOrd lampOrd color : Nat) (s : linesideSignal) :
    linesideSignal :=
  setLampColor mastOrd headOrd lampOrd color false s

end linesideSignal

/-! ## Runs of the library -/

open linesideSignal

/-- A call of a public function of `class linesideSignal`. -/
inductive Command where
  | setupSignal
  | addLamp (mastOrd headOrd lampOrd anode cathode colorVal : Nat)
  | updateSignals (clk : Clock)
  | setLamp (mastOrd headOrd lampOrd : Nat) (lit flashing : Bool)
  | clearHead (mastOrd headOrd : Nat)
  | setCycleTime (cycle : Int)
  | setFlashRate (rate : Int)
  | setHeadColor (mastOrd headOrd color : Nat) (flashing : Bool)
  | setLampColor (mastOrd headOrd lampOrd color : Nat) (flashing : Bool)
  | setAlternate (mastOrd headOrd lampOrd : Nat) (alternate : Bool)
  | setRamp (mastOrd headOrd lampOrd : Nat) (ramp : Bool)

/-- The state after one call; `none` when the call ends in `_dropDead()`. -/
def step (hw : Platform) (s : linesideSignal) : Command → Option linesideSignal
  | .setupSignal => some (setupSignal hw s)
  | .addLamp m h l a c col => some (addLamp m h l a c col s)
  | .updateSignals clk => updateSignals hw clk s
  | .setLamp m h l lit f => some (setLamp m h l lit f s)
  | .clearHead m h => some (clearHead m h s)
  | .setCycleTime cycle => some (setCycleTime hw cycle s)
  | .setFlashRate rate => some (setFlashRate hw rate s)
  | .setHeadColor m h col f => some (setHeadColor m h col f s)
  | .setLampColor m h l col f => some (setLampColor m h l col f s)
  | .setAlternate m h l alt => some (setAlternate m h l alt s)
  | .setRamp m h l r => some (setRamp m h l r s)

/-- The state after a sequence of calls. -/
def run (hw : Platform) (s : linesideSignal) : List Command → Option linesideSignal
  | [] => some s
  | c :: cs => (step hw s c).bind (fun s1 => run hw s1 cs)

/-- The state right after the constructor (run at clock reading `micros` on the
memory `raw`) and `setupSignal()`; all pins start as inputs (high impedance). -/
def powerOn (hw : Platform) (micros : Int) (raw : linesideSignal) : linesideSignal :=
  setupSignal hw
    (construct hw micros { raw with pins := fun p => { raw.pins p with output := false } })

/-- Memory filled with zeros, as for an object with static storage. -/
def zeroMemory : linesideSignal :=
  { _lightExpirationTime := 0, _lampList := [], _cycleTime := 0, _targetCycleTime := 0,
    _lastLoopStamp := 0, _interimOverhead := 0, _interimLoop := 0, _cycleCount := 0,
    _cyclesPerDiv := 0, _lastLampCount := 0, _rampDiv := 0, _currentLED := none,
    _setupIsDone := false, _suppressLEDs := false, _killSwitch := false,
    _killAnode := false, _anodeOn := false, _cathodeOn := false, _anodeCount := 0,
    _cathodeCount := 0, _pulseTimePerLED := 0, _lastLoopTime := 0,
    _flashHalfInterval := 0, pins := fun _ => { output := false, high := false } }

/-- The states the library can be in: started by `powerOn`, then any calls. -/
def Reachable (hw : Platform) (s : linesideSignal) : Prop :=
  ∃ micros raw cmds, run hw (powerOn hw micros raw) cmds = some s

/-- Six red lamps on mast 0, head 0, charlieplexed on pins 2, 3 and 4, registered
after `powerOn` on zeroed memory. -/
def sixLampsDark : linesideSignal :=
  addLamp 0 0 6 4 3 LSS_RED (addLamp 0 0 5 3 4 LSS_RED (addLamp 0 0 4 4 2 LSS_RED
    (addLamp 0 0 3 2 4 LSS_RED (addLamp 0 0 2 3 2 LSS_RED (addLamp 0 0 1 2 3 LSS_RED
      (powerOn refPlatform 0 zeroMemory))))))

/-- The six lamps with lamp 1 turned on. -/
def oneLampLit : linesideSignal := setLamp 0 0 1 true false sixLampsDark

/-- The six lamps all turned on. -/
def sixLampsLit : linesideSignal :=
  setLamp 0 0 6 true false (setLamp 0 0 5 true false (setLamp 0 0 4 true false
    (setLamp 0 0 3 true false (setLamp 0 0 2 true false oneLampLit))))

/-! ## Properties of states -/

/-- An unlit lamp carries no transient flag. -/
def signalLamp.darkIsClear (l : signalLamp) : Prop :=
  l.lit = false →
    l.flash = false ∧ l.alternate = false ∧ l.start = false ∧ l.stop = false ∧
      l.delay = false

/-- Every unlit lamp of the list carries no transient flag. -/
def DarkLampsClear (s : linesideSignal) : Prop :=
  ∀ l ∈ s._lampList, l.darkIsClear

/-- A lamp before and after a step: afterwards it is lit or carries no transient
flag, and if the step turned it from lit to unlit its ramp flag is the one it had. -/
def darkStep (old new : signalLamp) : Prop :=
  new.darkIsClear ∧ (old.lit = true → new.lit = false → new.ramp = old.ramp)

/-- The lamp list before and after a step: the lamps of `s` are those of `t`, in
order, behind the lamps the step added; each is related by `darkStep`. -/
def LampsStep (s t : linesideSignal) : Prop :=
  ∃ added rest, t._lampList = added ++ rest ∧ (∀ l ∈ added, l.darkIsClear) ∧
    List.Forall₂ darkStep s._lampList rest

/-- A rewriting of one lamp that keeps its wiring and its ramp flag, and keeps
unlit lamps free of transient flags. -/
def keepsRamp (old new : signalLamp) : Prop :=
  new.anode = old.anode ∧ new.cathode = old.cathode ∧ new.ramp = old.ramp ∧
    (old.darkIsClear → new.darkIsClear)

/-- A rewriting of one lamp by a command: the wiring is kept, an unlit lamp free of
transient flags stays so, and the ramp flag or the lit flag is kept. -/
def rewrites (old new : signalLamp) : Prop :=
  new.anode = old.anode ∧ new.cathode = old.cathode ∧
    (old.darkIsClear → new.darkIsClear) ∧ (new.ramp = old.ramp ∨ new.lit = old.lit)

/-- At most one pin is driven HIGH. -/
def AtMostOneHigh (pins : Nat → Pin) : Prop :=
  ∀ p q, drivenHigh (pins p) → drivenHigh (pins q) → p = q

/-- At most one pin is driven LOW. -/
def AtMostOneLow (pins : Nat → Pin) : Prop :=
  ∀ p q, drivenLow (pins p) → drivenLow (pins q) → p = q

/-- The safety-net counters are 0 or 1. -/
def CountsOk (s : linesideSignal) : Prop :=
  (s._anodeCount = 0 ∨ s._anodeCount = 1) ∧ (s._cathodeCount = 0 ∨ s._cathodeCount = 1)

/-- The bookkeeping of the powered pins agrees with the pins, for anode pin `a`
and cathode pin `c`: the LEDs are not suppressed, each counter is 1 exactly when
its flag is set and the pin is a usable one, a pin driven HIGH is the powered
anode `a`, and a pin driven LOW is the powered cathode `c`. -/
def Electrical (s : linesideSignal) (a c : Nat) : Prop :=
  s._suppressLEDs = false ∧
  s._anodeCount = (if s._anodeOn = true ∧ _goodPin a = true then 1 else 0) ∧
  s._cathodeCount = (if s._cathodeOn = true ∧ _goodPin c = true then 1 else 0) ∧
  (∀ p, drivenHigh (s.pins p) → s._anodeOn = true ∧ p = a ∧ _goodPin p = true) ∧
  (∀ p, drivenLow (s.pins p) → s._cathodeOn = true ∧ p = c ∧ _goodPin p = true)

/-- The invariant of the reachable states: setup is done, unlit lamps carry no
transient flag, and the bookkeeping of the powered pins agrees with the pins for
the wiring of the current lamp. -/
def Invariant (s : linesideSignal) : Prop :=
  s._setupIsDone = true ∧ DarkLampsClear s ∧
    Electrical s s.currentLamp.anode s.currentLamp.cathode

/-- The members `updateSignals` switches pins by, and the pins, are the same in
both states. -/
def SameDrive (s t : linesideSignal) : Prop :=
  t._anodeOn = s._anodeOn ∧ t._cathodeOn = s._cathodeOn ∧
    t._anodeCount = s._anodeCount ∧ t._cathodeCount = s._cathodeCount ∧
    t._suppressLEDs = s._suppressLEDs ∧ t.pins = s.pins

/-- The lamps of `t` are those of `s`, each rewritten by `F`. -/
def LampsMapped (F : signalLamp → signalLamp) (s t : linesideSignal) : Prop :=
  t._lampList = s._lampList.map F

/-- The two states differ at most in the timing members (timer, cycle time, flash
rate, running averages, division clock). -/
def SameButTiming (s t : linesideSignal) : Prop :=
  SameDrive s t ∧ t._lampList = s._lampList ∧ t._currentLED = s._currentLED ∧
    t._setupIsDone = s._setupIsDone ∧ t._killSwitch = s._killSwitch ∧
    t._killAnode = s._killAnode

/-- A step that rewrites every lamp by a function respecting `R` and keeps the
setup flag, the powered-pin bookkeeping and the pins. -/
def RewriteStep (R : signalLamp → signalLamp → Prop) (s t : linesideSignal) : Prop :=
  (∃ F : signalLamp → signalLamp, (∀ l, R l (F l)) ∧ t._lampList = s._lampList.map F) ∧
    SameDrive s t ∧ t._setupIsDone = s._setupIsDone

/-- The lamps, the cursor, the setup flag and the kill flags are the same in both
states. -/
def SameButDrive (s t : linesideSignal) : Prop :=
  t._lampList = s._lampList ∧ t._currentLED = s._currentLED ∧
    t._setupIsDone = s._setupIsDone ∧ t._killSwitch = s._killSwitch ∧
    t._killAnode = s._killAnode

/-- The calls that register the six lamps of `sixLampsDark` and turn lamp 1 on. -/
def oneLampLitCalls : List Command :=
  [.addLamp 0 0 1 2 3 LSS_RED, .addLamp 0 0 2 3 2 LSS_RED, .addLamp 0 0 3 2 4 LSS_RED,
   .addLamp 0 0 4 4 2 LSS_RED, .addLamp 0 0 5 3 4 LSS_RED, .addLamp 0 0 6 4 3 LSS_RED,
   .setLamp 0 0 1 true false]

/-- Clock readings of one call of `updateSignals` that starts at `t`. -/
def clockAt (t : Int) : Clock :=
  { startTime := t, expiryCheck := t + 4, beforeTime := t + 8, timerStart := t + 12,
    now := t + 16, loopStamp := t + 20 }

/-- The calls that register a head (1,1) with a GREENYELLOW, a REDYELLOW and a RED
lamp. -/
def bicolorHeadCalls : List Command :=
  [.addLamp 1 1 1 2 3 LSS_GREENYELLOW, .addLamp 1 1 2 3 2 LSS_REDYELLOW,
   .addLamp 1 1 3 2 4 LSS_RED]

/-- The head (1,1) with its three lamps, after `powerOn` on zeroed memory. -/
def bicolorHead : linesideSignal :=
  addLamp 1 1 3 2 4 LSS_RED (addLamp 1 1 2 3 2 LSS_REDYELLOW
    (addLamp 1 1 1 2 3 LSS_GREENYELLOW (powerOn refPlatform 0 zeroMemory)))

/-- The calls of `oneLampLitCalls`, then `setFlashRate(200)`, then `n` calls of
`updateSignals` 5000 microseconds apart. -/
def flashingRun (n : Nat) : List Command :=
  oneLampLitCalls ++ [.setFlashRate 200] ++
    (List.range n).map (fun k => Command.updateSignals (clockAt (5000 * (k + 2))))

/-- The state after `flashingRun 86`: lamp (0,0,1) on pins 2 and 3 has come off
hold and is ramping up. -/
def rampingUp : linesideSignal :=
  (run refPlatform (powerOn refPlatform 0 zeroMemory) (flashingRun 86)).getD zeroMemory

/-- The attributes of a lamp that are fixed when it is registered: mast, head and
lamp ordinal, colour, anode and cathode pin. -/
def signalLamp.fixedPart (l : signalLamp) : Nat × Nat × Nat × Nat × Nat × Nat :=
  (l.mastNum, l.headNum, l.lampNum, l.color, l.anode, l.cathode)

/-- The registry of a state: the fixed attributes of its lamps, in list order. -/
def registry (s : linesideSignal) : List (Nat × Nat × Nat × Nat × Nat × Nat) :=
  s._lampList.map signalLamp.fixedPart

/-- The entry `setupSignal` registers: ordinals `LSS_NULL_SIG`, colour `LSS_DARK`,
both pins `LSS_NOT_PIN`. -/
def signalLamp.isSentinel (l : signalLamp) : Bool :=
  decide (l.fixedPart =
    (LSS_NULL_SIG, LSS_NULL_SIG, LSS_NULL_SIG, LSS_DARK, LSS_NOT_PIN, LSS_NOT_PIN))

/-- An entry with two different pins, both in 0..69, and a colour other than
`LSS_DARK`. -/
def signalLamp.isReal (l : signalLamp) : Bool :=
  decide (l.anode ≠ l.cathode) && _goodPin l.anode && _goodPin l.cathode &&
    decide (l.color ≠ LSS_DARK)

/-- The list is a run of real lamps closed by the sentinel. -/
def registryOk : List signalLamp → Bool
  | [] => false
  | [last] => last.isSentinel
  | l :: r :: rest => l.isReal && registryOk (r :: rest)

/-- The calls that register a red lamp (1,1,1) on pins 2 and 3, switch its ramp
off and turn it on, then `setFlashRate(200)` and `n` calls of `updateSignals` 5000
microseconds apart. -/
def noRampRun (n : Nat) : List Command :=
  [.addLamp 1 1 1 2 3 LSS_RED, .setRamp 1 1 1 false, .setLamp 1 1 1 true false,
   .setFlashRate 200] ++
    (List.range n).map (fun k => Command.updateSignals (clockAt (5000 * (k + 2))))

/-- The state after `noRampRun 74`: lamp (1,1,1) is lit and has come off hold, with
rampEnabled false. -/
def noRampLit : linesideSignal :=
  (run refPlatform (powerOn refPlatform 0 zeroMemory) (noRampRun 74)).getD zeroMemory

/-- The lamp is lit and flashing with starting, stopping and onHold clear: it has
finished starting and flashes steadily. -/
def signalLamp.flashesSteadily (l : signalLamp) : Bool :=
  l.lit && l.flash && !l.start && !l.stop && !l.delay

/-- A red lamp (1,1,1) on pins 2 and 3 that flashes steadily, with the given
alternatePhase and rampEnabled. -/
def flasher (alternate ramp : Bool) : signalLamp :=
  { lit := true, flash := true, alternate := alternate, start := false, stop := false,
    ramp := ramp, delay := false, mastNum := 1, headNum := 1, lampNum := 1,
    color := LSS_RED, anode := 2, cathode := 3 }

/-- The state after `powerOn` on zeroed memory with the lamp `l` put in front of the
sentinel and the cursor on it, in division `d` at pass count `c`. -/
def cursorOn (l : signalLamp) (d : Nat) (c : Int) : linesideSignal :=
  { powerOn refPlatform 0 zeroMemory with
      _lampList := l :: (powerOn refPlatform 0 zeroMemory)._lampList,
      _currentLED := some 0, _rampDiv := d, _cycleCount := c }

/-- The calls that register two red lamps on head (1,1), set them flashing in
alternation with `setAlternate` (lamp 1 in the normal phase, lamp 2 reversed), then
`setFlashRate(200)` and `n` calls of `updateSignals` 5000 microseconds apart. -/
def alternatingRun (n : Nat) : List Command :=
  [.addLamp 1 1 1 2 3 LSS_RED, .addLamp 1 1 2 3 2 LSS_RED, .setAlternate 1 1 1 false,
   .setAlternate 1 1 2 true, .setFlashRate 200] ++
    (List.range n).map (fun k => Command.updateSignals (clockAt (5000 * (k + 2))))

/-- The state after `alternatingRun 218`: both lamps have finished starting, the
division is 3 and the pass count 29; the cursor is on lamp 1. -/
def alternatingPair : linesideSignal :=
  (run refPlatform (powerOn refPlatform 0 zeroMemory) (alternatingRun 218)).getD zeroMemory

/-- The calls that register a red lamp (1,1,1), set it flashing in the reversed
phase, then `setFlashRate(200)`, 92 calls of `updateSignals` 5000 microseconds
apart and `clearHead(1,1)`. -/
def reversedHeldRun : List Command :=
  [.addLamp 1 1 1 2 3 LSS_RED, .setAlternate 1 1 1 true, .setFlashRate 200] ++
    (List.range 92).map (fun k => Command.updateSignals (clockAt (5000 * (k + 2)))) ++
    [.clearHead 1 1]

/-- The state after `reversedHeldRun`: in division 1 the reversed lamp is lit with
stopping and onHold set. -/
def reversedHeld : linesideSignal :=
  (run refPlatform (powerOn refPlatform 0 zeroMemory) reversedHeldRun).getD zeroMemory

/-- The state after `flashingRun 80`: the pass count is 80 with 8 cycles per
division. -/
def endOfPeriod : linesideSignal :=
  (run refPlatform (powerOn refPlatform 0 zeroMemory) (flashingRun 80)).getD zeroMemory

/-- The calls of `oneLampLitCalls`, one call of `updateSignals`, which moves the
cursor to lamp (0,0,1), and `clearHead(0,0)`, which turns the lamp dark. -/
def darkAgainCalls : List Command :=
  oneLampLitCalls ++ [.updateSignals (clockAt 10000), .clearHead 0 0]

/-- The state after `darkAgainCalls`: no lamp is lit and the cursor is on lamp
(0,0,1). -/
def darkAgain : linesideSignal :=
  (run refPlatform (powerOn refPlatform 0 zeroMemory) darkAgainCalls).getD zeroMemory

/-- The division clock over one pass through the lamps: the pass counter is
incremented, as at the end of `updateSignals` after a `newCycle`, and the next call
runs `if (_newRampState()) _advanceDivision();`. -/
def passClock (hw : Platform) (s : linesideSignal) : linesideSignal :=
  rampClock hw { s with _cycleCount := toInt (s._cycleCount + 1) }

/-- The division clock over `n` passes. -/
def passes (hw : Platform) : Nat → linesideSignal → linesideSignal
  | 0, s => s
  | n + 1, s => passes hw n (passClock hw s)

/-- The start scenario: a single lamp registered as (0,0,0, anode 2, cathode 3,
RED) after `powerOn` on zeroed memory, and `setLamp(0,0,0,true)`. -/
def startScenario : linesideSignal :=
  setLamp4 0 0 0 true (addLamp 0 0 0 2 3 LSS_RED (powerOn refPlatform 0 zeroMemory))

/-- A division boundary into division `d`: `_newRampState` stores the new division
and `updateSignals` calls `_advanceDivision`. -/
def boundary (d : Nat) (s : linesideSignal) : linesideSignal :=
  _advanceDivision { s with _rampDiv := d }

/-- The division boundaries into the divisions of `ds`, in order. -/
def boundaries (ds : List Nat) (s : linesideSignal) : linesideSignal :=
  ds.foldl (fun t d => boundary d t) s

/-- Calls that register two lamps, set the target cycle time to 20000 microseconds
and the flash rate to 200 flashes per minute, and light both lamps. -/
def slowCycleCalls : List Command :=
  [.addLamp 1 1 1 2 3 LSS_RED, .addLamp 1 1 2 3 2 LSS_RED, .setCycleTime 20000,
   .setFlashRate 200, .setLamp 1 1 1 true false, .setLamp 1 1 2 true false]

/-- The state after `slowCycleCalls` and one call of `updateSignals`. -/
def slowCycle : linesideSignal :=
  (run refPlatform (powerOn refPlatform 0 zeroMemory)
    (slowCycleCalls ++ [.updateSignals (clockAt 10000)])).getD zeroMemory

/-- Calls that register two lamps, set the target cycle time to 9600 microseconds and
the flash rate to 125 flashes per minute, and light both lamps. -/
def roundedCycleCalls : List Command :=
  [.addLamp 1 1 1 2 3 LSS_RED, .addLamp 1 1 2 3 2 LSS_GREEN, .setCycleTime 9600,
   .setFlashRate 125, .setLamp 1 1 1 true false, .setLamp 1 1 2 true false]

/-- The state after `roundedCycleCalls` and one call of `updateSignals`. -/
def roundedCycle : linesideSignal :=
  (run refPlatform (powerOn refPlatform 0 zeroMemory)
    (roundedCycleCalls ++ [.updateSignals (clockAt 10000)])).getD zeroMemory

/-- The calls of `alternatingRun 150`, then `setLampColor(1,1,2,LSS_GREEN)`, which
sets the reversed lamp 2 stopping, then `n` more calls of `updateSignals` 5000
microseconds apart. -/
def blockedStartRun (n : Nat) : List Command :=
  alternatingRun 150 ++ [Command.setLampColor 1 1 2 LSS_GREEN false] ++
    (List.range n).map (fun k => Command.updateSignals (clockAt (5000 * (k + 152))))

/-- The state after `blockedStartRun 57`: division 2 at pass count 24, one call
before division 3; lamp 1 (normal phase) is starting and off hold, lamp 2 (reversed
phase) is stopping. -/
def blockedStart : linesideSignal :=
  (run refPlatform (powerOn refPlatform 0 zeroMemory) (blockedStartRun 57)).getD zeroMemory

/-- The `do ... while (scanning)` loop of `_getNextLamp` run for at most the given
number of iterations, started at pointer `lamp` with the current value of
`newCycle`; `cur` is `_currentLED`.  The result is `none` when the loop has not
left after that many iterations, otherwise the lit lamp found (if any) and
`newCycle`. -/
def getNextLampLoop (lamps : List signalLamp) (cur : Nat) :
    Nat → Option Nat → Bool → Option (Option Nat × Bool)
  | 0, _, _ => none
  | fuel + 1, lamp, newCycle =>
    let lamp1 := match lamp with
      | none => 0
      | some i => i
    let newCycle1 := match lamp with
      | none => true
      | some _ => newCycle
    if (lamps.getD lamp1 nullLamp).isOn then some (some lamp1, newCycle1)
    else if lamp1 = cur then some (none, newCycle1)
    else getNextLampLoop lamps cur fuel (nextLamp lamps lamp1) newCycle1

/-- Successive calls of `_getNextLamp`: the cursor and `newCycle` after each of the
first `n` calls. -/
def sweep : Nat → linesideSignal → List (Option Nat × Bool)
  | 0, _ => []
  | n + 1, s =>
    ((_getNextLamp s).2.2._currentLED, (_getNextLamp s).2.1) :: sweep n (_getNextLamp s).2.2

/-- The indices of the lit lamps, in list order. -/
def litIndices (lamps : List signalLamp) : List Nat :=
  (List.range lamps.length).filter (fun i => (lamps.getD i nullLamp).isOn)

/-- The cursor `_currentLED` points at a lamp of the list. -/
def CursorOk (s : linesideSignal) : Prop :=
  ∃ cur, s._currentLED = some cur ∧ cur < s._lampList.length

/-! ## Theorems -/


/-! ### Machine integers -/

theorem toLong_of_range (x : Int) (h1 : -2147483648 ≤ x) (h2 : x < 2147483648) :
    toLong x = x := by
  unfold toLong Int.bmod
  norm_num
  omega

theorem toInt_of_range (x : Int) (h1 : -32768 ≤ x) (h2 : x < 32768) : toInt x = x := by
  unfold toInt Int.bmod
  norm_num
  omega

theorem toInt_range (x : Int) : -32768 ≤ toInt x ∧ toInt x < 32768 := by
  unfold toInt Int.bmod
  norm_num
  omega

theorem tdiv_bounds_nonneg (t n : Int) (ht : 0 ≤ t) (hn : 0 < n) :
    Int.tdiv t n = t / n ∧ 0 ≤ Int.tdiv t n ∧ Int.tdiv t n ≤ t := by
  have h := Int.tdiv_eq_ediv ht (le_of_lt hn)
  refine ⟨h, ?_, ?_⟩
  · exact Int.tdiv_nonneg ht (le_of_lt hn)
  · rw [h]
    exact Int.ediv_le_self n ht

theorem tdiv_bounds_nonpos (t n : Int) (ht : t ≤ 0) (hn : 0 < n) :
    t ≤ Int.tdiv t n ∧ Int.tdiv t n ≤ 0 := by
  have h := tdiv_bounds_nonneg (-t) n (by omega) hn
  rw [Int.neg_tdiv] at h
  omega

/-! ### The cycle-time controller -/

theorem _setFlashRate_pulse (hw : Platform) (rate : Int) (s : linesideSignal) :
    (_setFlashRate hw rate s)._pulseTimePerLED = s._pulseTimePerLED := by
  unfold _setFlashRate
  split <;> rfl

theorem _setFlashRate_cycleTime (hw : Platform) (rate : Int) (s : linesideSignal) :
    (_setFlashRate hw rate s)._cycleTime = s._cycleTime := by
  unfold _setFlashRate
  split <;> rfl

theorem _setFlashRate_lastLampCount (hw : Platform) (rate : Int) (s : linesideSignal) :
    (_setFlashRate hw rate s)._lastLampCount = s._lastLampCount := by
  unfold _setFlashRate
  split <;> rfl

/-- The values `_adjCycleTime` computes, from the target cycle time `t`, the
overhead `oh` and the lamp count `n`. -/
theorem _adjCycleTime_values (hw : Platform) (s : linesideSignal) :
    (_adjCycleTime hw s)._lastLampCount = _litLampCount s ∧
    (_adjCycleTime hw s)._pulseTimePerLED =
      max LSS_LED_MIN
        (cDiv hw s._targetCycleTime (if _litLampCount s = 0 then 1 else _litLampCount s)
          - _getOverhead s) ∧
    (_adjCycleTime hw s)._cycleTime =
      toLong (((_adjCycleTime hw s)._pulseTimePerLED + _getOverhead s) *
        (if _litLampCount s = 0 then 1 else _litLampCount s)) := by
  unfold _adjCycleTime
  simp only [_setFlashRate_pulse, _setFlashRate_cycleTime, _setFlashRate_lastLampCount]
  refine ⟨trivial, ?_, trivial⟩
  have key : ∀ x : Int, (if x < LSS_LED_MIN then LSS_LED_MIN else x) = max LSS_LED_MIN x := by
    intro x
    rw [max_def]
    split <;> split <;> omega
  exact key _

/-- C3: `_adjCycleTime` never leaves the per-LED pulse below `LSS_LED_MIN`. -/
theorem adjCycleTime_pulse_ge_min (hw : Platform) (s : linesideSignal) :
    LSS_LED_MIN ≤ (_adjCycleTime hw s)._pulseTimePerLED := by
  unfold _adjCycleTime
  simp only [_setFlashRate_pulse]
  split <;> omega

theorem _litLampCount_of_lt (s : linesideSignal)
    (hn : s._lampList.countP signalLamp.isOn < 32768) :
    _litLampCount s = (s._lampList.countP signalLamp.isOn : Int) := by
  unfold _litLampCount
  apply toInt_of_range <;> omega

theorem cycle_product_range (t oh n p : Int) (ht : -32768 ≤ t ∧ t < 32768)
    (hoh : -32768 ≤ oh ∧ oh < 32768) (hn : 1 ≤ n ∧ n < 32768)
    (hp : p = max LSS_LED_MIN (Int.tdiv t n - oh)) :
    -2147483648 ≤ (p + oh) * n ∧ (p + oh) * n < 2147483648 := by
  have hq : -32768 ≤ Int.tdiv t n ∧ Int.tdiv t n < 32768 := by
    rcases le_total 0 t with h | h
    · have := tdiv_bounds_nonneg t n h (by omega)
      omega
    · have := tdiv_bounds_nonpos t n h (by omega)
      omega
  have hx : -32768 ≤ p + oh ∧ p + oh ≤ 32967 := by
    rw [hp, max_def]
    have hmin : LSS_LED_MIN = 200 := rfl
    split <;> omega
  constructor
  · nlinarith [hx.1, hx.2, hn.1, hn.2]
  · nlinarith [hx.1, hx.2, hn.1, hn.2]

/-- Closed form of `_adjCycleTime` for a lamp count and a target that are values
of the 16-bit `int` type. -/
theorem _adjCycleTime_closed_form (hw : Platform) (s : linesideSignal)
    (hn : s._lampList.countP signalLamp.isOn < 32768)
    (ht : -32768 ≤ s._targetCycleTime ∧ s._targetCycleTime < 32768) :
    (_adjCycleTime hw s)._pulseTimePerLED =
        max 200 (Int.tdiv s._targetCycleTime
          (max 1 (s._lampList.countP signalLamp.isOn : Int)) - _getOverhead s) ∧
    (_adjCycleTime hw s)._cycleTime =
        ((_adjCycleTime hw s)._pulseTimePerLED + _getOverhead s) *
          max 1 (s._lampList.countP signalLamp.isOn : Int) ∧
    (_adjCycleTime hw s)._lastLampCount = (s._lampList.countP signalLamp.isOn : Int) ∧
    (0 ≤ s._targetCycleTime →
      Int.tdiv s._targetCycleTime (max 1 (s._lampList.countP signalLamp.isOn : Int)) =
        s._targetCycleTime / max 1 (s._lampList.countP signalLamp.isOn : Int)) := by
  obtain ⟨h1, h2, h3⟩ := _adjCycleTime_values hw s
  have hc := _litLampCount_of_lt s hn
  have hnum : (if _litLampCount s = 0 then 1 else _litLampCount s) =
      max 1 (s._lampList.countP signalLamp.isOn : Int) := by
    rw [hc, max_def]
    split <;> split <;> omega
  have hpos : 1 ≤ max 1 (s._lampList.countP signalLamp.isOn : Int) := le_max_left _ _
  have hlt : max 1 (s._lampList.countP signalLamp.isOn : Int) < 32768 := by
    rw [max_def]
    split <;> omega
  rw [hnum] at h2 h3
  have hdiv : cDiv hw s._targetCycleTime (max 1 (s._lampList.countP signalLamp.isOn : Int)) =
      Int.tdiv s._targetCycleTime (max 1 (s._lampList.countP signalLamp.isOn : Int)) := by
    unfold cDiv
    rw [if_neg (by omega)]
  rw [hdiv] at h2
  refine ⟨h2, ?_, ?_, ?_⟩
  · rw [h3]
    have hr := cycle_product_range s._targetCycleTime (_getOverhead s) _ _ ht
      (toInt_range _) ⟨hpos, hlt⟩ h2
    exact toLong_of_range _ hr.1 hr.2
  · rw [h1, hc]
  · intro h0
    exact (tdiv_bounds_nonneg _ _ h0 (by omega)).1

/-- C4: with `n = max(1, number of lit lamps)` and `oh = _getOverhead()`,
`_adjCycleTime` sets `_pulseTimePerLED = max(200, (targetCycleTime div n) - oh)`
(`div` is the integer division of C, which for a target that is not negative is
the floor of the quotient), `_cycleTime = (_pulseTimePerLED + oh) * n`, and
`_lastLampCount` to the number of lit lamps.  The lamp count and the target are
values of the 16-bit `int` type. -/
theorem adjCycleTime_formula (hw : Platform) (s : linesideSignal)
    (hn : s._lampList.countP signalLamp.isOn < 32768)
    (ht : -32768 ≤ s._targetCycleTime ∧ s._targetCycleTime < 32768) :
    (_adjCycleTime hw s)._pulseTimePerLED =
        max 200 (Int.tdiv s._targetCycleTime
          (max 1 (s._lampList.countP signalLamp.isOn : Int)) - _getOverhead s) ∧
    (_adjCycleTime hw s)._cycleTime =
        ((_adjCycleTime hw s)._pulseTimePerLED + _getOverhead s) *
          max 1 (s._lampList.countP signalLamp.isOn : Int) ∧
    (_adjCycleTime hw s)._lastLampCount = (s._lampList.countP signalLamp.isOn : Int) ∧
    (0 ≤ s._targetCycleTime →
      Int.tdiv s._targetCycleTime (max 1 (s._lampList.countP signalLamp.isOn : Int)) =
        s._targetCycleTime / max 1 (s._lampList.countP signalLamp.isOn : Int)) :=
  _adjCycleTime_closed_form hw s hn ht

/-- Witness of `adjCycleTime_formula`: six lamps, one of them lit, target 2500. -/
theorem adjCycleTime_formula_witness :
    (oneLampLit._lampList.countP signalLamp.isOn < 32768 ∧
      (-32768 ≤ oneLampLit._targetCycleTime ∧ oneLampLit._targetCycleTime < 32768)) ∧
    (_adjCycleTime refPlatform oneLampLit)._pulseTimePerLED =
        max 200 (Int.tdiv oneLampLit._targetCycleTime
          (max 1 (oneLampLit._lampList.countP signalLamp.isOn : Int)) -
            _getOverhead oneLampLit) :=
  ⟨by decide, (adjCycleTime_formula refPlatform oneLampLit (by decide) (by decide)).1⟩

/-- What `_adjCycleTime` computes for one and for six lit lamps, from the same
target and the same overhead average. -/
theorem _adjCycleTime_one_six (hw : Platform) (s1 s6 : linesideSignal)
    (ht : s1._targetCycleTime = s6._targetCycleTime)
    (ho : _getOverhead s1 = _getOverhead s6)
    (h1 : s1._lampList.countP signalLamp.isOn = 1)
    (h6 : s6._lampList.countP signalLamp.isOn = 6)
    (hr : 0 ≤ s1._targetCycleTime ∧ s1._targetCycleTime < 32768) :
    (_adjCycleTime hw s1)._pulseTimePerLED = max 200 (s1._targetCycleTime - _getOverhead s1) ∧
    (_adjCycleTime hw s1)._cycleTime =
      (max 200 (s1._targetCycleTime - _getOverhead s1) + _getOverhead s1) * 1 ∧
    (_adjCycleTime hw s6)._pulseTimePerLED =
      max 200 (s1._targetCycleTime / 6 - _getOverhead s1) ∧
    (_adjCycleTime hw s6)._cycleTime =
      (max 200 (s1._targetCycleTime / 6 - _getOverhead s1) + _getOverhead s1) * 6 := by
  have a1 := _adjCycleTime_closed_form hw s1 (by omega) (by omega)
  have a6 := _adjCycleTime_closed_form hw s6 (by omega) (by omega)
  rw [h1] at a1
  rw [h6, ← ht, ← ho] at a6
  have m1 : max (1 : Int) ((1 : Nat) : Int) = 1 := by decide
  have m6 : max (1 : Int) ((6 : Nat) : Int) = 6 := by decide
  rw [m1] at a1
  rw [m6] at a6
  obtain ⟨p1, c1, -, -⟩ := a1
  obtain ⟨p6, c6, -, d6⟩ := a6
  rw [Int.tdiv_one] at p1
  rw [d6 hr.1] at p6
  rw [p1] at c1
  rw [p6] at c6
  exact ⟨p1, c1, p6, c6⟩

/-- C5 as stated fails: from the default target (2500) and the overhead average
left by the constructor (6), `_adjCycleTime` computes the cycle time 2500 for one
lit lamp and 2496 for six. -/
theorem litCountJump_counterexample :
    oneLampLit._targetCycleTime = sixLampsLit._targetCycleTime ∧
    _getOverhead oneLampLit = _getOverhead sixLampsLit ∧
    oneLampLit._lampList.countP signalLamp.isOn = 1 ∧
    sixLampsLit._lampList.countP signalLamp.isOn = 6 ∧
    (_adjCycleTime refPlatform oneLampLit)._cycleTime = 2500 ∧
    (_adjCycleTime refPlatform sixLampsLit)._cycleTime = 2496 ∧
    ¬ ((_adjCycleTime refPlatform sixLampsLit)._pulseTimePerLED ≤
          (_adjCycleTime refPlatform oneLampLit)._pulseTimePerLED ∧
        (_adjCycleTime refPlatform sixLampsLit)._cycleTime ≥
          (_adjCycleTime refPlatform oneLampLit)._cycleTime) := by
  decide

/-- C5, amended: for the same target cycle time (a value of `int` that is not
negative) and the same overhead average, the values `_adjCycleTime` computes
for 6 lit lamps and for 1 lit lamp satisfy `perLedPulse(6) <= perLedPulse(1)` and
`cycleTime(6) >= cycleTime(1) - 5`; when the target is a multiple of 6,
`cycleTime(6) >= cycleTime(1)`. -/
theorem litCountJump (hw : Platform) (s1 s6 : linesideSignal)
    (ht : s1._targetCycleTime = s6._targetCycleTime)
    (ho : _getOverhead s1 = _getOverhead s6)
    (h1 : s1._lampList.countP signalLamp.isOn = 1)
    (h6 : s6._lampList.countP signalLamp.isOn = 6)
    (hr : 0 ≤ s1._targetCycleTime ∧ s1._targetCycleTime < 32768) :
    (_adjCycleTime hw s6)._pulseTimePerLED ≤ (_adjCycleTime hw s1)._pulseTimePerLED ∧
    (_adjCycleTime hw s6)._cycleTime ≥ (_adjCycleTime hw s1)._cycleTime - 5 ∧
    (s1._targetCycleTime % 6 = 0 →
      (_adjCycleTime hw s6)._cycleTime ≥ (_adjCycleTime hw s1)._cycleTime) := by
  obtain ⟨p1, c1, p6, c6⟩ := _adjCycleTime_one_six hw s1 s6 ht ho h1 h6 hr
  rw [p1, c1, p6, c6]
  simp only [max_def]
  refine ⟨?_, ?_, ?_⟩
  · split <;> split <;> omega
  · split <;> split <;> omega
  · intro hm
    split <;> split <;> omega

/-- Witness of `litCountJump`: one and six lit lamps at the default target. -/
theorem litCountJump_witness :
    (_adjCycleTime refPlatform sixLampsLit)._pulseTimePerLED ≤
        (_adjCycleTime refPlatform oneLampLit)._pulseTimePerLED ∧
    (_adjCycleTime refPlatform sixLampsLit)._cycleTime ≥
        (_adjCycleTime refPlatform oneLampLit)._cycleTime - 5 :=
  ⟨(litCountJump refPlatform oneLampLit sixLampsLit (by decide) (by decide) (by decide)
      (by decide) (by decide)).1,
   (litCountJump refPlatform oneLampLit sixLampsLit (by decide) (by decide) (by decide)
      (by decide) (by decide)).2.1⟩

/-! ### `setLamp` -/

theorem setLampLamp_snd (m h l : Nat) (f : Bool) (lamp : signalLamp) :
    (setLampLamp m h l f lamp).2 = false := by
  unfold setLampLamp
  dsimp only
  split_ifs <;> rfl

theorem setLampLamp_twice (m h l : Nat) (f : Bool) (lamp : signalLamp) :
    (setLampLamp m h l f (setLampLamp m h l f lamp).1).1 = (setLampLamp m h l f lamp).1 := by
  unfold setLampLamp
  cases lamp
  simp only [signalLamp.setBitFlag, signalLamp.isOn, signalLamp.getBitFlag]
  split_ifs <;> simp_all

theorem forEachLamp_eq_of_no_kill (body : signalLamp → signalLamp × Bool)
    (hb : ∀ lamp, (body lamp).2 = false) (s : linesideSignal) :
    forEachLamp body s = { s with _lampList := s._lampList.map (fun lamp => (body lamp).1) } := by
  unfold forEachLamp
  simp [hb]

theorem setLamp_twice (m h l : Nat) (lit f : Bool) (s : linesideSignal) :
    setLamp m h l lit f (setLamp m h l lit f s) = setLamp m h l lit f s := by
  unfold setLamp
  cases hs : s._setupIsDone
  · simp [hs]
  · simp only [Bool.not_true, Bool.false_eq_true, if_false]
    rw [forEachLamp_eq_of_no_kill _ (setLampLamp_snd m h l f)]
    simp only [hs, Bool.not_true, Bool.false_eq_true, if_false]
    rw [forEachLamp_eq_of_no_kill _ (setLampLamp_snd m h l f)]
    simp [setLampLamp_twice]

/-- C7: issuing `setLamp(m,h,l,true)` twice in a row leaves the same state as
issuing it once, with either form of the call (flashing given or omitted). -/
theorem setLamp_idempotent (m h l : Nat) (flashing : Bool) (s : linesideSignal) :
    setLamp m h l true flashing (setLamp m h l true flashing s) =
        setLamp m h l true flashing s ∧
    setLamp4 m h l true (setLamp4 m h l true s) = setLamp4 m h l true s :=
  ⟨setLamp_twice m h l true flashing s, setLamp_twice m h l true false s⟩

theorem forEachLamp_forall₂ (body : signalLamp → signalLamp × Bool)
    (R : signalLamp → signalLamp → Prop) (hR : ∀ lamp, R lamp (body lamp).1)
    (s : linesideSignal) : List.Forall₂ R s._lampList (forEachLamp body s)._lampList := by
  unfold forEachLamp
  simp only [List.forall₂_map_right_iff, List.forall₂_same]
  intro x _
  exact hR x

/-- C8: after `setLamp(m,h,l,lit,flashing)` (setup done), every lamp matching
(m,h,l) has its flashing flag equal to the argument; if it was unlit it is now lit,
starting and on hold with stopping cleared; if it was lit, none of lit, starting,
stopping, onHold, alternatePhase, rampEnabled has changed.  Lamps that do not
match are unchanged. -/
theorem setLamp_postcondition (m h l : Nat) (lit flashing : Bool) (s : linesideSignal)
    (hs : s._setupIsDone = true) :
    List.Forall₂
      (fun old new =>
        (old.mastNum = m ∧ old.headNum = h ∧ old.lampNum = l →
          new.flash = flashing ∧
          (old.lit = false →
            new.lit = true ∧ new.start = true ∧ new.delay = true ∧ new.stop = false) ∧
          (old.lit = true →
            new.lit = old.lit ∧ new.start = old.start ∧ new.stop = old.stop ∧
            new.delay = old.delay ∧ new.alternate = old.alternate ∧ new.ramp = old.ramp)) ∧
        (¬ (old.mastNum = m ∧ old.headNum = h ∧ old.lampNum = l) → new = old))
      s._lampList (setLamp m h l lit flashing s)._lampList := by
  unfold setLamp
  simp only [hs, Bool.not_true, Bool.false_eq_true, if_false]
  apply forEachLamp_forall₂
  intro lamp
  unfold setLampLamp
  cases lamp
  simp only [signalLamp.setBitFlag, signalLamp.isOn, signalLamp.getBitFlag]
  split_ifs <;> simp_all

/-- Witness of `setLamp_postcondition`: lamp 1 of six dark lamps is turned on. -/
theorem setLamp_postcondition_witness :
    sixLampsDark._setupIsDone = true ∧
    List.Forall₂
      (fun old new =>
        (old.mastNum = 0 ∧ old.headNum = 0 ∧ old.lampNum = 1 →
          new.flash = true ∧
          (old.lit = false →
            new.lit = true ∧ new.start = true ∧ new.delay = true ∧ new.stop = false) ∧
          (old.lit = true →
            new.lit = old.lit ∧ new.start = old.start ∧ new.stop = old.stop ∧
            new.delay = old.delay ∧ new.alternate = old.alternate ∧ new.ramp = old.ramp)) ∧
        (¬ (old.mastNum = 0 ∧ old.headNum = 0 ∧ old.lampNum = 1) → new = old))
      sixLampsDark._lampList (setLamp 0 0 1 true true sixLampsDark)._lampList :=
  ⟨by decide, setLamp_postcondition 0 0 1 true true sixLampsDark (by decide)⟩

/-- C9 fails on the code: lamp (0,0,1) of the six dark lamps is unlit, and after
`setLamp(0,0,1,false,false)` it is lit and starting; the `lit` argument is never
read, so the call does what `setLamp(0,0,1,true,false)` does. -/
theorem setLamp_off_turns_lamp_on :
    (sixLampsDark._lampList.filter
        (fun l => l.mastNum = 0 ∧ l.headNum = 0 ∧ l.lampNum = 1)).map
      (fun l => (l.lit, l.start)) = [(false, false)] ∧
    ((setLamp 0 0 1 false false sixLampsDark)._lampList.filter
        (fun l => l.mastNum = 0 ∧ l.headNum = 0 ∧ l.lampNum = 1)).map
      (fun l => (l.lit, l.start)) = [(true, true)] ∧
    setLamp 0 0 1 false false sixLampsDark = setLamp 0 0 1 true false sixLampsDark :=
  ⟨by decide, by decide, rfl⟩

/-! ### What the loops do to one lamp -/

theorem _goDark_keepsRamp (cur lamp : signalLamp) : keepsRamp lamp (_goDark cur lamp).1 := by
  unfold _goDark keepsRamp signalLamp.darkIsClear
  cases lamp
  simp [signalLamp.setBitFlag]

theorem clearHeadLamp_keepsRamp (cur : signalLamp) (m h : Nat) (lamp : signalLamp) :
    keepsRamp lamp (clearHeadLamp cur m h lamp).1 := by
  unfold clearHeadLamp _goDark keepsRamp signalLamp.darkIsClear
  cases lamp
  simp only [signalLamp.setBitFlag, signalLamp.isOn, signalLamp.isStart, signalLamp.isStop,
    signalLamp.onHold, signalLamp.getBitFlag]
  split_ifs <;> simp_all

theorem setLampLamp_keepsRamp (m h l : Nat) (f : Bool) (lamp : signalLamp) :
    keepsRamp lamp (setLampLamp m h l f lamp).1 := by
  unfold setLampLamp keepsRamp signalLamp.darkIsClear
  cases lamp
  simp only [signalLamp.setBitFlag, signalLamp.isOn, signalLamp.getBitFlag]
  split_ifs <;> simp_all

theorem setAlternateLamp_keepsRamp (m h l : Nat) (a : Bool) (lamp : signalLamp) :
    keepsRamp lamp (setAlternateLamp m h l a lamp).1 := by
  unfold setAlternateLamp keepsRamp signalLamp.darkIsClear
  cases lamp
  simp only [signalLamp.setBitFlag]
  split_ifs <;> simp_all

theorem setHeadColorLamp_keepsRamp (cur : signalLamp) (m h c : Nat) (f : Bool)
    (lamp : signalLamp) : keepsRamp lamp (setHeadColorLamp cur m h c f lamp).1 := by
  unfold setHeadColorLamp shutDownLamp _goDark keepsRamp signalLamp.darkIsClear
  cases lamp
  simp only [signalLamp.setBitFlag, signalLamp.isOn, signalLamp.isStart, signalLamp.isStop,
    signalLamp.usesRamp, signalLamp.getBitFlag]
  split_ifs <;> simp_all

theorem setLampColorLamp_keepsRamp (cur : signalLamp) (m h l c : Nat) (f : Bool)
    (lamp : signalLamp) : keepsRamp lamp (setLampColorLamp cur m h l c f lamp).1 := by
  unfold setLampColorLamp shutDownLamp _goDark keepsRamp signalLamp.darkIsClear
  cases lamp
  simp only [signalLamp.setBitFlag, signalLamp.isOn, signalLamp.isStart, signalLamp.isStop,
    signalLamp.usesRamp, signalLamp.getBitFlag]
  split_ifs <;> simp_all

theorem advanceLampsLamp_keepsRamp (cur : signalLamp) (toClear : Nat) (doAlt : Bool)
    (lamp : signalLamp) : keepsRamp lamp (advanceLampsLamp cur toClear doAlt lamp).1 := by
  unfold advanceLampsLamp _goDark keepsRamp signalLamp.darkIsClear
  cases lamp
  simp only [signalLamp.setBitFlag, signalLamp.isReversed, signalLamp.isStart,
    signalLamp.isStop, signalLamp.onHold, signalLamp.getBitFlag]
  split_ifs <;> simp_all

theorem releaseHoldLamp_keepsRamp (toClear : Nat) (doAlt : Bool) (lamp : signalLamp) :
    keepsRamp lamp (releaseHoldLamp toClear doAlt lamp).1 := by
  unfold releaseHoldLamp keepsRamp signalLamp.darkIsClear
  cases lamp
  simp only [signalLamp.setBitFlag, signalLamp.isReversed, signalLamp.isStart,
    signalLamp.isStop, signalLamp.onHold, signalLamp.getBitFlag]
  split_ifs <;> simp_all

/-! ### Frame properties -/

theorem sameDrive_refl (s : linesideSignal) : SameDrive s s :=
  ⟨rfl, rfl, rfl, rfl, rfl, rfl⟩

theorem sameDrive_trans {s t u : linesideSignal} (h1 : SameDrive s t) (h2 : SameDrive t u) :
    SameDrive s u :=
  ⟨h2.1.trans h1.1, h2.2.1.trans h1.2.1, h2.2.2.1.trans h1.2.2.1,
    h2.2.2.2.1.trans h1.2.2.2.1, h2.2.2.2.2.1.trans h1.2.2.2.2.1,
    h2.2.2.2.2.2.trans h1.2.2.2.2.2⟩

theorem Electrical.of_sameDrive {s t : linesideSignal} {a c : Nat} (h : SameDrive s t)
    (he : Electrical s a c) : Electrical t a c := by
  unfold SameDrive at h
  unfold Electrical at *
  rw [h.1, h.2.1, h.2.2.1, h.2.2.2.1, h.2.2.2.2.1, h.2.2.2.2.2]
  exact he

theorem sameButTiming_refl (s : linesideSignal) : SameButTiming s s :=
  ⟨sameDrive_refl s, rfl, rfl, rfl, rfl, rfl⟩

theorem sameButTiming_trans {s t u : linesideSignal} (h1 : SameButTiming s t)
    (h2 : SameButTiming t u) : SameButTiming s u := by
  refine ⟨sameDrive_trans h1.1 h2.1, ?_, ?_, ?_, ?_, ?_⟩
  · exact h2.2.1.trans h1.2.1
  · exact h2.2.2.1.trans h1.2.2.1
  · exact h2.2.2.2.1.trans h1.2.2.2.1
  · exact h2.2.2.2.2.1.trans h1.2.2.2.2.1
  · exact h2.2.2.2.2.2.trans h1.2.2.2.2.2

theorem _setFlashRate_frame (hw : Platform) (rate : Int) (s : linesideSignal) :
    SameButTiming s (_setFlashRate hw rate s) := by
  unfold _setFlashRate
  split
  · exact sameButTiming_refl s
  · exact ⟨⟨rfl, rfl, rfl, rfl, rfl, rfl⟩, rfl, rfl, rfl, rfl, rfl⟩

theorem _adjCycleTime_frame (hw : Platform) (s : linesideSignal) :
    SameButTiming s (_adjCycleTime hw s) := by
  unfold _adjCycleTime
  dsimp only
  refine sameButTiming_trans ?_ (_setFlashRate_frame _ _ _)
  exact ⟨⟨rfl, rfl, rfl, rfl, rfl, rfl⟩, rfl, rfl, rfl, rfl, rfl⟩

theorem _resetCycleTime_frame (hw : Platform) (s : linesideSignal) :
    SameButTiming s (_resetCycleTime hw s) := by
  unfold _resetCycleTime
  refine sameButTiming_trans ?_ (_adjCycleTime_frame _ _)
  exact ⟨⟨rfl, rfl, rfl, rfl, rfl, rfl⟩, rfl, rfl, rfl, rfl, rfl⟩

theorem setCycleTime_frame (hw : Platform) (cycle : Int) (s : linesideSignal) :
    SameButTiming s (setCycleTime hw cycle s) := by
  unfold setCycleTime
  dsimp only
  split_ifs
  · exact sameButTiming_refl s
  · exact sameButTiming_refl s
  · refine sameButTiming_trans ?_ (_resetCycleTime_frame _ _)
    exact ⟨⟨rfl, rfl, rfl, rfl, rfl, rfl⟩, rfl, rfl, rfl, rfl, rfl⟩
  · exact ⟨⟨rfl, rfl, rfl, rfl, rfl, rfl⟩, rfl, rfl, rfl, rfl, rfl⟩

theorem setFlashRate_frame (hw : Platform) (rate : Int) (s : linesideSignal) :
    SameButTiming s (setFlashRate hw rate s) := by
  unfold setFlashRate
  split_ifs
  · exact sameButTiming_refl s
  · exact sameButTiming_refl s
  · exact _setFlashRate_frame _ _ _

theorem _lightTimerStart_frame (usec startTime micros : Int) (s : linesideSignal) :
    SameButTiming s (_lightTimerStart usec startTime micros s) := by
  unfold _lightTimerStart
  split <;> exact ⟨⟨rfl, rfl, rfl, rfl, rfl, rfl⟩, rfl, rfl, rfl, rfl, rfl⟩

theorem _averageOverhead_frame (newVal : Int) (s : linesideSignal) :
    SameButTiming s (_averageOverhead newVal s) :=
  ⟨⟨rfl, rfl, rfl, rfl, rfl, rfl⟩, rfl, rfl, rfl, rfl, rfl⟩

theorem _averageLoop_frame (newVal : Int) (s : linesideSignal) :
    SameButTiming s (_averageLoop newVal s) :=
  ⟨⟨rfl, rfl, rfl, rfl, rfl, rfl⟩, rfl, rfl, rfl, rfl, rfl⟩

theorem recordTimes_frame (clk : Clock) (timerExp newCycle : Bool) (s : linesideSignal) :
    SameButTiming s (recordTimes clk timerExp newCycle s) := by
  unfold recordTimes
  dsimp only
  have h1 : SameButTiming s
      (if timerExp = true then
        _averageOverhead (toLong (toLong clk.now - toLong clk.beforeTime)) s else s) := by
    split
    · exact _averageOverhead_frame _ _
    · exact sameButTiming_refl s
  generalize (if timerExp = true then
        _averageOverhead (toLong (toLong clk.now - toLong clk.beforeTime)) s else s) = s1 at h1
  have h2 : SameButTiming s1
      (if newCycle = true then { s1 with _cycleCount := toInt (s1._cycleCount + 1) }
        else s1) := by
    split
    · exact ⟨⟨rfl, rfl, rfl, rfl, rfl, rfl⟩, rfl, rfl, rfl, rfl, rfl⟩
    · exact sameButTiming_refl s1
  generalize (if newCycle = true then { s1 with _cycleCount := toInt (s1._cycleCount + 1) }
        else s1) = s2 at h2
  refine sameButTiming_trans h1 (sameButTiming_trans h2 ?_)
  split
  · refine sameButTiming_trans ?_ (_averageLoop_frame _ _)
    exact ⟨⟨rfl, rfl, rfl, rfl, rfl, rfl⟩, rfl, rfl, rfl, rfl, rfl⟩
  · refine sameButTiming_trans ?_ (_averageLoop_frame _ _)
    exact ⟨⟨rfl, rfl, rfl, rfl, rfl, rfl⟩, rfl, rfl, rfl, rfl, rfl⟩

/-! ### Steps that rewrite the lamps -/

theorem keepsRamp_refl (l : signalLamp) : keepsRamp l l :=
  ⟨rfl, rfl, rfl, id⟩

theorem keepsRamp_trans {a b c : signalLamp} (h1 : keepsRamp a b) (h2 : keepsRamp b c) :
    keepsRamp a c :=
  ⟨h2.1.trans h1.1, h2.2.1.trans h1.2.1, h2.2.2.1.trans h1.2.2.1,
    fun h => h2.2.2.2 (h1.2.2.2 h)⟩

theorem keepsRamp.rewrites {a b : signalLamp} (h : keepsRamp a b) : rewrites a b :=
  ⟨h.1, h.2.1, h.2.2.2, Or.inl h.2.2.1⟩

theorem RewriteStep.mono {R Q : signalLamp → signalLamp → Prop} {s t : linesideSignal}
    (hRQ : ∀ a b, R a b → Q a b) (h : RewriteStep R s t) : RewriteStep Q s t := by
  obtain ⟨⟨F, hF, hl⟩, hd, hs⟩ := h
  exact ⟨⟨F, fun l => hRQ _ _ (hF l), hl⟩, hd, hs⟩

theorem rewriteStep_refl (s : linesideSignal) : RewriteStep keepsRamp s s :=
  ⟨⟨id, fun l => keepsRamp_refl l, (List.map_id _).symm⟩, sameDrive_refl s, rfl⟩

theorem rewriteStep_trans {s t u : linesideSignal} (h1 : RewriteStep keepsRamp s t)
    (h2 : RewriteStep keepsRamp t u) : RewriteStep keepsRamp s u := by
  obtain ⟨⟨F, hF, hl⟩, hd, hs⟩ := h1
  obtain ⟨⟨G, hG, hl2⟩, hd2, hs2⟩ := h2
  refine ⟨⟨G ∘ F, fun l => keepsRamp_trans (hF l) (hG (F l)), ?_⟩, sameDrive_trans hd hd2, hs2.trans hs⟩
  rw [hl2, hl, List.map_map]

theorem rewriteStep_of_sameButTiming {s t : linesideSignal} (h : SameButTiming s t) :
    RewriteStep keepsRamp s t := by
  obtain ⟨hd, hl, -, hs, -, -⟩ := h
  exact ⟨⟨id, fun l => keepsRamp_refl l, by rw [hl, List.map_id]⟩, hd, hs⟩

theorem forEachLamp_step (R : signalLamp → signalLamp → Prop)
    (body : signalLamp → signalLamp × Bool) (hR : ∀ l, R l (body l).1) (s : linesideSignal) :
    RewriteStep R s (forEachLamp body s) ∧ (forEachLamp body s)._currentLED = s._currentLED :=
  ⟨⟨⟨fun l => (body l).1, hR, rfl⟩, ⟨rfl, rfl, rfl, rfl, rfl, rfl⟩, rfl⟩, rfl⟩

theorem setRampLamp_rewrites (m h l : Nat) (r : Bool) (lamp : signalLamp) :
    rewrites lamp (setRampLamp m h l r lamp).1 := by
  unfold setRampLamp rewrites signalLamp.darkIsClear
  cases lamp
  simp only [signalLamp.setBitFlag]
  split_ifs <;> simp_all

theorem setRamp_step (m h l : Nat) (r : Bool) (s : linesideSignal) :
    RewriteStep rewrites s (setRamp m h l r s) ∧ (setRamp m h l r s)._currentLED = s._currentLED := by
  unfold setRamp
  split
  · exact ⟨(rewriteStep_refl s).mono (fun _ _ => keepsRamp.rewrites), rfl⟩
  · exact forEachLamp_step _ _ (setRampLamp_rewrites m h l r) s

theorem clearHead_step (m h : Nat) (s : linesideSignal) :
    RewriteStep keepsRamp s (clearHead m h s) ∧ (clearHead m h s)._currentLED = s._currentLED := by
  unfold clearHead
  split
  · exact ⟨rewriteStep_refl s, rfl⟩
  · exact forEachLamp_step _ _ (clearHeadLamp_keepsRamp _ m h) s

theorem setLamp_step (m h l : Nat) (lit f : Bool) (s : linesideSignal) :
    RewriteStep keepsRamp s (setLamp m h l lit f s) ∧
      (setLamp m h l lit f s)._currentLED = s._currentLED := by
  unfold setLamp
  split
  · exact ⟨rewriteStep_refl s, rfl⟩
  · exact forEachLamp_step _ _ (setLampLamp_keepsRamp m h l f) s

theorem setAlternate_step (m h l : Nat) (a : Bool) (s : linesideSignal) :
    RewriteStep keepsRamp s (setAlternate m h l a s) ∧
      (setAlternate m h l a s)._currentLED = s._currentLED := by
  unfold setAlternate
  split
  · exact ⟨rewriteStep_refl s, rfl⟩
  · exact forEachLamp_step _ _ (setAlternateLamp_keepsRamp m h l a) s

theorem setLampColor_step (m h l c : Nat) (f : Bool) (s : linesideSignal) :
    RewriteStep keepsRamp s (setLampColor m h l c f s) ∧
      (setLampColor m h l c f s)._currentLED = s._currentLED := by
  unfold setLampColor
  split_ifs
  · exact ⟨rewriteStep_refl s, rfl⟩
  · exact ⟨rewriteStep_refl s, rfl⟩
  · exact forEachLamp_step _ _ (setLampColorLamp_keepsRamp _ m h l c f) s

theorem setHeadColor_step (m h c : Nat) (f : Bool) (s : linesideSignal) :
    RewriteStep keepsRamp s (setHeadColor m h c f s) ∧
      (setHeadColor m h c f s)._currentLED = s._currentLED := by
  unfold setHeadColor
  dsimp only
  split_ifs
  · exact ⟨rewriteStep_refl s, rfl⟩
  · exact clearHead_step m h s
  · have h1 := clearHead_step m h s
    have h2 := forEachLamp_step _ _
      (setHeadColorLamp_keepsRamp (clearHead m h s).currentLamp m h c f) (clearHead m h s)
    exact ⟨rewriteStep_trans h1.1 h2.1, h2.2.trans h1.2⟩

theorem _advanceLamps_step (toClear : Nat) (doAlt : Bool) (s : linesideSignal) :
    RewriteStep keepsRamp s (_advanceLamps toClear doAlt s) ∧
      (_advanceLamps toClear doAlt s)._currentLED = s._currentLED :=
  forEachLamp_step _ _ (advanceLampsLamp_keepsRamp _ toClear doAlt) s

theorem _releaseHold_step (toClear : Nat) (doAlt : Bool) (s : linesideSignal) :
    RewriteStep keepsRamp s (_releaseHold toClear doAlt s) ∧
      (_releaseHold toClear doAlt s)._currentLED = s._currentLED :=
  forEachLamp_step _ _ (releaseHoldLamp_keepsRamp toClear doAlt) s

/-! ### Pins -/

theorem drivenHigh_pinModeInput {pins : Nat → Pin} {x q : Nat}
    (h : drivenHigh (pinModeInput pins x q)) : drivenHigh (pins q) ∧ q ≠ x := by
  unfold pinModeInput drivenHigh at *
  by_cases hq : q = x
  · simp [hq] at h
  · simpa [hq] using h

theorem drivenLow_pinModeInput {pins : Nat → Pin} {x q : Nat}
    (h : drivenLow (pinModeInput pins x q)) : drivenLow (pins q) ∧ q ≠ x := by
  unfold pinModeInput drivenLow at *
  by_cases hq : q = x
  · simp [hq] at h
  · simpa [hq] using h

theorem drivenHigh_write_high {pins : Nat → Pin} {x q : Nat}
    (h : drivenHigh (digitalWrite (pinModeOutput pins x) x true q)) :
    q = x ∨ drivenHigh (pins q) := by
  unfold digitalWrite pinModeOutput drivenHigh at *
  by_cases hq : q = x
  · exact Or.inl hq
  · right
    simpa [hq] using h

theorem drivenLow_write_high {pins : Nat → Pin} {x q : Nat}
    (h : drivenLow (digitalWrite (pinModeOutput pins x) x true q)) :
    drivenLow (pins q) ∧ q ≠ x := by
  unfold digitalWrite pinModeOutput drivenLow at *
  by_cases hq : q = x
  · simp [hq] at h
  · simpa [hq] using h

theorem drivenLow_write_low {pins : Nat → Pin} {x q : Nat}
    (h : drivenLow (digitalWrite (pinModeOutput pins x) x false q)) :
    q = x ∨ drivenLow (pins q) := by
  unfold digitalWrite pinModeOutput drivenLow at *
  by_cases hq : q = x
  · exact Or.inl hq
  · right
    simpa [hq] using h

theorem drivenHigh_write_low {pins : Nat → Pin} {x q : Nat}
    (h : drivenHigh (digitalWrite (pinModeOutput pins x) x false q)) :
    drivenHigh (pins q) ∧ q ≠ x := by
  unfold digitalWrite pinModeOutput drivenHigh at *
  by_cases hq : q = x
  · simp [hq] at h
  · simpa [hq] using h

theorem toInt_zero : toInt 0 = 0 := by decide

theorem toInt_one : toInt 1 = 1 := by decide

/-! ### The four pin-switching functions -/

theorem _anodeDisable_eq (a : Nat) (s : linesideSignal) (hs : s._suppressLEDs = false) :
    _anodeDisable a s =
      if _goodPin a = true then
        { s with _anodeCount := toInt (s._anodeCount - 1), pins := pinModeInput s.pins a }
      else s := by
  unfold _anodeDisable
  cases hg : _goodPin a <;> simp [hs]

theorem _anodeDisable_spec (s : linesideSignal) (la c x : Nat) (he : Electrical s la c)
    (hon : s._anodeOn = true) :
    Electrical { _anodeDisable la s with _anodeOn := false } x c ∧
    SameButDrive s { _anodeDisable la s with _anodeOn := false } ∧
    ({ _anodeDisable la s with _anodeOn := false } : linesideSignal)._cathodeOn =
      s._cathodeOn := by
  obtain ⟨h0, h1, h2, h3, h4⟩ := he
  rw [_anodeDisable_eq la s h0]
  by_cases hg : _goodPin la = true
  · rw [if_pos hg]
    refine ⟨⟨h0, ?_, h2, ?_, ?_⟩, ⟨rfl, rfl, rfl, rfl, rfl⟩, rfl⟩
    · show toInt (s._anodeCount - 1) = if false = true ∧ _goodPin x = true then 1 else 0
      rw [h1, if_pos ⟨hon, hg⟩, if_neg (by simp)]
      decide
    · intro p hp
      have hp1 := drivenHigh_pinModeInput hp
      exact absurd (h3 p hp1.1).2.1 hp1.2
    · intro p hp
      exact h4 p (drivenLow_pinModeInput hp).1
  · rw [if_neg hg]
    refine ⟨⟨h0, ?_, h2, ?_, h4⟩, ⟨rfl, rfl, rfl, rfl, rfl⟩, rfl⟩
    · show s._anodeCount = if false = true ∧ _goodPin x = true then 1 else 0
      rw [h1, if_neg (fun h => hg h.2), if_neg (by simp)]
    · intro p hp
      have hp1 := h3 p hp
      rw [hp1.2.1] at hp1
      exact absurd hp1.2.2 hg

theorem _cathodeDisable_eq (c : Nat) (s : linesideSignal) (hs : s._suppressLEDs = false) :
    _cathodeDisable c s =
      if _goodPin c = true then
        if toInt (s._cathodeCount - 1) < 0 then none
        else some { s with _cathodeCount := toInt (s._cathodeCount - 1),
                           pins := pinModeInput s.pins c }
      else some s := by
  unfold _cathodeDisable
  cases hg : _goodPin c <;> simp [hs]

theorem _anodeEnable_eq (a : Nat) (s : linesideSignal) (hs : s._suppressLEDs = false) :
    _anodeEnable a s =
      if _goodPin a = true then
        if toInt (s._anodeCount + 1) > 1 then none
        else some { s with _anodeCount := toInt (s._anodeCount + 1),
                           pins := digitalWrite (pinModeOutput s.pins a) a true }
      else some s := by
  unfold _anodeEnable
  cases hg : _goodPin a <;> simp [hs]

theorem _cathodeEnable_eq (c : Nat) (s : linesideSignal) (hs : s._suppressLEDs = false) :
    _cathodeEnable c s =
      if _goodPin c = true then
        if toInt (s._cathodeCount + 1) > 1 then none
        else some { s with _cathodeCount := toInt (s._cathodeCount + 1),
                           pins := digitalWrite (pinModeOutput s.pins c) c false }
      else some s := by
  unfold _cathodeEnable
  cases hg : _goodPin c <;> simp [hs]

theorem _cathodeDisable_spec (s : linesideSignal) (a lc x : Nat) (he : Electrical s a lc)
    (hon : s._cathodeOn = true) :
    ∃ t, _cathodeDisable lc s = some t ∧
      Electrical { t with _cathodeOn := false } a x ∧
      SameButDrive s { t with _cathodeOn := false } ∧ t._anodeOn = s._anodeOn := by
  obtain ⟨h0, h1, h2, h3, h4⟩ := he
  rw [_cathodeDisable_eq lc s h0]
  by_cases hg : _goodPin lc = true
  · have hc : ¬ (toInt (s._cathodeCount - 1) < 0) := by
      rw [h2, if_pos ⟨hon, hg⟩]
      decide
    rw [if_pos hg, if_neg hc]
    refine ⟨_, rfl, ⟨h0, h1, ?_, ?_, ?_⟩, ⟨rfl, rfl, rfl, rfl, rfl⟩, rfl⟩
    · show toInt (s._cathodeCount - 1) = if false = true ∧ _goodPin x = true then 1 else 0
      rw [h2, if_pos ⟨hon, hg⟩, if_neg (by simp)]
      decide
    · intro p hp
      exact h3 p (drivenHigh_pinModeInput hp).1
    · intro p hp
      have hp1 := drivenLow_pinModeInput hp
      exact absurd (h4 p hp1.1).2.1 hp1.2
  · rw [if_neg hg]
    refine ⟨_, rfl, ⟨h0, h1, ?_, h3, ?_⟩, ⟨rfl, rfl, rfl, rfl, rfl⟩, rfl⟩
    · show s._cathodeCount = if false = true ∧ _goodPin x = true then 1 else 0
      rw [h2, if_neg (fun h => hg h.2), if_neg (by simp)]
    · intro p hp
      have hp1 := h4 p hp
      rw [hp1.2.1] at hp1
      exact absurd hp1.2.2 hg

theorem _anodeEnable_spec (s : linesideSignal) (a c x : Nat) (he : Electrical s x c)
    (hoff : s._anodeOn = false) :
    ∃ t, _anodeEnable a s = some t ∧
      Electrical { t with _anodeOn := true } a c ∧
      SameButDrive s { t with _anodeOn := true } ∧ t._cathodeOn = s._cathodeOn := by
  obtain ⟨h0, h1, h2, h3, h4⟩ := he
  have hz : s._anodeCount = 0 := by
    rw [h1, if_neg (by simp [hoff])]
  rw [_anodeEnable_eq a s h0]
  by_cases hg : _goodPin a = true
  · have hc : ¬ (toInt (s._anodeCount + 1) > 1) := by
      rw [hz]
      decide
    rw [if_pos hg, if_neg hc]
    refine ⟨_, rfl, ⟨h0, ?_, h2, ?_, ?_⟩, ⟨rfl, rfl, rfl, rfl, rfl⟩, rfl⟩
    · show toInt (s._anodeCount + 1) = if true = true ∧ _goodPin a = true then 1 else 0
      rw [hz, if_pos ⟨rfl, hg⟩]
      decide
    · intro p hp
      rcases drivenHigh_write_high hp with hp1 | hp1
      · exact ⟨rfl, hp1, hp1 ▸ hg⟩
      · have := (h3 p hp1).1
        rw [hoff] at this
        exact absurd this (by simp)
    · intro p hp
      exact h4 p (drivenLow_write_high hp).1
  · rw [if_neg hg]
    refine ⟨_, rfl, ⟨h0, ?_, h2, ?_, h4⟩, ⟨rfl, rfl, rfl, rfl, rfl⟩, rfl⟩
    · show s._anodeCount = if true = true ∧ _goodPin a = true then 1 else 0
      rw [hz, if_neg (fun h => hg h.2)]
    · intro p hp
      have := (h3 p hp).1
      rw [hoff] at this
      exact absurd this (by simp)

theorem _cathodeEnable_spec (s : linesideSignal) (a c x : Nat) (he : Electrical s a x)
    (hoff : s._cathodeOn = false) :
    ∃ t, _cathodeEnable c s = some t ∧
      Electrical { t with _cathodeOn := true } a c ∧
      SameButDrive s { t with _cathodeOn := true } ∧ t._anodeOn = s._anodeOn := by
  obtain ⟨h0, h1, h2, h3, h4⟩ := he
  have hz : s._cathodeCount = 0 := by
    rw [h2, if_neg (by simp [hoff])]
  rw [_cathodeEnable_eq c s h0]
  by_cases hg : _goodPin c = true
  · have hc : ¬ (toInt (s._cathodeCount + 1) > 1) := by
      rw [hz]
      decide
    rw [if_pos hg, if_neg hc]
    refine ⟨_, rfl, ⟨h0, h1, ?_, ?_, ?_⟩, ⟨rfl, rfl, rfl, rfl, rfl⟩, rfl⟩
    · show toInt (s._cathodeCount + 1) = if true = true ∧ _goodPin c = true then 1 else 0
      rw [hz, if_pos ⟨rfl, hg⟩]
      decide
    · intro p hp
      exact h3 p (drivenHigh_write_low hp).1
    · intro p hp
      rcases drivenLow_write_low hp with hp1 | hp1
      · exact ⟨rfl, hp1, hp1 ▸ hg⟩
      · have := (h4 p hp1).1
        rw [hoff] at this
        exact absurd this (by simp)
  · rw [if_neg hg]
    refine ⟨_, rfl, ⟨h0, h1, ?_, h3, ?_⟩, ⟨rfl, rfl, rfl, rfl, rfl⟩, rfl⟩
    · show s._cathodeCount = if true = true ∧ _goodPin c = true then 1 else 0
      rw [hz, if_neg (fun h => hg h.2)]
    · intro p hp
      have := (h4 p hp).1
      rw [hoff] at this
      exact absurd this (by simp)

/-! ### The pin-changing part of `updateSignals` -/

theorem SameButDrive.currentLamp {s t : linesideSignal} (h : SameButDrive s t) :
    t.currentLamp = s.currentLamp := by
  unfold linesideSignal.currentLamp
  rw [h.1, h.2.1]

theorem sameButDrive_refl (s : linesideSignal) : SameButDrive s s :=
  ⟨rfl, rfl, rfl, rfl, rfl⟩

theorem sameButDrive_trans {s t u : linesideSignal} (h1 : SameButDrive s t)
    (h2 : SameButDrive t u) : SameButDrive s u :=
  ⟨h2.1.trans h1.1, h2.2.1.trans h1.2.1, h2.2.2.1.trans h1.2.2.1,
    h2.2.2.2.1.trans h1.2.2.2.1, h2.2.2.2.2.trans h1.2.2.2.2⟩

theorem Electrical.change_cathode {s : linesideSignal} {a c : Nat} (x : Nat)
    (he : Electrical s a c) (hoff : s._cathodeOn = false) : Electrical s a x := by
  obtain ⟨h0, h1, h2, h3, h4⟩ := he
  refine ⟨h0, h1, ?_, h3, ?_⟩
  · rw [h2, if_neg (by simp [hoff]), if_neg (by simp [hoff])]
  · intro p hp
    have := (h4 p hp).1
    rw [hoff] at this
    exact absurd this (by simp)

theorem Electrical.change_anode {s : linesideSignal} {a c : Nat} (x : Nat)
    (he : Electrical s a c) (hoff : s._anodeOn = false) : Electrical s x c := by
  obtain ⟨h0, h1, h2, h3, h4⟩ := he
  refine ⟨h0, ?_, h2, ?_, h4⟩
  · rw [h1, if_neg (by simp [hoff]), if_neg (by simp [hoff])]
  · intro p hp
    have := (h3 p hp).1
    rw [hoff] at this
    exact absurd this (by simp)

theorem cathodeOffFirst_spec (s : linesideSignal) (la lc : Nat) (newCycle : Bool)
    (he : Electrical s la lc) :
    ∃ t, cathodeOffFirst lc newCycle s = some t ∧
      Electrical t la s.currentLamp.cathode ∧ SameButDrive s t ∧
      t._anodeOn = s._anodeOn := by
  unfold cathodeOffFirst
  split_ifs with hc hon
  · obtain ⟨t, ht, h1, h2, h3⟩ := _cathodeDisable_spec s la lc s.currentLamp.cathode he hon
    rw [ht]
    exact ⟨_, rfl, h1, h2, h3⟩
  · exact ⟨s, rfl, he.change_cathode _ (by simpa using hon), sameButDrive_refl s, rfl⟩
  · have hc1 : s.currentLamp.cathode = lc := by
      by_contra h
      exact hc (Or.inl h)
    rw [hc1]
    exact ⟨s, rfl, he, sameButDrive_refl s, rfl⟩

theorem anodeSwitch_spec (s : linesideSignal) (la c : Nat) (he : Electrical s la c) :
    ∃ la2 t, anodeSwitch la s = some (la2, t) ∧
      Electrical t s.currentLamp.anode c ∧
      (t._anodeOn = true → la2 = s.currentLamp.anode) ∧ SameButDrive s t ∧
      t._cathodeOn = s._cathodeOn := by
  unfold anodeSwitch
  dsimp only
  split_ifs with hc hon hk
  · obtain ⟨h1, h2, h3⟩ := _anodeDisable_spec s la c s.currentLamp.anode he hon
    obtain ⟨t, ht, k1, k2, k3⟩ := _anodeEnable_spec
      { _anodeDisable la s with _anodeOn := false } s.currentLamp.anode c
      s.currentLamp.anode h1 rfl
    have hcur : ({ _anodeDisable la s with _anodeOn := false } : linesideSignal).currentLamp
        = s.currentLamp := h2.currentLamp
    rw [hcur, ht]
    refine ⟨_, _, rfl, k1, ?_, sameButDrive_trans h2 k2, k3.trans h3⟩
    intro _
    have hcur2 : t.currentLamp = s.currentLamp := (k2.currentLamp).trans hcur
    rw [hcur2]
  · obtain ⟨h1, h2, h3⟩ := _anodeDisable_spec s la c s.currentLamp.anode he hon
    exact ⟨_, _, rfl, h1, fun h => absurd h (by simp), h2, h3⟩
  · have hoff : s._anodeOn = false := by simpa using hon
    exact ⟨_, _, rfl, he.change_anode _ hoff, fun h => absurd (hoff ▸ h) (by simp),
      sameButDrive_refl s, rfl⟩
  · have hc1 : s.currentLamp.anode = la := by
      by_contra h
      exact hc (Or.inl h)
    rw [hc1]
    exact ⟨_, _, rfl, he, fun _ => rfl, sameButDrive_refl s, rfl⟩

theorem killSwitchDone_spec (s : linesideSignal) :
    SameDrive s (killSwitchDone s) ∧ (killSwitchDone s)._lampList = s._lampList ∧
      (killSwitchDone s)._currentLED = s._currentLED ∧
      (killSwitchDone s)._setupIsDone = s._setupIsDone := by
  unfold killSwitchDone
  split <;> exact ⟨⟨rfl, rfl, rfl, rfl, rfl, rfl⟩, rfl, rfl, rfl⟩

theorem anodeOnIfEnabled_spec (s : linesideSignal) (en : Bool) (la c : Nat)
    (he : Electrical s s.currentLamp.anode c)
    (hla : s._anodeOn = true → la = s.currentLamp.anode) :
    ∃ la2 t, anodeOnIfEnabled en la s = some (la2, t) ∧
      Electrical t s.currentLamp.anode c ∧
      (t._anodeOn = true → la2 = s.currentLamp.anode) ∧ SameButDrive s t ∧
      t._cathodeOn = s._cathodeOn := by
  unfold anodeOnIfEnabled
  split_ifs with hc
  · have hoff : s._anodeOn = false := by
      cases h : s._anodeOn
      · rfl
      · simp [h] at hc
    obtain ⟨t, ht, k1, k2, k3⟩ := _anodeEnable_spec s s.currentLamp.anode c
      s.currentLamp.anode he hoff
    rw [ht]
    refine ⟨_, _, rfl, k1, ?_, k2, k3⟩
    intro _
    have hcur2 : t.currentLamp = s.currentLamp := k2.currentLamp
    rw [hcur2]
  · exact ⟨_, _, rfl, he, hla, sameButDrive_refl s, rfl⟩

theorem cathodeOnIfEnabled_spec (s : linesideSignal) (en : Bool) (a : Nat)
    (he : Electrical s a s.currentLamp.cathode) :
    ∃ t, cathodeOnIfEnabled en s = some t ∧
      Electrical t a s.currentLamp.cathode ∧ SameButDrive s t ∧
      t._anodeOn = s._anodeOn := by
  unfold cathodeOnIfEnabled
  split_ifs with hen hon
  · have hoff : s._cathodeOn = false := by simpa using hon
    obtain ⟨t, ht, k1, k2, k3⟩ := _cathodeEnable_spec s a s.currentLamp.cathode
      s.currentLamp.cathode he hoff
    rw [ht]
    exact ⟨_, rfl, k1, k2, k3⟩
  · exact ⟨s, rfl, he, sameButDrive_refl s, rfl⟩
  · exact ⟨s, rfl, he, sameButDrive_refl s, rfl⟩

theorem cathodeOffIfDark_spec (s : linesideSignal) (en : Bool) (a : Nat)
    (he : Electrical s a s.currentLamp.cathode) :
    ∃ t, cathodeOffIfDark en s = some t ∧
      Electrical t a s.currentLamp.cathode ∧ SameButDrive s t ∧
      t._anodeOn = s._anodeOn := by
  unfold cathodeOffIfDark
  split_ifs with hc
  · have hon : s._cathodeOn = true := by
      cases h : s._cathodeOn
      · simp [h] at hc
      · rfl
    obtain ⟨t, ht, k1, k2, k3⟩ := _cathodeDisable_spec s a s.currentLamp.cathode
      s.currentLamp.cathode he hon
    rw [ht]
    exact ⟨_, rfl, k1, k2, k3⟩
  · exact ⟨s, rfl, he, sameButDrive_refl s, rfl⟩

theorem anodeOffIfDark_spec (s : linesideSignal) (la c : Nat)
    (he : Electrical s s.currentLamp.anode c)
    (hla : s._anodeOn = true → la = s.currentLamp.anode) :
    Electrical (anodeOffIfDark la s) s.currentLamp.anode c ∧
      (anodeOffIfDark la s)._lampList = s._lampList ∧
      (anodeOffIfDark la s)._currentLED = s._currentLED ∧
      (anodeOffIfDark la s)._setupIsDone = s._setupIsDone := by
  unfold anodeOffIfDark
  dsimp only
  split_ifs with hc hon
  · rw [hla hon]
    obtain ⟨h1, h2, -⟩ := _anodeDisable_spec s s.currentLamp.anode c s.currentLamp.anode
      (by exact he) hon
    exact ⟨Electrical.of_sameDrive ⟨rfl, rfl, rfl, rfl, rfl, rfl⟩ h1, h2.1, h2.2.1, h2.2.2.1⟩
  · exact ⟨Electrical.of_sameDrive ⟨rfl, rfl, rfl, rfl, rfl, rfl⟩ he, rfl, rfl, rfl⟩
  · exact ⟨Electrical.of_sameDrive ⟨rfl, rfl, rfl, rfl, rfl, rfl⟩ he, rfl, rfl, rfl⟩

theorem switchPins_spec (s : linesideSignal) (la lc : Nat) (newCycle en : Bool)
    (he : Electrical s la lc) :
    ∃ t, switchPins la lc newCycle en s = some t ∧
      Electrical t s.currentLamp.anode s.currentLamp.cathode ∧
      t._lampList = s._lampList ∧ t._currentLED = s._currentLED ∧
      t._setupIsDone = s._setupIsDone := by
  unfold switchPins
  obtain ⟨s1, e1, h1, f1, -⟩ := cathodeOffFirst_spec s la lc newCycle he
  have c1 : s1.currentLamp = s.currentLamp := f1.currentLamp
  obtain ⟨la2, s2, e2, h2, l2, f2, -⟩ := anodeSwitch_spec s1 la _ h1
  have c2 : s2.currentLamp = s.currentLamp := f2.currentLamp.trans c1
  rw [c1] at h2 l2
  obtain ⟨d3, k3, k3c, k3s⟩ := killSwitchDone_spec s2
  have c3 : (killSwitchDone s2).currentLamp = s.currentLamp := by
    rw [← c2]
    unfold linesideSignal.currentLamp
    rw [k3, k3c]
  have h3 : Electrical (killSwitchDone s2) (killSwitchDone s2).currentLamp.anode
      s.currentLamp.cathode := by
    rw [c3]
    exact Electrical.of_sameDrive d3 h2
  have l3 : (killSwitchDone s2)._anodeOn = true →
      la2 = (killSwitchDone s2).currentLamp.anode := by
    rw [c3, d3.1]
    exact l2
  obtain ⟨la4, s4, e4, h4, l4, f4, -⟩ :=
    anodeOnIfEnabled_spec (killSwitchDone s2) en la2 _ h3 l3
  have c4 : s4.currentLamp = s.currentLamp := f4.currentLamp.trans c3
  rw [c3] at h4 l4
  have h4b : Electrical s4 s.currentLamp.anode s4.currentLamp.cathode := by
    rw [c4]
    exact h4
  obtain ⟨s5, e5, h5, f5, a5⟩ := cathodeOnIfEnabled_spec s4 en _ h4b
  have c5 : s5.currentLamp = s.currentLamp := f5.currentLamp.trans c4
  rw [c4] at h5
  have h5b : Electrical s5 s.currentLamp.anode s5.currentLamp.cathode := by
    rw [c5]
    exact h5
  obtain ⟨s6, e6, h6, f6, a6⟩ := cathodeOffIfDark_spec s5 en _ h5b
  have c6 : s6.currentLamp = s.currentLamp := f6.currentLamp.trans c5
  rw [c5] at h6
  have h6b : Electrical s6 s6.currentLamp.anode s.currentLamp.cathode := by
    rw [c6]
    exact h6
  have l6 : s6._anodeOn = true → la4 = s6.currentLamp.anode := by
    rw [c6, a6, a5]
    exact l4
  obtain ⟨h7, k7, k7c, k7s⟩ := anodeOffIfDark_spec s6 la4 _ h6b l6
  rw [c6] at h7
  refine ⟨anodeOffIfDark la4 s6, ?_, h7, ?_, ?_, ?_⟩
  · simp only [e1, e2, e4, e5, e6, Option.some_bind, Option.map_some']
  · rw [k7, f6.1, f5.1, f4.1, k3, f2.1, f1.1]
  · rw [k7c, f6.2.1, f5.2.1, f4.2.1, k3c, f2.2.1, f1.2.1]
  · rw [k7s, f6.2.2.1, f5.2.2.1, f4.2.2.1, k3s, f2.2.2.1, f1.2.2.1]

/-! ### The lamp-selecting part of `updateSignals` -/

theorem RewriteStep.of_fields {s t : linesideSignal} (hl : t._lampList = s._lampList)
    (hd : SameDrive s t) (hs : t._setupIsDone = s._setupIsDone) :
    RewriteStep keepsRamp s t :=
  ⟨⟨id, fun l => keepsRamp_refl l, by rw [hl, List.map_id]⟩, hd, hs⟩

theorem _getNextLamp_step (s : linesideSignal) :
    RewriteStep keepsRamp s (_getNextLamp s).2.2 := by
  unfold _getNextLamp
  split
  · exact rewriteStep_refl s
  · split
    · exact rewriteStep_refl s
    · split
      · exact RewriteStep.of_fields rfl ⟨rfl, rfl, rfl, rfl, rfl, rfl⟩ rfl
      · exact rewriteStep_refl s

theorem _newRampState_step (hw : Platform) (s : linesideSignal) :
    RewriteStep keepsRamp s (_newRampState hw s).2 := by
  unfold _newRampState
  dsimp only
  split
  · exact rewriteStep_trans (rewriteStep_of_sameButTiming (_resetCycleTime_frame hw s))
      (RewriteStep.of_fields rfl ⟨rfl, rfl, rfl, rfl, rfl, rfl⟩ rfl)
  · exact RewriteStep.of_fields rfl ⟨rfl, rfl, rfl, rfl, rfl, rfl⟩ rfl

theorem _enabledLED_step (s : linesideSignal) :
    RewriteStep keepsRamp s (_enabledLED s).2 := by
  unfold _enabledLED
  split
  · exact RewriteStep.of_fields rfl ⟨rfl, rfl, rfl, rfl, rfl, rfl⟩ rfl
  · exact rewriteStep_refl s

theorem _advanceDivision_step (s : linesideSignal) :
    RewriteStep keepsRamp s (_advanceDivision s) ∧
      (_advanceDivision s)._currentLED = s._currentLED := by
  have adv := fun (k : Nat) (b : Bool) (u : linesideSignal) => _advanceLamps_step k b u
  have rel := fun (k : Nat) (b : Bool) (u : linesideSignal) => _releaseHold_step k b u
  unfold _advanceDivision
  dsimp only
  split <;> (try split_ifs) <;> first
    | exact ⟨rewriteStep_refl s, rfl⟩
    | exact adv _ _ _
    | exact rel _ _ _
    | exact ⟨rewriteStep_trans (adv _ _ s).1 (rel _ _ _).1, (rel _ _ _).2.trans (adv _ _ s).2⟩

theorem resetOnJump_step (hw : Platform) (s : linesideSignal) :
    RewriteStep keepsRamp s (resetOnJump hw s) := by
  unfold resetOnJump
  split
  · exact rewriteStep_of_sameButTiming (_resetCycleTime_frame hw s)
  · exact rewriteStep_refl s

theorem nextLED_step (hw : Platform) (clk : Clock) (s : linesideSignal) :
    RewriteStep keepsRamp s (nextLED hw clk s).2 := by
  unfold nextLED
  dsimp only
  refine rewriteStep_trans ?_ (rewriteStep_of_sameButTiming (_lightTimerStart_frame _ _ _ _))
  split
  · exact rewriteStep_trans (_getNextLamp_step s)
      (RewriteStep.of_fields rfl ⟨rfl, rfl, rfl, rfl, rfl, rfl⟩ rfl)
  · exact _getNextLamp_step s

theorem rampClock_step (hw : Platform) (s : linesideSignal) :
    RewriteStep keepsRamp s (rampClock hw s) := by
  unfold rampClock
  dsimp only
  split
  · exact rewriteStep_trans (_newRampState_step hw s) (_advanceDivision_step _).1
  · exact _newRampState_step hw s

theorem decideLED_step (s : linesideSignal) : RewriteStep keepsRamp s (decideLED s).2 := by
  unfold decideLED
  split
  · exact _enabledLED_step s
  · exact rewriteStep_refl s

theorem selectLamp_step (hw : Platform) (clk : Clock) (s : linesideSignal) :
    RewriteStep keepsRamp s (selectLamp hw clk s).2.2.2 := by
  have h2 : RewriteStep keepsRamp (resetOnJump hw s)
      (if _lightTimerExpired clk.expiryCheck (resetOnJump hw s) = true then
        nextLED hw clk (resetOnJump hw s) else (false, resetOnJump hw s)).2 := by
    split
    · exact nextLED_step hw clk _
    · dsimp only
      exact rewriteStep_refl (resetOnJump hw s)
  exact rewriteStep_trans (resetOnJump_step hw s)
    (rewriteStep_trans h2 (rewriteStep_trans (rampClock_step hw _) (decideLED_step _)))

/-! ### The invariant of the reachable states -/

theorem getD_map_wiring (F : signalLamp → signalLamp)
    (hF : ∀ l, (F l).anode = l.anode ∧ (F l).cathode = l.cathode)
    (lamps : List signalLamp) (i : Nat) :
    ((lamps.map F).getD i nullLamp).anode = (lamps.getD i nullLamp).anode ∧
    ((lamps.map F).getD i nullLamp).cathode = (lamps.getD i nullLamp).cathode := by
  induction lamps generalizing i with
  | nil => exact ⟨rfl, rfl⟩
  | cons x xs ih =>
    cases i with
    | zero => exact hF x
    | succ j => exact ih j

theorem currentLamp_wiring_of_map {s t : linesideSignal} (F : signalLamp → signalLamp)
    (hF : ∀ l, (F l).anode = l.anode ∧ (F l).cathode = l.cathode)
    (hl : t._lampList = s._lampList.map F) (hc : t._currentLED = s._currentLED) :
    t.currentLamp.anode = s.currentLamp.anode ∧
    t.currentLamp.cathode = s.currentLamp.cathode := by
  unfold linesideSignal.currentLamp
  rw [hc, hl]
  cases s._currentLED with
  | none => exact ⟨rfl, rfl⟩
  | some i => exact getD_map_wiring F hF _ i

theorem darkLampsClear_of_map {s t : linesideSignal} (F : signalLamp → signalLamp)
    (hF : ∀ l, l.darkIsClear → (F l).darkIsClear)
    (hl : t._lampList = s._lampList.map F) (h : DarkLampsClear s) : DarkLampsClear t := by
  intro l hlmem
  rw [hl, List.mem_map] at hlmem
  obtain ⟨x, hx, rfl⟩ := hlmem
  exact hF x (h x hx)

theorem invariant_of_rewriteStep {s t : linesideSignal}
    (h : RewriteStep rewrites s t) (hc : t._currentLED = s._currentLED)
    (hi : Invariant s) : Invariant t := by
  obtain ⟨⟨F, hF, hl⟩, hd, hs⟩ := h
  obtain ⟨i1, i2, i3⟩ := hi
  have hw := currentLamp_wiring_of_map F (fun l => ⟨(hF l).1, (hF l).2.1⟩) hl hc
  refine ⟨hs.trans i1, darkLampsClear_of_map F (fun l => (hF l).2.2.1) hl i2, ?_⟩
  rw [hw.1, hw.2]
  exact Electrical.of_sameDrive hd i3

theorem invariant_of_sameButTiming {s t : linesideSignal} (h : SameButTiming s t)
    (hi : Invariant s) : Invariant t :=
  invariant_of_rewriteStep ((rewriteStep_of_sameButTiming h).mono
    (fun _ _ => keepsRamp.rewrites)) h.2.2.1 hi

theorem Electrical.atMostOne {s : linesideSignal} {a c : Nat} (he : Electrical s a c) :
    AtMostOneHigh s.pins ∧ AtMostOneLow s.pins := by
  obtain ⟨-, -, -, h3, h4⟩ := he
  constructor
  · intro p q hp hq
    rw [(h3 p hp).2.1, (h3 q hq).2.1]
  · intro p q hp hq
    rw [(h4 p hp).2.1, (h4 q hq).2.1]

theorem Electrical.countsOk {s : linesideSignal} {a c : Nat} (he : Electrical s a c) :
    CountsOk s := by
  obtain ⟨-, h1, h2, -, -⟩ := he
  unfold CountsOk
  rw [h1, h2]
  constructor <;> split <;> simp

theorem darkStep_of_rewrites {old new : signalLamp} (h : rewrites old new)
    (hc : old.darkIsClear) : darkStep old new := by
  obtain ⟨-, -, h3, h4⟩ := h
  refine ⟨h3 hc, fun h1 h2 => ?_⟩
  rcases h4 with h4 | h4
  · exact h4
  · rw [h1, h2] at h4
    exact absurd h4 (by simp)

theorem lampsStep_of_map {s t : linesideSignal} (F : signalLamp → signalLamp)
    (hF : ∀ l, rewrites l (F l)) (hl : t._lampList = s._lampList.map F)
    (h : DarkLampsClear s) : LampsStep s t := by
  refine ⟨[], t._lampList, rfl, fun l hl => absurd hl (List.not_mem_nil l), ?_⟩
  rw [hl, List.forall₂_map_right_iff, List.forall₂_same]
  intro x hx
  exact darkStep_of_rewrites (hF x) (h x hx)

theorem lampsStep_of_rewriteStep {s t : linesideSignal} (h : RewriteStep rewrites s t)
    (hi : Invariant s) : LampsStep s t := by
  obtain ⟨⟨F, hF, hl⟩, -, -⟩ := h
  exact lampsStep_of_map F hF hl hi.2.1

theorem updateSignals_invariant (hw : Platform) (clk : Clock) (s : linesideSignal)
    (hi : Invariant s) :
    ∃ t, updateSignals hw clk s = some t ∧ Invariant t ∧ LampsStep s t := by
  have hsel := selectLamp_step hw clk s
  obtain ⟨⟨F, hF, hl⟩, hd, hs⟩ := hsel
  obtain ⟨t, ht, he, tl, tc, ts⟩ := switchPins_spec (selectLamp hw clk s).2.2.2
    s.currentLamp.anode s.currentLamp.cathode (selectLamp hw clk s).2.1
    (selectLamp hw clk s).2.2.1 (Electrical.of_sameDrive hd hi.2.2)
  have hcur : t.currentLamp = (selectLamp hw clk s).2.2.2.currentLamp := by
    unfold linesideSignal.currentLamp
    rw [tl, tc]
  have hrec := recordTimes_frame clk (selectLamp hw clk s).1 (selectLamp hw clk s).2.1 t
  have hit : Invariant t := by
    refine ⟨(ts.trans hs).trans hi.1, ?_, ?_⟩
    · exact darkLampsClear_of_map F (fun l => (hF l).2.2.2) (tl.trans hl) hi.2.1
    · rw [hcur]
      exact he
  refine ⟨recordTimes clk (selectLamp hw clk s).1 (selectLamp hw clk s).2.1 t, ?_,
    invariant_of_sameButTiming hrec hit, ?_⟩
  · unfold updateSignals
    dsimp only
    rw [ht]
    rfl
  · exact lampsStep_of_map F (fun l => (hF l).rewrites) ((hrec.2.1.trans tl).trans hl) hi.2.1

theorem addLamp_pins_output (pins : Nat → Pin) (a c p : Nat)
    (h : (pinModeInput (digitalWrite (pinModeOutput (pinModeInput (digitalWrite
      (pinModeOutput (pinModeInput pins c) a) a false) a) c) c false) c p).output = true) :
    pinModeInput (digitalWrite (pinModeOutput (pinModeInput (digitalWrite
      (pinModeOutput (pinModeInput pins c) a) a false) a) c) c false) c p = pins p := by
  unfold pinModeInput digitalWrite pinModeOutput at *
  by_cases hc : p = c
  · simp [hc] at h
  · by_cases ha : p = a
    · subst ha
      simp [hc] at h
    · simp [hc, ha]

theorem Electrical.of_fewer_driven {s t : linesideSignal} {a c : Nat}
    (h0 : t._suppressLEDs = s._suppressLEDs) (h1 : t._anodeOn = s._anodeOn)
    (h2 : t._cathodeOn = s._cathodeOn) (h3 : t._anodeCount = s._anodeCount)
    (h4 : t._cathodeCount = s._cathodeCount)
    (hp : ∀ p, (t.pins p).output = true → t.pins p = s.pins p)
    (he : Electrical s a c) : Electrical t a c := by
  obtain ⟨e0, e1, e2, e3, e4⟩ := he
  refine ⟨h0.trans e0, ?_, ?_, ?_, ?_⟩
  · rw [h3, h1]
    exact e1
  · rw [h4, h2]
    exact e2
  · intro p hpd
    rw [h1]
    have := hp p hpd.1
    rw [this] at hpd
    exact e3 p hpd
  · intro p hpd
    rw [h2]
    have := hp p hpd.1
    rw [this] at hpd
    exact e4 p hpd

theorem currentLamp_cons (s t : linesideSignal) (lamp : signalLamp)
    (hl : t._lampList = lamp :: s._lampList)
    (hc : t._currentLED = s._currentLED.map (· + 1)) : t.currentLamp = s.currentLamp := by
  unfold linesideSignal.currentLamp
  rw [hl, hc]
  cases s._currentLED with
  | none => rfl
  | some i => rfl

theorem _addLamp_spec (m h l a c col : Nat) (s : linesideSignal) :
    ∃ lamp, (_addLamp m h l a c col s)._lampList = lamp :: s._lampList ∧
      lamp.darkIsClear ∧
      (_addLamp m h l a c col s)._currentLED = s._currentLED.map (· + 1) ∧
      (_addLamp m h l a c col s)._setupIsDone = s._setupIsDone ∧
      (_addLamp m h l a c col s)._suppressLEDs = s._suppressLEDs ∧
      (_addLamp m h l a c col s)._anodeOn = s._anodeOn ∧
      (_addLamp m h l a c col s)._cathodeOn = s._cathodeOn ∧
      (_addLamp m h l a c col s)._anodeCount = s._anodeCount ∧
      (_addLamp m h l a c col s)._cathodeCount = s._cathodeCount ∧
      (∀ p, ((_addLamp m h l a c col s).pins p).output = true →
        (_addLamp m h l a c col s).pins p = s.pins p) := by
  unfold _addLamp
  dsimp only
  split
  · refine ⟨_, rfl, ?_, rfl, rfl, rfl, rfl, rfl, rfl, rfl, fun p _ => rfl⟩
    intro _
    exact ⟨rfl, rfl, rfl, rfl, rfl⟩
  · refine ⟨_, rfl, ?_, rfl, rfl, rfl, rfl, rfl, rfl, rfl, ?_⟩
    · intro _
      exact ⟨rfl, rfl, rfl, rfl, rfl⟩
    · intro p hp
      exact addLamp_pins_output s.pins a c p hp

theorem _addLamp_invariant (m h l a c col : Nat) (s : linesideSignal) (hi : Invariant s) :
    Invariant (_addLamp m h l a c col s) ∧ LampsStep s (_addLamp m h l a c col s) := by
  obtain ⟨lamp, h1, h2, h3, h4, h5, h6, h7, h8, h9, h10⟩ := _addLamp_spec m h l a c col s
  have hcur := currentLamp_cons s _ lamp h1 h3
  refine ⟨⟨h4.trans hi.1, ?_, ?_⟩, ?_⟩
  · intro x hx
    rw [h1, List.mem_cons] at hx
    rcases hx with rfl | hx
    · exact h2
    · exact hi.2.1 x hx
  · rw [hcur]
    exact Electrical.of_fewer_driven h5 h6 h7 h8 h9 h10 hi.2.2
  · refine ⟨[lamp], s._lampList, h1, ?_, ?_⟩
    · intro x hx
      rw [List.mem_singleton] at hx
      rw [hx]
      exact h2
    · rw [List.forall₂_same]
      intro x hx
      exact ⟨hi.2.1 x hx, fun _ _ => rfl⟩

theorem lampsStep_refl {s : linesideSignal} (hi : Invariant s) : LampsStep s s :=
  lampsStep_of_map id (fun l => (keepsRamp_refl l).rewrites) (List.map_id _).symm hi.2.1

theorem addLamp_invariant (m h l a c col : Nat) (s : linesideSignal) (hi : Invariant s) :
    Invariant (addLamp m h l a c col s) ∧ LampsStep s (addLamp m h l a c col s) := by
  unfold addLamp
  split_ifs
  · exact ⟨hi, lampsStep_refl hi⟩
  · exact ⟨hi, lampsStep_refl hi⟩
  · exact ⟨hi, lampsStep_refl hi⟩
  · exact ⟨hi, lampsStep_refl hi⟩
  · exact ⟨hi, lampsStep_refl hi⟩
  · exact _addLamp_invariant m h l a c col s hi

theorem setupSignal_of_done (hw : Platform) (s : linesideSignal) (h : s._setupIsDone = true) :
    setupSignal hw s = s := by
  unfold setupSignal
  rw [if_pos h]

theorem step_invariant (hw : Platform) (s : linesideSignal) (c : Command)
    (hi : Invariant s) : ∃ t, step hw s c = some t ∧ Invariant t ∧ LampsStep s t := by
  have key : ∀ t, RewriteStep rewrites s t → t._currentLED = s._currentLED →
      ∃ u, some t = some u ∧ Invariant u ∧ LampsStep s u :=
    fun t h1 h2 => ⟨t, rfl, invariant_of_rewriteStep h1 h2 hi, lampsStep_of_rewriteStep h1 hi⟩
  have keyR : ∀ t, RewriteStep keepsRamp s t ∧ t._currentLED = s._currentLED →
      ∃ u, some t = some u ∧ Invariant u ∧ LampsStep s u :=
    fun t h => key t (h.1.mono (fun _ _ => keepsRamp.rewrites)) h.2
  have keyT : ∀ t, SameButTiming s t → ∃ u, some t = some u ∧ Invariant u ∧ LampsStep s u :=
    fun t h => keyR t ⟨rewriteStep_of_sameButTiming h, h.2.2.1⟩
  cases c with
  | setupSignal =>
    refine ⟨s, ?_, hi, lampsStep_refl hi⟩
    show some (setupSignal hw s) = some s
    rw [setupSignal_of_done hw s hi.1]
  | addLamp m h l a c col =>
    exact ⟨_, rfl, (addLamp_invariant m h l a c col s hi).1,
      (addLamp_invariant m h l a c col s hi).2⟩
  | updateSignals clk => exact updateSignals_invariant hw clk s hi
  | setLamp m h l lit f => exact keyR _ (setLamp_step m h l lit f s)
  | clearHead m h => exact keyR _ (clearHead_step m h s)
  | setCycleTime cycle => exact keyT _ (setCycleTime_frame hw cycle s)
  | setFlashRate rate => exact keyT _ (setFlashRate_frame hw rate s)
  | setHeadColor m h col f => exact keyR _ (setHeadColor_step m h col f s)
  | setLampColor m h l col f => exact keyR _ (setLampColor_step m h l col f s)
  | setAlternate m h l alt => exact keyR _ (setAlternate_step m h l alt s)
  | setRamp m h l r => exact key _ (setRamp_step m h l r s).1 (setRamp_step m h l r s).2

theorem construct_fields (hw : Platform) (micros : Int) (raw : linesideSignal) :
    (construct hw micros raw)._setupIsDone = false ∧
    (construct hw micros raw)._lampList = [] ∧
    (construct hw micros raw)._suppressLEDs = false ∧
    (construct hw micros raw)._anodeOn = false ∧
    (construct hw micros raw)._cathodeOn = false ∧
    (construct hw micros raw)._anodeCount = 0 ∧
    (construct hw micros raw)._cathodeCount = 0 ∧
    (construct hw micros raw).pins = raw.pins := by
  have hf := _setFlashRate_frame hw LSS_FLASH_FPM
    { raw with _setupIsDone := false, _lastLampCount := 0,
               _cycleTime := LSS_CYCLE_TIME, _targetCycleTime := LSS_CYCLE_TIME }
  refine ⟨rfl, rfl, rfl, rfl, rfl, rfl, rfl, ?_⟩
  exact hf.1.2.2.2.2.2

theorem invariant_of_fresh (s : linesideSignal) (h1 : s._setupIsDone = true)
    (h2 : DarkLampsClear s) (h3 : s._suppressLEDs = false) (h4 : s._anodeOn = false)
    (h5 : s._cathodeOn = false) (h6 : s._anodeCount = 0) (h7 : s._cathodeCount = 0)
    (h8 : ∀ p, (s.pins p).output = false) : Invariant s := by
  refine ⟨h1, h2, h3, ?_, ?_, ?_, ?_⟩
  · rw [h6, if_neg (by simp [h4])]
  · rw [h7, if_neg (by simp [h5])]
  · intro p hp
    have := hp.1
    rw [h8 p] at this
    exact absurd this (by simp)
  · intro p hp
    have := hp.1
    rw [h8 p] at this
    exact absurd this (by simp)

theorem powerOn_invariant (hw : Platform) (micros : Int) (raw : linesideSignal) :
    Invariant (powerOn hw micros raw) := by
  unfold powerOn
  obtain ⟨c1, c2, c3, c4, c5, c6, c7, c8⟩ := construct_fields hw micros
    { raw with pins := fun p => { raw.pins p with output := false } }
  generalize construct hw micros
    { raw with pins := fun p => { raw.pins p with output := false } } = s0 at *
  unfold setupSignal
  rw [if_neg (by simp [c1])]
  dsimp only
  refine invariant_of_sameButTiming (_adjCycleTime_frame hw _) ?_
  obtain ⟨lamp, h1, h2, h3, h4, h5, h6, h7, h8, h9, h10⟩ := _addLamp_spec
    LSS_NULL_SIG LSS_NULL_SIG LSS_NULL_SIG LSS_NOT_PIN LSS_NOT_PIN LSS_DARK
    { s0 with _setupIsDone := true }
  generalize _addLamp LSS_NULL_SIG LSS_NULL_SIG LSS_NULL_SIG LSS_NOT_PIN LSS_NOT_PIN LSS_DARK
    { s0 with _setupIsDone := true } = A at *
  apply invariant_of_fresh
  · exact h4
  · intro x hx
    change x ∈ List.modifyHead (fun lamp => lamp.setBitFlag LSS_SL_RAMP false) A._lampList at hx
    rw [h1] at hx
    change x ∈ (lamp.setBitFlag LSS_SL_RAMP false) :: s0._lampList at hx
    rw [c2, List.mem_singleton] at hx
    rw [hx]
    intro hlit
    exact h2 hlit
  · exact h5.trans c3
  · exact h6.trans c4
  · exact h7.trans c5
  · exact h8.trans c6
  · exact h9.trans c7
  · intro p
    cases hout : (A.pins p).output
    · rfl
    · have h11 := h10 p hout
      rw [h11] at hout
      change (s0.pins p).output = true at hout
      rw [c8] at hout
      exact absurd hout (by simp)

theorem run_invariant (hw : Platform) (cmds : List Command) :
    ∀ s t, Invariant s → run hw s cmds = some t → Invariant t := by
  induction cmds with
  | nil =>
    intro s t hi hr
    have : s = t := by simpa [run] using hr
    exact this ▸ hi
  | cons c cs ih =>
    intro s t hi hr
    obtain ⟨u, hu, hiu, -⟩ := step_invariant hw s c hi
    rw [run, hu, Option.some_bind] at hr
    exact ih u t hiu hr

theorem Reachable.invariant {hw : Platform} {s : linesideSignal} (h : Reachable hw s) :
    Invariant s := by
  obtain ⟨micros, raw, cmds, hr⟩ := h
  exact run_invariant hw cmds _ s (powerOn_invariant hw micros raw) hr

/-! ### Charlieplex safety and the fail-stop -/

/-- C1: in every state reachable from `setupSignal` (all pins high impedance) by
public commands and `updateSignals` ticks, for all clock readings, a call of
`updateSignals` returns, and at its end at most one pin is driven HIGH and at most
one pin is driven LOW: a pin driven HIGH is the anode of the current lamp, a pin
driven LOW its cathode. -/
theorem charlieplex_safety (hw : Platform) (s : linesideSignal) (clk : Clock)
    (h : Reachable hw s) :
    ∃ t, updateSignals hw clk s = some t ∧
      AtMostOneHigh t.pins ∧ AtMostOneLow t.pins ∧
      (∀ p, drivenHigh (t.pins p) → p = t.currentLamp.anode) ∧
      (∀ p, drivenLow (t.pins p) → p = t.currentLamp.cathode) := by
  obtain ⟨t, ht, hi, -⟩ := updateSignals_invariant hw clk s h.invariant
  exact ⟨t, ht, hi.2.2.atMostOne.1, hi.2.2.atMostOne.2,
    fun p hp => (hi.2.2.2.2.2.1 p hp).2.1, fun p hp => (hi.2.2.2.2.2.2 p hp).2.1⟩

theorem option_eq_some_getD {α : Type} (o : Option α) (d : α) (h : o.isSome = true) :
    o = some (o.getD d) := by
  cases o with
  | none => simp at h
  | some x => rfl

set_option maxRecDepth 1000000 in
set_option maxHeartbeats 40000000 in
theorem rampingUp_reachable : Reachable refPlatform rampingUp :=
  ⟨0, zeroMemory, flashingRun 86, option_eq_some_getD _ zeroMemory (by decide)⟩

set_option maxRecDepth 1000000 in
set_option maxHeartbeats 40000000 in
/-- Witness of `charlieplex_safety`: the tick that lights lamp (0,0,1) after
`flashingRun 86`; at its end pin 2 is driven HIGH and pin 3 is driven LOW. -/
theorem charlieplex_safety_witness :
    Reachable refPlatform rampingUp ∧
    (∃ t, updateSignals refPlatform (clockAt 440000) rampingUp = some t ∧
      AtMostOneHigh t.pins ∧ AtMostOneLow t.pins ∧
      (∀ p, drivenHigh (t.pins p) → p = t.currentLamp.anode) ∧
      (∀ p, drivenLow (t.pins p) → p = t.currentLamp.cathode)) ∧
    (updateSignals refPlatform (clockAt 440000) rampingUp).map
      (fun t => (decide (drivenHigh (t.pins 2)), decide (drivenLow (t.pins 3)))) =
        some (true, true) :=
  ⟨rampingUp_reachable,
    charlieplex_safety refPlatform rampingUp (clockAt 440000) rampingUp_reachable,
    by decide⟩

/-- C2: in every state reachable from `setupSignal` by public commands and
`updateSignals` ticks, `_anodeCount` and `_cathodeCount` are each 0 or 1, and no
call of `updateSignals` ends in `_dropDead()`. -/
theorem failStop_unreachable (hw : Platform) (s : linesideSignal) (h : Reachable hw s) :
    CountsOk s ∧ ∀ clk, updateSignals hw clk s ≠ none := by
  refine ⟨h.invariant.2.2.countsOk, fun clk hn => ?_⟩
  obtain ⟨t, ht, -, -⟩ := updateSignals_invariant hw clk s h.invariant
  rw [hn] at ht
  exact absurd ht (by simp)

/-- Witness of `failStop_unreachable`: six lamps registered, one turned on. -/
theorem failStop_unreachable_witness :
    Reachable refPlatform oneLampLit ∧ CountsOk oneLampLit ∧
      ∀ clk, updateSignals refPlatform clk oneLampLit ≠ none :=
  ⟨⟨0, zeroMemory, oneLampLitCalls, rfl⟩,
    failStop_unreachable refPlatform oneLampLit ⟨0, zeroMemory, oneLampLitCalls, rfl⟩⟩

/-! ### Flag clearing -/

theorem _goDark_dark (cur lamp : signalLamp) :
    (_goDark cur lamp).1.lit = false ∧ (_goDark cur lamp).1.flash = false ∧
    (_goDark cur lamp).1.alternate = false ∧ (_goDark cur lamp).1.start = false ∧
    (_goDark cur lamp).1.stop = false ∧ (_goDark cur lamp).1.delay = false ∧
    (_goDark cur lamp).1.ramp = lamp.ramp := by
  unfold _goDark
  cases lamp
  simp [signalLamp.setBitFlag]

/-- C6: in every state reachable from `setupSignal`, an unlit lamp has flashing,
alternatePhase, starting, stopping and onHold all false; every public command
(and tick), and the scheduler step `_advanceDivision`, leaves each lamp lit or
with those five flags false, and a lamp it turned from lit to unlit keeps its
rampEnabled value; `_goDark` clears lit and the five flags of any lamp and keeps
its rampEnabled value. -/
theorem flag_clearing (hw : Platform) (s : linesideSignal) (h : Reachable hw s) :
    DarkLampsClear s ∧
    (∀ c, ∃ t, step hw s c = some t ∧ LampsStep s t) ∧
    List.Forall₂ darkStep s._lampList (_advanceDivision s)._lampList ∧
    (∀ cur lamp,
      (_goDark cur lamp).1.lit = false ∧ (_goDark cur lamp).1.flash = false ∧
      (_goDark cur lamp).1.alternate = false ∧ (_goDark cur lamp).1.start = false ∧
      (_goDark cur lamp).1.stop = false ∧ (_goDark cur lamp).1.delay = false ∧
      (_goDark cur lamp).1.ramp = lamp.ramp) := by
  have hi := h.invariant
  refine ⟨hi.2.1, ?_, ?_, _goDark_dark⟩
  · intro c
    obtain ⟨t, ht, -, hl⟩ := step_invariant hw s c hi
    exact ⟨t, ht, hl⟩
  · obtain ⟨⟨F, hF, hl⟩, -, -⟩ := (_advanceDivision_step s).1
    rw [hl, List.forall₂_map_right_iff, List.forall₂_same]
    intro x hx
    exact darkStep_of_rewrites (hF x).rewrites (hi.2.1 x hx)

/-- Witness of `flag_clearing`: six lamps registered, one turned on. -/
theorem flag_clearing_witness :
    Reachable refPlatform oneLampLit ∧ DarkLampsClear oneLampLit ∧
      ∀ c, ∃ t, step refPlatform oneLampLit c = some t ∧ LampsStep oneLampLit t :=
  ⟨⟨0, zeroMemory, oneLampLitCalls, rfl⟩,
    (flag_clearing refPlatform oneLampLit ⟨0, zeroMemory, oneLampLitCalls, rfl⟩).1,
    (flag_clearing refPlatform oneLampLit ⟨0, zeroMemory, oneLampLitCalls, rfl⟩).2.1⟩

/-! ### `setHeadColor` -/

theorem colorMatch_iff (c lc : Nat) :
    colorMatch c lc = true ↔
      (lc = c ∨
        (c = LSS_YELLOW ∧ (lc = LSS_GREENYELLOW ∨ lc = LSS_REDYELLOW ∨
          lc = LSS_GREENREDYELLOW ∨ lc = LSS_REDGREENYELLOW)) ∨
        (c = LSS_GREEN ∧ (lc = LSS_GREENYELLOW ∨ lc = LSS_GREENREDYELLOW)) ∨
        (c = LSS_RED ∧ (lc = LSS_REDYELLOW ∨ lc = LSS_REDGREENYELLOW))) := by
  unfold colorMatch
  simp only [Bool.or_eq_true, Bool.and_eq_true, decide_eq_true_eq]
  tauto

theorem clearHeadLamp_fixed (cur : signalLamp) (m h : Nat) (lamp : signalLamp) :
    (clearHeadLamp cur m h lamp).1.mastNum = lamp.mastNum ∧
    (clearHeadLamp cur m h lamp).1.headNum = lamp.headNum ∧
    (clearHeadLamp cur m h lamp).1.lampNum = lamp.lampNum ∧
    (clearHeadLamp cur m h lamp).1.color = lamp.color := by
  unfold clearHeadLamp _goDark
  cases lamp
  simp only [signalLamp.setBitFlag]
  split_ifs <;> exact ⟨rfl, rfl, rfl, rfl⟩

theorem setHeadColorLamp_fixed (cur : signalLamp) (m h c : Nat) (f : Bool)
    (lamp : signalLamp) :
    (setHeadColorLamp cur m h c f lamp).1.mastNum = lamp.mastNum ∧
    (setHeadColorLamp cur m h c f lamp).1.headNum = lamp.headNum ∧
    (setHeadColorLamp cur m h c f lamp).1.lampNum = lamp.lampNum ∧
    (setHeadColorLamp cur m h c f lamp).1.color = lamp.color := by
  unfold setHeadColorLamp shutDownLamp _goDark
  cases lamp
  simp only [signalLamp.setBitFlag]
  split_ifs <;> exact ⟨rfl, rfl, rfl, rfl⟩

theorem setHeadColorLamp_lights (cur : signalLamp) (m h c : Nat) (f : Bool)
    (lamp : signalLamp) (hd : lamp.darkIsClear) (hm : lamp.mastNum = m)
    (hh : lamp.headNum = h) (hc : colorMatch c lamp.color = true) :
    (setHeadColorLamp cur m h c f lamp).1.lit = true ∧
    (setHeadColorLamp cur m h c f lamp).1.flash = f := by
  unfold setHeadColorLamp
  rw [if_pos ⟨hm, hh⟩, if_pos hc]
  unfold signalLamp.darkIsClear at hd
  generalize isMultiColor lamp.color = multi
  generalize decide (c = lamp.color) = same
  cases lamp
  simp only [signalLamp.setBitFlag, signalLamp.isOn, signalLamp.isStop,
    signalLamp.getBitFlag] at *
  split_ifs <;> simp_all

theorem setHeadColor_lamps (m h c : Nat) (f : Bool) (s : linesideSignal)
    (hs : s._setupIsDone = true) (hc : c ≤ LSS_LAST_FOR_SETCOLOR) :
    ∃ cur2, (setHeadColor m h c f s)._lampList =
      s._lampList.map (fun lamp =>
        (setHeadColorLamp cur2 m h c f (clearHeadLamp s.currentLamp m h lamp).1).1) := by
  have h1 : clearHead m h s = forEachLamp (clearHeadLamp s.currentLamp m h) s := by
    unfold clearHead
    rw [if_neg (by simp [hs])]
  refine ⟨(clearHead m h s).currentLamp, ?_⟩
  unfold setHeadColor
  rw [if_neg (by simp [hs])]
  dsimp only
  rw [if_neg (by omega)]
  unfold forEachLamp
  dsimp only
  rw [h1]
  unfold forEachLamp
  dsimp only
  rw [List.map_map]
  rfl

/-- C10: in a reachable state, after `setHeadColor(m,h,c,f)` with `c <= 127`, every
lamp on head (m,h) whose fixed colour matches `c` (equal to `c`; or `c` = YELLOW
and the lamp GREENYELLOW, REDYELLOW, GREENREDYELLOW or REDGREENYELLOW; or `c` =
GREEN and the lamp GREENYELLOW or GREENREDYELLOW; or `c` = RED and the lamp
REDYELLOW or REDGREENYELLOW) is lit and has flashing = `f`, whatever its flags
were; the identity and colour of every lamp are unchanged. -/
theorem setHeadColor_lights_matching (hw : Platform) (s : linesideSignal)
    (h : Reachable hw s) (m hd c : Nat) (f : Bool) (hc : c ≤ 127) :
    List.Forall₂
      (fun old new =>
        new.mastNum = old.mastNum ∧ new.headNum = old.headNum ∧
        new.lampNum = old.lampNum ∧ new.color = old.color ∧
        (old.mastNum = m → old.headNum = hd →
          (old.color = c ∨
            (c = LSS_YELLOW ∧ (old.color = LSS_GREENYELLOW ∨ old.color = LSS_REDYELLOW ∨
              old.color = LSS_GREENREDYELLOW ∨ old.color = LSS_REDGREENYELLOW)) ∨
            (c = LSS_GREEN ∧ (old.color = LSS_GREENYELLOW ∨ old.color = LSS_GREENREDYELLOW)) ∨
            (c = LSS_RED ∧ (old.color = LSS_REDYELLOW ∨ old.color = LSS_REDGREENYELLOW))) →
          new.lit = true ∧ new.flash = f))
      s._lampList (setHeadColor m hd c f s)._lampList := by
  have hi := h.invariant
  obtain ⟨cur2, hl⟩ := setHeadColor_lamps m hd c f s hi.1 hc
  rw [hl, List.forall₂_map_right_iff, List.forall₂_same]
  intro x hx
  obtain ⟨a1, a2, a3, a4⟩ := clearHeadLamp_fixed s.currentLamp m hd x
  obtain ⟨b1, b2, b3, b4⟩ := setHeadColorLamp_fixed cur2 m hd c f
    (clearHeadLamp s.currentLamp m hd x).1
  refine ⟨b1.trans a1, b2.trans a2, b3.trans a3, b4.trans a4, fun hm hh hcol => ?_⟩
  apply setHeadColorLamp_lights
  · exact (clearHeadLamp_keepsRamp s.currentLamp m hd x).2.2.2 (hi.2.1 x hx)
  · exact a1.trans hm
  · exact a2.trans hh
  · rw [a4]
    exact (colorMatch_iff c x.color).mpr hcol

/-- Witness of `setHeadColor_lights_matching`: `setHeadColor(1,1,LSS_YELLOW)` on a
head with a GREENYELLOW, a REDYELLOW and a RED lamp. -/
theorem setHeadColor_lights_matching_witness :
    Reachable refPlatform bicolorHead ∧
    List.Forall₂
      (fun old new =>
        new.mastNum = old.mastNum ∧ new.headNum = old.headNum ∧
        new.lampNum = old.lampNum ∧ new.color = old.color ∧
        (old.mastNum = 1 → old.headNum = 1 →
          (old.color = LSS_YELLOW ∨
            (LSS_YELLOW = LSS_YELLOW ∧ (old.color = LSS_GREENYELLOW ∨
              old.color = LSS_REDYELLOW ∨
              old.color = LSS_GREENREDYELLOW ∨ old.color = LSS_REDGREENYELLOW)) ∨
            (LSS_YELLOW = LSS_GREEN ∧
              (old.color = LSS_GREENYELLOW ∨ old.color = LSS_GREENREDYELLOW)) ∨
            (LSS_YELLOW = LSS_RED ∧
              (old.color = LSS_REDYELLOW ∨ old.color = LSS_REDGREENYELLOW))) →
          new.lit = true ∧ new.flash = false))
      bicolorHead._lampList (setHeadColor 1 1 LSS_YELLOW false bicolorHead)._lampList :=
  ⟨⟨0, zeroMemory, bicolorHeadCalls, rfl⟩,
    setHeadColor_lights_matching refPlatform bicolorHead ⟨0, zeroMemory, bicolorHeadCalls, rfl⟩
      1 1 LSS_YELLOW false (by decide)⟩

/-- On the head of `bicolorHead`, `setHeadColor(1,1,LSS_YELLOW)` lights the
GREENYELLOW and the REDYELLOW lamp and leaves the RED lamp dark. -/
theorem setHeadColor_yellow_example :
    (setHeadColor 1 1 LSS_YELLOW false bicolorHead)._lampList.map
        (fun l => (l.color, l.lit, l.start, l.delay)) =
      [(LSS_RED, false, false, false), (LSS_REDYELLOW, true, true, true),
       (LSS_GREENYELLOW, true, true, true), (LSS_DARK, false, false, false)] := by
  decide

/-! ### Cycle time and flash rate commands -/

theorem _setFlashRate_clock (hw : Platform) (rate : Int) (s : linesideSignal) :
    (_setFlashRate hw rate s)._targetCycleTime = s._targetCycleTime ∧
    (_setFlashRate hw rate s)._rampDiv = s._rampDiv ∧
    (_setFlashRate hw rate s)._cycleCount = s._cycleCount := by
  unfold _setFlashRate
  split <;> exact ⟨rfl, rfl, rfl⟩

theorem _adjCycleTime_clock (hw : Platform) (s : linesideSignal) :
    (_adjCycleTime hw s)._targetCycleTime = s._targetCycleTime ∧
    (_adjCycleTime hw s)._rampDiv = s._rampDiv ∧
    (_adjCycleTime hw s)._cycleCount = s._cycleCount := by
  unfold _adjCycleTime
  exact _setFlashRate_clock hw _ _

/-- C16: for every state and every argument `cycle < 400` (that is `2*LSS_LED_MIN`)
or `cycle > 20000`, `setCycleTime(cycle)` returns the state it was given: target
cycle time, active cycle time, pulse width, division, pass counter and
cycles-per-division are all unchanged. -/
theorem setCycleTime_rejects (hw : Platform) (s : linesideSignal) (cycle : Int)
    (h : cycle < 400 ∨ cycle > 20000) :
    setCycleTime hw cycle s = s := by
  unfold setCycleTime
  have hmin : LSS_LED_MIN = 200 := rfl
  split_ifs with h1 h2
  · rfl
  · rfl
  · exact absurd h (by omega)

/-- Witness of `setCycleTime_rejects`: `setCycleTime(399)` with six lamps
registered and one turned on. -/
theorem setCycleTime_rejects_witness :
    ((399 : Int) < 400 ∨ (399 : Int) > 20000) ∧
      setCycleTime refPlatform 399 oneLampLit = oneLampLit :=
  ⟨by decide, setCycleTime_rejects refPlatform oneLampLit 399 (by decide)⟩

/-- C17: after setup, for `400 <= cycle <= 20000`, `setCycleTime(cycle)` sets
`_targetCycleTime` to `cycle`.  If `cycle` is smaller than the active `_cycleTime`,
the division and the pass counter are reset to 0 and the state is the one
`_adjCycleTime` computes from them (pulse width the larger of `LSS_LED_MIN` and
`cycle / lamps - overhead`, cycle time the product back).  Otherwise nothing but
`_targetCycleTime` changes: the active cycle time, pulse width, division, pass
counter and cycles-per-division are the ones before the call. -/
theorem setCycleTime_in_range (hw : Platform) (s : linesideSignal) (cycle : Int)
    (hs : s._setupIsDone = true) (h1 : 400 ≤ cycle) (h2 : cycle ≤ 20000) :
    (setCycleTime hw cycle s)._targetCycleTime = cycle ∧
    (cycle < s._cycleTime →
      setCycleTime hw cycle s =
        _adjCycleTime hw { s with _targetCycleTime := cycle, _rampDiv := 0, _cycleCount := 0 } ∧
      (setCycleTime hw cycle s)._rampDiv = 0 ∧
      (setCycleTime hw cycle s)._cycleCount = 0 ∧
      (setCycleTime hw cycle s)._pulseTimePerLED =
        max LSS_LED_MIN
          (cDiv hw cycle (if _litLampCount s = 0 then 1 else _litLampCount s)
            - _getOverhead s) ∧
      (setCycleTime hw cycle s)._cycleTime =
        toLong (((setCycleTime hw cycle s)._pulseTimePerLED + _getOverhead s) *
          (if _litLampCount s = 0 then 1 else _litLampCount s))) ∧
    (¬ cycle < s._cycleTime →
      setCycleTime hw cycle s = { s with _targetCycleTime := cycle }) := by
  have hmin : LSS_LED_MIN = 200 := rfl
  have hgo : setCycleTime hw cycle s =
      if cycle < s._cycleTime then
        _adjCycleTime hw { s with _targetCycleTime := cycle, _rampDiv := 0, _cycleCount := 0 }
      else { s with _targetCycleTime := cycle } := by
    unfold setCycleTime _resetCycleTime
    rw [if_neg (by simp [hs]), if_neg (by omega)]
  refine ⟨?_, fun hlt => ?_, fun hge => ?_⟩
  · rw [hgo]
    split
    · exact (_adjCycleTime_clock hw _).1
    · rfl
  · rw [hgo, if_pos hlt]
    obtain ⟨-, v2, v3⟩ := _adjCycleTime_values hw
      { s with _targetCycleTime := cycle, _rampDiv := 0, _cycleCount := 0 }
    exact ⟨rfl, (_adjCycleTime_clock hw _).2.1, (_adjCycleTime_clock hw _).2.2, v2, v3⟩
  · rw [hgo, if_neg hge]

/-- Witness of `setCycleTime_in_range`: `setCycleTime(2000)` with six lamps
registered and one turned on, where the active cycle time is 2500. -/
theorem setCycleTime_in_range_witness :
    oneLampLit._setupIsDone = true ∧ (400 : Int) ≤ 2000 ∧ (2000 : Int) ≤ 20000 ∧
    (2000 : Int) < oneLampLit._cycleTime ∧
    (setCycleTime refPlatform 2000 oneLampLit)._targetCycleTime = 2000 ∧
    (setCycleTime refPlatform 2000 oneLampLit)._rampDiv = 0 ∧
    (setCycleTime refPlatform 2000 oneLampLit)._cycleCount = 0 :=
  ⟨by decide, by decide, by decide, by decide,
    (setCycleTime_in_range refPlatform oneLampLit 2000 (by decide) (by decide) (by decide)).1,
    ((setCycleTime_in_range refPlatform oneLampLit 2000 (by decide) (by decide)
      (by decide)).2.1 (by decide)).2.1,
    ((setCycleTime_in_range refPlatform oneLampLit 2000 (by decide) (by decide)
      (by decide)).2.1 (by decide)).2.2.1⟩

/-- A rate outside 1..200 leaves `setFlashRate` without effect. -/
theorem setFlashRate_out_of_range (hw : Platform) (s : linesideSignal) (rate : Int)
    (h : rate < 1 ∨ rate > 200) : setFlashRate hw rate s = s := by
  unfold setFlashRate
  split_ifs with h1
  · rfl
  · rfl

/-- C18, as the code has it: `setFlashRate` ignores an argument outside
`[1, LSS_MAX_FLASH_RATE]`: for every rate above 200 and every rate below 1 the
state, and with it the half-interval and the cycles-per-division, is the one
before the call; for a rate inside the range, after setup, the half-interval is
`1000 * ((60000 div rate) div 2)` microseconds. -/
theorem setFlashRate_ignores_out_of_range (hw : Platform) (s : linesideSignal) (rate : Int) :
    (rate < 1 ∨ rate > 200 → setFlashRate hw rate s = s) ∧
    (s._setupIsDone = true → 1 ≤ rate → rate ≤ 200 →
      (setFlashRate hw rate s)._flashHalfInterval =
        1000 * Int.tdiv (Int.tdiv 60000 rate) 2) := by
  refine ⟨setFlashRate_out_of_range hw s rate, fun hs h1 h2 => ?_⟩
  unfold setFlashRate _setFlashRate
  have hmax : LSS_MAX_FLASH_RATE = 200 := rfl
  rw [if_neg (by simp [hs]), if_neg (by omega), if_neg (by omega)]

/-- Witness of `setFlashRate_ignores_out_of_range`: rates 300 and 120 with six
lamps registered and one turned on. -/
theorem setFlashRate_ignores_out_of_range_witness :
    ((300 : Int) < 1 ∨ (300 : Int) > 200) ∧
    setFlashRate refPlatform 300 oneLampLit = oneLampLit ∧
    oneLampLit._setupIsDone = true ∧ (1 : Int) ≤ 120 ∧ (120 : Int) ≤ 200 ∧
    (setFlashRate refPlatform 120 oneLampLit)._flashHalfInterval =
      1000 * Int.tdiv (Int.tdiv 60000 120) 2 :=
  ⟨by decide,
    (setFlashRate_ignores_out_of_range refPlatform oneLampLit 300).1 (by decide),
    by decide, by decide, by decide,
    (setFlashRate_ignores_out_of_range refPlatform oneLampLit 120).2 (by decide) (by decide)
      (by decide)⟩

/-- Counterexample to the clamping in C18: with six lamps registered and one
turned on (half-interval 500000, 40 cycles per division), `setFlashRate(300)`
and `setFlashRate(0)` leave both values as they are, while rate 200 gives 150000
and 8, and rate 1 gives 30000000 and 2400. -/
theorem setFlashRate_no_clamp_counterexample :
    (oneLampLit._flashHalfInterval, oneLampLit._cyclesPerDiv) = (500000, 40) ∧
    ((setFlashRate refPlatform 300 oneLampLit)._flashHalfInterval,
      (setFlashRate refPlatform 300 oneLampLit)._cyclesPerDiv) = (500000, 40) ∧
    ((setFlashRate refPlatform 200 oneLampLit)._flashHalfInterval,
      (setFlashRate refPlatform 200 oneLampLit)._cyclesPerDiv) = (150000, 8) ∧
    ((setFlashRate refPlatform 0 oneLampLit)._flashHalfInterval,
      (setFlashRate refPlatform 0 oneLampLit)._cyclesPerDiv) = (500000, 40) ∧
    ((setFlashRate refPlatform 1 oneLampLit)._flashHalfInterval,
      (setFlashRate refPlatform 1 oneLampLit)._cyclesPerDiv) = (30000000, 2400) := by
  decide

/-! ### Unknown colour codes -/

/-- C13, as the code has it: for every state and every colour code above
`LSS_LAST_FOR_SETCOLOR` (127), `setLampColor(m,h,l,color,f)` leaves the whole
state unchanged, and `setHeadColor(m,h,color,f)` has the effect of
`clearHead(m,h)`, which it calls before it tests the colour code. -/
theorem unknown_colour_codes (s : linesideSignal) (m hd l color : Nat) (f : Bool)
    (hc : color > 127) :
    setLampColor m hd l color f s = s ∧
    setHeadColor m hd color f s = clearHead m hd s := by
  have hlast : LSS_LAST_FOR_SETCOLOR = 127 := rfl
  constructor
  · unfold setLampColor
    split_ifs <;> rfl
  · unfold setHeadColor
    by_cases hs : s._setupIsDone = true
    · rw [if_neg (by simp [hs])]
      dsimp only
      rw [if_pos (by omega)]
    · unfold clearHead
      rw [if_pos (by simpa using hs), if_pos (by simpa using hs)]

/-- Witness of `unknown_colour_codes`: colour code 200 with six lamps registered
and lamp (0,0,1) turned on. -/
theorem unknown_colour_codes_witness :
    200 > 127 ∧ setLampColor 0 0 1 200 false oneLampLit = oneLampLit ∧
      setHeadColor 0 0 200 false oneLampLit = clearHead 0 0 oneLampLit :=
  ⟨by decide, unknown_colour_codes oneLampLit 0 0 1 200 false (by decide)⟩

/-- Counterexample to the no-op of `setHeadColor` in C13: with six lamps
registered and lamp (0,0,1) just turned on, `setHeadColor(0,0,200)` turns that
lamp fully dark. -/
theorem setHeadColor_unknown_colour_counterexample :
    oneLampLit._lampList.map (fun l => (l.lampNum, l.lit, l.start, l.delay)) =
      [(6, false, false, false), (5, false, false, false), (4, false, false, false),
       (3, false, false, false), (2, false, false, false), (1, true, true, true),
       (0, false, false, false)] ∧
    (setHeadColor 0 0 200 false oneLampLit)._lampList.map
        (fun l => (l.lampNum, l.lit, l.start, l.delay)) =
      [(6, false, false, false), (5, false, false, false), (4, false, false, false),
       (3, false, false, false), (2, false, false, false), (1, false, false, false),
       (0, false, false, false)] ∧
    setHeadColor 0 0 200 false oneLampLit ≠ oneLampLit := by
  refine ⟨by decide, by decide, fun h => ?_⟩
  exact absurd (congrArg (fun t => t._lampList.map (fun l => l.lit)) h) (by decide)

/-! ### `clearHead` -/

theorem clearHead_eq (m hd : Nat) (s : linesideSignal) (hs : s._setupIsDone = true) :
    clearHead m hd s = forEachLamp (clearHeadLamp s.currentLamp m hd) s := by
  unfold clearHead
  rw [if_neg (by simp [hs])]

/-- What the body of the loop of `clearHead` does to one lamp. -/
theorem clearHeadLamp_cases (cur : signalLamp) (m hd : Nat) (old : signalLamp) :
    (old.mastNum = m ∧ old.headNum = hd →
      (old.lit = true ∧ old.start = true ∧ old.delay = true →
        (clearHeadLamp cur m hd old).1 =
          { old with lit := false, flash := false, alternate := false, start := false,
                     stop := false, delay := false }) ∧
      (¬ (old.lit = true ∧ old.start = true ∧ old.delay = true) →
        (old.lit = true ∧ old.stop = false →
          clearHeadLamp cur m hd old =
            ({ old with stop := true, delay := true, start := false }, false)) ∧
        (old.lit = false ∨ old.stop = true →
          clearHeadLamp cur m hd old = (old, false)))) ∧
    (¬ (old.mastNum = m ∧ old.headNum = hd) → clearHeadLamp cur m hd old = (old, false)) := by
  unfold clearHeadLamp _goDark
  refine ⟨fun hm => ?_, fun hm => ?_⟩
  · rw [if_pos hm]
    obtain ⟨lit, flash, alt, start, stop, ramp, delay, mast, head, num, col, an, ca⟩ := old
    simp only [signalLamp.setBitFlag, signalLamp.isOn, signalLamp.isStart, signalLamp.isStop,
      signalLamp.onHold, signalLamp.getBitFlag]
    cases lit <;> cases start <;> cases stop <;> cases delay <;> simp
  · rw [if_neg hm]

/-- A second pass of the body of `clearHead` over a lamp changes nothing. -/
theorem clearHeadLamp_twice (cur cur2 : signalLamp) (m hd : Nat) (lamp : signalLamp) :
    clearHeadLamp cur2 m hd (clearHeadLamp cur m hd lamp).1 =
      ((clearHeadLamp cur m hd lamp).1, false) := by
  unfold clearHeadLamp _goDark
  obtain ⟨lit, flash, alt, start, stop, ramp, delay, mast, head, num, col, an, ca⟩ := lamp
  simp only [signalLamp.setBitFlag, signalLamp.isOn, signalLamp.isStart, signalLamp.isStop,
    signalLamp.onHold, signalLamp.getBitFlag]
  by_cases hm : mast = m ∧ head = hd
  · cases lit <;> cases start <;> cases stop <;> cases delay <;> simp [hm]
  · simp [hm]

theorem clearHead_twice (m hd : Nat) (s : linesideSignal) :
    clearHead m hd (clearHead m hd s) = clearHead m hd s := by
  by_cases hs : s._setupIsDone = true
  · have h1 := clearHead_eq m hd s hs
    have h2 : (clearHead m hd s)._setupIsDone = true := by rw [h1]; exact hs
    rw [clearHead_eq m hd (clearHead m hd s) h2]
    generalize (clearHead m hd s).currentLamp = cur2
    rw [h1]
    unfold forEachLamp
    dsimp only
    congr 1
    · rw [List.map_map]
      conv_rhs => rw [← List.map_id (List.map _ s._lampList)]
      rw [List.map_map]
      apply List.map_congr_left
      intro x _
      simp only [Function.comp, clearHeadLamp_twice, id]
    · rw [List.any_map]
      have : (s._lampList.any
          ((fun lamp => (clearHeadLamp cur2 m hd lamp).2) ∘
            fun lamp => (clearHeadLamp s.currentLamp m hd lamp).1)) = false := by
        rw [List.any_eq_false]
        intro x _
        simp [Function.comp, clearHeadLamp_twice]
      rw [this, Bool.or_false]
  · have h1 : clearHead m hd s = s := by
      unfold clearHead
      rw [if_pos (by simpa using hs)]
    rw [h1, h1]

/-- C14: after setup, `clearHead(m,h)` rewrites every lamp of head (m,h) as
follows: a lamp that was lit, starting and onHold becomes fully dark; otherwise a
lamp that was lit and not stopping gets stopping and onHold set and starting
cleared, with lit, flashing, alternatePhase and rampEnabled unchanged; otherwise
(the lamp was unlit, or already stopping) it is unchanged.  Lamps of other heads
are unchanged.  `clearHead` applied twice equals `clearHead` applied once, in
every state. -/
theorem clearHead_postcondition (s : linesideSignal) (hs : s._setupIsDone = true)
    (m hd : Nat) :
    List.Forall₂
      (fun old new =>
        (old.mastNum = m ∧ old.headNum = hd →
          (old.lit = true ∧ old.start = true ∧ old.delay = true →
            new = { old with lit := false, flash := false, alternate := false,
                             start := false, stop := false, delay := false }) ∧
          (¬ (old.lit = true ∧ old.start = true ∧ old.delay = true) →
            (old.lit = true ∧ old.stop = false →
              new = { old with stop := true, delay := true, start := false }) ∧
            (old.lit = false ∨ old.stop = true → new = old))) ∧
        (¬ (old.mastNum = m ∧ old.headNum = hd) → new = old))
      s._lampList (clearHead m hd s)._lampList ∧
    clearHead m hd (clearHead m hd s) = clearHead m hd s := by
  refine ⟨?_, clearHead_twice m hd s⟩
  rw [clearHead_eq m hd s hs]
  unfold forEachLamp
  dsimp only
  rw [List.forall₂_map_right_iff, List.forall₂_same]
  intro x _
  obtain ⟨c1, c2⟩ := clearHeadLamp_cases s.currentLamp m hd x
  refine ⟨fun hm => ⟨(c1 hm).1, fun hn => ⟨fun hl => ?_, fun hl => ?_⟩⟩, fun hm => ?_⟩
  · rw [((c1 hm).2 hn).1 hl]
  · rw [((c1 hm).2 hn).2 hl]
  · rw [c2 hm]

/-- Witness of `clearHead_postcondition`: `clearHead(0,0)` with six lamps
registered and lamp (0,0,1) just turned on; the lamp goes dark. -/
theorem clearHead_postcondition_witness :
    oneLampLit._setupIsDone = true ∧
    (List.Forall₂
      (fun old new =>
        (old.mastNum = 0 ∧ old.headNum = 0 →
          (old.lit = true ∧ old.start = true ∧ old.delay = true →
            new = { old with lit := false, flash := false, alternate := false,
                             start := false, stop := false, delay := false }) ∧
          (¬ (old.lit = true ∧ old.start = true ∧ old.delay = true) →
            (old.lit = true ∧ old.stop = false →
              new = { old with stop := true, delay := true, start := false }) ∧
            (old.lit = false ∨ old.stop = true → new = old))) ∧
        (¬ (old.mastNum = 0 ∧ old.headNum = 0) → new = old))
      oneLampLit._lampList (clearHead 0 0 oneLampLit)._lampList ∧
    clearHead 0 0 (clearHead 0 0 oneLampLit) = clearHead 0 0 oneLampLit) ∧
    (clearHead 0 0 oneLampLit)._lampList.map (fun l => (l.lampNum, l.lit, l.start, l.delay)) =
      [(6, false, false, false), (5, false, false, false), (4, false, false, false),
       (3, false, false, false), (2, false, false, false), (1, false, false, false),
       (0, false, false, false)] :=
  ⟨by decide, clearHead_postcondition oneLampLit (by decide) 0 0, by decide⟩

/-! ### `setLampColor` -/

theorem setLampColor_eq (m hd l c : Nat) (f : Bool) (s : linesideSignal)
    (hs : s._setupIsDone = true) (hc : c ≤ 127) :
    setLampColor m hd l c f s =
      forEachLamp (setLampColorLamp s.currentLamp m hd l c f) s := by
  unfold setLampColor
  have hlast : LSS_LAST_FOR_SETCOLOR = 127 := rfl
  rw [if_neg (by simp [hs]), if_neg (by omega)]

theorem isMultiColor_of_le (c : Nat) (hc : c ≤ 127) : isMultiColor c = false := by
  unfold isMultiColor
  have h1 : LSS_GREENYELLOW = 188 := rfl
  have h2 : LSS_REDYELLOW = 189 := rfl
  have h3 : LSS_GREENREDYELLOW = 198 := rfl
  have h4 : LSS_REDGREENYELLOW = 199 := rfl
  simp only [Bool.or_eq_false_iff, decide_eq_false_iff_not]
  omega

/-- The same-colour branch of the body of `setLampColor`, and the lamps the body
does not address. -/
theorem setLampColorLamp_same (cur : signalLamp) (m hd l c : Nat) (f : Bool)
    (old : signalLamp) (hc : c ≤ 127) :
    (old.mastNum = m ∧ old.headNum = hd ∧ old.lampNum = l → old.lit = true →
      old.color = c →
        (setLampColorLamp cur m hd l c f old).1 =
          { old with stop := true, start := true, flash := f }) ∧
    (¬ (old.mastNum = m ∧ old.headNum = hd ∧ old.lampNum = l) →
      setLampColorLamp cur m hd l c f old = (old, false)) := by
  unfold setLampColorLamp
  refine ⟨fun hm hl hcol => ?_, fun hm => ?_⟩
  · have hmatch : colorMatch c old.color = true := (colorMatch_iff c old.color).mpr (Or.inl hcol)
    have hmulti : isMultiColor old.color = false := isMultiColor_of_le _ (hcol ▸ hc)
    rw [if_pos hm, if_pos hmatch]
    obtain ⟨lit, flash, alt, start, stop, ramp, delay, mast, head, num, col, an, ca⟩ := old
    simp only [signalLamp.setBitFlag, signalLamp.isOn, signalLamp.isStop,
      signalLamp.getBitFlag] at *
    subst hcol
    simp [hmulti, hl]
  · rw [if_neg hm]

/-- C15: after setup, `setLampColor(m,h,l,c,f)` with `c <= 127` rewrites a lit
lamp (m,h,l) whose fixed colour equals `c` (such a lamp is never a composite-colour
one) so that stopping and starting are both set and flashing is `f`, with lit,
onHold, alternatePhase and rampEnabled unchanged; every lamp that is not lamp
(m,h,l), the other lamps of head (m,h) among them, is unchanged. -/
theorem setLampColor_same_colour (s : linesideSignal) (hs : s._setupIsDone = true)
    (m hd l c : Nat) (f : Bool) (hc : c ≤ 127) :
    List.Forall₂
      (fun old new =>
        (old.mastNum = m ∧ old.headNum = hd ∧ old.lampNum = l → old.lit = true →
          old.color = c →
            isMultiColor old.color = false ∧
            new.stop = true ∧ new.start = true ∧ new.lit = true ∧ new.flash = f ∧
            new.delay = old.delay ∧ new.alternate = old.alternate ∧ new.ramp = old.ramp) ∧
        (¬ (old.mastNum = m ∧ old.headNum = hd ∧ old.lampNum = l) → new = old))
      s._lampList (setLampColor m hd l c f s)._lampList := by
  rw [setLampColor_eq m hd l c f s hs hc]
  unfold forEachLamp
  dsimp only
  rw [List.forall₂_map_right_iff, List.forall₂_same]
  intro x _
  obtain ⟨c1, c2⟩ := setLampColorLamp_same s.currentLamp m hd l c f x hc
  refine ⟨fun hm hl hcol => ?_, fun hm => ?_⟩
  · rw [c1 hm hl hcol]
    exact ⟨isMultiColor_of_le _ (hcol ▸ hc), rfl, rfl, hl, rfl, rfl, rfl, rfl⟩
  · rw [c2 hm]

/-- Witness of `setLampColor_same_colour`: `setLampColor(0,0,1,LSS_RED)` with six
red lamps registered and lamp (0,0,1) just turned on. -/
theorem setLampColor_same_colour_witness :
    oneLampLit._setupIsDone = true ∧ LSS_RED ≤ 127 ∧
    List.Forall₂
      (fun old new =>
        (old.mastNum = 0 ∧ old.headNum = 0 ∧ old.lampNum = 1 → old.lit = true →
          old.color = LSS_RED →
            isMultiColor old.color = false ∧
            new.stop = true ∧ new.start = true ∧ new.lit = true ∧ new.flash = false ∧
            new.delay = old.delay ∧ new.alternate = old.alternate ∧ new.ramp = old.ramp) ∧
        (¬ (old.mastNum = 0 ∧ old.headNum = 0 ∧ old.lampNum = 1) → new = old))
      oneLampLit._lampList (setLampColor 0 0 1 LSS_RED false oneLampLit)._lampList ∧
    (setLampColor 0 0 1 LSS_RED false oneLampLit)._lampList.map
        (fun l => (l.lampNum, l.lit, l.start, l.stop, l.delay)) =
      [(6, false, false, false, false), (5, false, false, false, false),
       (4, false, false, false, false), (3, false, false, false, false),
       (2, false, false, false, false), (1, true, true, true, true),
       (0, false, false, false, false)] :=
  ⟨by decide, by decide,
    setLampColor_same_colour oneLampLit (by decide) 0 0 1 LSS_RED false (by decide),
    by decide⟩

/-! ### `addLamp` -/

/-- What `addLamp` does after setup: nothing for invalid arguments, one new lamp in
front of the list otherwise. -/
theorem addLamp_valid_or_same (s : linesideSignal) (hs : s._setupIsDone = true)
    (m hd l a c col : Nat) :
    (a = c ∨ ¬ a < 70 ∨ ¬ c < 70 ∨ col = LSS_DARK → addLamp m hd l a c col s = s) ∧
    (a ≠ c → a < 70 → c < 70 → col ≠ LSS_DARK →
      (addLamp m hd l a c col s)._lampList =
        { lit := false, flash := false, alternate := false, start := false, stop := false,
          ramp := true, delay := false, mastNum := m, headNum := hd, lampNum := l,
          color := col, anode := a, cathode := c } :: s._lampList ∧
      (addLamp m hd l a c col s)._currentLED = s._currentLED.map (· + 1) ∧
      (addLamp m hd l a c col s).currentLamp = s.currentLamp) := by
  constructor
  · intro h
    unfold addLamp _goodPin
    split_ifs with h1 h2 h3 h4 h5
    · rfl
    · rfl
    · rfl
    · rfl
    · rfl
    · exfalso
      simp only [Bool.not_eq_true', decide_eq_false_iff_not, not_not] at h3 h4
      rcases h with h | h | h | h
      · exact h2 h
      · exact h h3.2
      · exact h h4.2
      · exact h5 h
  · intro hne ha hc hcol
    have hnp : LSS_NOT_PIN = 255 := rfl
    have hgo : addLamp m hd l a c col s = _addLamp m hd l a c col s := by
      unfold addLamp _goodPin
      rw [if_neg (by simp [hs]), if_neg hne, if_neg (by simp [ha]), if_neg (by simp [hc]),
        if_neg hcol]
    have hlist : (_addLamp m hd l a c col s)._lampList =
        { lit := false, flash := false, alternate := false, start := false, stop := false,
          ramp := true, delay := false, mastNum := m, headNum := hd, lampNum := l,
          color := col, anode := a, cathode := c } :: s._lampList := by
      unfold _addLamp
      dsimp only
      rw [if_neg (by omega)]
      rfl
    have hcur : (_addLamp m hd l a c col s)._currentLED = s._currentLED.map (· + 1) := by
      unfold _addLamp
      dsimp only
      rw [if_neg (by omega)]
    rw [hgo]
    exact ⟨hlist, hcur, currentLamp_cons s _ _ hlist hcur⟩

/-- C19: after setup, `addLamp(m,h,l,anode,cathode,color)` returns the state it was
given when `anode == cathode`, or a pin is outside 0..69, or `color == LSS_DARK`.
In every other case the lamp list is the old one with one new lamp put in front,
carrying exactly those identity, pin and colour attributes, with lit, flashing,
alternatePhase, starting, stopping and onHold false and rampEnabled true; the
cursor still designates the lamp it designated (its index moves by one with the
list). -/
theorem addLamp_registers_iff_valid (s : linesideSignal) (hs : s._setupIsDone = true)
    (m hd l a c col : Nat) :
    (a = c ∨ ¬ a < 70 ∨ ¬ c < 70 ∨ col = LSS_DARK → addLamp m hd l a c col s = s) ∧
    (a ≠ c → a < 70 → c < 70 → col ≠ LSS_DARK →
      (addLamp m hd l a c col s)._lampList =
        { lit := false, flash := false, alternate := false, start := false, stop := false,
          ramp := true, delay := false, mastNum := m, headNum := hd, lampNum := l,
          color := col, anode := a, cathode := c } :: s._lampList ∧
      (addLamp m hd l a c col s)._currentLED = s._currentLED.map (· + 1) ∧
      (addLamp m hd l a c col s).currentLamp = s.currentLamp) :=
  addLamp_valid_or_same s hs m hd l a c col

/-- Witness of `addLamp_registers_iff_valid`: right after `powerOn`,
`addLamp(0,0,1,2,2,LSS_RED)` is rejected and `addLamp(0,0,1,2,3,LSS_RED)` registers
the lamp in front of the sentinel. -/
theorem addLamp_registers_iff_valid_witness :
    (powerOn refPlatform 0 zeroMemory)._setupIsDone = true ∧
    addLamp 0 0 1 2 2 LSS_RED (powerOn refPlatform 0 zeroMemory) =
      powerOn refPlatform 0 zeroMemory ∧
    (addLamp 0 0 1 2 3 LSS_RED (powerOn refPlatform 0 zeroMemory))._lampList =
      { lit := false, flash := false, alternate := false, start := false, stop := false,
        ramp := true, delay := false, mastNum := 0, headNum := 0, lampNum := 1,
        color := LSS_RED, anode := 2, cathode := 3 } ::
        (powerOn refPlatform 0 zeroMemory)._lampList ∧
    (addLamp 0 0 1 2 3 LSS_RED (powerOn refPlatform 0 zeroMemory)).currentLamp =
      (powerOn refPlatform 0 zeroMemory).currentLamp :=
  ⟨by decide,
    (addLamp_registers_iff_valid (powerOn refPlatform 0 zeroMemory) (by decide)
      0 0 1 2 2 LSS_RED).1 (Or.inl rfl),
    ((addLamp_registers_iff_valid (powerOn refPlatform 0 zeroMemory) (by decide)
      0 0 1 2 3 LSS_RED).2 (by decide) (by decide) (by decide) (by decide)).1,
    ((addLamp_registers_iff_valid (powerOn refPlatform 0 zeroMemory) (by decide)
      0 0 1 2 3 LSS_RED).2 (by decide) (by decide) (by decide) (by decide)).2.2⟩

/-! ### The registry -/

theorem isReal_of_fixedPart {a b : signalLamp} (h : b.fixedPart = a.fixedPart) :
    b.isReal = a.isReal := by
  unfold signalLamp.fixedPart at h
  simp only [Prod.mk.injEq] at h
  unfold signalLamp.isReal
  rw [h.2.2.2.1, h.2.2.2.2.1, h.2.2.2.2.2]

theorem isSentinel_of_fixedPart {a b : signalLamp} (h : b.fixedPart = a.fixedPart) :
    b.isSentinel = a.isSentinel := by
  unfold signalLamp.isSentinel
  rw [h]

theorem registryOk_cons (l : signalLamp) (rest : List signalLamp) (h : rest ≠ []) :
    registryOk (l :: rest) = (l.isReal && registryOk rest) := by
  cases rest with
  | nil => exact absurd rfl h
  | cons r rest => rfl

/-- The meaning of `registryOk`: the list is real lamps followed by the sentinel. -/
theorem registryOk_iff (lamps : List signalLamp) :
    registryOk lamps = true ↔
      ∃ front last, lamps = front ++ [last] ∧ last.isSentinel = true ∧
        ∀ l ∈ front, l.isReal = true := by
  induction lamps with
  | nil =>
    constructor
    · intro h
      exact absurd h (by simp [registryOk])
    · rintro ⟨front, last, h, -, -⟩
      exact absurd h (by simp)
  | cons l rest ih =>
    cases rest with
    | nil =>
      constructor
      · intro h
        exact ⟨[], l, rfl, h, fun x hx => absurd hx (by simp)⟩
      · rintro ⟨front, last, h, hs, -⟩
        cases front with
        | nil =>
          simp only [List.nil_append, List.cons.injEq, and_true] at h
          rw [h]
          exact hs
        | cons f fs =>
          simp only [List.cons_append, List.cons.injEq] at h
          exact absurd h.2 (by simp)
    | cons r rest =>
      rw [registryOk_cons l (r :: rest) (by simp), Bool.and_eq_true, ih]
      constructor
      · rintro ⟨hl, front, last, h, hs, hf⟩
        refine ⟨l :: front, last, by rw [h]; rfl, hs, fun x hx => ?_⟩
        rcases List.mem_cons.mp hx with hx | hx
        · rw [hx]
          exact hl
        · exact hf x hx
      · rintro ⟨front, last, h, hs, hf⟩
        cases front with
        | nil =>
          simp only [List.nil_append, List.cons.injEq] at h
          exact absurd h.2 (by simp)
        | cons f fs =>
          simp only [List.cons_append, List.cons.injEq] at h
          refine ⟨?_, fs, last, h.2, hs, fun x hx => hf x (List.mem_cons_of_mem _ hx)⟩
          rw [h.1]
          exact hf f (List.mem_cons_self _ _)

theorem isReal_not_sentinel (l : signalLamp) (h : l.isReal = true) :
    ¬ (l.anode = LSS_NOT_PIN ∧ l.cathode = LSS_NOT_PIN ∧ l.color = LSS_DARK) := by
  unfold signalLamp.isReal at h
  simp only [Bool.and_eq_true, decide_eq_true_eq] at h
  intro hn
  exact h.2 hn.2.2

theorem registry_of_lampList {s t : linesideSignal} (h : t._lampList = s._lampList) :
    registry t = registry s := by
  unfold registry
  rw [h]

theorem registry_forEachLamp (body : signalLamp → signalLamp × Bool)
    (hb : ∀ l, (body l).1.fixedPart = l.fixedPart) (s : linesideSignal) :
    registry (forEachLamp body s) = registry s := by
  unfold registry forEachLamp
  dsimp only
  rw [List.map_map]
  apply List.map_congr_left
  intro l _
  exact hb l

theorem _goDark_fixedPart (cur lamp : signalLamp) :
    (_goDark cur lamp).1.fixedPart = lamp.fixedPart := by
  unfold _goDark
  cases lamp
  rfl

theorem setRampLamp_fixedPart (m h l : Nat) (r : Bool) (lamp : signalLamp) :
    (setRampLamp m h l r lamp).1.fixedPart = lamp.fixedPart := by
  unfold setRampLamp
  cases lamp
  simp only [signalLamp.setBitFlag]
  split_ifs <;> rfl

theorem clearHeadLamp_fixedPart (cur : signalLamp) (m h : Nat) (lamp : signalLamp) :
    (clearHeadLamp cur m h lamp).1.fixedPart = lamp.fixedPart := by
  unfold clearHeadLamp _goDark
  cases lamp
  simp only [signalLamp.setBitFlag]
  split_ifs <;> rfl

theorem setLampLamp_fixedPart (m h l : Nat) (f : Bool) (lamp : signalLamp) :
    (setLampLamp m h l f lamp).1.fixedPart = lamp.fixedPart := by
  unfold setLampLamp
  cases lamp
  simp only [signalLamp.setBitFlag]
  split_ifs <;> rfl

theorem setAlternateLamp_fixedPart (m h l : Nat) (alt : Bool) (lamp : signalLamp) :
    (setAlternateLamp m h l alt lamp).1.fixedPart = lamp.fixedPart := by
  unfold setAlternateLamp
  cases lamp
  simp only [signalLamp.setBitFlag]
  split_ifs <;> rfl

theorem setHeadColorLamp_fixedPart (cur : signalLamp) (m h c : Nat) (f : Bool)
    (lamp : signalLamp) :
    (setHeadColorLamp cur m h c f lamp).1.fixedPart = lamp.fixedPart := by
  unfold setHeadColorLamp shutDownLamp _goDark
  cases lamp
  simp only [signalLamp.setBitFlag]
  split_ifs <;> rfl

theorem setLampColorLamp_fixedPart (cur : signalLamp) (m h l c : Nat) (f : Bool)
    (lamp : signalLamp) :
    (setLampColorLamp cur m h l c f lamp).1.fixedPart = lamp.fixedPart := by
  unfold setLampColorLamp shutDownLamp _goDark
  cases lamp
  simp only [signalLamp.setBitFlag]
  split_ifs <;> rfl

theorem advanceLampsLamp_fixedPart (cur : signalLamp) (k : Nat) (b : Bool)
    (lamp : signalLamp) :
    (advanceLampsLamp cur k b lamp).1.fixedPart = lamp.fixedPart := by
  unfold advanceLampsLamp _goDark
  cases lamp
  simp only [signalLamp.setBitFlag]
  split_ifs <;> rfl

theorem releaseHoldLamp_fixedPart (k : Nat) (b : Bool) (lamp : signalLamp) :
    (releaseHoldLamp k b lamp).1.fixedPart = lamp.fixedPart := by
  unfold releaseHoldLamp
  cases lamp
  simp only [signalLamp.setBitFlag]
  split_ifs <;> rfl

theorem _advanceDivision_registry (s : linesideSignal) :
    registry (_advanceDivision s) = registry s := by
  have adv : ∀ (k : Nat) (b : Bool) (u : linesideSignal),
      registry (_advanceLamps k b u) = registry u := fun k b u =>
    registry_forEachLamp _ (advanceLampsLamp_fixedPart u.currentLamp k b) u
  have rel : ∀ (k : Nat) (b : Bool) (u : linesideSignal),
      registry (_releaseHold k b u) = registry u := fun k b u =>
    registry_forEachLamp _ (releaseHoldLamp_fixedPart k b) u
  unfold _advanceDivision
  dsimp only
  split <;> (try split_ifs) <;> first
    | rfl
    | exact adv _ _ _
    | exact rel _ _ _
    | exact (rel _ _ _).trans (adv _ _ _)

theorem _getNextLamp_lampList (s : linesideSignal) :
    (_getNextLamp s).2.2._lampList = s._lampList := by
  unfold _getNextLamp
  split
  · rfl
  · split
    · rfl
    · split <;> rfl

theorem _enabledLED_lampList (s : linesideSignal) :
    (_enabledLED s).2._lampList = s._lampList := by
  unfold _enabledLED
  split <;> rfl

theorem selectLamp_registry (hw : Platform) (clk : Clock) (s : linesideSignal) :
    registry (selectLamp hw clk s).2.2.2 = registry s := by
  have h1 : registry (resetOnJump hw s) = registry s := by
    unfold resetOnJump
    split
    · exact registry_of_lampList (_resetCycleTime_frame hw s).2.1
    · rfl
  have h2 : ∀ u, registry (nextLED hw clk u).2 = registry u := by
    intro u
    unfold nextLED
    dsimp only
    refine (registry_of_lampList (_lightTimerStart_frame _ _ _ _).2.1).trans ?_
    split
    · exact registry_of_lampList (_getNextLamp_lampList u)
    · exact registry_of_lampList (_getNextLamp_lampList u)
  have h3 : ∀ u, registry (rampClock hw u) = registry u := by
    intro u
    have hn : registry (_newRampState hw u).2 = registry u := by
      unfold _newRampState
      dsimp only
      split
      · exact registry_of_lampList (_resetCycleTime_frame hw u).2.1
      · rfl
    unfold rampClock
    dsimp only
    split
    · exact (_advanceDivision_registry _).trans hn
    · exact hn
  have h4 : ∀ u, registry (decideLED u).2 = registry u := by
    intro u
    unfold decideLED
    split
    · exact registry_of_lampList (_enabledLED_lampList u)
    · rfl
  have h5 : registry
      (if _lightTimerExpired clk.expiryCheck (resetOnJump hw s) = true then
        nextLED hw clk (resetOnJump hw s) else (false, resetOnJump hw s)).2 =
      registry (resetOnJump hw s) := by
    split
    · exact h2 _
    · dsimp only
  exact (h4 _).trans ((h3 _).trans (h5.trans h1))

theorem registryOk_of_registry (lamps other : List signalLamp)
    (h : other.map signalLamp.fixedPart = lamps.map signalLamp.fixedPart) :
    registryOk other = registryOk lamps := by
  induction lamps generalizing other with
  | nil =>
    have : other = [] := by simpa using h
    rw [this]
  | cons l rest ih =>
    cases other with
    | nil => exact absurd h (by simp)
    | cons o os =>
      simp only [List.map_cons, List.cons.injEq] at h
      cases rest with
      | nil =>
        have : os = [] := by simpa using h.2
        rw [this]
        exact isSentinel_of_fixedPart h.1
      | cons r rest =>
        have hos : os ≠ [] := by
          intro hn
          rw [hn] at h
          exact absurd h.2 (by simp)
        rw [registryOk_cons o os hos, registryOk_cons l (r :: rest) (by simp), ih os h.2,
          isReal_of_fixedPart h.1]

theorem registryOk_of_eq {s t : linesideSignal} (h : registry t = registry s) :
    registryOk t._lampList = registryOk s._lampList :=
  registryOk_of_registry _ _ h

theorem updateSignals_registry (hw : Platform) (clk : Clock) (s : linesideSignal)
    (hi : Invariant s) :
    ∃ t, updateSignals hw clk s = some t ∧ registry t = registry s := by
  obtain ⟨-, hd, -⟩ := selectLamp_step hw clk s
  obtain ⟨t, ht, -, tl, -, -⟩ := switchPins_spec (selectLamp hw clk s).2.2.2
    s.currentLamp.anode s.currentLamp.cathode (selectLamp hw clk s).2.1
    (selectLamp hw clk s).2.2.1 (Electrical.of_sameDrive hd hi.2.2)
  have hrec := recordTimes_frame clk (selectLamp hw clk s).1 (selectLamp hw clk s).2.1 t
  refine ⟨recordTimes clk (selectLamp hw clk s).1 (selectLamp hw clk s).2.1 t, ?_, ?_⟩
  · unfold updateSignals
    dsimp only
    rw [ht]
    rfl
  · exact (registry_of_lampList (hrec.2.1.trans tl)).trans (selectLamp_registry hw clk s)

theorem addLamp_registry (m hd l a c col : Nat) (s : linesideSignal)
    (hr : registryOk s._lampList = true) :
    registry s <:+ registry (addLamp m hd l a c col s) ∧
      registryOk (addLamp m hd l a c col s)._lampList = true := by
  by_cases hs : s._setupIsDone = true
  · by_cases hv : a = c ∨ ¬ a < 70 ∨ ¬ c < 70 ∨ col = LSS_DARK
    · rw [(addLamp_valid_or_same s hs m hd l a c col).1 hv]
      exact ⟨List.suffix_refl _, hr⟩
    · simp only [not_or, not_not] at hv
      obtain ⟨hl, -, -⟩ := (addLamp_valid_or_same s hs m hd l a c col).2 hv.1 hv.2.1
        hv.2.2.1 hv.2.2.2
      have hne : s._lampList ≠ [] := by
        intro hn
        rw [hn] at hr
        exact absurd hr (by simp [registryOk])
      constructor
      · unfold registry
        rw [hl, List.map_cons]
        exact List.suffix_cons _ _
      · rw [hl, registryOk_cons _ _ hne, hr, Bool.and_true]
        unfold signalLamp.isReal _goodPin
        simp [hv.1, hv.2.1, hv.2.2.1, hv.2.2.2]
  · have : addLamp m hd l a c col s = s := by
      unfold addLamp
      rw [if_pos (by simpa using hs)]
    rw [this]
    exact ⟨List.suffix_refl _, hr⟩

theorem step_registry (hw : Platform) (s : linesideSignal) (c : Command)
    (hi : Invariant s) (hr : registryOk s._lampList = true) :
    ∃ t, step hw s c = some t ∧ registry s <:+ registry t ∧
      registryOk t._lampList = true := by
  have key : ∀ t, registry t = registry s →
      ∃ u, some t = some u ∧ registry s <:+ registry u ∧ registryOk u._lampList = true :=
    fun t h => ⟨t, rfl, h ▸ List.suffix_refl _, (registryOk_of_eq h).trans hr⟩
  cases c with
  | setupSignal =>
    refine key _ ?_
    rw [setupSignal_of_done hw s hi.1]
  | addLamp m h l a c col => exact ⟨_, rfl, addLamp_registry m h l a c col s hr⟩
  | updateSignals clk =>
    obtain ⟨t, ht, hreg⟩ := updateSignals_registry hw clk s hi
    exact ⟨t, ht, hreg ▸ List.suffix_refl _, (registryOk_of_eq hreg).trans hr⟩
  | setLamp m h l lit f =>
    refine key _ ?_
    unfold setLamp
    split
    · rfl
    · exact registry_forEachLamp _ (setLampLamp_fixedPart m h l f) s
  | clearHead m h =>
    refine key _ ?_
    unfold clearHead
    split
    · rfl
    · exact registry_forEachLamp _ (clearHeadLamp_fixedPart _ m h) s
  | setCycleTime cycle => exact key _ (registry_of_lampList (setCycleTime_frame hw cycle s).2.1)
  | setFlashRate rate => exact key _ (registry_of_lampList (setFlashRate_frame hw rate s).2.1)
  | setHeadColor m h col f =>
    refine key _ ?_
    have hc : registry (clearHead m h s) = registry s := by
      unfold clearHead
      split
      · rfl
      · exact registry_forEachLamp _ (clearHeadLamp_fixedPart _ m h) s
    unfold setHeadColor
    dsimp only
    split_ifs
    · rfl
    · exact hc
    · exact (registry_forEachLamp _ (setHeadColorLamp_fixedPart _ m h col f) _).trans hc
  | setLampColor m h l col f =>
    refine key _ ?_
    unfold setLampColor
    split_ifs
    · rfl
    · rfl
    · exact registry_forEachLamp _ (setLampColorLamp_fixedPart _ m h l col f) s
  | setAlternate m h l alt =>
    refine key _ ?_
    unfold setAlternate
    split
    · rfl
    · exact registry_forEachLamp _ (setAlternateLamp_fixedPart m h l alt) s
  | setRamp m h l r =>
    refine key _ ?_
    unfold setRamp
    split
    · rfl
    · exact registry_forEachLamp _ (setRampLamp_fixedPart m h l r) s

theorem run_registry (hw : Platform) (cmds : List Command) :
    ∀ s t, Invariant s → registryOk s._lampList = true → run hw s cmds = some t →
      registryOk t._lampList = true ∧ registry s <:+ registry t := by
  induction cmds with
  | nil =>
    intro s t _ hr hrun
    have : s = t := by simpa [run] using hrun
    exact this ▸ ⟨hr, List.suffix_refl _⟩
  | cons c cs ih =>
    intro s t hi hr hrun
    obtain ⟨u, hu, hiu, -⟩ := step_invariant hw s c hi
    obtain ⟨u2, hu2, hsuf, hru⟩ := step_registry hw s c hi hr
    have : u2 = u := by
      rw [hu] at hu2
      exact (Option.some.inj hu2).symm
    subst this
    rw [run, hu, Option.some_bind] at hrun
    obtain ⟨h1, h2⟩ := ih u2 t hiu hru hrun
    exact ⟨h1, hsuf.trans h2⟩

theorem powerOn_registry (hw : Platform) (micros : Int) (raw : linesideSignal) :
    registry (powerOn hw micros raw) =
      [(LSS_NULL_SIG, LSS_NULL_SIG, LSS_NULL_SIG, LSS_DARK, LSS_NOT_PIN, LSS_NOT_PIN)] := by
  unfold powerOn
  obtain ⟨c1, c2, -⟩ := construct_fields hw micros
    { raw with pins := fun p => { raw.pins p with output := false } }
  generalize construct hw micros
    { raw with pins := fun p => { raw.pins p with output := false } } = s0 at *
  unfold setupSignal
  rw [if_neg (by simp [c1])]
  dsimp only
  refine (registry_of_lampList (_adjCycleTime_frame hw _).2.1).trans ?_
  unfold registry _addLamp
  dsimp only
  rw [if_pos (Or.inl rfl)]
  dsimp only
  rw [c2]
  rfl

theorem registryOk_of_reachable {hw : Platform} {s : linesideSignal} (h : Reachable hw s) :
    registryOk s._lampList = true := by
  obtain ⟨micros, raw, cmds, hr⟩ := h
  have h0 : registryOk (powerOn hw micros raw)._lampList = true := by
    have hp := powerOn_registry hw micros raw
    have : (powerOn hw micros raw)._lampList.map signalLamp.fixedPart =
        [nullLamp].map signalLamp.fixedPart := hp
    rw [registryOk_of_registry _ _ this]
    rfl
  exact (run_registry hw cmds _ s (powerOn_invariant hw micros raw) h0 hr).1

theorem isSentinel_spec (l : signalLamp) (h : l.isSentinel = true) :
    l.anode = LSS_NOT_PIN ∧ l.cathode = LSS_NOT_PIN ∧ l.color = LSS_DARK ∧
      l.mastNum = LSS_NULL_SIG ∧ l.headNum = LSS_NULL_SIG := by
  unfold signalLamp.isSentinel signalLamp.fixedPart at h
  simp only [decide_eq_true_eq, Prod.mk.injEq] at h
  exact ⟨h.2.2.2.2.1, h.2.2.2.2.2, h.2.2.2.1, h.1, h.2.1⟩

theorem isReal_spec (l : signalLamp) (h : l.isReal = true) :
    l.anode ≠ l.cathode ∧ l.anode < 70 ∧ l.cathode < 70 ∧ l.color ≠ LSS_DARK := by
  unfold signalLamp.isReal _goodPin at h
  simp only [Bool.and_eq_true, decide_eq_true_eq] at h
  exact ⟨h.1.1.1, h.1.1.2.2, h.1.2.2, h.2⟩

/-- In a list of real lamps closed by the sentinel, one entry has both pins
`LSS_NOT_PIN` and colour `LSS_DARK`. -/
theorem sentinel_count (front : List signalLamp) (last : signalLamp)
    (hs : last.isSentinel = true) (hf : ∀ l ∈ front, l.isReal = true) :
    (front ++ [last]).countP
      (fun l => decide (l.anode = LSS_NOT_PIN ∧ l.cathode = LSS_NOT_PIN ∧
        l.color = LSS_DARK)) = 1 := by
  rw [List.countP_append]
  have h1 : front.countP
      (fun l => decide (l.anode = LSS_NOT_PIN ∧ l.cathode = LSS_NOT_PIN ∧
        l.color = LSS_DARK)) = 0 := by
    rw [List.countP_eq_zero]
    intro l hl
    simpa using isReal_not_sentinel l (hf l hl)
  have h2 := isSentinel_spec last hs
  rw [h1, List.countP_singleton, if_pos (by simp [h2.1, h2.2.1, h2.2.2.1])]

/-- C20: in every state reachable after `setupSignal`, the lamp list is a run of
lamps with anode != cathode, both pins in 0..69 and colour != `LSS_DARK`, closed
by one sentinel entry (both pins `LSS_NOT_PIN`, colour `LSS_DARK`) as its last
element, and that is the only entry with those pins and colour; every command
(and tick) returns, and the registry before it is the tail end of the registry
after it: no entry is removed, reordered or re-wired. -/
theorem registry_invariant (hw : Platform) (s : linesideSignal) (h : Reachable hw s) :
    (∃ front last, s._lampList = front ++ [last] ∧
      (last.anode = LSS_NOT_PIN ∧ last.cathode = LSS_NOT_PIN ∧ last.color = LSS_DARK) ∧
      ∀ l ∈ front,
        l.anode ≠ l.cathode ∧ l.anode < 70 ∧ l.cathode < 70 ∧ l.color ≠ LSS_DARK) ∧
    s._lampList.countP
      (fun l => decide (l.anode = LSS_NOT_PIN ∧ l.cathode = LSS_NOT_PIN ∧
        l.color = LSS_DARK)) = 1 ∧
    ∀ c, ∃ t, step hw s c = some t ∧ registry s <:+ registry t := by
  have hr := registryOk_of_reachable h
  obtain ⟨front, last, hl, hs, hf⟩ := (registryOk_iff s._lampList).mp hr
  refine ⟨⟨front, last, hl, ?_, fun l hx => isReal_spec l (hf l hx)⟩, ?_, fun c => ?_⟩
  · have h2 := isSentinel_spec last hs
    exact ⟨h2.1, h2.2.1, h2.2.2.1⟩
  · rw [hl]
    exact sentinel_count front last hs hf
  · obtain ⟨t, ht, hsuf, -⟩ := step_registry hw s c h.invariant hr
    exact ⟨t, ht, hsuf⟩

/-- Witness of `registry_invariant`: six lamps registered, one turned on. -/
theorem registry_invariant_witness :
    Reachable refPlatform oneLampLit ∧
    oneLampLit._lampList.countP
      (fun l => decide (l.anode = LSS_NOT_PIN ∧ l.cathode = LSS_NOT_PIN ∧
        l.color = LSS_DARK)) = 1 ∧
    (∀ c, ∃ t, step refPlatform oneLampLit c = some t ∧ registry oneLampLit <:+ registry t) ∧
    registry oneLampLit =
      [(0, 0, 6, LSS_RED, 4, 3), (0, 0, 5, LSS_RED, 3, 4), (0, 0, 4, LSS_RED, 4, 2),
       (0, 0, 3, LSS_RED, 2, 4), (0, 0, 2, LSS_RED, 3, 2), (0, 0, 1, LSS_RED, 2, 3),
       (0, 0, 0, LSS_DARK, LSS_NOT_PIN, LSS_NOT_PIN)] :=
  ⟨⟨0, zeroMemory, oneLampLitCalls, rfl⟩,
    (registry_invariant refPlatform oneLampLit ⟨0, zeroMemory, oneLampLitCalls, rfl⟩).2.1,
    (registry_invariant refPlatform oneLampLit ⟨0, zeroMemory, oneLampLitCalls, rfl⟩).2.2,
    by decide⟩

/-! ### `setHeadColor` on lamps of another colour -/

/-- What `clearHead` followed by the second loop of `setHeadColor` does to a lit
lamp of the head whose colour does not match. -/
theorem setHeadColorLamp_nonmatching (cur cur2 : signalLamp) (m hd c : Nat) (f : Bool)
    (old : signalLamp) (hm : old.mastNum = m) (hh : old.headNum = hd)
    (hl : old.lit = true) (hc : colorMatch c old.color = false) :
    ((old.start = true ∧ (old.delay = true ∨ old.stop = true)) ∨ old.ramp = false →
      (setHeadColorLamp cur2 m hd c f (clearHeadLamp cur m hd old).1).1 =
        { old with lit := false, flash := false, alternate := false, start := false,
                   stop := false, delay := false }) ∧
    (¬ ((old.start = true ∧ (old.delay = true ∨ old.stop = true)) ∨ old.ramp = false) →
      (setHeadColorLamp cur2 m hd c f (clearHeadLamp cur m hd old).1).1 =
        { old with stop := true, start := false,
                   delay := if old.stop = true then old.delay else true }) := by
  obtain ⟨lit, flash, alt, start, stop, ramp, delay, mast, head, num, col, an, ca⟩ := old
  simp only at hm hh hl hc
  subst hm hh hl
  unfold setHeadColorLamp clearHeadLamp shutDownLamp _goDark
  simp only [signalLamp.setBitFlag, signalLamp.isOn, signalLamp.isStart, signalLamp.isStop,
    signalLamp.onHold, signalLamp.usesRamp, signalLamp.getBitFlag]
  cases start <;> cases stop <;> cases delay <;> cases ramp <;> simp [hc]

/-- C11, as the code has it: after setup, for `c <= 127`, `setHeadColor(m,h,c,f)`
leaves a lamp of head (m,h) that was lit and whose fixed colour does not match `c`
fully dark if it was starting and either onHold or stopping, or has rampEnabled
false; otherwise the lamp is lit with stopping set and starting cleared (ramped
shutdown).  A lamp that was starting, off hold and not stopping, with rampEnabled
set, is in the second case: `clearHead` runs first and clears its starting flag. -/
theorem setHeadColor_shuts_nonmatching (s : linesideSignal) (hs : s._setupIsDone = true)
    (m hd c : Nat) (f : Bool) (hc : c ≤ 127) :
    List.Forall₂
      (fun old new =>
        old.mastNum = m → old.headNum = hd → old.lit = true →
          colorMatch c old.color = false →
            ((old.start = true ∧ (old.delay = true ∨ old.stop = true)) ∨ old.ramp = false →
              new = { old with lit := false, flash := false, alternate := false,
                               start := false, stop := false, delay := false }) ∧
            (¬ ((old.start = true ∧ (old.delay = true ∨ old.stop = true)) ∨
                old.ramp = false) →
              new.lit = true ∧ new.stop = true ∧ new.start = false ∧
                new.ramp = true ∧ new.flash = old.flash ∧ new.alternate = old.alternate))
      s._lampList (setHeadColor m hd c f s)._lampList := by
  obtain ⟨cur2, hlist⟩ := setHeadColor_lamps m hd c f s hs hc
  rw [hlist, List.forall₂_map_right_iff, List.forall₂_same]
  intro x _ hm hh hl hcol
  obtain ⟨c1, c2⟩ := setHeadColorLamp_nonmatching s.currentLamp cur2 m hd c f x hm hh hl hcol
  refine ⟨c1, fun hn => ?_⟩
  rw [c2 hn]
  simp only [not_or, Bool.not_eq_false] at hn
  exact ⟨hl, rfl, rfl, hn.2, rfl, rfl⟩

set_option maxRecDepth 1000000 in
set_option maxHeartbeats 40000000 in
/-- Counterexample to C11 as stated: in the state after `flashingRun 86`, the red
lamp (0,0,1), sixth in the list, is lit and starting (off hold, not stopping,
rampEnabled set); after `setHeadColor(0,0,LSS_GREEN)` it is not dark but lit with
stopping set.  The tuples list mast, head and lamp ordinal, colour, then lit,
starting, stopping, onHold, rampEnabled. -/
theorem setHeadColor_starting_counterexample :
    colorMatch LSS_GREEN LSS_RED = false ∧
    (fun l : signalLamp => ((l.mastNum, l.headNum, l.lampNum, l.color),
        (l.lit, l.start, l.stop, l.delay, l.ramp)))
      (rampingUp._lampList.getD 5 nullLamp) =
        ((0, 0, 1, LSS_RED), (true, true, false, false, true)) ∧
    (fun l : signalLamp => ((l.mastNum, l.headNum, l.lampNum, l.color),
        (l.lit, l.start, l.stop, l.delay, l.ramp)))
      ((setHeadColor 0 0 LSS_GREEN false rampingUp)._lampList.getD 5 nullLamp) =
        ((0, 0, 1, LSS_RED), (true, false, true, true, true)) := by
  decide

/-- Witness of `setHeadColor_shuts_nonmatching`: `setHeadColor(0,0,LSS_GREEN)` in
the state after `flashingRun 86`. -/
theorem setHeadColor_shuts_nonmatching_witness :
    rampingUp._setupIsDone = true ∧ LSS_GREEN ≤ 127 ∧
    List.Forall₂
      (fun old new =>
        old.mastNum = 0 → old.headNum = 0 → old.lit = true →
          colorMatch LSS_GREEN old.color = false →
            ((old.start = true ∧ (old.delay = true ∨ old.stop = true)) ∨ old.ramp = false →
              new = { old with lit := false, flash := false, alternate := false,
                               start := false, stop := false, delay := false }) ∧
            (¬ ((old.start = true ∧ (old.delay = true ∨ old.stop = true)) ∨
                old.ramp = false) →
              new.lit = true ∧ new.stop = true ∧ new.start = false ∧
                new.ramp = true ∧ new.flash = old.flash ∧ new.alternate = old.alternate))
      rampingUp._lampList (setHeadColor 0 0 LSS_GREEN false rampingUp)._lampList :=
  ⟨rampingUp_reachable.invariant.1, by decide,
    setHeadColor_shuts_nonmatching rampingUp rampingUp_reachable.invariant.1 0 0 LSS_GREEN
      false (by decide)⟩

/-! ### `setHeadColor` with `LSS_DARK` -/

theorem colorMatch_dark (lc : Nat) (h : lc ≠ LSS_DARK) : colorMatch LSS_DARK lc = false := by
  cases hm : colorMatch LSS_DARK lc
  · rfl
  · have h0 : LSS_DARK = 0 := rfl
    have h1 : LSS_YELLOW = 2 := rfl
    have h2 : LSS_GREEN = 3 := rfl
    have h3 : LSS_RED = 1 := rfl
    rcases (colorMatch_iff LSS_DARK lc).mp hm with h4 | h4 | h4 | h4
    · exact absurd h4 h
    · omega
    · omega
    · omega

theorem forEachLamp_fixed (body : signalLamp → signalLamp × Bool) (s : linesideSignal)
    (hb : ∀ x ∈ s._lampList, body x = (x, false)) : forEachLamp body s = s := by
  unfold forEachLamp
  have h1 : s._lampList.map (fun lamp => (body lamp).1) = s._lampList := by
    conv_rhs => rw [← List.map_id s._lampList]
    apply List.map_congr_left
    intro x hx
    rw [hb x hx]
    rfl
  have h2 : s._lampList.any (fun lamp => (body lamp).2) = false := by
    rw [List.any_eq_false]
    intro x hx
    rw [hb x hx]
    simp
  rw [h1, h2, Bool.or_false]

/-- The second loop of `setHeadColor` on a lamp `clearHead` has rewritten, when the
colour of the lamp does not match. -/
theorem setHeadColorLamp_after_clear (cur cur2 : signalLamp) (m hd c : Nat) (f : Bool)
    (old : signalLamp)
    (hc : old.mastNum = m → old.headNum = hd → colorMatch c old.color = false) :
    setHeadColorLamp cur2 m hd c f (clearHeadLamp cur m hd old).1 =
      if (clearHeadLamp cur m hd old).1.mastNum = m ∧
          (clearHeadLamp cur m hd old).1.headNum = hd ∧
          (clearHeadLamp cur m hd old).1.lit = true ∧
          ((clearHeadLamp cur m hd old).1.start = true ∨
            (clearHeadLamp cur m hd old).1.ramp = false) then
        _goDark cur2 (clearHeadLamp cur m hd old).1
      else ((clearHeadLamp cur m hd old).1, false) := by
  obtain ⟨lit, flash, alt, start, stop, ramp, delay, mast, head, num, col, an, ca⟩ := old
  simp only at hc
  unfold setHeadColorLamp clearHeadLamp shutDownLamp _goDark
  simp only [signalLamp.setBitFlag, signalLamp.isOn, signalLamp.isStart, signalLamp.isStop,
    signalLamp.onHold, signalLamp.usesRamp, signalLamp.getBitFlag]
  by_cases hm : mast = m ∧ head = hd
  · have hc2 := hc hm.1 hm.2
    cases lit <;> cases start <;> cases stop <;> cases delay <;> cases ramp <;>
      simp [hm, hc2]
  · simp only [hm, if_false]
    rw [if_neg (fun h => hm ⟨h.1, h.2.1⟩)]

theorem clearHead_registry (m hd : Nat) (s : linesideSignal) :
    registry (clearHead m hd s) = registry s := by
  unfold clearHead
  split
  · rfl
  · exact registry_forEachLamp _ (clearHeadLamp_fixedPart _ m hd) s

theorem _goDark_eq (cur x : signalLamp) :
    (_goDark cur x).1 =
      { x with lit := false, flash := false, alternate := false, start := false,
               stop := false, delay := false } := by
  unfold _goDark
  cases x
  rfl

/-- The second loop of `setHeadColor` raises no kill flag on a lamp whose colour
matches. -/
theorem setHeadColorLamp_match (cur : signalLamp) (m hd c : Nat) (f : Bool) (x : signalLamp)
    (hc : colorMatch c x.color = true) : (setHeadColorLamp cur m hd c f x).2 = false := by
  unfold setHeadColorLamp
  simp only [hc, if_true]
  split_ifs <;> rfl

/-- `setHeadColor(m,h,LSS_DARK,f)` is `clearHead(m,h)` followed by the second loop. -/
theorem setHeadColor_dark_eq (s : linesideSignal) (hs : s._setupIsDone = true)
    (m hd : Nat) (f : Bool) :
    setHeadColor m hd LSS_DARK f s =
      forEachLamp (setHeadColorLamp (clearHead m hd s).currentLamp m hd LSS_DARK f)
        (clearHead m hd s) := by
  unfold setHeadColor
  rw [if_neg (by simp [hs])]
  dsimp only
  rw [if_neg (by decide)]

/-- The second loop of `setHeadColor` with `LSS_DARK` on a lamp `clearHead` has
rewritten, unless the lamp is an entry of the head with the colour `LSS_DARK`. -/
theorem setHeadColorLamp_dark (s : linesideSignal) (hs : s._setupIsDone = true)
    (cur2 : signalLamp) (m hd : Nat) (f : Bool) (x : signalLamp)
    (hx : x ∈ (clearHead m hd s)._lampList)
    (hcol : x.mastNum = m → x.headNum = hd → x.color ≠ LSS_DARK) :
    setHeadColorLamp cur2 m hd LSS_DARK f x =
      if x.mastNum = m ∧ x.headNum = hd ∧ x.lit = true ∧
          (x.start = true ∨ x.ramp = false) then _goDark cur2 x
      else (x, false) := by
  rw [clearHead_eq m hd s hs] at hx
  unfold forEachLamp at hx
  dsimp only at hx
  obtain ⟨y, hy, rfl⟩ := List.mem_map.mp hx
  have hfix := clearHeadLamp_fixedPart s.currentLamp m hd y
  unfold signalLamp.fixedPart at hfix
  simp only [Prod.mk.injEq] at hfix
  apply setHeadColorLamp_after_clear
  intro hm hh
  apply colorMatch_dark
  rw [← hfix.2.2.2.1]
  exact hcol (hfix.1.trans hm) (hfix.2.1.trans hh)

/-- C12, as the code has it: in a reachable state and on every head (m,h), every
lamp other than an entry of the head with the colour `LSS_DARK` is after
`setHeadColor(m,h,LSS_DARK,f)` as it is after `clearHead(m,h)`, except that a lamp of
the head that `clearHead` leaves lit and that is starting or has rampEnabled false is
fully dark at once.  Only the last entry of the list, the end-of-list entry on head
(0,0), has the colour `LSS_DARK`.  When `clearHead` leaves no lamp of the excepted
kind, the two resulting states differ at most in the lamp list (same kill flag), and
on a head other than (0,0) they are the same state. -/
theorem setHeadColor_dark_vs_clearHead (hw : Platform) (s : linesideSignal)
    (h : Reachable hw s) (m hd : Nat) (f : Bool) :
    List.Forall₂
      (fun cleared new =>
        (cleared.mastNum = m → cleared.headNum = hd → cleared.color ≠ LSS_DARK) →
        (cleared.mastNum = m ∧ cleared.headNum = hd ∧ cleared.lit = true ∧
            (cleared.start = true ∨ cleared.ramp = false) →
          new = { cleared with lit := false, flash := false, alternate := false,
                               start := false, stop := false, delay := false }) ∧
        (¬ (cleared.mastNum = m ∧ cleared.headNum = hd ∧ cleared.lit = true ∧
            (cleared.start = true ∨ cleared.ramp = false)) → new = cleared))
      (clearHead m hd s)._lampList (setHeadColor m hd LSS_DARK f s)._lampList ∧
    (∀ x ∈ (clearHead m hd s)._lampList.dropLast, x.color ≠ LSS_DARK) ∧
    ((∀ x ∈ (clearHead m hd s)._lampList, x.mastNum = m → x.headNum = hd → x.lit = true →
        x.color ≠ LSS_DARK → x.start = false ∧ x.ramp = true) →
      setHeadColor m hd LSS_DARK f s =
        { clearHead m hd s with _lampList := (setHeadColor m hd LSS_DARK f s)._lampList } ∧
      (¬ (m = 0 ∧ hd = 0) → setHeadColor m hd LSS_DARK f s = clearHead m hd s)) := by
  have hs := h.invariant.1
  have hbody := setHeadColorLamp_dark s hs (clearHead m hd s).currentLamp m hd f
  have hreg : registryOk (clearHead m hd s)._lampList = true := by
    rw [registryOk_of_registry s._lampList _ (clearHead_registry m hd s)]
    exact registryOk_of_reachable h
  obtain ⟨front, last, hl, hlast, hfront⟩ := (registryOk_iff _).mp hreg
  have hdark : ∀ x ∈ (clearHead m hd s)._lampList, ¬ (m = 0 ∧ hd = 0) →
      x.mastNum = m → x.headNum = hd → x.color ≠ LSS_DARK := by
    intro x hx hne hm hh
    rw [hl, List.mem_append, List.mem_singleton] at hx
    rcases hx with hx | hx
    · exact (isReal_spec x (hfront x hx)).2.2.2
    · have h2 := isSentinel_spec last hlast
      rw [hx] at hm hh
      exact absurd ⟨hm.symm.trans h2.2.2.2.1, hh.symm.trans h2.2.2.2.2⟩ hne
  rw [setHeadColor_dark_eq s hs m hd f]
  refine ⟨?_, ?_, ?_⟩
  · unfold forEachLamp
    dsimp only
    rw [List.forall₂_map_right_iff, List.forall₂_same]
    intro x hx hcol
    rw [hbody x hx hcol]
    constructor
    · intro hc
      rw [if_pos hc]
      exact _goDark_eq _ x
    · intro hc
      rw [if_neg hc]
  · intro x hx
    rw [hl, List.dropLast_concat] at hx
    exact (isReal_spec x (hfront x hx)).2.2.2
  · intro hall
    have hfix : ∀ x ∈ (clearHead m hd s)._lampList,
        (x.mastNum = m → x.headNum = hd → x.color ≠ LSS_DARK) →
        setHeadColorLamp (clearHead m hd s).currentLamp m hd LSS_DARK f x = (x, false) := by
      intro x hx hcol
      rw [hbody x hx hcol, if_neg]
      rintro ⟨hm, hh, hlit, hsr⟩
      obtain ⟨h1, h2⟩ := hall x hx hm hh hlit (hcol hm hh)
      rw [h1, h2] at hsr
      simp at hsr
    constructor
    · unfold forEachLamp
      dsimp only
      have hany : (clearHead m hd s)._lampList.any
          (fun lamp => (setHeadColorLamp (clearHead m hd s).currentLamp m hd LSS_DARK f
            lamp).2) = false := by
        rw [List.any_eq_false]
        intro x hx
        by_cases hcol : x.mastNum = m → x.headNum = hd → x.color ≠ LSS_DARK
        · rw [hfix x hx hcol]
          simp
        · have hc : x.color = LSS_DARK := by
            by_contra hne
            exact hcol (fun _ _ => hne)
          rw [setHeadColorLamp_match _ m hd LSS_DARK f x (by rw [hc]; decide)]
          simp
      rw [hany, Bool.or_false]
    · intro hne
      apply forEachLamp_fixed
      intro x hx
      exact hfix x hx (hdark x hx hne)

/-- Witness of `setHeadColor_dark_vs_clearHead`: head (0,0) in the state after
`flashingRun 86`. -/
theorem setHeadColor_dark_vs_clearHead_witness :
    Reachable refPlatform rampingUp ∧
    List.Forall₂
      (fun cleared new =>
        (cleared.mastNum = 0 → cleared.headNum = 0 → cleared.color ≠ LSS_DARK) →
        (cleared.mastNum = 0 ∧ cleared.headNum = 0 ∧ cleared.lit = true ∧
            (cleared.start = true ∨ cleared.ramp = false) →
          new = { cleared with lit := false, flash := false, alternate := false,
                               start := false, stop := false, delay := false }) ∧
        (¬ (cleared.mastNum = 0 ∧ cleared.headNum = 0 ∧ cleared.lit = true ∧
            (cleared.start = true ∨ cleared.ramp = false)) → new = cleared))
      (clearHead 0 0 rampingUp)._lampList (setHeadColor 0 0 LSS_DARK false rampingUp)._lampList :=
  ⟨rampingUp_reachable,
    (setHeadColor_dark_vs_clearHead refPlatform rampingUp rampingUp_reachable 0 0 false).1⟩

set_option maxRecDepth 1000000 in
set_option maxHeartbeats 40000000 in
/-- Head (0,0) in the state after `flashingRun 86`: the six lamps are after
`setHeadColor(0,0,LSS_DARK)` as they are after `clearHead(0,0)`; the end-of-list
entry, whose colour `LSS_DARK` matches, is left alone by `clearHead` and lit by
`setHeadColor`.  The tuples list mast, head and lamp ordinal, colour, then lit,
starting, stopping, onHold, rampEnabled. -/
theorem setHeadColor_dark_head_zero :
    (setHeadColor 0 0 LSS_DARK false rampingUp)._lampList.dropLast =
      (clearHead 0 0 rampingUp)._lampList.dropLast ∧
    ((clearHead 0 0 rampingUp)._lampList.drop 6).map
      (fun l : signalLamp => ((l.mastNum, l.headNum, l.lampNum, l.color),
        (l.lit, l.start, l.stop, l.delay, l.ramp))) =
      [((0, 0, 0, LSS_DARK), (false, false, false, false, false))] ∧
    ((setHeadColor 0 0 LSS_DARK false rampingUp)._lampList.drop 6).map
      (fun l : signalLamp => ((l.mastNum, l.headNum, l.lampNum, l.color),
        (l.lit, l.start, l.stop, l.delay, l.ramp))) =
      [((0, 0, 0, LSS_DARK), (true, true, false, true, false))] :=
  ⟨by decide, by decide, by decide⟩

set_option maxRecDepth 1000000 in
set_option maxHeartbeats 40000000 in
theorem noRampLit_reachable : Reachable refPlatform noRampLit :=
  ⟨0, zeroMemory, noRampRun 74, option_eq_some_getD _ zeroMemory (by decide)⟩

set_option maxRecDepth 1000000 in
set_option maxHeartbeats 40000000 in
/-- Counterexample to C12 as stated: in the state after `noRampRun 74` the red lamp
(1,1,1), first in the list, is lit and off hold with rampEnabled false;
`clearHead(1,1)` leaves it lit with stopping and onHold set, while
`setHeadColor(1,1,LSS_DARK)` leaves it fully dark.  The tuples list mast, head and
lamp ordinal, colour, then lit, starting, stopping, onHold, rampEnabled. -/
theorem setHeadColor_dark_counterexample :
    (fun l : signalLamp => ((l.mastNum, l.headNum, l.lampNum, l.color),
        (l.lit, l.start, l.stop, l.delay, l.ramp)))
      (noRampLit._lampList.getD 0 nullLamp) =
        ((1, 1, 1, LSS_RED), (true, true, false, false, false)) ∧
    (fun l : signalLamp => ((l.mastNum, l.headNum, l.lampNum, l.color),
        (l.lit, l.start, l.stop, l.delay, l.ramp)))
      ((clearHead 1 1 noRampLit)._lampList.getD 0 nullLamp) =
        ((1, 1, 1, LSS_RED), (true, false, true, true, false)) ∧
    (fun l : signalLamp => ((l.mastNum, l.headNum, l.lampNum, l.color),
        (l.lit, l.start, l.stop, l.delay, l.ramp)))
      ((setHeadColor 1 1 LSS_DARK false noRampLit)._lampList.getD 0 nullLamp) =
        ((1, 1, 1, LSS_RED), (false, false, false, false, false)) :=
  ⟨by decide, by decide, by decide⟩

/-! ### The ramp curves of `_enabledLED` -/

theorem _enabledLED_eq (s : linesideSignal) (h : s.currentLamp.lit = true) :
    _enabledLED s = (rampDecision s._rampDiv s._cycleCount s.currentLamp, s) := by
  unfold _enabledLED signalLamp.isOn signalLamp.getBitFlag
  rw [if_neg (by simp [h])]

theorem flashesSteadily_iff (l : signalLamp) :
    l.flashesSteadily = true ↔
      l.lit = true ∧ l.flash = true ∧ l.start = false ∧ l.stop = false ∧ l.delay = false := by
  unfold signalLamp.flashesSteadily
  cases l.lit <;> cases l.flash <;> cases l.start <;> cases l.stop <;> cases l.delay <;> simp

/-- The curve of a steadily flashing lamp in the normal phase with the ramp
enabled; the remainders are those of C (`Int.tmod`). -/
theorem rampDecision_normal_ramp (d : Nat) (c : Int) (l : signalLamp)
    (h : l.flashesSteadily = true) (ha : l.alternate = false) (hr : l.ramp = true) :
    rampDecision d c l =
      if d = 0 then decide (Int.tmod c 6 = 0)
      else if d = 1 then decide (Int.tmod c 4 = 0)
      else if d = 2 then decide (Int.tmod c 2 = 0)
      else if d = 6 then decide (Int.tmod c 2 = 1)
      else if d = 7 then decide (Int.tmod c 4 = 3)
      else if d = 8 then decide (Int.tmod c 6 = 5)
      else if d = 9 then false
      else true := by
  obtain ⟨lit, flash, alt, start, stop, ramp, delay, mast, head, num, col, an, ca⟩ := l
  obtain ⟨h1, h2, h3, h4, h5⟩ := (flashesSteadily_iff _).mp h
  simp only at h1 h2 h3 h4 h5 ha hr
  subst h1 h2 h3 h4 h5 ha hr
  unfold rampDecision
  simp only [signalLamp.isOn, signalLamp.isFlash, signalLamp.isReversed, signalLamp.isStart,
    signalLamp.isStop, signalLamp.usesRamp, signalLamp.onHold, signalLamp.getBitFlag]
  rcases d with _ | _ | _ | _ | _ | _ | _ | _ | _ | _ | d <;> simp

/-- The curve of a steadily flashing lamp in the normal phase with the ramp
disabled. -/
theorem rampDecision_normal_noRamp (d : Nat) (c : Int) (l : signalLamp)
    (h : l.flashesSteadily = true) (ha : l.alternate = false) (hr : l.ramp = false) :
    rampDecision d c l = decide (d ≠ 0 ∧ ¬ (6 ≤ d ∧ d ≤ 9)) := by
  obtain ⟨lit, flash, alt, start, stop, ramp, delay, mast, head, num, col, an, ca⟩ := l
  obtain ⟨h1, h2, h3, h4, h5⟩ := (flashesSteadily_iff _).mp h
  simp only at h1 h2 h3 h4 h5 ha hr
  subst h1 h2 h3 h4 h5 ha hr
  unfold rampDecision
  simp only [signalLamp.isOn, signalLamp.isFlash, signalLamp.isReversed, signalLamp.isStart,
    signalLamp.isStop, signalLamp.usesRamp, signalLamp.onHold, signalLamp.getBitFlag]
  rcases d with _ | _ | _ | _ | _ | _ | _ | _ | _ | _ | d <;> simp

/-- For a steadily flashing lamp, the reversed phase in division `d` is the normal
phase in division `(d + 5) mod 10`. -/
theorem rampDecision_reversed (d : Nat) (c : Int) (l : signalLamp)
    (h : l.flashesSteadily = true) (ha : l.alternate = true) (hd : d ≤ 9) :
    rampDecision d c l = rampDecision ((d + 5) % 10) c { l with alternate := false } := by
  obtain ⟨lit, flash, alt, start, stop, ramp, delay, mast, head, num, col, an, ca⟩ := l
  obtain ⟨h1, h2, h3, h4, h5⟩ := (flashesSteadily_iff _).mp h
  simp only at h1 h2 h3 h4 h5 ha
  subst h1 h2 h3 h4 h5 ha
  unfold rampDecision
  simp only [signalLamp.isOn, signalLamp.isFlash, signalLamp.isReversed, signalLamp.isStart,
    signalLamp.isStop, signalLamp.usesRamp, signalLamp.onHold, signalLamp.getBitFlag]
  interval_cases d <;> cases ramp <;> simp

/-- C22: for a lit, flashing, ramp-enabled, non-reversed lamp with starting,
stopping and onHold false, at a pass count that is not negative, `_enabledLED`
returns true exactly when: division 0 and passCount mod 6 = 0; division 1 and
passCount mod 4 = 0; division 2 and passCount mod 2 = 0; division 3, 4 or 5
(always); division 6 and passCount mod 2 = 1; division 7 and passCount mod 4 = 3;
division 8 and passCount mod 6 = 5; and never in division 9. -/
theorem normal_ramp_curve (s : linesideSignal)
    (h : s.currentLamp.flashesSteadily = true) (ha : s.currentLamp.alternate = false)
    (hr : s.currentLamp.ramp = true) (hc : 0 ≤ s._cycleCount) :
    (s._rampDiv = 0 → ((_enabledLED s).1 = true ↔ s._cycleCount % 6 = 0)) ∧
    (s._rampDiv = 1 → ((_enabledLED s).1 = true ↔ s._cycleCount % 4 = 0)) ∧
    (s._rampDiv = 2 → ((_enabledLED s).1 = true ↔ s._cycleCount % 2 = 0)) ∧
    (s._rampDiv = 3 ∨ s._rampDiv = 4 ∨ s._rampDiv = 5 → (_enabledLED s).1 = true) ∧
    (s._rampDiv = 6 → ((_enabledLED s).1 = true ↔ s._cycleCount % 2 = 1)) ∧
    (s._rampDiv = 7 → ((_enabledLED s).1 = true ↔ s._cycleCount % 4 = 3)) ∧
    (s._rampDiv = 8 → ((_enabledLED s).1 = true ↔ s._cycleCount % 6 = 5)) ∧
    (s._rampDiv = 9 → (_enabledLED s).1 = false) := by
  have hlit := ((flashesSteadily_iff _).mp h).1
  rw [_enabledLED_eq s hlit, rampDecision_normal_ramp _ _ _ h ha hr]
  have e2 := Int.tmod_eq_emod hc (by norm_num : (0 : Int) ≤ 2)
  have e4 := Int.tmod_eq_emod hc (by norm_num : (0 : Int) ≤ 4)
  have e6 := Int.tmod_eq_emod hc (by norm_num : (0 : Int) ≤ 6)
  refine ⟨fun hd => ?_, fun hd => ?_, fun hd => ?_, fun hd => ?_, fun hd => ?_, fun hd => ?_,
    fun hd => ?_, fun hd => ?_⟩
  · simp [hd, e6]
  · simp [hd, e4]
  · simp [hd, e2]
  · rcases hd with hd | hd | hd <;> simp [hd]
  · simp [hd, e2]
  · simp [hd, e4]
  · simp [hd, e6]
  · simp [hd]

/-- Witness of `normal_ramp_curve`: the lamp `flasher false true` under the cursor,
in division 6 at pass count 7 and in division 9. -/
theorem normal_ramp_curve_witness :
    (cursorOn (flasher false true) 6 7).currentLamp.flashesSteadily = true ∧
    (cursorOn (flasher false true) 6 7).currentLamp.alternate = false ∧
    (cursorOn (flasher false true) 6 7).currentLamp.ramp = true ∧
    (0 : Int) ≤ (cursorOn (flasher false true) 6 7)._cycleCount ∧
    (_enabledLED (cursorOn (flasher false true) 6 7)).1 = true ∧
    (_enabledLED (cursorOn (flasher false true) 9 7)).1 = false :=
  ⟨by decide, by decide, by decide, by decide,
    ((normal_ramp_curve (cursorOn (flasher false true) 6 7) (by decide) (by decide)
      (by decide) (by decide)).2.2.2.2.1 (by decide)).mpr (by decide),
    (normal_ramp_curve (cursorOn (flasher false true) 9 7) (by decide) (by decide)
      (by decide) (by decide)).2.2.2.2.2.2.2 (by decide)⟩

/-- C23: for a lit, flashing, non-reversed lamp with rampEnabled false and
starting, stopping and onHold false, `_enabledLED` returns true for every pass
count in divisions 1..5 and false for every pass count in divisions 0, 6, 7, 8
and 9. -/
theorem nonramping_curve (s : linesideSignal)
    (h : s.currentLamp.flashesSteadily = true) (ha : s.currentLamp.alternate = false)
    (hr : s.currentLamp.ramp = false) :
    (1 ≤ s._rampDiv ∧ s._rampDiv ≤ 5 → (_enabledLED s).1 = true) ∧
    (s._rampDiv = 0 ∨ (6 ≤ s._rampDiv ∧ s._rampDiv ≤ 9) → (_enabledLED s).1 = false) := by
  have hlit := ((flashesSteadily_iff _).mp h).1
  rw [_enabledLED_eq s hlit, rampDecision_normal_noRamp _ _ _ h ha hr]
  constructor
  · intro hd
    simp only [decide_eq_true_eq]
    omega
  · intro hd
    simp only [decide_eq_false_iff_not]
    omega

/-- Witness of `nonramping_curve`: the lamp `flasher false false` under the cursor,
in divisions 4 and 7 at pass count 3. -/
theorem nonramping_curve_witness :
    (cursorOn (flasher false false) 4 3).currentLamp.flashesSteadily = true ∧
    (cursorOn (flasher false false) 4 3).currentLamp.alternate = false ∧
    (cursorOn (flasher false false) 4 3).currentLamp.ramp = false ∧
    (_enabledLED (cursorOn (flasher false false) 4 3)).1 = true ∧
    (_enabledLED (cursorOn (flasher false false) 7 3)).1 = false :=
  ⟨by decide, by decide, by decide,
    (nonramping_curve (cursorOn (flasher false false) 4 3) (by decide) (by decide)
      (by decide)).1 (by decide),
    (nonramping_curve (cursorOn (flasher false false) 7 3) (by decide) (by decide)
      (by decide)).2 (by decide)⟩

/-- C24: for every division `d` in 0..9, every pass count and either value of
rampEnabled, `_enabledLED` for a lit flashing reversed lamp (starting, stopping and
onHold false) equals `_enabledLED` for the same lamp with alternatePhase false in
division `(d + 5) mod 10` at the same pass count. -/
theorem reversed_is_offset (s t : linesideSignal)
    (h : s.currentLamp.flashesSteadily = true) (ha : s.currentLamp.alternate = true)
    (hd : s._rampDiv ≤ 9)
    (hl : t.currentLamp = { s.currentLamp with alternate := false })
    (htd : t._rampDiv = (s._rampDiv + 5) % 10) (htc : t._cycleCount = s._cycleCount) :
    (_enabledLED s).1 = (_enabledLED t).1 := by
  have hlit := ((flashesSteadily_iff _).mp h).1
  have hlit2 : t.currentLamp.lit = true := by rw [hl]; exact hlit
  rw [_enabledLED_eq s hlit, _enabledLED_eq t hlit2, htd, htc, hl]
  exact rampDecision_reversed _ _ _ h ha hd

/-- Witness of `reversed_is_offset`: the reversed lamp in division 2 and its
normal-phase copy in division 7, both at pass count 7. -/
theorem reversed_is_offset_witness :
    (cursorOn (flasher true true) 2 7).currentLamp.flashesSteadily = true ∧
    (cursorOn (flasher true true) 2 7).currentLamp.alternate = true ∧
    (cursorOn (flasher true true) 2 7)._rampDiv ≤ 9 ∧
    (_enabledLED (cursorOn (flasher true true) 2 7)).1 =
      (_enabledLED (cursorOn (flasher false true) 7 7)).1 :=
  ⟨by decide, by decide, by decide,
    reversed_is_offset (cursorOn (flasher true true) 2 7) (cursorOn (flasher false true) 7 7)
      (by decide) (by decide) (by decide) (by decide) (by decide) (by decide)⟩

/-- C30: for every lit lamp with flashing, starting, stopping and onHold all false
(any alternatePhase, any rampEnabled), in every division and at every pass count,
`_enabledLED` returns true and leaves the state as it is, so it sets neither the
kill switch nor the kill-anode flag. -/
theorem steady_lamp_energized (s : linesideSignal) (hl : s.currentLamp.lit = true)
    (hf : s.currentLamp.flash = false) (h1 : s.currentLamp.start = false)
    (h2 : s.currentLamp.stop = false) (h3 : s.currentLamp.delay = false) :
    _enabledLED s = (true, s) := by
  rw [_enabledLED_eq s hl]
  generalize s._rampDiv = d
  generalize s._cycleCount = c
  generalize s.currentLamp = l at *
  obtain ⟨lit, flash, alt, start, stop, ramp, delay, mast, head, num, col, an, ca⟩ := l
  simp only at hl hf h1 h2 h3
  subst hl hf h1 h2 h3
  unfold rampDecision
  simp only [signalLamp.isOn, signalLamp.isFlash, signalLamp.isReversed, signalLamp.isStart,
    signalLamp.isStop, signalLamp.usesRamp, signalLamp.onHold, signalLamp.getBitFlag]
  rcases d with _ | _ | _ | _ | _ | _ | _ | _ | _ | _ | d <;> cases alt <;> cases ramp <;> simp

/-- Witness of `steady_lamp_energized`: a steadily lit red lamp under the cursor in
division 9 at pass count 4. -/
theorem steady_lamp_energized_witness :
    (cursorOn { flasher false true with flash := false } 9 4).currentLamp.lit = true ∧
    _enabledLED (cursorOn { flasher false true with flash := false } 9 4) =
      (true, cursorOn { flasher false true with flash := false } 9 4) :=
  ⟨by decide,
    steady_lamp_energized (cursorOn { flasher false true with flash := false } 9 4)
      (by decide) (by decide) (by decide) (by decide) (by decide)⟩

/-- The decision of `_enabledLED` for a lit lamp on hold. -/
theorem rampDecision_held (d : Nat) (c : Int) (l : signalLamp) (hh : l.delay = true) :
    (l.stop = true → d ≤ 9 →
      rampDecision d c l = !(l.alternate && decide (1 ≤ d ∧ d ≤ 3))) ∧
    (l.stop = false → rampDecision d c l = false) := by
  obtain ⟨lit, flash, alt, start, stop, ramp, delay, mast, head, num, col, an, ca⟩ := l
  simp only at hh
  subst hh
  unfold rampDecision
  simp only [signalLamp.isOn, signalLamp.isFlash, signalLamp.isReversed, signalLamp.isStart,
    signalLamp.isStop, signalLamp.usesRamp, signalLamp.onHold, signalLamp.getBitFlag]
  constructor
  · intro hs hd
    subst hs
    interval_cases d <;> cases alt <;> simp
  · intro hs
    subst hs
    simp

/-- What `_enabledLED` returns for a lit lamp on hold.  With stopping set (any
rampEnabled, flashing, starting), in every division 0..9 and at every pass count, it
returns true, except for a reversed lamp (alternatePhase set) in divisions 1, 2 and
3, where it returns false; with stopping clear it returns false. -/
theorem held_stopping_lamp (s : linesideSignal) (hl : s.currentLamp.lit = true)
    (hh : s.currentLamp.delay = true) :
    (s.currentLamp.stop = true → s._rampDiv ≤ 9 →
      ((_enabledLED s).1 = false ↔
        (s.currentLamp.alternate = true ∧ 1 ≤ s._rampDiv ∧ s._rampDiv ≤ 3))) ∧
    (s.currentLamp.stop = false → (_enabledLED s).1 = false) := by
  rw [_enabledLED_eq s hl]
  obtain ⟨c1, c2⟩ := rampDecision_held s._rampDiv s._cycleCount s.currentLamp hh
  refine ⟨fun hs hd => ?_, c2⟩
  rw [c1 hs hd]
  simp

/-- Witness of `held_stopping_lamp`: a lit lamp on hold and stopping under the
cursor, in the normal phase in division 2 (energized) and reversed in division 2
(not energized). -/
theorem held_stopping_lamp_witness :
    (cursorOn { flasher false true with stop := true, delay := true } 2 5).currentLamp.lit
      = true ∧
    (cursorOn { flasher false true with stop := true, delay := true } 2 5).currentLamp.delay
      = true ∧
    ¬ (_enabledLED
        (cursorOn { flasher false true with stop := true, delay := true } 2 5)).1 = false ∧
    (_enabledLED (cursorOn { flasher true true with stop := true, delay := true } 2 5)).1
      = false :=
  ⟨by decide, by decide,
    fun hf => absurd
      ((((held_stopping_lamp
        (cursorOn { flasher false true with stop := true, delay := true } 2 5)
        (by decide) (by decide)).1 (by decide) (by decide)).mp hf).1) (by decide),
    ((held_stopping_lamp (cursorOn { flasher true true with stop := true, delay := true } 2 5)
      (by decide) (by decide)).1 (by decide) (by decide)).mpr (by decide)⟩

set_option maxRecDepth 1000000 in
set_option maxHeartbeats 40000000 in
theorem reversedHeld_reachable : Reachable refPlatform reversedHeld :=
  ⟨0, zeroMemory, reversedHeldRun, option_eq_some_getD _ zeroMemory (by decide)⟩

set_option maxRecDepth 1000000 in
set_option maxHeartbeats 40000000 in
/-- C26 fails on the code: in the state after `reversedHeldRun` the division is 1 and
the reversed lamp under the cursor is lit with onHold and stopping set; `_enabledLED`
returns false, and the next call of `updateSignals` leaves its cathode, pin 3,
undriven.  Cases 1, 2 and 3 of the switch test `!isReversed() && onHold() && isStop()`
where cases 0 and 4 to 9 test `onHold() && isStop()`: the same lamp is energized in
divisions 0 and 4, and so is a held stopping lamp of the normal phase in divisions 1,
2 and 3 and in the mirrored divisions 6, 7 and 8. -/
theorem held_reversed_counterexample :
    reversedHeld._rampDiv = 1 ∧ reversedHeld._cycleCount = 12 ∧
    reversedHeld.currentLamp.lit = true ∧ reversedHeld.currentLamp.delay = true ∧
    reversedHeld.currentLamp.stop = true ∧ reversedHeld.currentLamp.alternate = true ∧
    (_enabledLED reversedHeld).1 = false ∧
    (updateSignals refPlatform (clockAt 470000) reversedHeld).map
      (fun t => (t._rampDiv, decide (drivenLow (t.pins 3)))) = some (1, false) ∧
    (_enabledLED { reversedHeld with _rampDiv := 0 }).1 = true ∧
    (_enabledLED { reversedHeld with _rampDiv := 4 }).1 = true ∧
    (∀ d ∈ [1, 2, 3, 6, 7, 8],
      (_enabledLED (cursorOn { flasher false true with stop := true, delay := true } d 12)).1
        = true) := by
  refine ⟨by decide, by decide, by decide, by decide, by decide, by decide, by decide,
    by decide, by decide, by decide, by decide⟩

/-! ### The alternating pair -/

/-- C25, as the code has it: for a lamp in the normal phase and a lamp in the
reversed phase, both lit and flashing with starting, stopping and onHold false, in
the same division `d` of 0..9 at the same pass count `c`: with rampEnabled false on
both, `_enabledLED` never returns true for both; with rampEnabled set on both (as
`addLamp` leaves it) and `c` not negative, it returns true for both exactly when
`d` is 0 or 5 and `c mod 6 = 0`, or `d` is 3 or 8 and `c mod 6 = 5`: one lamp is
fully lit and the other is at the lowest step of its ramp. -/
theorem alternating_pair (a b : linesideSignal)
    (ha : a.currentLamp.flashesSteadily = true) (hb : b.currentLamp.flashesSteadily = true)
    (hpa : a.currentLamp.alternate = false) (hpb : b.currentLamp.alternate = true)
    (hd : b._rampDiv = a._rampDiv) (hc : b._cycleCount = a._cycleCount)
    (h9 : a._rampDiv ≤ 9) :
    (a.currentLamp.ramp = false → b.currentLamp.ramp = false →
      ¬ ((_enabledLED a).1 = true ∧ (_enabledLED b).1 = true)) ∧
    (a.currentLamp.ramp = true → b.currentLamp.ramp = true → 0 ≤ a._cycleCount →
      (((_enabledLED a).1 = true ∧ (_enabledLED b).1 = true) ↔
        ((a._rampDiv = 0 ∨ a._rampDiv = 5) ∧ a._cycleCount % 6 = 0) ∨
        ((a._rampDiv = 3 ∨ a._rampDiv = 8) ∧ a._cycleCount % 6 = 5))) := by
  have hla := ((flashesSteadily_iff _).mp ha).1
  have hlb := ((flashesSteadily_iff _).mp hb).1
  have hb2 : ({ b.currentLamp with alternate := false } : signalLamp).flashesSteadily = true := hb
  rw [_enabledLED_eq a hla, _enabledLED_eq b hlb, hd, hc,
    rampDecision_reversed _ _ _ hb hpb h9]
  generalize a._rampDiv = d at *
  generalize a._cycleCount = c at *
  constructor
  · intro hra hrb
    rw [rampDecision_normal_noRamp _ _ _ ha hpa hra,
      rampDecision_normal_noRamp _ _ _ hb2 rfl hrb]
    simp only [decide_eq_true_eq]
    omega
  · intro hra hrb hc0
    have e2 := Int.tmod_eq_emod hc0 (by norm_num : (0 : Int) ≤ 2)
    have e4 := Int.tmod_eq_emod hc0 (by norm_num : (0 : Int) ≤ 4)
    have e6 := Int.tmod_eq_emod hc0 (by norm_num : (0 : Int) ≤ 6)
    rw [rampDecision_normal_ramp _ _ _ ha hpa hra,
      rampDecision_normal_ramp _ _ _ hb2 rfl hrb, e2, e4, e6]
    interval_cases d <;> simp <;> omega

/-- Witness of `alternating_pair`: the two lamps under the cursor in division 3 at
pass count 29, where both are energized. -/
theorem alternating_pair_witness :
    (cursorOn (flasher false true) 3 29).currentLamp.flashesSteadily = true ∧
    (cursorOn (flasher true true) 3 29).currentLamp.flashesSteadily = true ∧
    (cursorOn (flasher false true) 3 29).currentLamp.alternate = false ∧
    (cursorOn (flasher true true) 3 29).currentLamp.alternate = true ∧
    (_enabledLED (cursorOn (flasher false true) 3 29)).1 = true ∧
    (_enabledLED (cursorOn (flasher true true) 3 29)).1 = true :=
  ⟨by decide, by decide, by decide, by decide,
    (((alternating_pair (cursorOn (flasher false true) 3 29)
      (cursorOn (flasher true true) 3 29) (by decide) (by decide) (by decide) (by decide)
      (by decide) (by decide) (by decide)).2 (by decide) (by decide) (by decide)).mpr
        (Or.inr ⟨Or.inl (by decide), by decide⟩)).1,
    (((alternating_pair (cursorOn (flasher false true) 3 29)
      (cursorOn (flasher true true) 3 29) (by decide) (by decide) (by decide) (by decide)
      (by decide) (by decide) (by decide)).2 (by decide) (by decide) (by decide)).mpr
        (Or.inr ⟨Or.inl (by decide), by decide⟩)).2⟩

set_option maxRecDepth 1000000 in
set_option maxHeartbeats 40000000 in
theorem alternatingPair_reachable : Reachable refPlatform alternatingPair :=
  ⟨0, zeroMemory, alternatingRun 218, option_eq_some_getD _ zeroMemory (by decide)⟩

set_option maxRecDepth 1000000 in
set_option maxHeartbeats 40000000 in
/-- Counterexample to C25 as stated: in the state after `alternatingRun 218` the two
lamps set up by `setAlternate` (lamp 1 second in the list, normal phase; lamp 2
first, reversed) have finished starting, the division is 3 and the pass count 29.
`_enabledLED` returns true with the cursor on lamp 1 and with the cursor on lamp 2.
The call of `updateSignals` that led to the state has energized lamp 1 (pin 2 HIGH,
pin 3 LOW), and the next call, in the same division, energizes lamp 2 (pin 3 HIGH,
pin 2 LOW). -/
theorem alternating_overlap_counterexample :
    alternatingPair._rampDiv = 3 ∧ alternatingPair._cycleCount = 29 ∧
    alternatingPair._currentLED = some 1 ∧
    (alternatingPair._lampList.getD 1 nullLamp).flashesSteadily = true ∧
    (alternatingPair._lampList.getD 1 nullLamp).alternate = false ∧
    (alternatingPair._lampList.getD 0 nullLamp).flashesSteadily = true ∧
    (alternatingPair._lampList.getD 0 nullLamp).alternate = true ∧
    (_enabledLED alternatingPair).1 = true ∧
    (_enabledLED { alternatingPair with _currentLED := some 0 }).1 = true ∧
    decide (drivenHigh (alternatingPair.pins 2)) = true ∧
    decide (drivenLow (alternatingPair.pins 3)) = true ∧
    (updateSignals refPlatform (clockAt 1100000) alternatingPair).map
      (fun t => (t._rampDiv, t._currentLED, decide (drivenHigh (t.pins 3)),
        decide (drivenLow (t.pins 2)))) = some (3, some 0, true, true) := by
  decide

/-! ### The division counter -/

theorem _newRampState_rampDiv (hw : Platform) (s : linesideSignal) :
    (_newRampState hw s).2._rampDiv = toByte (cDiv hw s._cycleCount s._cyclesPerDiv) := by
  unfold _newRampState
  rfl

/-- When the quotient of pass count and cycles per division is 10 or more,
`_newRampState` resets the pass count to 0 and then stores the quotient as the
division. -/
theorem _newRampState_wrap (hw : Platform) (s : linesideSignal)
    (h : 10 ≤ toByte (cDiv hw s._cycleCount s._cyclesPerDiv)) :
    (_newRampState hw s).2._cycleCount = 0 ∧ 10 ≤ (_newRampState hw s).2._rampDiv := by
  refine ⟨?_, by rw [_newRampState_rampDiv]; exact h⟩
  unfold _newRampState
  dsimp only
  rw [if_pos h]
  unfold _resetCycleTime
  exact (_adjCycleTime_clock hw _).2.2

set_option maxRecDepth 1000000 in
set_option maxHeartbeats 40000000 in
theorem endOfPeriod_reachable : Reachable refPlatform endOfPeriod :=
  ⟨0, zeroMemory, flashingRun 80, option_eq_some_getD _ zeroMemory (by decide)⟩

set_option maxRecDepth 1000000 in
set_option maxHeartbeats 40000000 in
/-- C27 fails on the code: in the state after `flashingRun 80` (division 9, pass
count 80, 8 cycles per division) `_newRampState` resets the pass count to 0 and
returns with `_rampDiv` = 10, and the call of `updateSignals` made in that state
ends with `_rampDiv` = 10. -/
theorem newRampState_division_ten :
    endOfPeriod._rampDiv = 9 ∧ endOfPeriod._cycleCount = 80 ∧
    endOfPeriod._cyclesPerDiv = 8 ∧
    (_newRampState refPlatform endOfPeriod).1 = true ∧
    (_newRampState refPlatform endOfPeriod).2._rampDiv = 10 ∧
    (_newRampState refPlatform endOfPeriod).2._cycleCount = 0 ∧
    (updateSignals refPlatform (clockAt 410000) endOfPeriod).map
      (fun t => (t._rampDiv, t._cycleCount)) = some (10, 1) := by
  decide

/-! ### The start scenario -/

/-- Whatever division the first boundary after `setLamp` leads into, the lamp of
the start scenario is still starting after it. -/
theorem startScenario_first_boundary (d : Nat) :
    ((boundary d startScenario)._lampList.getD 0 nullLamp).start = true := by
  rcases d with _ | _ | _ | _ | _ | _ | _ | _ | _ | _ | d <;> rfl

set_option maxRecDepth 1000000 in
set_option maxHeartbeats 40000000 in
/-- Counterexample to C29 as stated: in the start scenario (division 0, 40 cycles
per division), after the 40 passes of one division the division clock has
processed its first boundary (division 1) and the lamp, first in the list, is
still starting, and on hold; so it is after one call of `_advanceDivision` for
division 1. -/
theorem start_after_one_division_counterexample :
    startScenario._cyclesPerDiv = 40 ∧ startScenario._rampDiv = 0 ∧
    (startScenario._lampList.getD 0 nullLamp).fixedPart = (0, 0, 0, LSS_RED, 2, 3) ∧
    (passes refPlatform 40 startScenario)._rampDiv = 1 ∧
    ((passes refPlatform 40 startScenario)._lampList.getD 0 nullLamp).start = true ∧
    ((passes refPlatform 40 startScenario)._lampList.getD 0 nullLamp).delay = true ∧
    ((boundary 1 startScenario)._lampList.getD 0 nullLamp).start = true ∧
    ((boundary 1 startScenario)._lampList.getD 0 nullLamp).delay = true := by
  decide

set_option maxRecDepth 1000000 in
/-- C29, as the code has it: in the start scenario (a single lamp registered as
(0,0,0, anode 2, cathode 3, RED) and `setLamp(0,0,0,true)` issued in division 0)
with one `_advanceDivision` per division boundary, the lamp is still starting
after the first boundary, whatever division it leads into; it is starting and on
hold up to division 8, its hold is released at the boundary into division 9
(`LSS_DIV_STOP`), and its starting flag is cleared at the following boundary into
division 3 (`LSS_DIV_START`), the thirteenth division after the command (between
divisions 9 and 0 `_rampDiv` passes through 10).  The pairs are the starting flag
and the onHold flag of the lamp. -/
theorem start_scenario_timeline :
    (∀ d, ((boundary d startScenario)._lampList.getD 0 nullLamp).start = true) ∧
    [[1], [1, 2, 3, 4, 5, 6, 7, 8], [1, 2, 3, 4, 5, 6, 7, 8, 9],
      [1, 2, 3, 4, 5, 6, 7, 8, 9, 10, 0, 1, 2],
      [1, 2, 3, 4, 5, 6, 7, 8, 9, 10, 0, 1, 2, 3]].map
        (fun ds => (((boundaries ds startScenario)._lampList.getD 0 nullLamp).start,
          ((boundaries ds startScenario)._lampList.getD 0 nullLamp).delay)) =
      [(true, true), (true, true), (true, false), (true, false), (false, false)] :=
  ⟨startScenario_first_boundary, by decide⟩

/-! ### The cursor when every lamp is dark -/

theorem getD_dark (lamps : List signalLamp) (hn : ∀ l ∈ lamps, l.lit = false) :
    ∀ i, (lamps.getD i nullLamp).lit = false := by
  induction lamps with
  | nil =>
    intro i
    rfl
  | cons x xs ih =>
    intro i
    cases i with
    | zero => exact hn x (List.mem_cons_self _ _)
    | succ i =>
      rw [List.getD_cons_succ]
      exact ih (fun l hl => hn l (List.mem_cons_of_mem _ hl)) i

theorem getNextLampScan_dark (lamps : List signalLamp) (cur : Nat)
    (hn : ∀ l ∈ lamps, l.lit = false) :
    ∀ fuel start newCycle, (getNextLampScan lamps cur fuel start newCycle).1 = none := by
  intro fuel
  induction fuel with
  | zero =>
    intro start newCycle
    rfl
  | succ fuel ih =>
    intro start newCycle
    cases start with
    | none =>
      unfold getNextLampScan
      dsimp only
      have hd : (lamps.getD 0 nullLamp).isOn = false := getD_dark lamps hn 0
      rw [if_neg (by rw [hd]; simp)]
      split
      · rfl
      · exact ih _ _
    | some i =>
      unfold getNextLampScan
      dsimp only
      have hd : (lamps.getD i nullLamp).isOn = false := getD_dark lamps hn i
      rw [if_neg (by rw [hd]; simp)]
      split
      · rfl
      · exact ih _ _

/-- With no lamp lit, `_getNextLamp` returns false and leaves the state, and so the
cursor, as it is. -/
theorem _getNextLamp_dark (s : linesideSignal) (hn : ∀ l ∈ s._lampList, l.lit = false) :
    (_getNextLamp s).1 = false ∧ (_getNextLamp s).2.2 = s := by
  unfold _getNextLamp
  split
  · exact ⟨rfl, rfl⟩
  · rename_i cur hcur
    split
    · exact ⟨rfl, rfl⟩
    · split
      · rename_i i nc heq
        have := getNextLampScan_dark s._lampList cur hn (s._lampList.length + 1)
          (nextLamp s._lampList cur) false
        rw [heq] at this
        exact absurd this (by simp)
      · exact ⟨rfl, rfl⟩

theorem _newRampState_cursor (hw : Platform) (s : linesideSignal) :
    (_newRampState hw s).2._currentLED = s._currentLED := by
  unfold _newRampState
  dsimp only
  split
  · exact (_resetCycleTime_frame hw s).2.2.1
  · rfl

theorem _enabledLED_cursor (s : linesideSignal) :
    (_enabledLED s).2._currentLED = s._currentLED := by
  unfold _enabledLED
  split <;> rfl

/-- With no lamp lit, the part of `updateSignals` up to the ramp decision leaves
the cursor where it is. -/
theorem selectLamp_cursor_dark (hw : Platform) (clk : Clock) (s : linesideSignal)
    (hn : ∀ l ∈ s._lampList, l.lit = false) :
    (selectLamp hw clk s).2.2.2._currentLED = s._currentLED := by
  have h1 : SameButTiming s (resetOnJump hw s) := by
    unfold resetOnJump
    split
    · exact _resetCycleTime_frame hw s
    · exact sameButTiming_refl s
  have hn1 : ∀ l ∈ (resetOnJump hw s)._lampList, l.lit = false := by
    rw [h1.2.1]
    exact hn
  have h2 : (nextLED hw clk (resetOnJump hw s)).2._currentLED = s._currentLED := by
    obtain ⟨g1, g2⟩ := _getNextLamp_dark (resetOnJump hw s) hn1
    unfold nextLED
    dsimp only
    refine ((_lightTimerStart_frame _ _ _ _).2.2.1).trans ?_
    split
    · rename_i hr
      rw [g1] at hr
      exact absurd hr (by simp)
    · rw [g2]
      exact h1.2.2.1
  have h3 : ∀ u, (rampClock hw u)._currentLED = u._currentLED := by
    intro u
    unfold rampClock
    dsimp only
    split
    · exact (_advanceDivision_step _).2.trans (_newRampState_cursor hw u)
    · exact _newRampState_cursor hw u
  have h4 : ∀ u, (decideLED u).2._currentLED = u._currentLED := by
    intro u
    unfold decideLED
    split
    · exact _enabledLED_cursor u
    · rfl
  have h5 : (if _lightTimerExpired clk.expiryCheck (resetOnJump hw s) = true then
        nextLED hw clk (resetOnJump hw s) else (false, resetOnJump hw s)).2._currentLED =
      s._currentLED := by
    split
    · exact h2
    · dsimp only
      exact h1.2.2.1
  exact (h4 _).trans ((h3 _).trans h5)

/-- C28, as the code has it: in every state in which no lamp is lit, whatever the
cursor position, `_getNextLamp` returns false and leaves the state unchanged: the
cursor stays on the lamp it was on, which is the sentinel only if it was the
sentinel before; in a reachable state, a call of `updateSignals` returns and
leaves the cursor where it was. -/
theorem cursor_stays_when_dark (hw : Platform) (s : linesideSignal)
    (hn : ∀ l ∈ s._lampList, l.lit = false) :
    (_getNextLamp s).1 = false ∧ (_getNextLamp s).2.2 = s ∧
    (Reachable hw s →
      ∀ clk, ∃ t, updateSignals hw clk s = some t ∧ t._currentLED = s._currentLED) := by
  obtain ⟨g1, g2⟩ := _getNextLamp_dark s hn
  refine ⟨g1, g2, fun hr clk => ?_⟩
  have hi := hr.invariant
  obtain ⟨-, hd, -⟩ := selectLamp_step hw clk s
  obtain ⟨t, ht, -, -, tc, -⟩ := switchPins_spec (selectLamp hw clk s).2.2.2
    s.currentLamp.anode s.currentLamp.cathode (selectLamp hw clk s).2.1
    (selectLamp hw clk s).2.2.1 (Electrical.of_sameDrive hd hi.2.2)
  have hrec := recordTimes_frame clk (selectLamp hw clk s).1 (selectLamp hw clk s).2.1 t
  refine ⟨recordTimes clk (selectLamp hw clk s).1 (selectLamp hw clk s).2.1 t, ?_, ?_⟩
  · unfold updateSignals
    dsimp only
    rw [ht]
    rfl
  · exact (hrec.2.2.1.trans tc).trans (selectLamp_cursor_dark hw clk s hn)

/-- Witness of `cursor_stays_when_dark`: the state after `darkAgainCalls`, with the
cursor on lamp (0,0,1). -/
theorem cursor_stays_when_dark_witness :
    (∀ l ∈ darkAgain._lampList, l.lit = false) ∧
    Reachable refPlatform darkAgain ∧
    (_getNextLamp darkAgain).1 = false ∧ (_getNextLamp darkAgain).2.2 = darkAgain ∧
    ∀ clk, ∃ t, updateSignals refPlatform clk darkAgain = some t ∧
      t._currentLED = darkAgain._currentLED :=
  ⟨by decide, ⟨0, zeroMemory, darkAgainCalls, rfl⟩,
    (cursor_stays_when_dark refPlatform darkAgain (by decide)).1,
    (cursor_stays_when_dark refPlatform darkAgain (by decide)).2.1,
    (cursor_stays_when_dark refPlatform darkAgain (by decide)).2.2
      ⟨0, zeroMemory, darkAgainCalls, rfl⟩⟩

/-- Counterexample to C28 as stated: in the state after `darkAgainCalls` setup is
done, no lamp is lit and the cursor is on lamp (0,0,1), sixth in the list; after
`_getNextLamp`, and after a call of `updateSignals` whose timer has expired, the
cursor is still on that lamp and not on the sentinel. -/
theorem cursor_fallback_counterexample :
    darkAgain._setupIsDone = true ∧
    darkAgain._lampList.all (fun l => !l.lit) = true ∧
    darkAgain._currentLED = some 5 ∧
    darkAgain.currentLamp.fixedPart = (0, 0, 1, LSS_RED, 2, 3) ∧
    (_getNextLamp darkAgain).2.2._currentLED = some 5 ∧
    (_getNextLamp darkAgain).2.2.currentLamp.isSentinel = false ∧
    _lightTimerExpired (clockAt 20000).expiryCheck darkAgain = true ∧
    (updateSignals refPlatform (clockAt 20000) darkAgain).map
      (fun t => (t._currentLED, t.currentLamp.isSentinel)) = some (some 5, false) := by
  decide

/-! ### The sentinel -/

/-- C21 fails on the code: right after `powerOn`, each of `setLamp(0,0,0,true)`,
`setHeadColor(0,0,LSS_DARK)`, `setLampColor(0,0,0,LSS_DARK)` and
`setAlternate(0,0,0,false)` addresses the sentinel, whose ordinals are
`LSS_NULL_SIG` = 0 and whose colour is `LSS_DARK`, and sets its lit flag. -/
theorem sentinel_can_be_lit :
    Reachable refPlatform (setLamp 0 0 0 true false (powerOn refPlatform 0 zeroMemory)) ∧
    (powerOn refPlatform 0 zeroMemory)._lampList.map (fun l => (l.isSentinel, l.lit)) =
      [(true, false)] ∧
    (setLamp 0 0 0 true false (powerOn refPlatform 0 zeroMemory))._lampList.map
      (fun l => (l.isSentinel, l.lit)) = [(true, true)] ∧
    (setHeadColor 0 0 LSS_DARK false (powerOn refPlatform 0 zeroMemory))._lampList.map
      (fun l => (l.isSentinel, l.lit)) = [(true, true)] ∧
    (setLampColor 0 0 0 LSS_DARK false (powerOn refPlatform 0 zeroMemory))._lampList.map
      (fun l => (l.isSentinel, l.lit)) = [(true, true)] ∧
    (setAlternate 0 0 0 false (powerOn refPlatform 0 zeroMemory))._lampList.map
      (fun l => (l.isSentinel, l.lit)) = [(true, true)] :=
  ⟨⟨0, zeroMemory, [.setLamp 0 0 0 true false], rfl⟩, by decide, by decide, by decide,
    by decide, by decide⟩

/-! ### The light timer -/

/-- Conversion to `long` as a case distinction on the remainder modulo 2^32. -/
theorem toLong_cases (x : Int) :
    toLong x = if x % 4294967296 < 2147483648 then x % 4294967296
      else x % 4294967296 - 4294967296 := by
  unfold toLong Int.bmod
  norm_num

/-- The expiration time `_lightTimerStart` stores: the clock reading (or the start
time handed in) plus the duration, as a `long`. -/
theorem _lightTimerStart_expiration (usec startTime micros : Int) (s : linesideSignal) :
    (_lightTimerStart usec startTime micros s)._lightExpirationTime =
      if startTime = 0 then toLong (toLong micros + usec) else toLong (startTime + usec) := by
  unfold _lightTimerStart
  split_ifs <;> rfl

/-- C37: a timer started at clock value `start` (read from `micros()` when the
`startTime` argument is 0, or handed in as the `long` reading) with a duration
`0 < d < 2^31` is reported expired at the clock value `(start + e) mod 2^32`,
`0 ≤ e < 2^31`, exactly when `d ≤ e`; the clock is any 32-bit value, so `start + d`
and `start + e` may wrap. -/
theorem lightTimer_wraparound (start d e startTime : Int) (s : linesideSignal)
    (hstart : 0 ≤ start ∧ start < 2 ^ 32) (hd : 0 < d ∧ d < 2 ^ 31)
    (he : 0 ≤ e ∧ e < 2 ^ 31) (harg : startTime = 0 ∨ startTime = toLong start) :
    _lightTimerExpired ((start + e) % 2 ^ 32) (_lightTimerStart d startTime start s) = true
      ↔ d ≤ e := by
  obtain ⟨hs0, hs1⟩ := hstart
  obtain ⟨hd0, hd1⟩ := hd
  obtain ⟨he0, he1⟩ := he
  norm_num at hs1 hd1 he1
  have hexp : (_lightTimerStart d startTime start s)._lightExpirationTime =
      toLong (toLong start + d) := by
    rw [_lightTimerStart_expiration]
    rcases harg with h | h
    · rw [if_pos h]
    · split_ifs with h0
      · rfl
      · rw [h]
  unfold _lightTimerExpired
  rw [hexp, decide_eq_true_iff]
  norm_num only
  simp only [toLong_cases]
  split_ifs <;> omega

/-- Witness of `lightTimer_wraparound`: a timer of 10 microseconds started 6
microseconds before the clock wraps, read 9 microseconds later. -/
theorem lightTimer_wraparound_witness :
    (((0 : Int) ≤ 4294967290 ∧ (4294967290 : Int) < 2 ^ 32) ∧
      ((0 : Int) < 10 ∧ (10 : Int) < 2 ^ 31) ∧ ((0 : Int) ≤ 9 ∧ (9 : Int) < 2 ^ 31)) ∧
    (_lightTimerExpired ((4294967290 + 9) % 2 ^ 32)
        (_lightTimerStart 10 0 4294967290 zeroMemory) = true ↔ (10 : Int) ≤ 9) :=
  ⟨by decide,
   lightTimer_wraparound 4294967290 10 9 0 zeroMemory (by decide) (by decide) (by decide)
      (Or.inl rfl)⟩

/-- The same timer at the wrapped clock values 3 and 4, 9 and 10 microseconds after
its start: running, then expired. -/
theorem lightTimer_across_wrap :
    (4294967290 + 9 : Int) % 2 ^ 32 = 3 ∧ (4294967290 + 10 : Int) % 2 ^ 32 = 4 ∧
    _lightTimerExpired 3 (_lightTimerStart 10 0 4294967290 zeroMemory) = false ∧
    _lightTimerExpired 4 (_lightTimerStart 10 0 4294967290 zeroMemory) = true := by
  decide

/-! ### The running averages -/

/-- The right shift of a `long` is the floor division by a power of two. -/
theorem shiftRight_eq_div (x : Int) (n : Nat) : x >>> (n : Int) = x / 2 ^ n := by
  have h := Int.shiftRight_eq_div_pow x n
  have e : x >>> (n : Int) = x >>> n := by
    cases x with
    | ofNat m => exact Int.shiftRight_coe_nat m n
    | negSucc m => exact Int.shiftRight_negSucc m n
  rw [e, h]
  norm_cast

theorem shiftRight_two (x : Int) : x >>> 2 = x / 4 := shiftRight_eq_div x 2

theorem shiftRight_four (x : Int) : x >>> 4 = x / 16 := shiftRight_eq_div x 4

theorem shiftRight_five (x : Int) : x >>> 5 = x / 32 := shiftRight_eq_div x 5

/-- The accumulator `_averageOverhead` stores. -/
theorem _averageOverhead_acc (newVal : Int) (s : linesideSignal) :
    (_averageOverhead newVal s)._interimOverhead =
      toLong (toLong (toInt newVal * 2) + (toLong (s._interimOverhead * 15) >>> 4)) := rfl

/-- The accumulator `_averageLoop` stores. -/
theorem _averageLoop_acc (newVal : Int) (s : linesideSignal) :
    (_averageLoop newVal s)._interimLoop =
      toLong (toLong (toInt newVal * 8) + (toLong (s._interimLoop * 3) >>> 2)) := rfl

/-- The overhead accumulator after a sample, when nothing overflows. -/
theorem _averageOverhead_exact (v : Int) (s : linesideSignal)
    (hv : 0 ≤ v ∧ v ≤ 32767)
    (ha : 0 ≤ s._interimOverhead ∧ s._interimOverhead ≤ 143165576) :
    (_averageOverhead v s)._interimOverhead = 2 * v + s._interimOverhead * 15 / 16 := by
  rw [_averageOverhead_acc, toInt_of_range v (by omega) (by omega),
    toLong_of_range (s._interimOverhead * 15) (by omega) (by omega),
    toLong_of_range (v * 2) (by omega) (by omega), shiftRight_four]
  rw [toLong_of_range _ (by omega) (by omega)]
  omega

/-- The loop accumulator after a sample, when nothing overflows. -/
theorem _averageLoop_exact (v : Int) (s : linesideSignal)
    (hv : 0 ≤ v ∧ v ≤ 32767)
    (ha : 0 ≤ s._interimLoop ∧ s._interimLoop ≤ 715827882) :
    (_averageLoop v s)._interimLoop = 8 * v + s._interimLoop * 3 / 4 := by
  rw [_averageLoop_acc, toInt_of_range v (by omega) (by omega),
    toLong_of_range (s._interimLoop * 3) (by omega) (by omega),
    toLong_of_range (v * 8) (by omega) (by omega), shiftRight_two]
  rw [toLong_of_range _ (by omega) (by omega)]
  omega

/-- Reading an accumulator of `32 * v` back gives `v`. -/
theorem readBack (v : Int) (hv : 0 ≤ v ∧ v ≤ 32767) :
    toInt (toLong (32 * v + 16) >>> 5) = v := by
  rw [toLong_of_range _ (by omega) (by omega), shiftRight_five]
  rw [toInt_of_range _ (by omega) (by omega)]
  omega

/-- Counterexample to C38 as stated (any bound `M`): with `M = 4473925` the overhead
accumulator `32 * M` and the sample 0 are within the stated ranges, and the updated
accumulator is negative, because `_interimOverhead * 15L` no longer fits a `long`;
likewise the loop accumulator `32 * M` for `M = 22369622`. -/
theorem average_bound_counterexample :
    ((0 : Int) ≤ 32 * 4473925 ∧ (0 : Int) ≤ 4473925 ∧
      (_averageOverhead 0
        { zeroMemory with _interimOverhead := 32 * 4473925 })._interimOverhead
          = -134217706) ∧
    ((0 : Int) ≤ 32 * 22369622 ∧ (0 : Int) ≤ 22369622 ∧
      (_averageLoop 0
        { zeroMemory with _interimLoop := 32 * 22369622 })._interimLoop < 0) := by
  decide

/-- C38 (amended): for every value `v` of the `int` parameter with `0 ≤ v` (so
`v ≤ 32767`), the accumulator `32 * v` is a fixed point of `_averageOverhead(v)` and of
`_averageLoop(v)`, and `_getOverhead` / `_getAverageLoop` read it back as `v`; and
for a bound `M ≤ 4473924` (the product `_interimOverhead * 15L` fits a `long`), an
accumulator in `0 .. 32 * M` and a sample in `0 .. M` (and at most 32767) give an
accumulator in `0 .. 32 * M` again, for both averages. -/
theorem average_steady_state (s : linesideSignal) (v M sample : Int)
    (hv : 0 ≤ v ∧ v ≤ 32767) (hM : M ≤ 4473924)
    (hs : 0 ≤ sample ∧ sample ≤ M ∧ sample ≤ 32767) :
    ((_averageOverhead v { s with _interimOverhead := 32 * v })._interimOverhead = 32 * v ∧
      (_averageLoop v { s with _interimLoop := 32 * v })._interimLoop = 32 * v ∧
      _getOverhead { s with _interimOverhead := 32 * v } = v ∧
      _getAverageLoop { s with _interimLoop := 32 * v } = v) ∧
    (0 ≤ s._interimOverhead ∧ s._interimOverhead ≤ 32 * M →
      0 ≤ (_averageOverhead sample s)._interimOverhead ∧
      (_averageOverhead sample s)._interimOverhead ≤ 32 * M) ∧
    (0 ≤ s._interimLoop ∧ s._interimLoop ≤ 32 * M →
      0 ≤ (_averageLoop sample s)._interimLoop ∧
      (_averageLoop sample s)._interimLoop ≤ 32 * M) := by
  obtain ⟨h0, h1⟩ := hv
  obtain ⟨hs0, hs1, hs2⟩ := hs
  refine ⟨⟨?_, ?_, readBack v ⟨h0, h1⟩, readBack v ⟨h0, h1⟩⟩, ?_, ?_⟩
  · rw [_averageOverhead_exact v _ ⟨h0, h1⟩ ⟨by dsimp only; omega, by dsimp only; omega⟩]
    dsimp only
    omega
  · rw [_averageLoop_exact v _ ⟨h0, h1⟩ ⟨by dsimp only; omega, by dsimp only; omega⟩]
    dsimp only
    omega
  · rintro ⟨ha0, ha1⟩
    rw [_averageOverhead_exact sample s ⟨hs0, hs2⟩ ⟨ha0, by omega⟩]
    omega
  · rintro ⟨ha0, ha1⟩
    rw [_averageLoop_exact sample s ⟨hs0, hs2⟩ ⟨ha0, by omega⟩]
    omega

/-- Witness of `average_steady_state`: the sample 100, and a loop accumulator of
32000 with the bound 1000 and the sample 250. -/
theorem average_steady_state_witness :
    (((0 : Int) ≤ 100 ∧ (100 : Int) ≤ 32767) ∧ (1000 : Int) ≤ 4473924 ∧
      ((0 : Int) ≤ 250 ∧ (250 : Int) ≤ 1000 ∧ (250 : Int) ≤ 32767)) ∧
    (_averageOverhead 100
      { { zeroMemory with _interimLoop := 32000 } with
          _interimOverhead := 32 * 100 })._interimOverhead = 32 * 100 ∧
    (0 ≤ (_averageLoop 250 { zeroMemory with _interimLoop := 32000 })._interimLoop ∧
      (_averageLoop 250 { zeroMemory with _interimLoop := 32000 })._interimLoop
        ≤ 32 * 1000) :=
  ⟨by decide,
   (average_steady_state { zeroMemory with _interimLoop := 32000 } 100 1000 250
      (by decide) (by decide) (by decide)).1.1,
   (average_steady_state { zeroMemory with _interimLoop := 32000 } 100 1000 250
      (by decide) (by decide) (by decide)).2.2 (by decide)⟩

/-- The loop average under the 1000 microsecond cap of `updateSignals`: from an
accumulator in `0 .. 32000`, a tick whose loop time is not negative leaves the
accumulator in `0 .. 32000`. -/
theorem loop_accumulator_capped (clk : Clock) (timerExp newCycle : Bool) (s : linesideSignal)
    (ha : 0 ≤ s._interimLoop ∧ s._interimLoop ≤ 32000)
    (ht : 0 ≤ toLong (toLong clk.startTime - s._lastLoopStamp)) :
    0 ≤ (recordTimes clk timerExp newCycle s)._interimLoop ∧
    (recordTimes clk timerExp newCycle s)._interimLoop ≤ 32000 := by
  have hl : ∀ v : Int, 0 ≤ v → v ≤ 1000 → ∀ t : linesideSignal,
      t._interimLoop = s._interimLoop →
      0 ≤ (_averageLoop v t)._interimLoop ∧ (_averageLoop v t)._interimLoop ≤ 32000 := by
    intro v h0 h1 t ht
    rw [_averageLoop_exact v t ⟨h0, by omega⟩ ⟨by omega, by omega⟩, ht]
    omega
  cases timerExp <;> cases newCycle <;>
  · unfold recordTimes
    simp only [Bool.false_eq_true, if_false, if_true]
    split_ifs with h
    · exact hl 1000 (by omega) (by omega) _ rfl
    · exact hl _ ht (not_lt.mp h) _ rfl

/-! ### Single-precision arithmetic -/

/-- The digits of a positive number below `2 ^ fuel`. -/
theorem bitLength_spec : ∀ (fuel n : Nat), 0 < n → n < 2 ^ fuel →
    2 ^ bitLength fuel n ≤ 2 * n ∧ n < 2 ^ bitLength fuel n := by
  intro fuel
  induction fuel with
  | zero =>
    intro n h0 h1
    simp at h1
    omega
  | succ fuel ih =>
    intro n h0 h1
    rw [bitLength, if_neg (by omega)]
    rcases Nat.eq_zero_or_pos (n / 2) with hz | hp
    · have h1n : n = 1 := by omega
      subst h1n
      have hb : bitLength fuel (1 / 2) = 0 := by
        cases fuel with
        | zero => rfl
        | succ f => rfl
      rw [hb]
      decide
    · have hlt : n / 2 < 2 ^ fuel := by
        rw [Nat.pow_succ] at h1
        omega
      obtain ⟨i1, i2⟩ := ih (n / 2) hp hlt
      rw [Nat.pow_succ]
      constructor <;> omega

/-- The rounded quotient is within one half of the quotient. -/
theorem roundQuot_spec (n d : Nat) (hd : 0 < d) :
    2 * (roundQuot n d * d) ≤ 2 * n + d ∧ 2 * n ≤ 2 * (roundQuot n d * d) + d := by
  have h := Nat.div_add_mod n d
  have hr := Nat.mod_lt n hd
  have e1 : (n / d + 1) * d = d * (n / d) + d := by ring
  have e2 : n / d * d = d * (n / d) := by ring
  unfold roundQuot
  split_ifs with hc
  · rw [e1]
    rcases hc with hc | hc <;> omega
  · rw [e2]
    have hc2 : ¬ 2 * (n % d) > d := fun hx => hc (Or.inl hx)
    omega

/-- A lower bound on a scaled quotient, cleared of its denominators. -/
theorem scaled_lower (n d m T U K e : ℚ) (hd : 0 < d) (hU : 0 < U) (hK : 0 < K)
    (h : n * U * K * e ≤ m * (d * T)) : n / d * e ≤ m * T / (U * K) := by
  rw [div_mul_eq_mul_div, div_le_div_iff₀ hd (mul_pos hU hK)]
  linarith

/-- An upper bound on a scaled quotient, cleared of its denominators. -/
theorem scaled_upper (n d m T U K e : ℚ) (hd : 0 < d) (hU : 0 < U) (hK : 0 < K)
    (h : m * (d * T) ≤ n * U * K * e) : m * T / (U * K) ≤ n / d * e := by
  rw [div_mul_eq_mul_div, div_le_div_iff₀ (mul_pos hU hK) hd]
  linarith

/-- Division of integers in single precision: the significand has at most 24 bits
(`2 ^ 24` itself when the rounding carries), and the result is within a relative
`2 ^ -24` of the quotient. -/
theorem floatDiv_spec (n d : Nat) (hn : 0 < n) (hn2 : n < 2 ^ 64) (hd : 0 < d)
    (hd2 : d < 2 ^ 64) :
    0 < (floatDiv n d).mant ∧ (floatDiv n d).mant ≤ 2 ^ 24 ∧
    (n : ℚ) / d * (1 - 1 / 2 ^ 24) ≤ (floatDiv n d).value ∧
    (floatDiv n d).value ≤ (n : ℚ) / d * (1 + 1 / 2 ^ 24) := by
  obtain ⟨t1, t2⟩ := bitLength_spec 64 n hn hn2
  obtain ⟨u1, u2⟩ := bitLength_spec 64 d hd hd2
  have hT : 0 < 2 ^ bitLength 64 n := Nat.two_pow_pos _
  have hU : 0 < 2 ^ bitLength 64 d := Nat.two_pow_pos _
  have hTq : (0 : ℚ) < 2 ^ bitLength 64 n := by positivity
  have hUq : (0 : ℚ) < 2 ^ bitLength 64 d := by positivity
  have hdq : (0 : ℚ) < d := by exact_mod_cast hd
  have hnq : (0 : ℚ) < n := by exact_mod_cast hn
  have hD : 0 < d * 2 ^ bitLength 64 n := Nat.mul_pos hd hT
  -- the scaled operands are within a factor two of each other
  have hND : n * 2 ^ bitLength 64 d < 2 * (d * 2 ^ bitLength 64 n) := by
    calc n * 2 ^ bitLength 64 d < 2 ^ bitLength 64 n * 2 ^ bitLength 64 d :=
          Nat.mul_lt_mul_of_pos_right t2 hU
      _ ≤ 2 ^ bitLength 64 n * (2 * d) := Nat.mul_le_mul_left _ u1
      _ = 2 * (d * 2 ^ bitLength 64 n) := by ring
  have hDN : d * 2 ^ bitLength 64 n < 2 * (n * 2 ^ bitLength 64 d) := by
    calc d * 2 ^ bitLength 64 n < 2 ^ bitLength 64 d * 2 ^ bitLength 64 n :=
          Nat.mul_lt_mul_of_pos_right u2 hT
      _ ≤ 2 ^ bitLength 64 d * (2 * n) := Nat.mul_le_mul_left _ t1
      _ = 2 * (n * 2 ^ bitLength 64 d) := by ring
  have hc1 : ((d * 2 ^ bitLength 64 n : Nat) : ℚ) = (d : ℚ) * 2 ^ bitLength 64 n := by
    push_cast
    ring
  have hc2 : ((n * 2 ^ bitLength 64 d : Nat) : ℚ) = (n : ℚ) * 2 ^ bitLength 64 d := by
    push_cast
    ring
  have hNDq : ((n * 2 ^ bitLength 64 d : Nat) : ℚ) < ((2 * (d * 2 ^ bitLength 64 n) : Nat) : ℚ) :=
    Nat.cast_lt.mpr hND
  have hDNq : ((d * 2 ^ bitLength 64 n : Nat) : ℚ) < ((2 * (n * 2 ^ bitLength 64 d) : Nat) : ℚ) :=
    Nat.cast_lt.mpr hDN
  unfold floatDiv
  dsimp only
  split_ifs with hc
  · obtain ⟨r1, r2⟩ := roundQuot_spec (n * 2 ^ bitLength 64 d * 2 ^ 23)
      (d * 2 ^ bitLength 64 n) hD
    have r1q := (Nat.cast_le (α := ℚ)).mpr r1
    have r2q := (Nat.cast_le (α := ℚ)).mpr r2
    have hcq := (Nat.cast_le (α := ℚ)).mpr hc
    generalize roundQuot (n * 2 ^ bitLength 64 d * 2 ^ 23) (d * 2 ^ bitLength 64 n) = m
      at r1 r2 r1q r2q
    push_cast at r1q r2q hcq hNDq hDNq
    refine ⟨?_, ?_, ?_, ?_⟩
    · show 0 < m
      rcases Nat.eq_zero_or_pos m with hm | hm
      · subst hm
        simp only [Nat.zero_mul, Nat.mul_zero, Nat.zero_add] at r2
        omega
      · exact hm
    · show m ≤ 2 ^ 24
      by_contra hgt
      have h5 := Nat.mul_le_mul_right (d * 2 ^ bitLength 64 n)
        (show 2 ^ 24 + 1 ≤ m by omega)
      omega
    · simp only [Float32.value, pow_add]
      apply scaled_lower _ _ _ _ _ _ _ hdq hUq (by norm_num)
      linarith
    · simp only [Float32.value, pow_add]
      apply scaled_upper _ _ _ _ _ _ _ hdq hUq (by norm_num)
      linarith
  · obtain ⟨r1, r2⟩ := roundQuot_spec (n * 2 ^ bitLength 64 d * 2 ^ 24)
      (d * 2 ^ bitLength 64 n) hD
    have r1q := (Nat.cast_le (α := ℚ)).mpr r1
    have r2q := (Nat.cast_le (α := ℚ)).mpr r2
    have hcq := (Nat.cast_lt (α := ℚ)).mpr (Nat.lt_of_not_le hc)
    generalize roundQuot (n * 2 ^ bitLength 64 d * 2 ^ 24) (d * 2 ^ bitLength 64 n) = m
      at r1 r2 r1q r2q
    push_cast at r1q r2q hcq hNDq hDNq
    refine ⟨?_, ?_, ?_, ?_⟩
    · show 0 < m
      rcases Nat.eq_zero_or_pos m with hm | hm
      · subst hm
        simp only [Nat.zero_mul, Nat.mul_zero, Nat.zero_add] at r2
        omega
      · exact hm
    · show m ≤ 2 ^ 24
      by_contra hgt
      have h5 := Nat.mul_le_mul_right (d * 2 ^ bitLength 64 n)
        (show 2 ^ 24 + 1 ≤ m by omega)
      omega
    · simp only [Float32.value, pow_add]
      apply scaled_lower _ _ _ _ _ _ _ hdq hUq (by norm_num)
      linarith
    · simp only [Float32.value, pow_add]
      apply scaled_upper _ _ _ _ _ _ _ hdq hUq (by norm_num)
      linarith

/-- Division in single precision: the result is within a relative `2 ^ -24` of the
quotient of the operands. -/
theorem Float32.div_spec (a b : Float32) (ha : 0 < a.mant) (ha2 : a.mant < 2 ^ 64)
    (hb : 0 < b.mant) (hb2 : b.mant < 2 ^ 64) :
    0 < (a.div b).mant ∧ (a.div b).mant ≤ 2 ^ 24 ∧
    a.value / b.value * (1 - 1 / 2 ^ 24) ≤ (a.div b).value ∧
    (a.div b).value ≤ a.value / b.value * (1 + 1 / 2 ^ 24) := by
  obtain ⟨h1, h2, h3, h4⟩ := floatDiv_spec a.mant b.mant ha ha2 hb hb2
  have hbq : (0 : ℚ) < b.mant := by exact_mod_cast hb
  have e1 : (a.div b).value =
      (floatDiv a.mant b.mant).value * (2 ^ a.up * 2 ^ b.down / (2 ^ a.down * 2 ^ b.up)) := by
    simp only [Float32.div, Float32.value, pow_add]
    field_simp
    ring
  have e2 : a.value / b.value =
      (a.mant : ℚ) / b.mant * (2 ^ a.up * 2 ^ b.down / (2 ^ a.down * 2 ^ b.up)) := by
    simp only [Float32.value]
    field_simp
    ring
  have hpos : (0 : ℚ) < 2 ^ a.up * 2 ^ b.down / (2 ^ a.down * 2 ^ b.up) := by positivity
  refine ⟨h1, h2, ?_, ?_⟩
  · rw [e1, e2]
    have := mul_le_mul_of_nonneg_right h3 hpos.le
    linarith
  · rw [e1, e2]
    have := mul_le_mul_of_nonneg_right h4 hpos.le
    linarith

/-- Truncation of a positive `float` is the floor of its value. -/
theorem Float32.trunc_eq_floor (a : Float32) : a.trunc = ⌊a.value⌋₊ := by
  unfold Float32.trunc Float32.value
  have h := Nat.floor_div_eq_div (α := ℚ) (a.mant * 2 ^ a.up) (2 ^ a.down)
  push_cast at h
  exact h.symm

/-- The value of a `float` with a positive significand is positive. -/
theorem Float32.value_pos (a : Float32) (ha : 0 < a.mant) : 0 < a.value := by
  have : (0 : ℚ) < a.mant := by exact_mod_cast ha
  unfold Float32.value
  positivity

/-- An upper bound of a quotient from bounds of its operands. -/
theorem quot_upper (A B x y l h : ℚ) (hx : 0 < x) (hy : 0 < y) (hl : 0 < l) (hh : 0 < h)
    (hA : A ≤ x * h) (hB : y * l ≤ B) : A / B ≤ x / y * (h / l) := by
  have e : x / y * (h / l) = x * h / (y * l) := by
    field_simp
  rw [e]
  exact div_le_div₀ (by positivity) hA (by positivity) hB

/-- A lower bound of a quotient from bounds of its operands. -/
theorem quot_lower (A B x y l h : ℚ) (hx : 0 < x) (hy : 0 < y) (hl : 0 < l) (hh : 0 < h)
    (hB0 : 0 < B) (hA : x * l ≤ A) (hB : B ≤ y * h) : x / y * (l / h) ≤ A / B := by
  have e : x / y * (l / h) = x * l / (y * h) := by
    field_simp
  rw [e]
  exact div_le_div₀ (le_trans (by positivity) hA) hA hB0 hB

/-- The single-precision quotient of `_setFlashRate`, truncated, is within one of
the exact quotient `60000000 / (rate * cycleTime)` truncated, as long as the latter
fits an `int`. -/
theorem flashQuotient_near (r c : Nat) (hr : 1 ≤ r) (hr2 : r ≤ 6000) (hc : 0 < c)
    (hc2 : c < 2 ^ 31) (hq : 1832 ≤ r * c) :
    60000000 / (r * c) ≤
        ((floatDiv 60000 r).div ((floatDiv c 1).div (floatDiv 1000 1))).trunc + 1 ∧
    ((floatDiv 60000 r).div ((floatDiv c 1).div (floatDiv 1000 1))).trunc ≤
        60000000 / (r * c) + 1 := by
  obtain ⟨a1, a2, a3, a4⟩ := floatDiv_spec 60000 r (by decide) (by decide) (by omega) (by omega)
  obtain ⟨c1, c2, c3, c4⟩ := floatDiv_spec c 1 hc (by omega) (by decide) (by decide)
  obtain ⟨k1, k2, k3, k4⟩ := floatDiv_spec 1000 1 (by decide) (by decide) (by decide)
    (by decide)
  obtain ⟨b1, b2, b3, b4⟩ := Float32.div_spec (floatDiv c 1) (floatDiv 1000 1) c1
    (by omega) k1 (by omega)
  obtain ⟨d1, d2, d3, d4⟩ := Float32.div_spec (floatDiv 60000 r)
    ((floatDiv c 1).div (floatDiv 1000 1)) a1 (by omega) b1 (by omega)
  rw [Float32.trunc_eq_floor]
  have hA := Float32.value_pos _ a1
  have hC := Float32.value_pos _ c1
  have hK := Float32.value_pos _ k1
  have hB := Float32.value_pos _ b1
  generalize ((floatDiv 60000 r).div ((floatDiv c 1).div (floatDiv 1000 1))).value = R
    at d3 d4 ⊢
  generalize ((floatDiv c 1).div (floatDiv 1000 1)).value = B at b3 b4 d3 d4 hB
  generalize (floatDiv 60000 r).value = A at a3 a4 d3 d4 hA
  generalize (floatDiv c 1).value = C at c3 c4 b3 b4 hC
  generalize (floatDiv 1000 1).value = K at k3 k4 b3 b4 hK
  simp only [Nat.cast_one, div_one, Nat.cast_ofNat] at a3 a4 c3 c4 k3 k4
  have hrq : (0 : ℚ) < r := by exact_mod_cast (show 0 < r by omega)
  have hcq : (0 : ℚ) < c := by exact_mod_cast hc
  have hx : (0 : ℚ) < 60000 / r := by positivity
  -- the quotient of the cycle time and 1000
  have q1 := quot_upper C K c 1000 (1 - 1 / 2 ^ 24) (1 + 1 / 2 ^ 24) hcq (by norm_num)
    (by norm_num) (by norm_num) c4 k3
  have q2 := quot_lower C K c 1000 (1 - 1 / 2 ^ 24) (1 + 1 / 2 ^ 24) hcq (by norm_num)
    (by norm_num) (by norm_num) hK c3 k4
  have hy : (0 : ℚ) < c / 1000 := by positivity
  have hCK : 0 < C / K := by positivity
  have b5 : B ≤ c / 1000 * ((1 + 1 / 2 ^ 24) / (1 - 1 / 2 ^ 24) * (1 + 1 / 2 ^ 24)) := by
    have := mul_le_mul_of_nonneg_right q1 (show (0 : ℚ) ≤ 1 + 1 / 2 ^ 24 by norm_num)
    linarith
  have b6 : c / 1000 * ((1 - 1 / 2 ^ 24) / (1 + 1 / 2 ^ 24) * (1 - 1 / 2 ^ 24)) ≤ B := by
    have := mul_le_mul_of_nonneg_right q2 (show (0 : ℚ) ≤ 1 - 1 / 2 ^ 24 by norm_num)
    linarith
  -- the quotient of the two
  have q3 := quot_upper A B (60000 / r) (c / 1000)
    ((1 - 1 / 2 ^ 24) / (1 + 1 / 2 ^ 24) * (1 - 1 / 2 ^ 24)) (1 + 1 / 2 ^ 24) hx hy
    (by norm_num) (by norm_num) a4 b6
  have q4 := quot_lower A B (60000 / r) (c / 1000) (1 - 1 / 2 ^ 24)
    ((1 + 1 / 2 ^ 24) / (1 - 1 / 2 ^ 24) * (1 + 1 / 2 ^ 24)) hx hy
    (by norm_num) (by norm_num) hB a3 b5
  have hAB : 0 < A / B := by positivity
  have eQ : (60000 : ℚ) / r / (c / 1000) = ((60000000 : Nat) : ℚ) / ((r * c : Nat) : ℚ) := by
    push_cast
    field_simp
    ring
  rw [eQ] at q3 q4
  have hQ0 : (0 : ℚ) < ((60000000 : Nat) : ℚ) / ((r * c : Nat) : ℚ) := by
    rw [← eQ]
    positivity
  have hQ1 : ((60000000 : Nat) : ℚ) / ((r * c : Nat) : ℚ) ≤ 32752 := by
    rw [div_le_iff₀ (by exact_mod_cast (show 0 < r * c by omega))]
    have : ((1832 : Nat) : ℚ) ≤ ((r * c : Nat) : ℚ) := Nat.cast_le.mpr hq
    push_cast at this ⊢
    linarith
  have f1 := Nat.floor_le (α := ℚ) hQ0.le
  have f2 := Nat.lt_floor_add_one (((60000000 : Nat) : ℚ) / ((r * c : Nat) : ℚ))
  rw [Nat.floor_div_eq_div] at f1 f2
  generalize ((60000000 : Nat) : ℚ) / ((r * c : Nat) : ℚ) = Q at q3 q4 hQ0 hQ1 f1 f2
  have u1 : R ≤ Q + 1 / 64 := by
    have := mul_le_mul_of_nonneg_right q3 (show (0 : ℚ) ≤ 1 + 1 / 2 ^ 24 by norm_num)
    norm_num at this d4 ⊢
    linarith
  have u2 : Q - 1 / 64 ≤ R := by
    have := mul_le_mul_of_nonneg_right q4 (show (0 : ℚ) ≤ 1 - 1 / 2 ^ 24 by norm_num)
    norm_num at this d3 ⊢
    linarith
  have hR0 : 0 ≤ R := by
    have := mul_pos hAB (show (0 : ℚ) < 1 - 1 / 2 ^ 24 by norm_num)
    linarith
  have g1 := Nat.floor_le hR0
  have g2 := Nat.lt_floor_add_one R
  generalize ⌊R⌋₊ = F at g1 g2 ⊢
  generalize 60000000 / (r * c) = E at f1 f2 ⊢
  constructor
  · have : (E : ℚ) < (F : ℚ) + 1 + 1 := by linarith
    have : E < F + 1 + 1 := by exact_mod_cast this
    omega
  · have : (F : ℚ) < (E : ℚ) + 1 + 1 := by linarith
    have : F < E + 1 + 1 := by exact_mod_cast this
    omega

/-- The quotient `(60000 / rate) / (cycleTime / 1000)` of the comment, computed
exactly and rounded down. -/
theorem exact_flashQuotient (rate cycle : Int) (hr : 0 < rate) (hc : 0 < cycle) :
    ⌊(60000 / (rate : ℚ)) / ((cycle : ℚ) / 1000)⌋ = 60000000 / (rate * cycle) := by
  have hpos : (0 : Int) < rate * cycle := Int.mul_pos hr hc
  have hn : ((rate * cycle).toNat : Int) = rate * cycle := Int.toNat_of_nonneg hpos.le
  have h1 : (60000 / (rate : ℚ)) / ((cycle : ℚ) / 1000) =
      ((60000000 : Int) : ℚ) / (((rate * cycle).toNat : ℕ) : ℚ) := by
    have hr0 : (rate : ℚ) ≠ 0 := by exact_mod_cast hr.ne'
    have hc0 : (cycle : ℚ) ≠ 0 := by exact_mod_cast hc.ne'
    have hq : (((rate * cycle).toNat : ℕ) : ℚ) = (rate : ℚ) * (cycle : ℚ) := by
      exact_mod_cast hn
    rw [hq]
    push_cast
    field_simp
    ring
  rw [h1, Rat.floor_intCast_div_natCast, hn]

/-- The quotient `_setFlashRate` computes in single precision is an `int`, and
within one of the exact quotient rounded down. -/
theorem cyclesPerFlash32_near (rate cycle : Int) (hr : 1 ≤ rate ∧ rate ≤ 6000)
    (hc : 0 < cycle ∧ cycle < 2 ^ 31) (hq : 1832 ≤ rate * cycle) :
    60000000 / (rate * cycle) - 1 ≤ cyclesPerFlash32 rate cycle ∧
    cyclesPerFlash32 rate cycle ≤ 60000000 / (rate * cycle) + 1 ∧
    0 ≤ cyclesPerFlash32 rate cycle ∧ cyclesPerFlash32 rate cycle ≤ 32767 := by
  obtain ⟨r, rfl⟩ := Int.eq_ofNat_of_zero_le (show 0 ≤ rate by omega)
  obtain ⟨c, rfl⟩ := Int.eq_ofNat_of_zero_le (show 0 ≤ cycle by omega)
  have hr1 : 1 ≤ r := by omega
  have hr2 : r ≤ 6000 := by omega
  have hc1 : 0 < c := by omega
  have hc2 : c < 2 ^ 31 := by omega
  have hq1 : 1832 ≤ r * c := by exact_mod_cast hq
  obtain ⟨n1, n2⟩ := flashQuotient_near r c hr1 hr2 hc1 hc2 hq1
  have hE : 60000000 / (r * c) ≤ 32751 :=
    le_trans (Nat.div_le_div_left hq1 (by decide)) (by decide)
  have eE : (60000000 : Int) / ((r : Int) * (c : Int)) = ((60000000 / (r * c) : Nat) : Int) := by
    push_cast
    rfl
  unfold cyclesPerFlash32
  rw [if_neg (by omega)]
  dsimp only
  rw [if_neg (by omega), Int.toNat_ofNat, Int.natAbs_ofNat, eE]
  omega

/-! ### Cycles per division -/

/-- The two fields `_setFlashRate` writes for an accepted rate. -/
theorem _setFlashRate_cyclesPerDiv (hw : Platform) (rate : Int) (s : linesideSignal)
    (hr : 1 ≤ rate ∧ rate ≤ 6000) :
    (_setFlashRate hw rate s)._cyclesPerDiv =
      (let cyclesPerDiv := Int.tdiv (toInt (hw.cyclesPerFlash rate s._cycleTime)) 10
       let low := cyclesPerDiv - Int.tmod cyclesPerDiv 8
       let high := (cyclesPerDiv + 8) - Int.tmod cyclesPerDiv 8
       if cyclesPerDiv - low > high - cyclesPerDiv then high else low) := by
  unfold _setFlashRate
  rw [if_neg (by omega)]

/-- For an accepted rate and a quotient `cyclesPerFlash` that is a non-negative
`int`, `_setFlashRate` sets `_cyclesPerDiv` to the multiple of 8 nearest to
`q = cyclesPerFlash / 10` (floor): the result is a multiple of 8, differs from `q` by
at most 4, no multiple of 8 is nearer, and a remainder `q mod 8` of exactly 4 rounds
down. -/
theorem _setFlashRate_nearest (hw : Platform) (rate : Int) (s : linesideSignal)
    (hr : 1 ≤ rate ∧ rate ≤ 6000)
    (hc : 0 ≤ hw.cyclesPerFlash rate s._cycleTime ∧
      hw.cyclesPerFlash rate s._cycleTime ≤ 32767) :
    (_setFlashRate hw rate s)._cyclesPerDiv % 8 = 0 ∧
    |(_setFlashRate hw rate s)._cyclesPerDiv - hw.cyclesPerFlash rate s._cycleTime / 10| ≤ 4 ∧
    (∀ m : Int, m % 8 = 0 →
      |(_setFlashRate hw rate s)._cyclesPerDiv - hw.cyclesPerFlash rate s._cycleTime / 10|
        ≤ |m - hw.cyclesPerFlash rate s._cycleTime / 10|) ∧
    (hw.cyclesPerFlash rate s._cycleTime / 10 % 8 ≤ 4 →
      (_setFlashRate hw rate s)._cyclesPerDiv =
        hw.cyclesPerFlash rate s._cycleTime / 10 -
          hw.cyclesPerFlash rate s._cycleTime / 10 % 8) ∧
    (4 < hw.cyclesPerFlash rate s._cycleTime / 10 % 8 →
      (_setFlashRate hw rate s)._cyclesPerDiv =
        hw.cyclesPerFlash rate s._cycleTime / 10 + 8 -
          hw.cyclesPerFlash rate s._cycleTime / 10 % 8) := by
  obtain ⟨hc0, hc1⟩ := hc
  rw [_setFlashRate_cyclesPerDiv hw rate s hr,
    toInt_of_range _ (by omega) (by omega)]
  generalize hw.cyclesPerFlash rate s._cycleTime = c at hc0 hc1
  have hq : Int.tdiv c 10 = c / 10 := Int.tdiv_eq_ediv hc0 (by norm_num)
  have hq0 : 0 ≤ c / 10 := by omega
  have hm : Int.tmod (c / 10) 8 = c / 10 % 8 := Int.tmod_eq_emod hq0 (by norm_num)
  dsimp only
  rw [hq, hm]
  generalize c / 10 = q at hq0
  refine ⟨?_, ?_, ?_, ?_, ?_⟩
  · split_ifs <;> omega
  · rw [abs_le]
    split_ifs <;> omega
  · intro m hm8
    rcases abs_cases (m - q) with ⟨e, _⟩ | ⟨e, _⟩ <;> rw [e, abs_le] <;>
      split_ifs <;> omega
  · intro h
    rw [if_neg (by omega)]
  · intro h
    rw [if_pos (by omega)]

/-- C34, as the code has it: for an accepted rate, a positive cycle time and
`rate * cycleTime` of at least 1832 (so that the quotient fits an `int`),
`cyclesPerFlash` is the quotient `(60000 / rate) / (cycleTime / 1000)` evaluated in
single precision, each of its three divisions rounded to the nearest `float`, and
truncated; it is within one of the floor of the exact quotient, on either side, not
always equal to it.  `_setFlashRate` sets `_cyclesPerDiv` to the multiple of 8 nearest
to `q = cyclesPerFlash / 10` (floor): the result is a multiple of 8, differs from `q`
by at most 4, no multiple of 8 is nearer, and a remainder `q mod 8` of exactly 4
rounds down.  For 60 flashes per minute and a cycle of 2500 microseconds the result
is 40. -/
theorem cyclesPerDiv_rounding (hw : Platform) (rate : Int) (s : linesideSignal)
    (hf : hw.cyclesPerFlash = cyclesPerFlash32)
    (hr : 1 ≤ rate ∧ rate ≤ 6000)
    (hc : 0 < s._cycleTime ∧ s._cycleTime < 2 ^ 31)
    (hq : 1832 ≤ rate * s._cycleTime) :
    ⌊(60000 / (rate : ℚ)) / ((s._cycleTime : ℚ) / 1000)⌋ - 1 ≤
      cyclesPerFlash32 rate s._cycleTime ∧
    cyclesPerFlash32 rate s._cycleTime ≤
      ⌊(60000 / (rate : ℚ)) / ((s._cycleTime : ℚ) / 1000)⌋ + 1 ∧
    (_setFlashRate hw rate s)._cyclesPerDiv % 8 = 0 ∧
    |(_setFlashRate hw rate s)._cyclesPerDiv - cyclesPerFlash32 rate s._cycleTime / 10| ≤ 4 ∧
    (∀ m : Int, m % 8 = 0 →
      |(_setFlashRate hw rate s)._cyclesPerDiv - cyclesPerFlash32 rate s._cycleTime / 10|
        ≤ |m - cyclesPerFlash32 rate s._cycleTime / 10|) ∧
    (cyclesPerFlash32 rate s._cycleTime / 10 % 8 ≤ 4 →
      (_setFlashRate hw rate s)._cyclesPerDiv =
        cyclesPerFlash32 rate s._cycleTime / 10 -
          cyclesPerFlash32 rate s._cycleTime / 10 % 8) ∧
    (4 < cyclesPerFlash32 rate s._cycleTime / 10 % 8 →
      (_setFlashRate hw rate s)._cyclesPerDiv =
        cyclesPerFlash32 rate s._cycleTime / 10 + 8 -
          cyclesPerFlash32 rate s._cycleTime / 10 % 8) ∧
    (_setFlashRate hw 60 { s with _cycleTime := 2500 })._cyclesPerDiv = 40 := by
  obtain ⟨n1, n2, n3, n4⟩ := cyclesPerFlash32_near rate s._cycleTime hr hc hq
  have key := _setFlashRate_nearest hw rate s hr (by rw [hf]; exact ⟨n3, n4⟩)
  rw [hf] at key
  rw [exact_flashQuotient rate s._cycleTime (by omega) hc.1]
  refine ⟨n1, n2, key.1, key.2.1, key.2.2.1, key.2.2.2.1, key.2.2.2.2, ?_⟩
  rw [_setFlashRate_cyclesPerDiv hw 60 _ (by decide)]
  dsimp only
  rw [hf]
  decide

/-- Witness of `cyclesPerDiv_rounding`: 60 flashes per minute with the cycle of 2500
microseconds `setupSignal` leaves: `cyclesPerFlash` is 400, `q` is 40, and
`_cyclesPerDiv` is 40. -/
theorem cyclesPerDiv_rounding_witness :
    refPlatform.cyclesPerFlash = cyclesPerFlash32 ∧
    ((1 : Int) ≤ 60 ∧ (60 : Int) ≤ 6000) ∧
    (powerOn refPlatform 0 zeroMemory)._cycleTime = 2500 ∧
    (1832 : Int) ≤ 60 * (powerOn refPlatform 0 zeroMemory)._cycleTime ∧
    cyclesPerFlash32 60 2500 = 400 ∧
    (_setFlashRate refPlatform 60 (powerOn refPlatform 0 zeroMemory))._cyclesPerDiv = 40 ∧
    (_setFlashRate refPlatform 60 (powerOn refPlatform 0 zeroMemory))._cyclesPerDiv % 8 = 0 :=
  ⟨rfl, by decide, by decide, by decide, by decide, by decide,
    (cyclesPerDiv_rounding refPlatform 60 (powerOn refPlatform 0 zeroMemory) rfl
      (by decide) (by decide) (by decide)).2.2.1⟩

/-- Examples of the rounding with a cycle of 2500 microseconds: `q = 40` stays,
`q = 44` (rate 54) rounds down to 40, `q = 45` (rate 53) rounds up to 48. -/
theorem cyclesPerDiv_examples (s : linesideSignal) :
    (_setFlashRate refPlatform 60 { s with _cycleTime := 2500 })._cyclesPerDiv = 40 ∧
    refPlatform.cyclesPerFlash 54 2500 / 10 = 44 ∧
    (_setFlashRate refPlatform 54 { s with _cycleTime := 2500 })._cyclesPerDiv = 40 ∧
    refPlatform.cyclesPerFlash 53 2500 / 10 = 45 ∧
    (_setFlashRate refPlatform 53 { s with _cycleTime := 2500 })._cyclesPerDiv = 48 := by
  refine ⟨?_, by decide, ?_, by decide, ?_⟩ <;>
    rw [_setFlashRate_cyclesPerDiv _ _ _ (by decide)] <;> dsimp only <;> decide

/-- The single-precision quotient on both sides of the exact one: a rate of 125 with
a cycle of 9600 microseconds gives 49 where the exact quotient is 50, a rate of 13
with a cycle of 1805 microseconds gives 2557 where the exact quotient rounds down to
2556. -/
theorem cyclesPerFlash32_examples :
    cyclesPerFlash32 125 9600 = 49 ∧ (60000000 : Int) / (125 * 9600) = 50 ∧
    cyclesPerFlash32 13 1805 = 2557 ∧ (60000000 : Int) / (13 * 1805) = 2556 :=
  ⟨by decide, by decide, by decide, by decide⟩

set_option maxRecDepth 1000000 in
set_option maxHeartbeats 40000000 in
theorem roundedCycle_reachable : Reachable refPlatform roundedCycle :=
  ⟨0, zeroMemory, roundedCycleCalls ++ [Command.updateSignals (clockAt 10000)],
    option_eq_some_getD _ zeroMemory (by decide)⟩

set_option maxRecDepth 1000000 in
set_option maxHeartbeats 40000000 in
/-- Counterexample to C34 as stated: with two lamps lit, the target cycle time 9600
and the flash rate 125, the first call of `updateSignals` makes the active cycle time
9600.  The quotient `(60000 / 125) / (9600 / 1000)` is 50 exactly, so the `q` of the
claim is 5 and the nearest multiple of 8 is 8; in single precision `9600 / 1000.0` is
rounded up, the quotient comes out below 50 and is truncated to 49, `q` is 4 and
`_setFlashRate` leaves `_cyclesPerDiv` = 0, which differs from 5 by more than 4. -/
theorem cyclesPerDiv_floor_counterexample :
    Reachable refPlatform roundedCycle ∧
    roundedCycle._cycleTime = 9600 ∧ _getFlashRate refPlatform roundedCycle = 125 ∧
    ⌊(60000 / (125 : ℚ)) / ((9600 : ℚ) / 1000)⌋ = 50 ∧
    floatDiv 9600 1000 = { mant := 10066330, up := 14, down := 34 } ∧
    9600 * 2 ^ 34 < 1000 * (10066330 * 2 ^ 14) ∧
    cyclesPerFlash32 125 9600 = 49 ∧
    roundedCycle._cyclesPerDiv = 0 ∧
    (_setFlashRate refPlatform 125 roundedCycle)._cyclesPerDiv = 0 ∧
    ¬ |(_setFlashRate refPlatform 125 roundedCycle)._cyclesPerDiv -
        ⌊(60000 / (125 : ℚ)) / ((9600 : ℚ) / 1000)⌋ / 10| ≤ 4 := by
  have hfloor : ⌊(60000 / (125 : ℚ)) / ((9600 : ℚ) / 1000)⌋ = 50 := by
    have h := exact_flashQuotient 125 9600 (by decide) (by decide)
    norm_num at h ⊢
  have hres : (_setFlashRate refPlatform 125 roundedCycle)._cyclesPerDiv = 0 := by decide
  refine ⟨roundedCycle_reachable, by decide, by decide, hfloor, by decide, by decide,
    by decide, by decide, hres, ?_⟩
  rw [hres, hfloor]
  decide

/-! ### Cycles per division of zero -/

/-- A quotient `cyclesPerFlash` below 50 gives `_cyclesPerDiv` = 0. -/
theorem _setFlashRate_zero (hw : Platform) (rate : Int) (s : linesideSignal)
    (hr : 1 ≤ rate ∧ rate ≤ 6000)
    (hc : 0 ≤ hw.cyclesPerFlash rate s._cycleTime ∧
      hw.cyclesPerFlash rate s._cycleTime < 50) :
    (_setFlashRate hw rate s)._cyclesPerDiv = 0 := by
  obtain ⟨hc0, hc1⟩ := hc
  rw [_setFlashRate_cyclesPerDiv hw rate s hr, toInt_of_range _ (by omega) (by omega)]
  generalize hw.cyclesPerFlash rate s._cycleTime = c at hc0 hc1
  have hq : Int.tdiv c 10 = c / 10 := Int.tdiv_eq_ediv hc0 (by norm_num)
  have hq0 : 0 ≤ c / 10 := by omega
  have hm : Int.tmod (c / 10) 8 = c / 10 % 8 := Int.tmod_eq_emod hq0 (by norm_num)
  dsimp only
  rw [hq, hm]
  split_ifs <;> omega

set_option maxRecDepth 1000000 in
set_option maxHeartbeats 40000000 in
theorem slowCycle_reachable : Reachable refPlatform slowCycle :=
  ⟨0, zeroMemory, slowCycleCalls ++ [Command.updateSignals (clockAt 10000)],
    option_eq_some_getD _ zeroMemory (by decide)⟩

set_option maxRecDepth 1000000 in
set_option maxHeartbeats 40000000 in
/-- C39 fails on the code: with two lamps lit, the target cycle time 20000 (accepted
by `setCycleTime`) and the flash rate 200 (accepted by `setFlashRate`), the first call
of `updateSignals` makes the active cycle time 20000 and `_setFlashRate` leaves
`_cyclesPerDiv` = 0 (quotient 15, `q` = 1); `_newRampState` then divides the pass count
by zero, in that call and in every later one. -/
theorem cyclesPerDiv_zero :
    (run refPlatform (powerOn refPlatform 0 zeroMemory) slowCycleCalls).map
      (fun s => (s._targetCycleTime, s._cycleTime, s._cyclesPerDiv)) = some (20000, 2500, 8) ∧
    slowCycle._cycleTime = 20000 ∧ slowCycle._targetCycleTime = 20000 ∧
    _getFlashRate refPlatform slowCycle = 200 ∧
    refPlatform.cyclesPerFlash 200 20000 = 15 ∧
    slowCycle._cyclesPerDiv = 0 ∧
    (_setFlashRate refPlatform 200 slowCycle)._cyclesPerDiv = 0 ∧
    (∀ hw : Platform, (_newRampState hw slowCycle).2._rampDiv =
      toByte (hw.divByZero slowCycle._cycleCount)) := by
  refine ⟨by decide, by decide, by decide, by decide, by decide, by decide, by decide, ?_⟩
  intro hw
  rw [_newRampState_rampDiv]
  have h : slowCycle._cyclesPerDiv = 0 := by decide
  unfold cDiv
  rw [if_pos h]

/-! ### The divisor of the jitter correction -/

theorem _setFlashRate_interimLoop (hw : Platform) (rate : Int) (s : linesideSignal) :
    (_setFlashRate hw rate s)._interimLoop = s._interimLoop ∧
    (_setFlashRate hw rate s)._lightExpirationTime = s._lightExpirationTime := by
  unfold _setFlashRate
  split <;> exact ⟨rfl, rfl⟩

theorem _adjCycleTime_interimLoop (hw : Platform) (s : linesideSignal) :
    (_adjCycleTime hw s)._interimLoop = s._interimLoop ∧
    (_adjCycleTime hw s)._lightExpirationTime = s._lightExpirationTime := by
  unfold _adjCycleTime
  dsimp only
  exact _setFlashRate_interimLoop hw _ _

theorem _addLamp_interimLoop (m h l a c col : Nat) (s : linesideSignal) :
    (_addLamp m h l a c col s)._interimLoop = s._interimLoop ∧
    (_addLamp m h l a c col s)._lightExpirationTime = s._lightExpirationTime := by
  unfold _addLamp
  dsimp only
  split <;> exact ⟨rfl, rfl⟩

/-- The constructor and `setupSignal` never assign `_interimLoop`: after `powerOn`
it has the value found in memory; the light timer expires 1 microsecond after the
constructor ran. -/
theorem powerOn_interimLoop (hw : Platform) (micros : Int) (raw : linesideSignal) :
    (powerOn hw micros raw)._interimLoop = raw._interimLoop ∧
    (powerOn hw micros raw)._lightExpirationTime = toLong (toLong micros + 1) := by
  unfold powerOn setupSignal
  rw [if_neg (by rw [(construct_fields hw micros _).1]; simp)]
  dsimp only
  rw [(_adjCycleTime_interimLoop hw _).1, (_adjCycleTime_interimLoop hw _).2]
  dsimp only
  rw [(_addLamp_interimLoop _ _ _ _ _ _ _).1, (_addLamp_interimLoop _ _ _ _ _ _ _).2]
  dsimp only
  unfold construct
  dsimp only
  constructor
  · exact (_setFlashRate_interimLoop hw _ _).1
  · rfl

theorem _getNextLamp_interimLoop (s : linesideSignal) :
    (_getNextLamp s).2.2._interimLoop = s._interimLoop := by
  unfold _getNextLamp
  split
  · rfl
  · split
    · rfl
    · split <;> rfl

theorem resetOnJump_interimLoop (hw : Platform) (s : linesideSignal) :
    (resetOnJump hw s)._interimLoop = s._interimLoop := by
  unfold resetOnJump
  split
  · unfold _resetCycleTime
    rw [(_adjCycleTime_interimLoop hw _).1]
  · rfl

/-- The timer duration `updateSignals` computes when the loop average is positive:
`_pulseTimePerLED - errorTime + overhead` lies in
`(pulse + overhead - averageLoop, pulse + overhead]`. -/
theorem jitter_duration_bounds (hw : Platform) (s : linesideSignal)
    (ha : 0 < _getAverageLoop s) (hp : 0 ≤ s._pulseTimePerLED ∧ s._pulseTimePerLED < 32768) :
    s._pulseTimePerLED + _getOverhead s - _getAverageLoop s <
      toLong (toLong (s._pulseTimePerLED - cMod hw s._pulseTimePerLED (_getAverageLoop s)) +
        _getOverhead s) ∧
    toLong (toLong (s._pulseTimePerLED - cMod hw s._pulseTimePerLED (_getAverageLoop s)) +
        _getOverhead s) ≤ s._pulseTimePerLED + _getOverhead s := by
  obtain ⟨hp0, hp1⟩ := hp
  have ho := toInt_range (toLong (s._interimOverhead + 16) >>> 5)
  have hl := toInt_range (toLong (s._interimLoop + 16) >>> 5)
  change -32768 ≤ _getOverhead s ∧ _getOverhead s < 32768 at ho
  change -32768 ≤ _getAverageLoop s ∧ _getAverageLoop s < 32768 at hl
  unfold cMod
  rw [if_neg (by omega), Int.tmod_eq_emod hp0 (by omega)]
  have h1 := Int.emod_nonneg s._pulseTimePerLED (by omega : _getAverageLoop s ≠ 0)
  have h2 := Int.emod_lt_of_pos s._pulseTimePerLED ha
  generalize s._pulseTimePerLED % _getAverageLoop s = r at h1 h2
  rw [toLong_of_range (s._pulseTimePerLED - r) (by omega) (by omega),
    toLong_of_range _ (by omega) (by omega)]
  omega

set_option maxRecDepth 1000000 in
/-- C40 fails on the code: the constructor never assigns `_interimLoop` (it seeds the
overhead average with `_averageOverhead(100)` only), so for an object in zeroed memory
`_getAverageLoop()` is 0 after construction and `setupSignal`, on any platform and at
any clock reading; the first call of `updateSignals` finds the light timer expired and
computes `_pulseTimePerLED % _getAverageLoop()` with the divisor 0. -/
theorem jitter_modulus_zero (hw : Platform) (micros : Int) :
    _getAverageLoop (powerOn hw micros zeroMemory) = 0 ∧
    _getAverageLoop
      (_getNextLamp (resetOnJump hw (powerOn hw micros zeroMemory))).2.2 = 0 ∧
    cMod hw (_getNextLamp (resetOnJump hw (powerOn hw micros zeroMemory))).2.2._pulseTimePerLED
        (_getAverageLoop
          (_getNextLamp (resetOnJump hw (powerOn hw micros zeroMemory))).2.2) =
      hw.modByZero
        (_getNextLamp (resetOnJump hw (powerOn hw micros zeroMemory))).2.2._pulseTimePerLED ∧
    Reachable refPlatform (powerOn refPlatform 0 zeroMemory) ∧
    _lightTimerExpired (clockAt 10000).expiryCheck
      (resetOnJump refPlatform (powerOn refPlatform 0 zeroMemory)) = true ∧
    (selectLamp refPlatform (clockAt 10000) (powerOn refPlatform 0 zeroMemory)).1 = true := by
  have h0 : ∀ t : linesideSignal, t._interimLoop = 0 → _getAverageLoop t = 0 := by
    intro t ht
    unfold _getAverageLoop
    rw [ht]
    decide
  have h1 : _getAverageLoop (powerOn hw micros zeroMemory) = 0 :=
    h0 _ (powerOn_interimLoop hw micros zeroMemory).1
  have h2 : _getAverageLoop
      (_getNextLamp (resetOnJump hw (powerOn hw micros zeroMemory))).2.2 = 0 := by
    apply h0
    rw [_getNextLamp_interimLoop, resetOnJump_interimLoop]
    exact (powerOn_interimLoop hw micros zeroMemory).1
  refine ⟨h1, h2, ?_, ⟨0, zeroMemory, [], rfl⟩, by decide, by decide⟩
  unfold cMod
  rw [if_pos h2]

/-! ### `_advanceLamps` and `_releaseHold`, lamp by lamp -/

/-- What `_advanceLamps(LSS_SL_STOP, doAlt)` does to one lamp. -/
theorem advanceLampsLamp_stop (cur : signalLamp) (doAlt : Bool) (lamp : signalLamp) :
    (advanceLampsLamp cur LSS_SL_STOP doAlt lamp).1 =
      if lamp.stop = true ∧ lamp.delay = false ∧ lamp.alternate = doAlt then
        if lamp.start = true then { lamp with stop := false }
        else { lamp with lit := false, flash := false, alternate := false, start := false,
                         stop := false, delay := false }
      else lamp := by
  obtain ⟨lit, flash, alt, start, stop, ramp, delay, mast, head, num, col, an, ca⟩ := lamp
  simp only [advanceLampsLamp, _goDark, signalLamp.setBitFlag, signalLamp.isReversed,
    signalLamp.isStart, signalLamp.isStop, signalLamp.onHold, signalLamp.getBitFlag]
  cases stop <;> cases delay <;> cases alt <;> cases doAlt <;> cases start <;> simp

/-- What `_advanceLamps(LSS_SL_START, doAlt)` does to one lamp. -/
theorem advanceLampsLamp_start (cur : signalLamp) (doAlt : Bool) (lamp : signalLamp) :
    advanceLampsLamp cur LSS_SL_START doAlt lamp =
      (if lamp.start = true ∧ lamp.delay = false ∧ lamp.alternate = doAlt then
        { lamp with start := false }
      else lamp, false) := by
  obtain ⟨lit, flash, alt, start, stop, ramp, delay, mast, head, num, col, an, ca⟩ := lamp
  simp only [advanceLampsLamp, _goDark, signalLamp.setBitFlag, signalLamp.isReversed,
    signalLamp.isStart, signalLamp.isStop, signalLamp.onHold, signalLamp.getBitFlag]
  cases stop <;> cases delay <;> cases alt <;> cases doAlt <;> cases start <;> simp

/-- What `_releaseHold(LSS_SL_STOP, doAlt)` does to one lamp. -/
theorem releaseHoldLamp_stop (doAlt : Bool) (lamp : signalLamp) :
    releaseHoldLamp LSS_SL_STOP doAlt lamp =
      (if lamp.delay = true ∧ lamp.stop = true ∧ lamp.alternate = doAlt then
        { lamp with delay := false }
      else lamp, false) := by
  obtain ⟨lit, flash, alt, start, stop, ramp, delay, mast, head, num, col, an, ca⟩ := lamp
  simp only [releaseHoldLamp, signalLamp.setBitFlag, signalLamp.isReversed,
    signalLamp.isStart, signalLamp.isStop, signalLamp.onHold, signalLamp.getBitFlag]
  cases stop <;> cases delay <;> cases alt <;> cases doAlt <;> cases start <;> simp

/-- What `_releaseHold(LSS_SL_START, doAlt)` does to one lamp. -/
theorem releaseHoldLamp_start (doAlt : Bool) (lamp : signalLamp) :
    releaseHoldLamp LSS_SL_START doAlt lamp =
      (if lamp.delay = true ∧ lamp.start = true ∧ lamp.alternate = doAlt then
        { lamp with delay := false }
      else lamp, false) := by
  obtain ⟨lit, flash, alt, start, stop, ramp, delay, mast, head, num, col, an, ca⟩ := lamp
  simp only [releaseHoldLamp, signalLamp.setBitFlag, signalLamp.isReversed,
    signalLamp.isStart, signalLamp.isStop, signalLamp.onHold, signalLamp.getBitFlag]
  cases stop <;> cases delay <;> cases alt <;> cases doAlt <;> cases start <;> simp

/-- A traversal whose body leaves every lamp of the list as it is changes
nothing. -/
theorem forEachLamp_id (body : signalLamp → signalLamp × Bool) (s : linesideSignal)
    (h : ∀ l ∈ s._lampList, body l = (l, false)) : forEachLamp body s = s := by
  unfold forEachLamp
  have h1 : s._lampList.map (fun lamp => (body lamp).1) = s._lampList := by
    conv_rhs => rw [← List.map_id s._lampList]
    apply List.map_congr_left
    intro l hl
    rw [h l hl]
    rfl
  have h2 : s._lampList.any (fun lamp => (body lamp).2) = false := by
    rw [List.any_eq_false]
    intro l hl
    rw [h l hl]
    simp
  rw [h1, h2, Bool.or_false]

/-- The lamps after a traversal. -/
theorem forEachLamp_lampList (body : signalLamp → signalLamp × Bool) (s : linesideSignal) :
    (forEachLamp body s)._lampList = s._lampList.map (fun lamp => (body lamp).1) := rfl

/-- The six tests `_advanceDivision` makes with `_anyLampsAre`. -/
theorem _anyLampsAre_tests (s : linesideSignal) :
    _anyLampsAre LSS_SL_STOP LSS_SL_IGNORE false false s = s._lampList.any (fun l => l.stop) ∧
    (∀ r, _anyLampsAre LSS_SL_START LSS_SL_IGNORE true r s =
      s._lampList.any (fun l => l.start && (l.alternate == r))) ∧
    _anyLampsAre LSS_SL_DELAY LSS_SL_IGNORE false false s =
      s._lampList.any (fun l => l.delay && !l.alternate) ∧
    _anyLampsAre LSS_SL_DELAY LSS_SL_IGNORE true true s =
      s._lampList.any (fun l => l.delay && l.alternate) ∧
    _anyLampsAre LSS_SL_DELAY LSS_SL_STOP true false s =
      s._lampList.any (fun l => l.delay && l.stop && !l.alternate) ∧
    _anyLampsAre LSS_SL_DELAY LSS_SL_STOP true true s =
      s._lampList.any (fun l => l.delay && l.stop && l.alternate) := by
  refine ⟨?_, ?_, ?_, ?_, ?_, ?_⟩
  · rfl
  · intro r
    rfl
  · rfl
  · rfl
  · rfl
  · rfl

/-! ### The stop advance -/

/-- The lamps after `_advanceLamps(LSS_SL_STOP, doAlt)`. -/
theorem _advanceLamps_stop_lamps (doAlt : Bool) (s : linesideSignal) :
    (_advanceLamps LSS_SL_STOP doAlt s)._lampList =
      s._lampList.map (fun lamp =>
        if lamp.stop = true ∧ lamp.delay = false ∧ lamp.alternate = doAlt then
          if lamp.start = true then { lamp with stop := false }
          else { lamp with lit := false, flash := false, alternate := false, start := false,
                           stop := false, delay := false }
        else lamp) := by
  unfold _advanceLamps
  rw [forEachLamp_lampList]
  apply List.map_congr_left
  intro l _
  exact advanceLampsLamp_stop _ _ _

/-- With no lamp stopping, `_advanceLamps(LSS_SL_STOP, doAlt)` changes nothing. -/
theorem _advanceLamps_stop_none (doAlt : Bool) (s : linesideSignal)
    (h : s._lampList.any (fun l => l.stop) = false) :
    _advanceLamps LSS_SL_STOP doAlt s = s := by
  unfold _advanceLamps
  apply forEachLamp_id
  intro l hl
  rw [List.any_eq_false] at h
  have hs : l.stop = false := by simpa using h l hl
  obtain ⟨lit, flash, alt, start, stop, ramp, delay, mast, head, num, col, an, ca⟩ := l
  simp only at hs
  subst hs
  simp only [advanceLampsLamp, signalLamp.setBitFlag, signalLamp.isReversed,
    signalLamp.isStart, signalLamp.isStop, signalLamp.onHold, signalLamp.getBitFlag]
  simp

/-- Division 9 (`LSS_DIV_STOP`): the stop advance of the normal phase, then the
release of the normal start holds when a normal lamp is on hold and none is held
while stopping. -/
theorem _advanceDivision_nine (s : linesideSignal) (h : s._rampDiv = 9) :
    _advanceDivision s =
      if (s._lampList.any (fun l => l.delay && !l.alternate) &&
          !(_advanceLamps LSS_SL_STOP false s)._lampList.any
            (fun l => l.delay && l.stop && !l.alternate)) = true then
        _releaseHold LSS_SL_START false (_advanceLamps LSS_SL_STOP false s)
      else _advanceLamps LSS_SL_STOP false s := by
  obtain ⟨t1, t2, t3, t4, t5, t6⟩ := _anyLampsAre_tests s
  have t5b := (_anyLampsAre_tests (_advanceLamps LSS_SL_STOP false s)).2.2.2.2.1
  unfold _advanceDivision
  rw [h]
  simp only [t1, t3, t5b, decide_True, Bool.true_or, Bool.or_true, Bool.true_and]
  cases hst : s._lampList.any (fun l => l.stop)
  · rw [_advanceLamps_stop_none false s hst] at t5b ⊢
    have t5s := t5
    simp only [Bool.false_eq_true, if_false, t5s]
    cases s._lampList.any (fun l => l.delay && !l.alternate) <;>
      cases s._lampList.any (fun l => l.delay && l.stop && !l.alternate) <;> simp
  · simp only [if_true, t5b]
    cases s._lampList.any (fun l => l.delay && !l.alternate) <;>
      cases (_advanceLamps LSS_SL_STOP false s)._lampList.any
        (fun l => l.delay && l.stop && !l.alternate) <;> simp

/-- Division 4 (`LSS_DIV_RSTOP`): the stop advance of the reversed phase, then the
release of the reversed start holds when a reversed lamp is on hold and none is held
while stopping. -/
theorem _advanceDivision_four (s : linesideSignal) (h : s._rampDiv = 4) :
    _advanceDivision s =
      if (s._lampList.any (fun l => l.delay && l.alternate) &&
          !(_advanceLamps LSS_SL_STOP true s)._lampList.any
            (fun l => l.delay && l.stop && l.alternate)) = true then
        _releaseHold LSS_SL_START true (_advanceLamps LSS_SL_STOP true s)
      else _advanceLamps LSS_SL_STOP true s := by
  obtain ⟨t1, t2, t3, t4, t5, t6⟩ := _anyLampsAre_tests s
  have t6b := (_anyLampsAre_tests (_advanceLamps LSS_SL_STOP true s)).2.2.2.2.2
  unfold _advanceDivision
  rw [h]
  simp only [t1, t4, t6b, decide_True, Bool.true_or, Bool.or_true, Bool.true_and]
  cases hst : s._lampList.any (fun l => l.stop)
  · rw [_advanceLamps_stop_none true s hst] at t6b ⊢
    simp only [Bool.false_eq_true, if_false, t6]
    cases s._lampList.any (fun l => l.delay && l.alternate) <;>
      cases s._lampList.any (fun l => l.delay && l.stop && l.alternate) <;> simp
  · simp only [if_true, t6b]
    cases s._lampList.any (fun l => l.delay && l.alternate) <;>
      cases (_advanceLamps LSS_SL_STOP true s)._lampList.any
        (fun l => l.delay && l.stop && l.alternate) <;> simp

/-- With no lamp of the phase starting, `_advanceLamps(LSS_SL_START, doAlt)` changes
nothing. -/
theorem _advanceLamps_start_none (doAlt : Bool) (s : linesideSignal)
    (h : s._lampList.any (fun l => l.start && (l.alternate == doAlt)) = false) :
    _advanceLamps LSS_SL_START doAlt s = s := by
  unfold _advanceLamps
  apply forEachLamp_id
  intro l hl
  rw [List.any_eq_false] at h
  have hs := h l hl
  rw [advanceLampsLamp_start]
  rw [if_neg]
  rintro ⟨h1, _, h3⟩
  simp [h1, h3] at hs

/-- With no lamp of the phase on hold, `_releaseHold(toClear, doAlt)` changes
nothing. -/
theorem _releaseHold_none (toClear : Nat) (doAlt : Bool) (s : linesideSignal)
    (h : s._lampList.any (fun l => l.delay && (l.alternate == doAlt)) = false) :
    _releaseHold toClear doAlt s = s := by
  unfold _releaseHold
  apply forEachLamp_id
  intro l hl
  rw [List.any_eq_false] at h
  have hs := h l hl
  obtain ⟨lit, flash, alt, start, stop, ramp, delay, mast, head, num, col, an, ca⟩ := l
  simp only [releaseHoldLamp, signalLamp.setBitFlag, signalLamp.isReversed,
    signalLamp.isStart, signalLamp.isStop, signalLamp.onHold, signalLamp.getBitFlag]
  cases delay <;> cases alt <;> cases doAlt <;> simp at hs ⊢

/-- Divisions 3 (`LSS_DIV_START`) and 8 (`LSS_DIV_RSTART`): the start advance of
the phase, unless a lamp of either phase is stopping. -/
theorem _advanceDivision_start (s : linesideSignal) (alt : Bool)
    (h : s._rampDiv = if alt = true then 8 else 3) :
    _advanceDivision s =
      if s._lampList.any (fun l => l.stop) = true then s
      else _advanceLamps LSS_SL_START alt s := by
  obtain ⟨t1, t2, -⟩ := _anyLampsAre_tests s
  have hn := _advanceLamps_start_none alt s
  have hc : (decide (s._rampDiv = LSS_DIV_RSTART) || decide (s._rampDiv = LSS_DIV_RSTOP))
      = alt := by
    rw [h]
    cases alt <;> decide
  unfold _advanceDivision
  simp only [hc, t1, t2]
  cases hst : s._lampList.any (fun l => l.stop) <;>
    cases hsa : s._lampList.any (fun l => l.start && (l.alternate == alt)) <;>
    cases alt <;>
    simp only [Bool.false_eq_true, if_false, if_true] at h <;>
    rw [h] <;>
    simp only [Bool.not_false, Bool.not_true, Bool.and_false, Bool.and_true,
      Bool.false_and, Bool.true_and, Bool.false_eq_true, if_false, if_true]
  · exact (hn hsa).symm
  · exact (hn hsa).symm

/-- Divisions 5 (`LSS_DIV_HSTOP`) and 0 (`LSS_DIV_RHSTOP`): the release of the stop
holds of the phase. -/
theorem _advanceDivision_release (s : linesideSignal) (alt : Bool)
    (h : s._rampDiv = if alt = true then 0 else 5) :
    _advanceDivision s = _releaseHold LSS_SL_STOP alt s := by
  obtain ⟨-, -, t3, t4, -⟩ := _anyLampsAre_tests s
  have hn := _releaseHold_none LSS_SL_STOP alt s
  have ha : (decide (s._rampDiv = LSS_DIV_STOP) || decide (s._rampDiv = LSS_DIV_RSTOP) ||
      decide (s._rampDiv = LSS_DIV_HSTOP) || decide (s._rampDiv = LSS_DIV_RHSTOP)) = true := by
    rw [h]
    cases alt <;> decide
  have hb : (decide (s._rampDiv = LSS_DIV_RSTOP) || decide (s._rampDiv = LSS_DIV_RHSTOP))
      = alt := by
    rw [h]
    cases alt <;> decide
  have hp : s._lampList.any (fun l => l.delay && (l.alternate == alt)) =
      if alt = true then s._lampList.any (fun l => l.delay && l.alternate)
      else s._lampList.any (fun l => l.delay && !l.alternate) := by
    cases alt
    · simp only [Bool.false_eq_true, if_false]
      congr 1
      funext l
      cases l.alternate <;> rfl
    · simp only [if_true]
      congr 1
      funext l
      cases l.alternate <;> rfl
  unfold _advanceDivision
  simp only [ha, hb, t3, t4]
  cases alt
  · simp only [Bool.false_eq_true, if_false] at h hp
    rw [h]
    simp only [Bool.true_and]
    cases hsa : s._lampList.any (fun l => l.delay && !l.alternate)
    · simp only [Bool.false_eq_true, if_false]
      exact (hn (hp.trans hsa)).symm
    · simp only [if_true]
  · simp only [if_true] at h hp
    rw [h]
    simp only [Bool.true_and]
    cases hsa : s._lampList.any (fun l => l.delay && l.alternate)
    · simp only [Bool.false_eq_true, if_false]
      exact (hn (hp.trans hsa)).symm
    · simp only [if_true]

/-- At every other division `_advanceDivision` changes nothing. -/
theorem _advanceDivision_other (s : linesideSignal)
    (h : s._rampDiv ≠ 0 ∧ s._rampDiv ≠ 3 ∧ s._rampDiv ≠ 4 ∧ s._rampDiv ≠ 5 ∧
      s._rampDiv ≠ 8 ∧ s._rampDiv ≠ 9) : _advanceDivision s = s := by
  obtain ⟨h0, h3, h4, h5, h8, h9⟩ := h
  unfold _advanceDivision
  dsimp only
  split <;> first | rfl | contradiction

/-- A traversal whose body never raises `_killSwitch` only rewrites the lamps. -/
theorem forEachLamp_of_fst (body : signalLamp → signalLamp × Bool)
    (g : signalLamp → signalLamp) (hb : ∀ lamp, body lamp = (g lamp, false))
    (s : linesideSignal) :
    forEachLamp body s = { s with _lampList := s._lampList.map g } := by
  have hf : body = fun lamp => (g lamp, false) := funext hb
  subst hf
  unfold forEachLamp
  simp

/-- The state after `_advanceLamps(LSS_SL_START, doAlt)`. -/
theorem _advanceLamps_start_eq (doAlt : Bool) (s : linesideSignal) :
    _advanceLamps LSS_SL_START doAlt s =
      { s with _lampList := s._lampList.map (fun lamp =>
          if lamp.start = true ∧ lamp.delay = false ∧ lamp.alternate = doAlt then
            { lamp with start := false }
          else lamp) } :=
  forEachLamp_of_fst _ _ (advanceLampsLamp_start _ doAlt) s

/-- The state after `_releaseHold(LSS_SL_STOP, doAlt)`. -/
theorem _releaseHold_stop_eq (doAlt : Bool) (s : linesideSignal) :
    _releaseHold LSS_SL_STOP doAlt s =
      { s with _lampList := s._lampList.map (fun lamp =>
          if lamp.delay = true ∧ lamp.stop = true ∧ lamp.alternate = doAlt then
            { lamp with delay := false }
          else lamp) } :=
  forEachLamp_of_fst _ _ (releaseHoldLamp_stop doAlt) s

/-- The state after `_releaseHold(LSS_SL_START, doAlt)`. -/
theorem _releaseHold_start_eq (doAlt : Bool) (s : linesideSignal) :
    _releaseHold LSS_SL_START doAlt s =
      { s with _lampList := s._lampList.map (fun lamp =>
          if lamp.delay = true ∧ lamp.start = true ∧ lamp.alternate = doAlt then
            { lamp with delay := false }
          else lamp) } :=
  forEachLamp_of_fst _ _ (releaseHoldLamp_start doAlt) s

/-- Rewriting every lamp by a function related to its argument relates the lists. -/
theorem forall₂_map_of (R : signalLamp → signalLamp → Prop) (g : signalLamp → signalLamp)
    (lamps : List signalLamp) (h : ∀ l ∈ lamps, R l (g l)) :
    List.Forall₂ R lamps (lamps.map g) := by
  rw [List.forall₂_map_right_iff, List.forall₂_same]
  exact h

/-- At the divisions other than 4 and 9, `_advanceDivision` leaves the stopping and
the lit flag of every lamp as they are. -/
theorem _advanceDivision_keeps_stop (s : linesideSignal)
    (h4 : s._rampDiv ≠ 4) (h9 : s._rampDiv ≠ 9) :
    List.Forall₂ (fun old new => new.stop = old.stop ∧ new.lit = old.lit)
      s._lampList (_advanceDivision s)._lampList := by
  have hsame : List.Forall₂ (fun old new : signalLamp => new.stop = old.stop ∧ new.lit = old.lit)
      s._lampList s._lampList := by
    rw [List.forall₂_same]
    intro l _
    exact ⟨rfl, rfl⟩
  by_cases h3 : s._rampDiv = 3
  · rw [_advanceDivision_start s false h3]
    split
    · exact hsame
    · rw [_advanceLamps_start_eq]
      apply forall₂_map_of
      intro l _
      split <;> exact ⟨rfl, rfl⟩
  by_cases h8 : s._rampDiv = 8
  · rw [_advanceDivision_start s true h8]
    split
    · exact hsame
    · rw [_advanceLamps_start_eq]
      apply forall₂_map_of
      intro l _
      split <;> exact ⟨rfl, rfl⟩
  by_cases h5 : s._rampDiv = 5
  · rw [_advanceDivision_release s false h5, _releaseHold_stop_eq]
    apply forall₂_map_of
    intro l _
    split <;> exact ⟨rfl, rfl⟩
  by_cases h0 : s._rampDiv = 0
  · rw [_advanceDivision_release s true h0, _releaseHold_stop_eq]
    apply forall₂_map_of
    intro l _
    split <;> exact ⟨rfl, rfl⟩
  rw [_advanceDivision_other s ⟨h0, h3, h4, h5, h8, h9⟩]
  exact hsame

/-- C31: `_advanceLamps(LSS_SL_STOP, doAlt)` turns every stopping lamp of the phase
`doAlt` that is not on hold fully dark (lit, flashing, alternatePhase, starting,
stopping and onHold false), except that a lamp which is also starting only has its
stopping flag cleared; every other lamp (on hold, of the other phase, or not
stopping) is left as it is.  `_advanceDivision` runs it at division 9 for the normal
phase and at division 4 for the reversed phase (followed there by a release of start
holds, or not), and at no other division does `_advanceDivision` change the stopping
or the lit flag of a lamp. -/
theorem stop_advance (doAlt : Bool) (s : linesideSignal) :
    (_advanceLamps LSS_SL_STOP doAlt s)._lampList =
      s._lampList.map (fun lamp =>
        if lamp.stop = true ∧ lamp.delay = false ∧ lamp.alternate = doAlt then
          if lamp.start = true then { lamp with stop := false }
          else { lamp with lit := false, flash := false, alternate := false, start := false,
                           stop := false, delay := false }
        else lamp) ∧
    (s._rampDiv = (if doAlt = true then 4 else 9) →
      _advanceDivision s = _advanceLamps LSS_SL_STOP doAlt s ∨
      _advanceDivision s =
        _releaseHold LSS_SL_START doAlt (_advanceLamps LSS_SL_STOP doAlt s)) ∧
    (s._rampDiv ≠ 4 → s._rampDiv ≠ 9 →
      List.Forall₂ (fun old new => new.stop = old.stop ∧ new.lit = old.lit)
        s._lampList (_advanceDivision s)._lampList) := by
  refine ⟨_advanceLamps_stop_lamps doAlt s, ?_, _advanceDivision_keeps_stop s⟩
  intro h
  cases doAlt
  · rw [_advanceDivision_nine s h]
    split
    · exact Or.inr rfl
    · exact Or.inl rfl
  · rw [_advanceDivision_four s h]
    split
    · exact Or.inr rfl
    · exact Or.inl rfl

/-- Witness of `stop_advance`: a lit, stopping lamp of the normal phase, off hold and
not starting, in division 9: `_advanceDivision` runs the stop advance and the lamp is
dark with all transient flags clear. -/
theorem stop_advance_witness :
    (cursorOn { flasher false true with stop := true } 9 72)._rampDiv =
      (if false = true then 4 else 9) ∧
    (_advanceDivision (cursorOn { flasher false true with stop := true } 9 72) =
        _advanceLamps LSS_SL_STOP false
          (cursorOn { flasher false true with stop := true } 9 72) ∨
      _advanceDivision (cursorOn { flasher false true with stop := true } 9 72) =
        _releaseHold LSS_SL_START false (_advanceLamps LSS_SL_STOP false
          (cursorOn { flasher false true with stop := true } 9 72))) ∧
    (_advanceDivision (cursorOn { flasher false true with stop := true } 9 72))._lampList.getD
        0 nullLamp =
      { flasher false true with lit := false, flash := false } :=
  ⟨by decide,
    (stop_advance false (cursorOn { flasher false true with stop := true } 9 72)).2.1
      (by decide),
    by decide⟩

/-! ### The start advance -/

set_option maxRecDepth 1000000 in
set_option maxHeartbeats 40000000 in
theorem blockedStart_reachable : Reachable refPlatform blockedStart :=
  ⟨0, zeroMemory, blockedStartRun 57, option_eq_some_getD _ zeroMemory (by decide)⟩

set_option maxRecDepth 1000000 in
set_option maxHeartbeats 40000000 in
/-- Counterexample to C32 as stated: in the state after `blockedStartRun 57` lamp 1
(second in the list, normal phase) is starting and off hold, the only stopping lamp
is lamp 2 (first in the list, reversed phase), so no lamp of the normal phase is
stopping; the next call of `updateSignals` enters division 3 and runs
`_advanceDivision`, and lamp 1 is still starting afterwards. -/
theorem start_blocked_counterexample :
    blockedStart._rampDiv = 2 ∧ blockedStart._cycleCount = 24 ∧
    blockedStart._cyclesPerDiv = 8 ∧
    (blockedStart._lampList.getD 1 nullLamp).start = true ∧
    (blockedStart._lampList.getD 1 nullLamp).delay = false ∧
    (blockedStart._lampList.getD 1 nullLamp).alternate = false ∧
    (blockedStart._lampList.getD 0 nullLamp).stop = true ∧
    (blockedStart._lampList.getD 0 nullLamp).alternate = true ∧
    (∀ l ∈ blockedStart._lampList, l.stop = true → l.alternate = true) ∧
    (_newRampState refPlatform blockedStart).1 = true ∧
    (_newRampState refPlatform blockedStart).2._rampDiv = 3 ∧
    ((_advanceDivision (_newRampState refPlatform blockedStart).2)._lampList.getD 1
      nullLamp).start = true ∧
    (updateSignals refPlatform (clockAt 1045000) blockedStart).map
      (fun t => (t._rampDiv, (t._lampList.getD 1 nullLamp).start,
        (t._lampList.getD 1 nullLamp).delay, (t._lampList.getD 1 nullLamp).alternate))
      = some (3, true, false, false) := by
  decide

/-- C32 (amended): at division 3 (normal phase, `alt` false) and division 8
(reversed phase, `alt` true), `_advanceDivision` clears the starting flag of every
starting lamp of that phase that is not on hold and changes nothing else, provided no
lamp of either phase is stopping; when a lamp of the same or of the opposite phase is
stopping, it changes nothing. -/
theorem start_advance (s : linesideSignal) (alt : Bool)
    (h : s._rampDiv = if alt = true then 8 else 3) :
    ((∀ l ∈ s._lampList, l.stop = false) →
      _advanceDivision s =
        { s with _lampList := s._lampList.map (fun lamp =>
            if lamp.start = true ∧ lamp.delay = false ∧ lamp.alternate = alt then
              { lamp with start := false }
            else lamp) }) ∧
    ((∃ l ∈ s._lampList, l.stop = true) → _advanceDivision s = s) := by
  rw [_advanceDivision_start s alt h]
  constructor
  · intro hall
    have hst : s._lampList.any (fun l => l.stop) = false := by
      rw [List.any_eq_false]
      intro l hl
      rw [hall l hl]
      simp
    rw [hst, if_neg (by simp), _advanceLamps_start_eq]
  · rintro ⟨l, hl, hs⟩
    have hst : s._lampList.any (fun l => l.stop) = true := by
      rw [List.any_eq_true]
      exact ⟨l, hl, hs⟩
    rw [hst, if_pos rfl]

/-- Witness of `start_advance`: a starting lamp of the normal phase, off hold, under
the cursor in division 3 with no lamp stopping: its starting flag is cleared. -/
theorem start_advance_witness :
    (cursorOn { flasher false true with start := true } 3 24)._rampDiv =
      (if false = true then 8 else 3) ∧
    (∀ l ∈ (cursorOn { flasher false true with start := true } 3 24)._lampList,
      l.stop = false) ∧
    _advanceDivision (cursorOn { flasher false true with start := true } 3 24) =
      { cursorOn { flasher false true with start := true } 3 24 with
        _lampList := (cursorOn { flasher false true with start := true } 3 24)._lampList.map
          (fun lamp =>
            if lamp.start = true ∧ lamp.delay = false ∧ lamp.alternate = false then
              { lamp with start := false }
            else lamp) } ∧
    ((_advanceDivision
      (cursorOn { flasher false true with start := true } 3 24))._lampList.getD 0
        nullLamp).start = false :=
  ⟨by decide, by decide,
    (start_advance (cursorOn { flasher false true with start := true } 3 24) false
      (by decide)).1 (by decide), by decide⟩

/-! ### The release of holds -/

/-- The stop advance neither releases nor sets a hold, and leaves held lamps as
they are: a test on held lamps gives the same answer before and after it. -/
theorem held_after_stop_advance (doAlt : Bool) (s : linesideSignal) (q : signalLamp → Bool) :
    (_advanceLamps LSS_SL_STOP doAlt s)._lampList.any (fun l => l.delay && q l) =
      s._lampList.any (fun l => l.delay && q l) := by
  rw [_advanceLamps_stop_lamps, List.any_map]
  congr 1
  funext l
  simp only [Function.comp]
  split_ifs with h1 h2
  · simp [h1.2.1]
  · simp [h1.2.1]
  · rfl

/-- `_releaseHold` leaves a lamp as it is or clears its onHold flag. -/
theorem releaseHoldLamp_cases (toClear : Nat) (doAlt : Bool) (lamp : signalLamp) :
    releaseHoldLamp toClear doAlt lamp = (lamp, false) ∨
    releaseHoldLamp toClear doAlt lamp = ({ lamp with delay := false }, false) := by
  obtain ⟨lit, flash, alt, start, stop, ramp, delay, mast, head, num, col, an, ca⟩ := lamp
  simp only [releaseHoldLamp, signalLamp.setBitFlag, signalLamp.isReversed,
    signalLamp.isStart, signalLamp.isStop, signalLamp.onHold, signalLamp.getBitFlag]
  split_ifs <;> simp

/-- Divisions 9 and 4 in one statement, with the tests made on the lamps before the
stop advance. -/
theorem _advanceDivision_stop (s : linesideSignal) (alt : Bool)
    (h : s._rampDiv = if alt = true then 4 else 9) :
    _advanceDivision s =
      if (s._lampList.any (fun l => l.delay && (l.alternate == alt)) &&
          !s._lampList.any (fun l => l.delay && (l.stop && (l.alternate == alt)))) = true then
        _releaseHold LSS_SL_START alt (_advanceLamps LSS_SL_STOP alt s)
      else _advanceLamps LSS_SL_STOP alt s := by
  have e := held_after_stop_advance alt s (fun l => l.stop && (l.alternate == alt))
  cases alt
  · simp only [Bool.false_eq_true, if_false] at h
    rw [_advanceDivision_nine s h, ← e]
    have e1 : ∀ L : List signalLamp, L.any (fun l => l.delay && !l.alternate) =
        L.any (fun l => l.delay && (l.alternate == false)) := by
      intro L
      congr 1
      funext l
      cases l.alternate <;> rfl
    have e2 : ∀ L : List signalLamp, L.any (fun l => l.delay && l.stop && !l.alternate) =
        L.any (fun l => l.delay && (l.stop && (l.alternate == false))) := by
      intro L
      congr 1
      funext l
      cases l.alternate <;> cases l.delay <;> cases l.stop <;> rfl
    rw [e1, e2]
  · simp only [if_true] at h
    rw [_advanceDivision_four s h, ← e]
    have e1 : ∀ L : List signalLamp, L.any (fun l => l.delay && l.alternate) =
        L.any (fun l => l.delay && (l.alternate == true)) := by
      intro L
      congr 1
      funext l
      cases l.alternate <;> rfl
    have e2 : ∀ L : List signalLamp, L.any (fun l => l.delay && l.stop && l.alternate) =
        L.any (fun l => l.delay && (l.stop && (l.alternate == true))) := by
      intro L
      congr 1
      funext l
      cases l.alternate <;> cases l.delay <;> cases l.stop <;> rfl
    rw [e1, e2]

/-- The onHold flag of one lamp after the stop advance and the conditional release
of start holds; `anyHeld` and `heldStop` are the two tests of `_advanceDivision`. -/
theorem hold_after_stop_division (alt anyHeld heldStop : Bool) (l : signalLamp)
    (hn : anyHeld = false → (l.delay && (l.alternate == alt)) = false) :
    ((if (anyHeld && !heldStop) = true then
        (fun lamp : signalLamp =>
          if lamp.delay = true ∧ lamp.start = true ∧ lamp.alternate = alt then
            { lamp with delay := false }
          else lamp)
          ((fun lamp : signalLamp =>
            if lamp.stop = true ∧ lamp.delay = false ∧ lamp.alternate = alt then
              if lamp.start = true then { lamp with stop := false }
              else { lamp with lit := false, flash := false, alternate := false,
                               start := false, stop := false, delay := false }
            else lamp) l)
      else
        (fun lamp : signalLamp =>
          if lamp.stop = true ∧ lamp.delay = false ∧ lamp.alternate = alt then
            if lamp.start = true then { lamp with stop := false }
            else { lamp with lit := false, flash := false, alternate := false,
                             start := false, stop := false, delay := false }
          else lamp) l).delay = true ↔
      l.delay = true ∧ ¬ (l.start = true ∧ l.alternate = alt ∧ heldStop = false)) := by
  obtain ⟨lit, flash, la, start, stop, ramp, delay, mast, head, num, col, an, ca⟩ := l
  cases anyHeld <;> cases heldStop <;> cases delay <;> cases la <;> cases alt <;>
    cases stop <;> cases start <;> simp at hn ⊢

/-- The onHold flags after divisions 9 and 4. -/
theorem _advanceDivision_hold_stop (s : linesideSignal) (alt : Bool)
    (h : s._rampDiv = if alt = true then 4 else 9) :
    List.Forall₂ (fun old new =>
        (new.delay = true ↔ old.delay = true ∧
          ¬ (old.start = true ∧ old.alternate = alt ∧
              ∀ l ∈ s._lampList, ¬ (l.delay = true ∧ l.stop = true ∧ l.alternate = alt))))
      s._lampList (_advanceDivision s)._lampList := by
  have hP : (∀ l ∈ s._lampList, ¬ (l.delay = true ∧ l.stop = true ∧ l.alternate = alt)) ↔
      s._lampList.any (fun l => l.delay && (l.stop && (l.alternate == alt))) = false := by
    rw [List.any_eq_false]
    apply forall₂_congr
    intro l _
    cases l.delay <;> cases l.stop <;> cases l.alternate <;> cases alt <;> simp
  have hL : (_advanceDivision s)._lampList = s._lampList.map (fun l =>
      if (s._lampList.any (fun l => l.delay && (l.alternate == alt)) &&
          !s._lampList.any (fun l => l.delay && (l.stop && (l.alternate == alt)))) = true then
        (fun lamp : signalLamp =>
          if lamp.delay = true ∧ lamp.start = true ∧ lamp.alternate = alt then
            { lamp with delay := false }
          else lamp)
          ((fun lamp : signalLamp =>
            if lamp.stop = true ∧ lamp.delay = false ∧ lamp.alternate = alt then
              if lamp.start = true then { lamp with stop := false }
              else { lamp with lit := false, flash := false, alternate := false,
                               start := false, stop := false, delay := false }
            else lamp) l)
      else
        (fun lamp : signalLamp =>
          if lamp.stop = true ∧ lamp.delay = false ∧ lamp.alternate = alt then
            if lamp.start = true then { lamp with stop := false }
            else { lamp with lit := false, flash := false, alternate := false,
                             start := false, stop := false, delay := false }
          else lamp) l) := by
    rw [_advanceDivision_stop s alt h]
    split_ifs with hc
    · rw [_releaseHold_start_eq, _advanceLamps_stop_lamps]
      show List.map _ (List.map _ _) = _
      rw [List.map_map]
      rfl
    · rw [_advanceLamps_stop_lamps]
  rw [hL, hP]
  apply forall₂_map_of
  intro l hl
  apply hold_after_stop_division
  intro hHN
  have hx := List.any_eq_false.mp hHN l hl
  simpa using hx

/-- The onHold flags after divisions 5 and 0. -/
theorem _advanceDivision_hold_release (s : linesideSignal) (alt : Bool)
    (h : s._rampDiv = if alt = true then 0 else 5) :
    List.Forall₂ (fun old new =>
        (new.delay = true ↔ old.delay = true ∧ ¬ (old.stop = true ∧ old.alternate = alt)))
      s._lampList (_advanceDivision s)._lampList := by
  rw [_advanceDivision_release s alt h, _releaseHold_stop_eq]
  apply forall₂_map_of
  intro l _
  obtain ⟨lit, flash, la, start, stop, ramp, delay, mast, head, num, col, an, ca⟩ := l
  cases delay <;> cases la <;> cases alt <;> cases stop <;> simp

/-- The onHold flags are not changed at the divisions other than 0, 4, 5 and 9. -/
theorem _advanceDivision_hold_same (s : linesideSignal)
    (h : s._rampDiv ≠ 0 ∧ s._rampDiv ≠ 4 ∧ s._rampDiv ≠ 5 ∧ s._rampDiv ≠ 9) :
    List.Forall₂ (fun old new => new.delay = old.delay)
      s._lampList (_advanceDivision s)._lampList := by
  obtain ⟨h0, h4, h5, h9⟩ := h
  have hsame : List.Forall₂ (fun old new : signalLamp => new.delay = old.delay)
      s._lampList s._lampList := by
    rw [List.forall₂_same]
    intro l _
    rfl
  have hstart : ∀ alt, List.Forall₂ (fun old new : signalLamp => new.delay = old.delay)
      s._lampList
      (if s._lampList.any (fun l => l.stop) = true then s
        else _advanceLamps LSS_SL_START alt s)._lampList := by
    intro alt
    split
    · exact hsame
    · rw [_advanceLamps_start_eq]
      apply forall₂_map_of
      intro l _
      split <;> rfl
  by_cases h3 : s._rampDiv = 3
  · rw [_advanceDivision_start s false h3]
    exact hstart false
  by_cases h8 : s._rampDiv = 8
  · rw [_advanceDivision_start s true h8]
    exact hstart true
  rw [_advanceDivision_other s ⟨h0, h3, h4, h5, h8, h9⟩]
  exact hsame

/-- C33: after `_advanceDivision` a lamp is on hold exactly when it was on hold and
was not released, and it is released exactly in these cases: at division 5 a
normal-phase stopping lamp, at division 0 a reversed-phase stopping lamp, at
division 9 a normal-phase starting lamp and at division 4 a reversed-phase starting
lamp, the last two provided no lamp of the same phase is on hold while stopping.  At
the divisions 1, 2, 3, 6, 7 and 8 no onHold flag changes.  `_releaseHold` changes no
flag of a lamp other than onHold and nothing else in the state. -/
theorem hold_release (s : linesideSignal) :
    List.Forall₂ (fun old new =>
        (new.delay = true ↔ old.delay = true ∧
          ¬ ((s._rampDiv = 5 ∧ old.stop = true ∧ old.alternate = false) ∨
             (s._rampDiv = 0 ∧ old.stop = true ∧ old.alternate = true) ∨
             (s._rampDiv = 9 ∧ old.start = true ∧ old.alternate = false ∧
               ∀ l ∈ s._lampList, ¬ (l.delay = true ∧ l.stop = true ∧ l.alternate = false)) ∨
             (s._rampDiv = 4 ∧ old.start = true ∧ old.alternate = true ∧
               ∀ l ∈ s._lampList, ¬ (l.delay = true ∧ l.stop = true ∧ l.alternate = true)))))
      s._lampList (_advanceDivision s)._lampList ∧
    (s._rampDiv = 1 ∨ s._rampDiv = 2 ∨ s._rampDiv = 3 ∨ s._rampDiv = 6 ∨ s._rampDiv = 7 ∨
        s._rampDiv = 8 →
      List.Forall₂ (fun old new => new.delay = old.delay)
        s._lampList (_advanceDivision s)._lampList) ∧
    (∀ (toClear : Nat) (doAlt : Bool),
      List.Forall₂ (fun old new => new = old ∨ new = { old with delay := false })
        s._lampList (_releaseHold toClear doAlt s)._lampList ∧
      _releaseHold toClear doAlt s =
        { s with _lampList := (_releaseHold toClear doAlt s)._lampList }) := by
  refine ⟨?_, ?_, ?_⟩
  · by_cases h9 : s._rampDiv = 9
    · refine (_advanceDivision_hold_stop s false h9).imp ?_
      intro old new hx
      rw [hx, h9]
      simp
    by_cases h4 : s._rampDiv = 4
    · refine (_advanceDivision_hold_stop s true h4).imp ?_
      intro old new hx
      rw [hx, h4]
      simp
    by_cases h5 : s._rampDiv = 5
    · refine (_advanceDivision_hold_release s false h5).imp ?_
      intro old new hx
      rw [hx, h5]
      simp
    by_cases h0 : s._rampDiv = 0
    · refine (_advanceDivision_hold_release s true h0).imp ?_
      intro old new hx
      rw [hx, h0]
      simp
    refine (_advanceDivision_hold_same s ⟨h0, h4, h5, h9⟩).imp ?_
    intro old new hx
    rw [hx]
    simp [h0, h4, h5, h9]
  · intro hd
    apply _advanceDivision_hold_same
    omega
  · intro toClear doAlt
    constructor
    · unfold _releaseHold
      rw [forEachLamp_lampList]
      apply forall₂_map_of
      intro l _
      rcases releaseHoldLamp_cases toClear doAlt l with h | h
      · rw [h]
        exact Or.inl rfl
      · rw [h]
        exact Or.inr rfl
    · unfold _releaseHold
      apply forEachLamp_eq_of_no_kill
      intro l
      rcases releaseHoldLamp_cases toClear doAlt l with h | h <;> rw [h]

/-- Witness of `hold_release`: a reversed-phase lamp on hold while stopping keeps its
onHold flag at division 2, and loses it at division 0. -/
theorem hold_release_witness :
    (cursorOn { flasher true true with stop := true, delay := true } 2 16)._rampDiv = 2 ∧
    List.Forall₂ (fun old new => new.delay = old.delay)
      (cursorOn { flasher true true with stop := true, delay := true } 2 16)._lampList
      (_advanceDivision
        (cursorOn { flasher true true with stop := true, delay := true } 2 16))._lampList ∧
    ((_advanceDivision
      (cursorOn { flasher true true with stop := true, delay := true } 0 0))._lampList.getD 0
        nullLamp).delay = false :=
  ⟨by decide,
    (hold_release (cursorOn { flasher true true with stop := true, delay := true } 2 16)).2.1
      (Or.inr (Or.inl (by decide))),
    by decide⟩

/-! ### The cathode follows the ramp decision -/

theorem _anodeEnable_flags (a : Nat) (s t : linesideSignal) (h : _anodeEnable a s = some t) :
    t._anodeOn = s._anodeOn ∧ t._cathodeOn = s._cathodeOn := by
  unfold _anodeEnable at h
  dsimp only at h
  split_ifs at h <;> cases h <;> exact ⟨rfl, rfl⟩

theorem _cathodeEnable_flags (c : Nat) (s t : linesideSignal)
    (h : _cathodeEnable c s = some t) :
    t._anodeOn = s._anodeOn ∧ t._cathodeOn = s._cathodeOn := by
  unfold _cathodeEnable at h
  dsimp only at h
  split_ifs at h <;> cases h <;> exact ⟨rfl, rfl⟩

theorem _cathodeDisable_flags (c : Nat) (s t : linesideSignal)
    (h : _cathodeDisable c s = some t) :
    t._anodeOn = s._anodeOn ∧ t._cathodeOn = s._cathodeOn := by
  unfold _cathodeDisable at h
  dsimp only at h
  split_ifs at h <;> cases h <;> exact ⟨rfl, rfl⟩

theorem _anodeDisable_flags (a : Nat) (s : linesideSignal) :
    (_anodeDisable a s)._anodeOn = s._anodeOn ∧
    (_anodeDisable a s)._cathodeOn = s._cathodeOn := by
  unfold _anodeDisable
  dsimp only
  split_ifs <;> exact ⟨rfl, rfl⟩

/-- "if LED is lit but for some reason we've turned the anode off, turn it on":
afterwards the anode flag is set when the LED is enabled; the cathode flag is kept. -/
theorem anodeOnIfEnabled_flags (en : Bool) (la : Nat) (s : linesideSignal)
    (r : Nat × linesideSignal) (h : anodeOnIfEnabled en la s = some r) :
    (en = true → r.2._anodeOn = true) ∧ r.2._cathodeOn = s._cathodeOn := by
  unfold anodeOnIfEnabled at h
  split_ifs at h with hc
  · rw [Option.map_eq_some'] at h
    obtain ⟨u, hu, rfl⟩ := h
    exact ⟨fun _ => rfl, (_anodeEnable_flags _ _ _ hu).2⟩
  · cases h
    refine ⟨fun he => ?_, rfl⟩
    cases hon : s._anodeOn
    · simp [he, hon] at hc
    · rfl

/-- "if the LED is lit, make sure it is on": afterwards the cathode flag is set when
the LED is enabled; the anode flag is kept. -/
theorem cathodeOnIfEnabled_flags (en : Bool) (s t : linesideSignal)
    (h : cathodeOnIfEnabled en s = some t) :
    (en = true → t._cathodeOn = true) ∧ t._anodeOn = s._anodeOn := by
  unfold cathodeOnIfEnabled at h
  split_ifs at h with he hc
  · rw [Option.map_eq_some'] at h
    obtain ⟨u, hu, rfl⟩ := h
    exact ⟨fun _ => rfl, (_cathodeEnable_flags _ _ _ hu).1⟩
  · cases h
    refine ⟨fun _ => ?_, rfl⟩
    simpa using hc
  · cases h
    exact ⟨fun h1 => absurd h1 he, rfl⟩

/-- "if the LED isn't lit, turn the cathode off if it was on from the previous
lamp": afterwards the cathode flag is clear when the LED is not enabled, and kept when
it is; the anode flag is kept. -/
theorem cathodeOffIfDark_flags (en : Bool) (s t : linesideSignal)
    (h : cathodeOffIfDark en s = some t) :
    t._cathodeOn = (en && s._cathodeOn) ∧ t._anodeOn = s._anodeOn := by
  unfold cathodeOffIfDark at h
  split_ifs at h with hc
  · rw [Option.map_eq_some'] at h
    obtain ⟨u, hu, rfl⟩ := h
    refine ⟨?_, (_cathodeDisable_flags _ _ _ hu).1⟩
    cases en
    · rfl
    · simp at hc
  · cases h
    refine ⟨?_, rfl⟩
    cases en <;> cases hon : s._cathodeOn <;> simp [hon] at hc ⊢

/-- "turn off the anode if the current light is dark": the cathode flag is kept, and
with the cathode on the anode flag is kept as well. -/
theorem anodeOffIfDark_flags (la : Nat) (s : linesideSignal) :
    (anodeOffIfDark la s)._cathodeOn = s._cathodeOn ∧
    (s._cathodeOn = true → (anodeOffIfDark la s)._anodeOn = s._anodeOn) := by
  unfold anodeOffIfDark
  dsimp only
  split_ifs with hc hon
  · refine ⟨(_anodeDisable_flags la s).2, fun h => ?_⟩
    simp [h] at hc
  · exact ⟨rfl, fun _ => rfl⟩
  · exact ⟨rfl, fun _ => rfl⟩

/-- The bookkeeping flags at the end of the pin-changing part of `updateSignals`. -/
theorem switchPins_flags (la lc : Nat) (newCycle en : Bool) (s t : linesideSignal)
    (h : switchPins la lc newCycle en s = some t) :
    t._cathodeOn = en ∧ (t._cathodeOn = true → t._anodeOn = true) := by
  unfold switchPins at h
  simp only [Option.bind_eq_some, Option.map_eq_some'] at h
  obtain ⟨s1, -, r2, -, r4, h4, s5, h5, s6, h6, rfl⟩ := h
  obtain ⟨a4, -⟩ := anodeOnIfEnabled_flags _ _ _ _ h4
  obtain ⟨c5, a5⟩ := cathodeOnIfEnabled_flags _ _ _ h5
  obtain ⟨c6, a6⟩ := cathodeOffIfDark_flags _ _ _ h6
  obtain ⟨c7, a7⟩ := anodeOffIfDark_flags r4.1 s6
  have hc : (anodeOffIfDark r4.1 s6)._cathodeOn = en := by
    rw [c7, c6]
    cases en
    · rfl
    · rw [c5 rfl]
      rfl
  refine ⟨hc, fun hon => ?_⟩
  have hen : en = true := hc.symm.trans hon
  rw [a7 (c7.symm.trans hon), a6, a5]
  exact a4 hen

/-- The ramp decision is "do not energize" whenever `_killSwitch` is set when it is
taken, and whenever the tick ends the decision with `_killSwitch` set. -/
theorem decideLED_killSwitch (s : linesideSignal) :
    (s._killSwitch = true → (decideLED s).1 = false) ∧
    ((decideLED s).2._killSwitch = true → (decideLED s).1 = false) := by
  unfold decideLED _enabledLED
  cases hk : s._killSwitch
  · simp only [Bool.not_false, if_true]
    refine ⟨fun h => absurd h (by simp), ?_⟩
    split_ifs with hl
    · intro _
      rfl
    · intro h
      simp [hk] at h
  · simp

/-- C36: in every reachable state a call of `updateSignals` returns, and at its end
`_cathodeOn` is the ramp decision `LEDEnabled` taken in that call for the current
lamp; that decision is false whenever `_killSwitch` was set when it was taken; and
whenever `_cathodeOn` is true, `_anodeOn` is true as well. -/
theorem cathode_gating (hw : Platform) (s : linesideSignal) (clk : Clock)
    (h : Reachable hw s) :
    ∃ t, updateSignals hw clk s = some t ∧
      t._cathodeOn = (selectLamp hw clk s).2.2.1 ∧
      ((selectLamp hw clk s).2.2.2._killSwitch = true → t._cathodeOn = false) ∧
      (t._cathodeOn = true → t._anodeOn = true) := by
  obtain ⟨t, ht, -, -⟩ := updateSignals_invariant hw clk s h.invariant
  refine ⟨t, ht, ?_⟩
  unfold updateSignals at ht
  dsimp only at ht
  rw [Option.map_eq_some'] at ht
  obtain ⟨u, hu, rfl⟩ := ht
  obtain ⟨hc, ha⟩ := switchPins_flags _ _ _ _ _ _ hu
  have hrec := (recordTimes_frame clk (selectLamp hw clk s).1 (selectLamp hw clk s).2.1 u).1
  have hk : (selectLamp hw clk s).2.2.2._killSwitch = true →
      (selectLamp hw clk s).2.2.1 = false := by
    unfold selectLamp
    dsimp only
    exact (decideLED_killSwitch _).2
  rw [hrec.2.1, hrec.1, hc]
  exact ⟨rfl, hk, fun hen => ha (hc.trans hen)⟩

set_option maxRecDepth 1000000 in
set_option maxHeartbeats 40000000 in
/-- Witness of `cathode_gating`: the tick that lights lamp (0,0,1) after
`flashingRun 86`: the ramp decision is "energize", and the tick ends with `_cathodeOn`
and `_anodeOn` set. -/
theorem cathode_gating_witness :
    Reachable refPlatform rampingUp ∧
    (selectLamp refPlatform (clockAt 440000) rampingUp).2.2.1 = true ∧
    ∃ t, updateSignals refPlatform (clockAt 440000) rampingUp = some t ∧
      t._cathodeOn = (selectLamp refPlatform (clockAt 440000) rampingUp).2.2.1 ∧
      ((selectLamp refPlatform (clockAt 440000) rampingUp).2.2.2._killSwitch = true →
        t._cathodeOn = false) ∧
      (t._cathodeOn = true → t._anodeOn = true) :=
  ⟨rampingUp_reachable, by decide,
    cathode_gating refPlatform rampingUp (clockAt 440000) rampingUp_reachable⟩

/-! ### The scan of `_getNextLamp` -/

theorem isOn_lit (l : signalLamp) : l.isOn = l.lit := rfl

/-- Once the bounded loop has left, the scan gives its result with any larger
bound. -/
theorem getNextLampScan_of_loop (lamps : List signalLamp) (cur : Nat) :
    ∀ (fuel : Nat) (start : Option Nat) (nc : Bool) (r : Option Nat × Bool),
      getNextLampLoop lamps cur fuel start nc = some r →
      ∀ more, fuel ≤ more → getNextLampScan lamps cur more start nc = r := by
  intro fuel
  induction fuel with
  | zero =>
    intro start nc r h
    simp [getNextLampLoop] at h
  | succ fuel ih =>
    intro start nc r h more hm
    obtain ⟨m, rfl⟩ : ∃ m, more = m + 1 := ⟨more - 1, by omega⟩
    cases start <;>
    · unfold getNextLampLoop at h
      unfold getNextLampScan
      dsimp only at h ⊢
      split_ifs at h with h1 h2
      · rw [if_pos h1]
        exact Option.some.inj h
      · rw [if_neg h1, if_pos h2]
        exact Option.some.inj h
      · rw [if_neg h1, if_neg h2]
        exact ih _ _ _ h m (by omega)

/-- The scan from the head of the list is the scan from the `NULL` pointer. -/
theorem getNextLampLoop_none (lamps : List signalLamp) (cur fuel : Nat) (nc : Bool) :
    getNextLampLoop lamps cur fuel none nc = getNextLampLoop lamps cur fuel (some 0) true := by
  cases fuel with
  | zero => rfl
  | succ fuel =>
    unfold getNextLampLoop
    rfl

/-- One iteration of the loop at a lamp of the list. -/
theorem getNextLampLoop_succ (lamps : List signalLamp) (cur fuel i : Nat) (nc : Bool) :
    getNextLampLoop lamps cur (fuel + 1) (some i) nc =
      if (lamps.getD i nullLamp).isOn = true then some (some i, nc)
      else if i = cur then some (none, nc)
      else getNextLampLoop lamps cur fuel (nextLamp lamps i) nc := by
  rw [getNextLampLoop]

/-- The part of the scan from index `i` up to the cursor: it leaves the loop at
the first lit lamp, or at the cursor. -/
theorem getNextLampLoop_upto (lamps : List signalLamp) (cur : Nat)
    (hcur : cur < lamps.length) :
    ∀ (d i : Nat), cur = i + d → ∀ (fuel : Nat), d + 1 ≤ fuel → ∀ nc : Bool,
      (∃ j, i ≤ j ∧ j ≤ cur ∧ (lamps.getD j nullLamp).lit = true ∧
        (∀ k, i ≤ k → k < j → (lamps.getD k nullLamp).lit = false) ∧
        getNextLampLoop lamps cur fuel (some i) nc = some (some j, nc)) ∨
      ((∀ k, i ≤ k → k ≤ cur → (lamps.getD k nullLamp).lit = false) ∧
        getNextLampLoop lamps cur fuel (some i) nc = some (none, nc)) := by
  intro d
  induction d with
  | zero =>
    intro i hi fuel hf nc
    obtain ⟨f, rfl⟩ : ∃ f, fuel = f + 1 := ⟨fuel - 1, by omega⟩
    have hic : i = cur := by omega
    subst hic
    rw [getNextLampLoop_succ]
    cases hl : (lamps.getD i nullLamp).lit
    · right
      refine ⟨fun k h1 h2 => ?_, ?_⟩
      · have : k = i := by omega
        rw [this, hl]
      · rw [if_neg (by rw [isOn_lit, hl]; simp), if_pos rfl]
    · left
      refine ⟨i, le_refl _, le_refl _, hl, fun k h1 h2 => by omega, ?_⟩
      rw [if_pos (by rw [isOn_lit, hl])]
  | succ d ih =>
    intro i hi fuel hf nc
    obtain ⟨f, rfl⟩ : ∃ f, fuel = f + 1 := ⟨fuel - 1, by omega⟩
    rw [getNextLampLoop_succ]
    cases hl : (lamps.getD i nullLamp).lit
    · rw [if_neg (by rw [isOn_lit, hl]; simp),
        if_neg (by omega)]
      have hn : nextLamp lamps i = some (i + 1) := by
        unfold nextLamp
        rw [if_pos (by omega)]
      rw [hn]
      rcases ih (i + 1) (by omega) f (by omega) nc with ⟨j, h1, h2, h3, h4, h5⟩ | ⟨h1, h2⟩
      · left
        refine ⟨j, by omega, h2, h3, fun k hk1 hk2 => ?_, h5⟩
        by_cases hki : k = i
        · rw [hki, hl]
        · exact h4 k (by omega) hk2
      · right
        refine ⟨fun k hk1 hk2 => ?_, h2⟩
        by_cases hki : k = i
        · rw [hki, hl]
        · exact h1 k (by omega) hk2
    · left
      refine ⟨i, le_refl _, by omega, hl, fun k h1 h2 => by omega, ?_⟩
      rw [if_pos (by rw [isOn_lit, hl])]

/-- The pointer to the lamp at index `i`, `NULL` behind the last lamp. -/
theorem nextLamp_eq (lamps : List signalLamp) (i : Nat) :
    nextLamp lamps i = if i + 1 < lamps.length then some (i + 1) else none := rfl

/-- The part of the scan behind the cursor, from index `i` to the end of the list:
it leaves the loop at the first lit lamp, or goes on from the head of the list. -/
theorem getNextLampLoop_behind (lamps : List signalLamp) (cur : Nat) :
    ∀ (d i : Nat), lamps.length = i + d → cur < i → ∀ (fuel : Nat) (nc : Bool),
      (∃ j, i ≤ j ∧ j < lamps.length ∧ (lamps.getD j nullLamp).lit = true ∧
        (∀ k, i ≤ k → k < j → (lamps.getD k nullLamp).lit = false) ∧
        getNextLampLoop lamps cur (d + fuel)
          (if i < lamps.length then some i else none) nc = some (some j, nc)) ∨
      ((∀ k, i ≤ k → (lamps.getD k nullLamp).lit = false) ∧
        getNextLampLoop lamps cur (d + fuel)
          (if i < lamps.length then some i else none) nc =
        getNextLampLoop lamps cur fuel none nc) := by
  intro d
  induction d with
  | zero =>
    intro i hi hc fuel nc
    right
    refine ⟨fun k hk => ?_, ?_⟩
    · rw [List.getD_eq_default _ _ (by omega)]
      rfl
    · rw [if_neg (by omega), Nat.zero_add]
  | succ d ih =>
    intro i hi hc fuel nc
    rw [if_pos (by omega), show d + 1 + fuel = (d + fuel) + 1 by omega]
    rw [getNextLampLoop_succ]
    cases hl : (lamps.getD i nullLamp).lit
    · rw [if_neg (by rw [isOn_lit, hl]; simp),
        if_neg (by omega), nextLamp_eq]
      rcases ih (i + 1) (by omega) (by omega) fuel nc with
        ⟨j, h1, h2, h3, h4, h5⟩ | ⟨h1, h2⟩
      · left
        refine ⟨j, by omega, h2, h3, fun k hk1 hk2 => ?_, h5⟩
        by_cases hki : k = i
        · rw [hki, hl]
        · exact h4 k (by omega) hk2
      · right
        refine ⟨fun k hk1 => ?_, h2⟩
        by_cases hki : k = i
        · rw [hki, hl]
        · exact h1 k (by omega)
    · left
      refine ⟨i, le_refl _, by omega, hl, fun k h1 h2 => by omega, ?_⟩
      rw [if_pos (by rw [isOn_lit, hl])]

/-- The loop of `_getNextLamp` leaves within as many iterations as the list has
lamps, with one of three results: the first lit lamp behind the cursor, `newCycle`
false; or, when no lamp behind the cursor is lit, the first lit lamp of the list,
`newCycle` true; or, when no lamp is lit, nothing, `newCycle` true. -/
theorem getNextLampLoop_result (lamps : List signalLamp) (cur : Nat)
    (hcur : cur < lamps.length) :
    (∃ j, cur < j ∧ j < lamps.length ∧ (lamps.getD j nullLamp).lit = true ∧
      (∀ k, cur < k → k < j → (lamps.getD k nullLamp).lit = false) ∧
      getNextLampLoop lamps cur lamps.length (nextLamp lamps cur) false =
        some (some j, false)) ∨
    (∃ j, j ≤ cur ∧ (lamps.getD j nullLamp).lit = true ∧
      (∀ k, cur < k → (lamps.getD k nullLamp).lit = false) ∧
      (∀ k, k < j → (lamps.getD k nullLamp).lit = false) ∧
      getNextLampLoop lamps cur lamps.length (nextLamp lamps cur) false =
        some (some j, true)) ∨
    ((∀ k, (lamps.getD k nullLamp).lit = false) ∧
      getNextLampLoop lamps cur lamps.length (nextLamp lamps cur) false =
        some (none, true)) := by
  have hlen : lamps.length = (lamps.length - (cur + 1)) + (cur + 1) := by omega
  have hb := getNextLampLoop_behind lamps cur (lamps.length - (cur + 1)) (cur + 1)
    (by omega) (by omega) (cur + 1) false
  rw [← hlen, ← nextLamp_eq] at hb
  rcases hb with ⟨j, h1, h2, h3, h4, h5⟩ | ⟨h1, h2⟩
  · left
    exact ⟨j, by omega, h2, h3, fun k hk1 hk2 => h4 k (by omega) hk2, h5⟩
  · right
    rw [getNextLampLoop_none] at h2
    rcases getNextLampLoop_upto lamps cur hcur cur 0 (by omega) (cur + 1) (le_refl _) true
      with ⟨j, g1, g2, g3, g4, g5⟩ | ⟨g1, g2⟩
    · left
      exact ⟨j, g2, g3, fun k hk => h1 k (by omega), fun k hk => g4 k (by omega) hk,
        h2.trans g5⟩
    · right
      refine ⟨fun k => ?_, h2.trans g2⟩
      by_cases hk : k ≤ cur
      · exact g1 k (by omega) hk
      · exact h1 k (by omega)

/-- `_getNextLamp` returns what the loop left with. -/
theorem _getNextLamp_of_loop (s : linesideSignal) (cur : Nat)
    (hc : s._currentLED = some cur) (hv : cur < s._lampList.length)
    (found : Option Nat) (nc : Bool)
    (hr : getNextLampLoop s._lampList cur s._lampList.length
      (nextLamp s._lampList cur) false = some (found, nc)) :
    _getNextLamp s =
      match found with
      | some i => (true, nc, { s with _currentLED := some i })
      | none => (false, nc, s) := by
  have hscan := getNextLampScan_of_loop _ _ _ _ _ _ hr (s._lampList.length + 1) (by omega)
  have hne : s._lampList ≠ [] := by
    intro h
    rw [h] at hv
    simp at hv
  unfold _getNextLamp
  rw [hc]
  dsimp only
  rw [if_neg hne, hscan]
  cases found <;> rfl

/-! ### The lit lamps in list order -/

theorem mem_litIndices (lamps : List signalLamp) (k : Nat) :
    k ∈ litIndices lamps ↔ (lamps.getD k nullLamp).lit = true := by
  unfold litIndices
  rw [List.mem_filter, List.mem_range, isOn_lit]
  constructor
  · exact fun h => h.2
  · intro h
    refine ⟨?_, h⟩
    by_contra hk
    rw [List.getD_eq_default _ _ (by omega)] at h
    exact absurd h (by decide)

theorem litIndices_lt (lamps : List signalLamp) (a b : Nat) (hab : a < b)
    (hb : b < (litIndices lamps).length) :
    (litIndices lamps).getD a 0 < (litIndices lamps).getD b 0 := by
  have hp : (litIndices lamps).Pairwise (· < ·) := (List.pairwise_lt_range _).filter _
  rw [List.pairwise_iff_getElem] at hp
  rw [List.getD_eq_getElem _ _ (by omega), List.getD_eq_getElem _ _ hb]
  exact hp a b (by omega) hb hab

theorem litIndices_le (lamps : List signalLamp) (a b : Nat) (hab : a ≤ b)
    (hb : b < (litIndices lamps).length) :
    (litIndices lamps).getD a 0 ≤ (litIndices lamps).getD b 0 := by
  rcases Nat.eq_or_lt_of_le hab with h | h
  · rw [h]
  · exact Nat.le_of_lt (litIndices_lt lamps a b h hb)

theorem litIndices_lit (lamps : List signalLamp) (t : Nat)
    (ht : t < (litIndices lamps).length) :
    (lamps.getD ((litIndices lamps).getD t 0) nullLamp).lit = true := by
  rw [← mem_litIndices, List.getD_eq_getElem _ _ ht]
  exact List.getElem_mem _

theorem litIndices_rank (lamps : List signalLamp) (k : Nat)
    (hk : (lamps.getD k nullLamp).lit = true) :
    ∃ t, t < (litIndices lamps).length ∧ (litIndices lamps).getD t 0 = k := by
  rw [← mem_litIndices] at hk
  obtain ⟨t, ht, he⟩ := List.getElem_of_mem hk
  exact ⟨t, ht, by rw [List.getD_eq_getElem _ _ ht, he]⟩

theorem lt_length_of_lit (lamps : List signalLamp) (k : Nat)
    (hk : (lamps.getD k nullLamp).lit = true) : k < lamps.length := by
  by_contra h
  rw [List.getD_eq_default _ _ (by omega)] at hk
  exact absurd hk (by decide)

/-- From the lit lamp of rank `r`, `_getNextLamp` moves the cursor to the lit lamp of
the next rank, or to the first lit lamp when `r` is the last rank, which is when it
reports `newCycle`. -/
theorem _getNextLamp_rank (s : linesideSignal) (r : Nat)
    (hr : r < (litIndices s._lampList).length)
    (hc : s._currentLED = some ((litIndices s._lampList).getD r 0)) :
    _getNextLamp s =
      (true, decide (r + 1 = (litIndices s._lampList).length),
        { s with _currentLED := some ((litIndices s._lampList).getD
            ((r + 1) % (litIndices s._lampList).length) 0) }) := by
  have hlit := litIndices_lit s._lampList r hr
  have hv := lt_length_of_lit _ _ hlit
  rcases getNextLampLoop_result s._lampList _ hv with
    ⟨j, h1, h2, h3, h4, h5⟩ | ⟨j, h1, h3, h4, h6, h5⟩ | ⟨h1, -⟩
  · rw [_getNextLamp_of_loop s _ hc hv _ _ h5]
    obtain ⟨t, ht, hj⟩ := litIndices_rank _ j h3
    have hrt : r < t := by
      by_contra hn
      have := litIndices_le s._lampList t r (by omega) hr
      omega
    have hj2 : (litIndices s._lampList).getD (r + 1) 0 = j := by
      have ha := litIndices_lt s._lampList r (r + 1) (by omega) (by omega)
      have hb := litIndices_le s._lampList (r + 1) t (by omega) ht
      have hc2 := litIndices_lit s._lampList (r + 1) (by omega)
      by_contra hne
      have hlt : (litIndices s._lampList).getD (r + 1) 0 < j := by omega
      have := h4 _ ha hlt
      rw [this] at hc2
      exact absurd hc2 (by decide)
    have hm : (r + 1) % (litIndices s._lampList).length = r + 1 :=
      Nat.mod_eq_of_lt (by omega)
    rw [hm, hj2]
    have hd : decide (r + 1 = (litIndices s._lampList).length) = false := by
      rw [decide_eq_false_iff_not]
      omega
    rw [hd]
  · rw [_getNextLamp_of_loop s _ hc hv _ _ h5]
    have hlast : r + 1 = (litIndices s._lampList).length := by
      by_contra hne
      have ha := litIndices_lt s._lampList r (r + 1) (by omega) (by omega)
      have hc2 := litIndices_lit s._lampList (r + 1) (by omega)
      rw [h4 _ ha] at hc2
      exact absurd hc2 (by decide)
    obtain ⟨t, ht, hj⟩ := litIndices_rank _ j h3
    have hj2 : (litIndices s._lampList).getD 0 0 = j := by
      have hb := litIndices_le s._lampList 0 t (by omega) ht
      have hc2 := litIndices_lit s._lampList 0 (by omega)
      by_contra hne
      have hlt : (litIndices s._lampList).getD 0 0 < j := by omega
      rw [h6 _ hlt] at hc2
      exact absurd hc2 (by decide)
    have hm : (r + 1) % (litIndices s._lampList).length = 0 := by
      rw [hlast]
      exact Nat.mod_self _
    rw [hm, hj2]
    have hd : decide (r + 1 = (litIndices s._lampList).length) = true := by
      rw [decide_eq_true_iff]
      exact hlast
    rw [hd]
  · rw [h1] at hlit
    exact absurd hlit (by decide)

/-! ### The sweep through the lit lamps -/

theorem litIndices_length (lamps : List signalLamp) :
    (litIndices lamps).length = lamps.countP signalLamp.isOn := by
  induction lamps with
  | nil => rfl
  | cons x xs ih =>
    unfold litIndices at ih ⊢
    rw [List.length_cons, List.range_succ_eq_map, List.filter_cons, List.filter_map,
      List.countP_cons]
    have hf : ((fun i => ((x :: xs).getD i nullLamp).isOn) ∘ Nat.succ) =
        fun i => (xs.getD i nullLamp).isOn := by
      funext i
      simp only [Function.comp, List.getD_cons_succ]
    rw [hf]
    have h0 : ((x :: xs).getD 0 nullLamp).isOn = x.isOn := rfl
    rw [h0]
    cases x.isOn
    · simp only [Bool.false_eq_true, if_false, List.length_map, ih, Nat.add_zero]
    · simp only [if_true, List.length_cons, List.length_map, ih]

/-- The cursor and `newCycle` after each of `k` successive calls of `_getNextLamp`,
from the lit lamp of rank `r`. -/
theorem sweep_rank (k : Nat) :
    ∀ (s : linesideSignal) (r : Nat), r < (litIndices s._lampList).length →
      s._currentLED = some ((litIndices s._lampList).getD r 0) →
      sweep k s = (List.range k).map (fun i =>
        (some ((litIndices s._lampList).getD
            ((r + 1 + i) % (litIndices s._lampList).length) 0),
          decide ((r + i) % (litIndices s._lampList).length + 1 =
            (litIndices s._lampList).length))) := by
  induction k with
  | zero =>
    intro s r _ _
    rfl
  | succ k ih =>
    intro s r hr hc
    have hg := _getNextLamp_rank s r hr hc
    have hm : 0 < (litIndices s._lampList).length := by omega
    have hr2 : (r + 1) % (litIndices s._lampList).length < (litIndices s._lampList).length :=
      Nat.mod_lt _ hm
    have hi := ih { s with _currentLED := some ((litIndices s._lampList).getD
      ((r + 1) % (litIndices s._lampList).length) 0) }
      ((r + 1) % (litIndices s._lampList).length) hr2 rfl
    dsimp only at hi
    rw [sweep, hg]
    dsimp only
    rw [hi, List.range_succ_eq_map, List.map_cons, List.map_map]
    congr 1
    · have e0 : (r + 0) % (litIndices s._lampList).length = r := Nat.mod_eq_of_lt hr
      rw [e0]
    · apply List.map_congr_left
      intro i _
      simp only [Function.comp]
      have e1 : ((r + 1) % (litIndices s._lampList).length + 1 + i) %
          (litIndices s._lampList).length =
          (r + 1 + Nat.succ i) % (litIndices s._lampList).length := by
        rw [Nat.add_assoc, Nat.mod_add_mod]
        congr 1
        omega
      have e2 : ((r + 1) % (litIndices s._lampList).length + i) %
          (litIndices s._lampList).length =
          (r + Nat.succ i) % (litIndices s._lampList).length := by
        rw [Nat.mod_add_mod]
        congr 1
        omega
      rw [e1, e2]

/-- Among `m` successive ranks starting behind rank `r`, exactly one is the last
rank. -/
theorem one_wrap (m r : Nat) (hr : r < m) :
    (List.range m).countP (fun i => decide ((r + i) % m + 1 = m)) = 1 := by
  have hc : (List.range m).countP (fun i => decide ((r + i) % m + 1 = m)) =
      (List.range m).countP (fun i => i == m - 1 - r) := by
    apply List.countP_congr
    intro i hi
    rw [List.mem_range] at hi
    simp only [decide_eq_true_eq, beq_iff_eq]
    by_cases h : r + i < m
    · rw [Nat.mod_eq_of_lt h]
      omega
    · rw [Nat.mod_eq_sub_mod (by omega), Nat.mod_eq_of_lt (by omega)]
      omega
  rw [hc]
  exact List.count_eq_one_of_mem (List.nodup_range m) (List.mem_range.mpr (by omega))

/-- The lamps visited by `m` successive calls from rank `r` are the lit lamps,
rotated. -/
theorem visits_rotate (L : List Nat) (r : Nat) (hr : r < L.length) :
    (List.range L.length).map (fun i => L.getD ((r + 1 + i) % L.length) 0) =
      L.rotate (r + 1) := by
  apply List.ext_getElem
  · rw [List.length_map, List.length_range, List.length_rotate]
  · intro i h1 h2
    rw [List.getElem_map, List.getElem_range, List.getElem_rotate,
      List.getD_eq_getElem _ _ (Nat.mod_lt _ (by omega))]
    congr 1
    congr 1
    omega

/-! ### The cursor stays on the list -/

theorem cursorOk_of_length (s t : linesideSignal) (h : CursorOk s)
    (hl : t._lampList.length = s._lampList.length) (hc : t._currentLED = s._currentLED) :
    CursorOk t := by
  obtain ⟨cur, h1, h2⟩ := h
  exact ⟨cur, hc.trans h1, by rw [hl]; exact h2⟩

theorem cursorOk_of_lampList (s t : linesideSignal) (h : CursorOk s)
    (hl : t._lampList = s._lampList) (hc : t._currentLED = s._currentLED) :
    CursorOk t :=
  cursorOk_of_length s t h (by rw [hl]) hc

theorem cursorOk_of_rewriteStep {R : signalLamp → signalLamp → Prop} (s t : linesideSignal)
    (h : CursorOk s) (hr : RewriteStep R s t) (hc : t._currentLED = s._currentLED) :
    CursorOk t := by
  obtain ⟨⟨F, -, hl⟩, -, -⟩ := hr
  exact cursorOk_of_length s t h (by rw [hl, List.length_map]) hc

theorem cursorOk_killSwitch (u : linesideSignal) (b : Bool) (h : CursorOk u) :
    CursorOk { u with _killSwitch := b } :=
  cursorOk_of_lampList u _ h rfl rfl

/-- A lamp found by the scan is lit. -/
theorem getNextLampScan_found (lamps : List signalLamp) (cur : Nat) :
    ∀ (fuel : Nat) (start : Option Nat) (nc : Bool) (i : Nat) (nc2 : Bool),
      getNextLampScan lamps cur fuel start nc = (some i, nc2) →
      (lamps.getD i nullLamp).lit = true := by
  intro fuel
  induction fuel with
  | zero =>
    intro start nc i nc2 h
    simp [getNextLampScan] at h
  | succ fuel ih =>
    intro start nc i nc2 h
    cases start <;>
    · unfold getNextLampScan at h
      dsimp only at h
      split_ifs at h with h1 h2
      · have hi := (Prod.mk.inj h).1
        rw [← Option.some.inj hi, ← isOn_lit]
        exact h1
      · exact absurd (Prod.mk.inj h).1 (by simp)
      · exact ih _ _ _ _ h

theorem _getNextLamp_cursorOk (s : linesideSignal) (h : CursorOk s) :
    CursorOk (_getNextLamp s).2.2 := by
  unfold _getNextLamp
  split
  · exact h
  · rename_i cur hcur
    split
    · exact h
    · split
      · rename_i i nc heq
        have hl := getNextLampScan_found _ _ _ _ _ _ _ heq
        exact ⟨i, rfl, lt_length_of_lit _ _ hl⟩
      · exact h

theorem selectLamp_cursorOk (hw : Platform) (clk : Clock) (s : linesideSignal)
    (h : CursorOk s) : CursorOk (selectLamp hw clk s).2.2.2 := by
  have h1 : CursorOk (resetOnJump hw s) := by
    unfold resetOnJump
    split
    · have f := _resetCycleTime_frame hw s
      exact cursorOk_of_lampList s _ h f.2.1 f.2.2.1
    · exact h
  have h2 : CursorOk (nextLED hw clk (resetOnJump hw s)).2 := by
    unfold nextLED
    dsimp only
    have hg := _getNextLamp_cursorOk _ h1
    have hk : CursorOk (if (_getNextLamp (resetOnJump hw s)).1 = true then
        { (_getNextLamp (resetOnJump hw s)).2.2 with _killSwitch := false }
        else (_getNextLamp (resetOnJump hw s)).2.2) := by
      split
      · exact cursorOk_killSwitch _ false hg
      · exact hg
    generalize (if (_getNextLamp (resetOnJump hw s)).1 = true then
        { (_getNextLamp (resetOnJump hw s)).2.2 with _killSwitch := false }
        else (_getNextLamp (resetOnJump hw s)).2.2) = u at hk ⊢
    have f := _lightTimerStart_frame
      (toLong (toLong (u._pulseTimePerLED - cMod hw u._pulseTimePerLED (_getAverageLoop u)) +
        _getOverhead u)) (toLong clk.beforeTime) clk.timerStart u
    exact cursorOk_of_lampList u _ hk f.2.1 f.2.2.1
  have h3 : ∀ u, CursorOk u → CursorOk (rampClock hw u) := by
    intro u hu
    refine cursorOk_of_rewriteStep u _ hu (rampClock_step hw u) ?_
    unfold rampClock
    dsimp only
    split
    · exact (_advanceDivision_step _).2.trans (_newRampState_cursor hw u)
    · exact _newRampState_cursor hw u
  have h4 : ∀ u, CursorOk u → CursorOk (decideLED u).2 := by
    intro u hu
    refine cursorOk_of_rewriteStep u _ hu (decideLED_step u) ?_
    unfold decideLED
    split
    · exact _enabledLED_cursor u
    · rfl
  have h5 : CursorOk (if _lightTimerExpired clk.expiryCheck (resetOnJump hw s) = true then
        nextLED hw clk (resetOnJump hw s) else (false, resetOnJump hw s)).2 := by
    split
    · exact h2
    · dsimp only
      exact h1
  exact h4 _ (h3 _ h5)

theorem updateSignals_cursorOk (hw : Platform) (clk : Clock) (s t : linesideSignal)
    (hi : Invariant s) (h : CursorOk s) (ht : updateSignals hw clk s = some t) :
    CursorOk t := by
  have hsel := selectLamp_step hw clk s
  obtain ⟨u, hu, -, ul, uc, -⟩ := switchPins_spec (selectLamp hw clk s).2.2.2
    s.currentLamp.anode s.currentLamp.cathode (selectLamp hw clk s).2.1
    (selectLamp hw clk s).2.2.1 (Electrical.of_sameDrive hsel.2.1 hi.2.2)
  unfold updateSignals at ht
  dsimp only at ht
  rw [hu] at ht
  have he : recordTimes clk (selectLamp hw clk s).1 (selectLamp hw clk s).2.1 u = t :=
    Option.some.inj ht
  have hrec := recordTimes_frame clk (selectLamp hw clk s).1 (selectLamp hw clk s).2.1 u
  rw [← he]
  exact cursorOk_of_lampList _ _ (selectLamp_cursorOk hw clk s h)
    (hrec.2.1.trans ul) (hrec.2.2.1.trans uc)

theorem addLamp_cursorOk (m hd l a c col : Nat) (s : linesideSignal) (h : CursorOk s) :
    CursorOk (addLamp m hd l a c col s) := by
  unfold addLamp
  split_ifs
  · exact h
  · exact h
  · exact h
  · exact h
  · exact h
  · obtain ⟨lamp, h1, -, h3, -⟩ := _addLamp_spec m hd l a c col s
    obtain ⟨cur, g1, g2⟩ := h
    refine ⟨cur + 1, ?_, ?_⟩
    · rw [h3, g1]
      rfl
    · rw [h1, List.length_cons]
      omega

theorem step_cursorOk (hw : Platform) (s t : linesideSignal) (c : Command)
    (hi : Invariant s) (h : CursorOk s) (ht : step hw s c = some t) : CursorOk t := by
  have keyR : ∀ u, RewriteStep keepsRamp s u ∧ u._currentLED = s._currentLED →
      some u = some t → CursorOk t :=
    fun u hu he => (Option.some.inj he) ▸ cursorOk_of_rewriteStep s u h hu.1 hu.2
  have keyT : ∀ u, SameButTiming s u → some u = some t → CursorOk t :=
    fun u hu he => (Option.some.inj he) ▸ cursorOk_of_lampList s u h hu.2.1 hu.2.2.1
  cases c with
  | setupSignal =>
    have he : setupSignal hw s = t := Option.some.inj ht
    rw [setupSignal_of_done hw s hi.1] at he
    exact he ▸ h
  | addLamp m hd l a c col =>
    have he : addLamp m hd l a c col s = t := Option.some.inj ht
    exact he ▸ addLamp_cursorOk m hd l a c col s h
  | updateSignals clk => exact updateSignals_cursorOk hw clk s t hi h ht
  | setLamp m hd l lit f => exact keyR _ (setLamp_step m hd l lit f s) ht
  | clearHead m hd => exact keyR _ (clearHead_step m hd s) ht
  | setCycleTime cycle => exact keyT _ (setCycleTime_frame hw cycle s) ht
  | setFlashRate rate => exact keyT _ (setFlashRate_frame hw rate s) ht
  | setHeadColor m hd col f => exact keyR _ (setHeadColor_step m hd col f s) ht
  | setLampColor m hd l col f => exact keyR _ (setLampColor_step m hd l col f s) ht
  | setAlternate m hd l alt => exact keyR _ (setAlternate_step m hd l alt s) ht
  | setRamp m hd l r =>
    have he : setRamp m hd l r s = t := Option.some.inj ht
    exact he ▸ cursorOk_of_rewriteStep s _ h (setRamp_step m hd l r s).1
      (setRamp_step m hd l r s).2

theorem run_cursorOk (hw : Platform) (cmds : List Command) :
    ∀ s t, Invariant s → CursorOk s → run hw s cmds = some t → CursorOk t := by
  induction cmds with
  | nil =>
    intro s t _ h hr
    have : s = t := by simpa [run] using hr
    exact this ▸ h
  | cons c cs ih =>
    intro s t hi h hr
    obtain ⟨u, hu, hiu, -⟩ := step_invariant hw s c hi
    rw [run, hu, Option.some_bind] at hr
    exact ih u t hiu (step_cursorOk hw s u c hi h hu) hr

theorem powerOn_cursorOk (hw : Platform) (micros : Int) (raw : linesideSignal) :
    CursorOk (powerOn hw micros raw) := by
  unfold powerOn
  obtain ⟨c1, c2, -⟩ := construct_fields hw micros
    { raw with pins := fun p => { raw.pins p with output := false } }
  generalize construct hw micros
    { raw with pins := fun p => { raw.pins p with output := false } } = s0 at *
  unfold setupSignal
  rw [if_neg (by simp [c1])]
  dsimp only
  have hf := _adjCycleTime_frame hw
    { _addLamp LSS_NULL_SIG LSS_NULL_SIG LSS_NULL_SIG LSS_NOT_PIN LSS_NOT_PIN LSS_DARK
        { s0 with _setupIsDone := true } with
      _currentLED := some 0,
      _lampList := (_addLamp LSS_NULL_SIG LSS_NULL_SIG LSS_NULL_SIG LSS_NOT_PIN LSS_NOT_PIN
        LSS_DARK { s0 with _setupIsDone := true })._lampList.modifyHead
          (fun lamp => lamp.setBitFlag LSS_SL_RAMP false) }
  obtain ⟨lamp, h1, -⟩ := _addLamp_spec LSS_NULL_SIG LSS_NULL_SIG LSS_NULL_SIG LSS_NOT_PIN
    LSS_NOT_PIN LSS_DARK { s0 with _setupIsDone := true }
  refine ⟨0, hf.2.2.1, ?_⟩
  rw [hf.2.1]
  dsimp only
  rw [h1]
  simp

/-- In every reachable state the cursor points at a lamp of the list. -/
theorem cursorOk_of_reachable {hw : Platform} {s : linesideSignal} (h : Reachable hw s) :
    CursorOk s := by
  obtain ⟨micros, raw, cmds, hr⟩ := h
  exact run_cursorOk hw cmds _ s (powerOn_invariant hw micros raw)
    (powerOn_cursorOk hw micros raw) hr

/-! ### The round-robin sweep -/

/-- The scan, the next lit lamp and the sweep, for a cursor on a lamp of the
list. -/
theorem _getNextLamp_sweep (s : linesideSignal) (cur : Nat)
    (hc : s._currentLED = some cur) (hv : cur < s._lampList.length) :
    (∃ r, getNextLampLoop s._lampList cur s._lampList.length
        (nextLamp s._lampList cur) false = some r ∧
      ∀ fuel, s._lampList.length ≤ fuel →
        getNextLampScan s._lampList cur fuel (nextLamp s._lampList cur) false = r) ∧
    ((∃ l ∈ s._lampList, l.lit = true) →
      ∃ j nc, _getNextLamp s = (true, nc, { s with _currentLED := some j }) ∧
        (s._lampList.getD j nullLamp).lit = true ∧
        ((cur < j ∧ nc = false ∧
            ∀ k, cur < k → k < j → (s._lampList.getD k nullLamp).lit = false) ∨
         (j ≤ cur ∧ nc = true ∧
            (∀ k, cur < k → (s._lampList.getD k nullLamp).lit = false) ∧
            ∀ k, k < j → (s._lampList.getD k nullLamp).lit = false)) ∧
        ((∀ k, (s._lampList.getD k nullLamp).lit = true → k = cur) → j = cur)) ∧
    ((s._lampList.getD cur nullLamp).lit = true →
      ((sweep (s._lampList.countP signalLamp.isOn) s).map Prod.fst).Perm
        ((litIndices s._lampList).map some) ∧
      (sweep (s._lampList.countP signalLamp.isOn) s).countP (fun v => v.2) = 1) := by
  have hres := getNextLampLoop_result s._lampList cur hv
  refine ⟨?_, ?_, ?_⟩
  · rcases hres with ⟨j, -, -, -, -, h5⟩ | ⟨j, -, -, -, -, h5⟩ | ⟨-, h5⟩ <;>
      exact ⟨_, h5, fun fuel hf => getNextLampScan_of_loop _ _ _ _ _ _ h5 fuel hf⟩
  · rintro ⟨l, hl, hlit⟩
    obtain ⟨i, hi, he⟩ := List.getElem_of_mem hl
    have hk : (s._lampList.getD i nullLamp).lit = true := by
      rw [List.getD_eq_getElem _ _ hi, he]
      exact hlit
    rcases hres with ⟨j, h1, h2, h3, h4, h5⟩ | ⟨j, h1, h3, h4, h6, h5⟩ | ⟨h1, -⟩
    · exact ⟨j, false, _getNextLamp_of_loop s cur hc hv _ _ h5, h3, Or.inl ⟨h1, rfl, h4⟩,
        fun ho => ho j h3⟩
    · exact ⟨j, true, _getNextLamp_of_loop s cur hc hv _ _ h5, h3,
        Or.inr ⟨h1, rfl, h4, h6⟩, fun ho => ho j h3⟩
    · rw [h1 i] at hk
      exact absurd hk (by decide)
  · intro hlit
    obtain ⟨r, hr, hcur⟩ := litIndices_rank _ cur hlit
    rw [← hcur] at hc
    rw [← litIndices_length, sweep_rank _ s r hr hc]
    constructor
    · rw [List.map_map]
      have hm : (Prod.fst ∘ fun i =>
          (some ((litIndices s._lampList).getD
              ((r + 1 + i) % (litIndices s._lampList).length) 0),
            decide ((r + i) % (litIndices s._lampList).length + 1 =
              (litIndices s._lampList).length))) =
          some ∘ (fun i => (litIndices s._lampList).getD
              ((r + 1 + i) % (litIndices s._lampList).length) 0) := rfl
      rw [hm, ← List.map_map, visits_rotate _ r hr]
      exact (List.rotate_perm _ _).map some
    · rw [List.countP_map]
      exact one_wrap _ r hr

/-- C35: in every reachable state the cursor is on a lamp of the list; the loop of `_getNextLamp` leaves
within as many iterations as the list has lamps, and `_getNextLamp` returns its
result.  When a lamp is lit, `_getNextLamp` returns true and moves the cursor to the
first lit lamp behind the old cursor, with `newCycle` false, or, when no lamp behind
the cursor is lit, to the first lit lamp of the list (the old cursor itself if it is
the only lit lamp), with `newCycle` true.  From a lit cursor, as many successive calls
as there are lit lamps visit every lit lamp exactly once (the visited lamps are a
permutation of the lit lamps), and exactly one of the calls reports `newCycle`. -/
theorem round_robin_sweep (hw : Platform) (s : linesideSignal) (h : Reachable hw s) :
    ∃ cur, s._currentLED = some cur ∧ cur < s._lampList.length ∧
    (∃ r, getNextLampLoop s._lampList cur s._lampList.length
        (nextLamp s._lampList cur) false = some r ∧
      ∀ fuel, s._lampList.length ≤ fuel →
        getNextLampScan s._lampList cur fuel (nextLamp s._lampList cur) false = r) ∧
    ((∃ l ∈ s._lampList, l.lit = true) →
      ∃ j nc, _getNextLamp s = (true, nc, { s with _currentLED := some j }) ∧
        (s._lampList.getD j nullLamp).lit = true ∧
        ((cur < j ∧ nc = false ∧
            ∀ k, cur < k → k < j → (s._lampList.getD k nullLamp).lit = false) ∨
         (j ≤ cur ∧ nc = true ∧
            (∀ k, cur < k → (s._lampList.getD k nullLamp).lit = false) ∧
            ∀ k, k < j → (s._lampList.getD k nullLamp).lit = false)) ∧
        ((∀ k, (s._lampList.getD k nullLamp).lit = true → k = cur) → j = cur)) ∧
    ((s._lampList.getD cur nullLamp).lit = true →
      ((sweep (s._lampList.countP signalLamp.isOn) s).map Prod.fst).Perm
        ((litIndices s._lampList).map some) ∧
      (sweep (s._lampList.countP signalLamp.isOn) s).countP (fun v => v.2) = 1) := by
  obtain ⟨cur, hc, hv⟩ := cursorOk_of_reachable h
  exact ⟨cur, hc, hv, _getNextLamp_sweep s cur hc hv⟩

set_option maxRecDepth 1000000 in
set_option maxHeartbeats 40000000 in
/-- Witness of `round_robin_sweep`: the state after `alternatingRun 218`, two lit
lamps in front of the dark end-of-list entry, the cursor on the lamp at index 1: two
calls move the cursor to index 0, reporting `newCycle`, and back to index 1. -/
theorem round_robin_sweep_witness :
    Reachable refPlatform alternatingPair ∧
    (alternatingPair._currentLED = some 1 ∧
      alternatingPair._lampList.countP signalLamp.isOn = 2 ∧
      litIndices alternatingPair._lampList = [0, 1] ∧
      sweep 2 alternatingPair = [(some 0, true), (some 1, false)]) ∧
    ∃ cur, alternatingPair._currentLED = some cur ∧
      cur < alternatingPair._lampList.length ∧
      ((alternatingPair._lampList.getD cur nullLamp).lit = true →
        ((sweep (alternatingPair._lampList.countP signalLamp.isOn) alternatingPair).map
          Prod.fst).Perm ((litIndices alternatingPair._lampList).map some) ∧
        (sweep (alternatingPair._lampList.countP signalLamp.isOn) alternatingPair).countP
          (fun v => v.2) = 1) := by
  refine ⟨alternatingPair_reachable, by decide, ?_⟩
  obtain ⟨cur, h1, h2, -, -, h5⟩ :=
    round_robin_sweep refPlatform alternatingPair alternatingPair_reachable
  exact ⟨cur, h1, h2, h5⟩

set_option maxRecDepth 1000000 in
/-- Six lit lamps in front of the dark end-of-list entry, the cursor on the lamp at
index 2: six calls move the cursor to the indices 3, 4, 5, 0, 1 and 2, and the call
that moves it to index 0 reports `newCycle`. -/
theorem sweep_six_lamps :
    sixLampsLit._lampList.countP signalLamp.isOn = 6 ∧
    litIndices sixLampsLit._lampList = [0, 1, 2, 3, 4, 5] ∧
    sweep 6 { sixLampsLit with _currentLED := some 2 } =
      [(some 3, false), (some 4, false), (some 5, false), (some 0, true), (some 1, false),
        (some 2, false)] := by
  decide

end LinesideSignal
